import Mathlib

/-! ArtomatixImageLoader: pixel format conversion engine

A shallow embedding of `AIL.cpp` (`AIGetFormatDetails`, `AIGetBitDepth`,
`AIChangeBitDepth`, `convertToRGBA32F`, `convertFromRGBA32F`, `AImgConvertFormat`, the
loader registry with `AImgInitialise`, `AImgOpen`, `AImgWriteImage` and the lookups, and
the memory-buffer stream callbacks), of the PNG adapter of `png.cpp`
(`isFormatSupportedByPng`, `getWhatFormatWillBeWrittenForDataPNG`, `canLoadImage`,
`verifyEncodeOptions`) and of the EXR adapter of `exr.cpp` (`isFormatSupportedByExr`,
`getWriteFormatExr`, `canLoadImage`, `getImageInfo`), together with the properties the
specification states about them.

Conventions of the embedding

* `float` is IEEE binary32 and `half` is IEEE binary16, both with round to
  nearest, ties to even.  A finite value is a sign and a magnitude counted in
  units of the smallest subnormal of its type (2^-149 for `float`, 2^-24 for
  `half`), so that every finite value is a natural number of units.
* A `void*` pixel buffer is seen through the four element types the code casts
  it to (`uint8_t*`, `uint16_t*`, `half*`, `float*`); a store through one of
  them updates that view.
* `HAVE_EXR` is a parameter `haveExr : Bool` of every function whose body it
  changes.
* A function whose body can reach undefined behaviour (a shift by a negative
  count, `delete[]` of an array that was not allocated with `new[]`, signed
  overflow of a stream position, `memcpy` outside a buffer, a call through a null
  pointer) returns an `Option`; `none` is the undefined behaviour.
* Virtual methods and caller-supplied callbacks are fields of records of
  functions; the callback data of a stream is a value that the callbacks pass on.
-/

namespace AIL

/-! ## Floating point values -/

/-- Round the non-negative rational `n / d` to the nearest natural number, ties to even. -/
def roundNE (n d : Nat) : Nat :=
  let q := n / d
  let r := n % d
  if 2 * r < d then q else if d < 2 * r then q + 1 else if q % 2 = 0 then q else q + 1

/-- Worker of `ilog2`: drop 16 bits at a time while there are more than 16, then one bit
at a time until below 2. -/
def log2Aux : Nat → Nat → Nat
  | 0, _ => 0
  | fuel + 1, n =>
    if n < 2 then 0
    else if n < 65536 then log2Aux fuel (n / 2) + 1
    else log2Aux fuel (n / 65536) + 16

/-- Floor of the binary logarithm (0 at 0). -/
def ilog2 (n : Nat) : Nat := log2Aux n n

/-- Round the non-negative rational `n / d`, a number of units, to the nearest number of
units that has at most `p` significant bits, ties to even.  Below `2 ^ p` units every
natural number is representable (the subnormal range and the first binades). -/
def roundUnits (p n d : Nat) : Nat :=
  let e := ilog2 (n / d) - (p - 1)
  roundNE n (d * 2 ^ e) * 2 ^ e

/-- A `float` (IEEE binary32).  `fin neg mag` is `(-1)^neg * mag * 2^-149`. -/
inductive F32 where
  | nan : F32
  | inf (neg : Bool) : F32
  | fin (neg : Bool) (mag : Nat) : F32
deriving DecidableEq, Repr

/-- A `half` (IEEE binary16).  `fin neg mag` is `(-1)^neg * mag * 2^-24`. -/
inductive Half where
  | nan : Half
  | inf (neg : Bool) : Half
  | fin (neg : Bool) (mag : Nat) : Half
deriving DecidableEq, Repr

namespace F32

/-- One `float` unit is `2 ^ -149`; this is the magnitude of `1.0f`. -/
def unit : Nat := 2 ^ 149

/-- The literal `0` / `0.0f`. -/
def zero : F32 := fin false 0

/-- The literal `1` / `1.0f`. -/
def one : F32 := fin false unit

/-- The literal `255.0f`. -/
def c255 : F32 := fin false (255 * unit)

/-- The literal `65535.0f`. -/
def c65535 : F32 := fin false (65535 * unit)

/-- Conversion `(float)n` of an unsigned 8- or 16-bit integer, which is exact. -/
def ofUInt (n : Nat) : F32 := fin false (n * unit)

/-- A rounded magnitude as a `float`: magnitudes from `2 ^ 128` on overflow to infinity. -/
def ofMag (neg : Bool) (r : Nat) : F32 :=
  if r < 2 ^ 128 * unit then fin neg r else inf neg

/-- Binary32 multiplication `a * b`. -/
def mul : F32 → F32 → F32
  | nan, _ => nan
  | _, nan => nan
  | inf a, inf b => inf (xor a b)
  | inf a, fin b n => if n = 0 then nan else inf (xor a b)
  | fin a m, inf b => if m = 0 then nan else inf (xor a b)
  | fin a m, fin b n => ofMag (xor a b) (roundUnits 24 (m * n) unit)

/-- Binary32 division `a / b`. -/
def div : F32 → F32 → F32
  | nan, _ => nan
  | _, nan => nan
  | inf _, inf _ => nan
  | inf a, fin b _ => inf (xor a b)
  | fin a _, inf b => fin (xor a b) 0
  | fin a m, fin b n =>
    if n = 0 then (if m = 0 then nan else inf (xor a b))
    else ofMag (xor a b) (roundUnits 24 (m * unit) n)

/-- The signed number of units of a finite value. -/
def signed (neg : Bool) (mag : Nat) : Int := if neg then -(mag : Int) else (mag : Int)

/-- The comparison `a < b` of two `float`s (false when either is a NaN). -/
def lt : F32 → F32 → Bool
  | nan, _ => false
  | _, nan => false
  | inf a, inf b => a && !b
  | inf a, fin _ _ => a
  | fin _ _, inf b => !b
  | fin a m, fin b n => decide (signed a m < signed b n)

/-- The comparison `a <= b` of two `float`s (false when either is a NaN). -/
def le : F32 → F32 → Bool
  | nan, _ => false
  | _, nan => false
  | inf a, inf b => a || !b
  | inf a, fin _ _ => a
  | fin _ _, inf b => !b
  | fin a m, fin b n => decide (signed a m ≤ signed b n)

/-- The template `std::max(a, b)`, which is `(a < b) ? b : a`. -/
def max (a b : F32) : F32 := if lt a b then b else a

/-- The template `std::min(a, b)`, which is `(b < a) ? b : a`. -/
def min (a b : F32) : F32 := if lt b a then b else a

/-- The cast `(uintN_t)x` for `N = bits`: truncation toward zero.  When the truncated
value does not fit the C++ result is undefined; the embedding wraps it modulo
`2 ^ bits`, and yields 0 for infinities and NaN. -/
def toUInt (bits : Nat) : F32 → Nat
  | nan => 0
  | inf _ => 0
  | fin neg mag =>
    let t := mag / unit
    if neg then (2 ^ bits - t % 2 ^ bits) % 2 ^ bits else t % 2 ^ bits

/-- A magnitude is a finite binary32 value: at most 24 significant bits, below
`2 ^ 128`. -/
def wfMag (m : Nat) : Prop := m < 2 ^ 128 * unit ∧ m % 2 ^ (ilog2 m - 23) = 0

/-- Well-formed `float` values: the finite ones have a binary32 magnitude. -/
def wf : F32 → Prop
  | fin _ m => wfMag m
  | _ => True

end F32

namespace Half

/-- The conversion `(float)h`, which is exact: one `half` unit is `2 ^ 125` `float` units. -/
def toFloat : Half → F32
  | nan => F32.nan
  | inf s => F32.inf s
  | fin s h => F32.fin s (h * 2 ^ 125)

/-- The conversion of a `float` to `half` done by an assignment `half = float`: round to
nearest even, magnitudes from 65520 on become infinity. -/
def ofFloat : F32 → Half
  | F32.nan => nan
  | F32.inf s => inf s
  | F32.fin s m =>
    let r := roundUnits 11 m (2 ^ 125)
    if r < 2 ^ 40 then fin s r else inf s

/-- A magnitude is a binary16 value: at most 11 significant bits, below 65536. -/
def wfMag (h : Nat) : Prop := h < 2 ^ 40 ∧ h % 2 ^ (ilog2 h - 10) = 0

/-- Well-formed `half` values: the finite ones have a binary16 magnitude. -/
def wf : Half → Prop
  | fin _ h => wfMag h
  | _ => True

end Half

/-- The cast `(uint8_t)x`. -/
def F32.toU8 (x : F32) : Fin 256 :=
  ⟨F32.toUInt 8 x % 256, Nat.mod_lt _ (by decide)⟩

/-- The cast `(uint16_t)x`. -/
def F32.toU16 (x : F32) : Fin 65536 :=
  ⟨F32.toUInt 16 x % 65536, Nat.mod_lt _ (by decide)⟩

/-! ## Pixel formats -/

/-- Modelled from the spec: the flag `_8BITS` of the `AImgFormat` enumeration of `AIL.h`
(the header is not among the sources); bit-depth flag, 8 bits per channel. -/
def _8BITS : Int := 1

/-- Modelled from the spec: channel-count flag of `AImgFormat`, one channel.  The channel
flags are one shiftable bit per channel count, `R << (n - 1)` being `1 << n`. -/
def R : Int := 2

/-- Modelled from the spec: channel-count flag of `AImgFormat`, two channels. -/
def RG : Int := 4

/-- Modelled from the spec: channel-count flag of `AImgFormat`, three channels. -/
def RGB : Int := 8

/-- Modelled from the spec: channel-count flag of `AImgFormat`, four channels. -/
def RGBA : Int := 16

/-- Modelled from the spec: bit-depth flag of `AImgFormat`, 16 bits per channel. -/
def _16BITS : Int := 32

/-- Modelled from the spec: bit-depth flag of `AImgFormat`, 32 bits per channel. -/
def _32BITS : Int := 64

/-- Modelled from the spec: numeric-kind flag of `AImgFormat` (absent = integer). -/
def FLOAT_FORMAT : Int := 128

/-- Modelled from the spec: the sentinel `AImgFormat::INVALID_FORMAT`. -/
def INVALID_FORMAT : Int := -1

/-- Modelled from the spec: `R8U = R | _8BITS`. -/
def R8U : Int := 3

/-- Modelled from the spec: `RG8U = RG | _8BITS`. -/
def RG8U : Int := 5

/-- Modelled from the spec: `RGB8U = RGB | _8BITS`. -/
def RGB8U : Int := 9

/-- Modelled from the spec: `RGBA8U = RGBA | _8BITS`. -/
def RGBA8U : Int := 17

/-- Modelled from the spec: `R16F = R | _16BITS | FLOAT_FORMAT`. -/
def R16F : Int := 162

/-- Modelled from the spec: `RG16F = RG | _16BITS | FLOAT_FORMAT`. -/
def RG16F : Int := 164

/-- Modelled from the spec: `RGB16F = RGB | _16BITS | FLOAT_FORMAT`. -/
def RGB16F : Int := 168

/-- Modelled from the spec: `RGBA16F = RGBA | _16BITS | FLOAT_FORMAT`. -/
def RGBA16F : Int := 176

/-- Modelled from the spec: `R16U = R | _16BITS`. -/
def R16U : Int := 34

/-- Modelled from the spec: `RG16U = RG | _16BITS`. -/
def RG16U : Int := 36

/-- Modelled from the spec: `RGB16U = RGB | _16BITS`. -/
def RGB16U : Int := 40

/-- Modelled from the spec: `RGBA16U = RGBA | _16BITS`. -/
def RGBA16U : Int := 48

/-- Modelled from the spec: `R32F = R | _32BITS | FLOAT_FORMAT`. -/
def R32F : Int := 194

/-- Modelled from the spec: `RG32F = RG | _32BITS | FLOAT_FORMAT`. -/
def RG32F : Int := 196

/-- Modelled from the spec: `RGB32F = RGB | _32BITS | FLOAT_FORMAT`. -/
def RGB32F : Int := 200

/-- Modelled from the spec: `RGBA32F = RGBA | _32BITS | FLOAT_FORMAT`. -/
def RGBA32F : Int := 208

/-- Modelled from the spec: the enumeration `AImgFloatOrIntType` of `AIL.h`. -/
inductive AImgFloatOrIntType where
  | FITYPE_UNKNOWN
  | FITYPE_FLOAT
  | FITYPE_INT
deriving DecidableEq, Repr

/-- Modelled from the spec: the codes of the enumeration `AImgErrorCode` of `AIL.h` that
the sources name. -/
inductive AImgErrorCode where
  | AIMG_SUCCESS
  | AIMG_UNSUPPORTED_FILETYPE
  | AIMG_LOAD_FAILED_EXTERNAL
  | AIMG_LOAD_FAILED_INTERNAL
  | AIMG_CONVERSION_FAILED_BAD_FORMAT
  | AIMG_WRITE_FAILED_EXTERNAL
  | AIMG_OPEN_FAILED_EMPTY_INPUT
  | AIMG_INVALID_ENCODE_ARGS
deriving DecidableEq, Repr

open AImgFloatOrIntType AImgErrorCode

/-- The three out-parameters of `AIGetFormatDetails`. -/
structure FormatDetails where
  numChannels : Int
  bytesPerChannel : Int
  floatOrInt : AImgFloatOrIntType
deriving DecidableEq, Repr

/-- `AIGetFormatDetails` (AIL.cpp): a switch over the 16 named formats with a default. -/
def AIGetFormatDetails (format : Int) : FormatDetails :=
  if format = R8U then ⟨1, 1, FITYPE_INT⟩
  else if format = RG8U then ⟨2, 1, FITYPE_INT⟩
  else if format = RGB8U then ⟨3, 1, FITYPE_INT⟩
  else if format = RGBA8U then ⟨4, 1, FITYPE_INT⟩
  else if format = R16F then ⟨1, 2, FITYPE_FLOAT⟩
  else if format = RG16F then ⟨2, 2, FITYPE_FLOAT⟩
  else if format = RGB16F then ⟨3, 2, FITYPE_FLOAT⟩
  else if format = RGBA16F then ⟨4, 2, FITYPE_FLOAT⟩
  else if format = R16U then ⟨1, 2, FITYPE_INT⟩
  else if format = RG16U then ⟨2, 2, FITYPE_INT⟩
  else if format = RGB16U then ⟨3, 2, FITYPE_INT⟩
  else if format = RGBA16U then ⟨4, 2, FITYPE_INT⟩
  else if format = R32F then ⟨1, 4, FITYPE_FLOAT⟩
  else if format = RG32F then ⟨2, 4, FITYPE_FLOAT⟩
  else if format = RGB32F then ⟨3, 4, FITYPE_FLOAT⟩
  else if format = RGBA32F then ⟨4, 4, FITYPE_FLOAT⟩
  else ⟨-1, -1, FITYPE_UNKNOWN⟩

/-! ## Buffers -/

/-- A pixel buffer (`void*`), seen through each of the element types the conversion
functions cast it to. -/
structure Buffer where
  u8 : Nat → Fin 256
  u16 : Nat → Fin 65536
  f16 : Nat → Half
  f32 : Nat → F32

/-- The scratch pixel `std::vector<float>(4)`. -/
structure Scratch where
  x0 : F32
  x1 : F32
  x2 : F32
  x3 : F32
deriving DecidableEq, Repr

/-- The store `a[k] = v`. -/
def setAt {α : Type} (a : Nat → α) (k : Nat) (v : α) : Nat → α :=
  fun j => if j = k then v else a j

/-- `convertToRGBA32F` (AIL.cpp): decode pixel `i` of `src` into the scratch pixel.  The
four half cases exist only under `HAVE_EXR`; the default case leaves `dest` as it is. -/
def convertToRGBA32F (haveExr : Bool) (src : Buffer) (dest : Scratch) (i : Nat)
    (inFormat : Int) : Scratch :=
  if inFormat = R8U then
    { x0 := F32.div (F32.ofUInt (src.u8 (i * 1))) F32.c255
      x1 := F32.div (F32.ofUInt (src.u8 (i * 1))) F32.c255
      x2 := F32.div (F32.ofUInt (src.u8 (i * 1))) F32.c255
      x3 := F32.one }
  else if inFormat = RG8U then
    { x0 := F32.div (F32.ofUInt (src.u8 (i * 2))) F32.c255
      x1 := F32.div (F32.ofUInt (src.u8 (i * 2 + 1))) F32.c255
      x2 := F32.zero
      x3 := F32.one }
  else if inFormat = RGB8U then
    { x0 := F32.div (F32.ofUInt (src.u8 (i * 3))) F32.c255
      x1 := F32.div (F32.ofUInt (src.u8 (i * 3 + 1))) F32.c255
      x2 := F32.div (F32.ofUInt (src.u8 (i * 3 + 2))) F32.c255
      x3 := F32.one }
  else if inFormat = RGBA8U then
    { x0 := F32.div (F32.ofUInt (src.u8 (i * 4))) F32.c255
      x1 := F32.div (F32.ofUInt (src.u8 (i * 4 + 1))) F32.c255
      x2 := F32.div (F32.ofUInt (src.u8 (i * 4 + 2))) F32.c255
      x3 := F32.div (F32.ofUInt (src.u8 (i * 4 + 3))) F32.c255 }
  else if haveExr = true ∧ inFormat = R16F then
    { x0 := (src.f16 (i * 1)).toFloat
      x1 := (src.f16 (i * 1)).toFloat
      x2 := (src.f16 (i * 1)).toFloat
      x3 := F32.one }
  else if haveExr = true ∧ inFormat = RG16F then
    { x0 := (src.f16 (i * 2)).toFloat
      x1 := (src.f16 (i * 2 + 1)).toFloat
      x2 := F32.zero
      x3 := F32.one }
  else if haveExr = true ∧ inFormat = RGB16F then
    { x0 := (src.f16 (i * 3)).toFloat
      x1 := (src.f16 (i * 3 + 1)).toFloat
      x2 := (src.f16 (i * 3 + 2)).toFloat
      x3 := F32.one }
  else if haveExr = true ∧ inFormat = RGBA16F then
    { x0 := (src.f16 (i * 4)).toFloat
      x1 := (src.f16 (i * 4 + 1)).toFloat
      x2 := (src.f16 (i * 4 + 2)).toFloat
      x3 := (src.f16 (i * 4 + 3)).toFloat }
  else if inFormat = R16U then
    { x0 := F32.div (F32.ofUInt (src.u16 (i * 1))) F32.c65535
      x1 := F32.div (F32.ofUInt (src.u16 (i * 1))) F32.c65535
      x2 := F32.div (F32.ofUInt (src.u16 (i * 1))) F32.c65535
      x3 := F32.one }
  else if inFormat = RG16U then
    { x0 := F32.div (F32.ofUInt (src.u16 (i * 2))) F32.c65535
      x1 := F32.div (F32.ofUInt (src.u16 (i * 2 + 1))) F32.c65535
      x2 := F32.zero
      x3 := F32.one }
  else if inFormat = RGB16U then
    { x0 := F32.div (F32.ofUInt (src.u16 (i * 3))) F32.c65535
      x1 := F32.div (F32.ofUInt (src.u16 (i * 3 + 1))) F32.c65535
      x2 := F32.div (F32.ofUInt (src.u16 (i * 3 + 2))) F32.c65535
      x3 := F32.one }
  else if inFormat = RGBA16U then
    { x0 := F32.div (F32.ofUInt (src.u16 (i * 4))) F32.c65535
      x1 := F32.div (F32.ofUInt (src.u16 (i * 4 + 1))) F32.c65535
      x2 := F32.div (F32.ofUInt (src.u16 (i * 4 + 2))) F32.c65535
      x3 := F32.div (F32.ofUInt (src.u16 (i * 4 + 3))) F32.c65535 }
  else if inFormat = R32F then
    { x0 := src.f32 (i * 1)
      x1 := src.f32 (i * 1)
      x2 := src.f32 (i * 1)
      x3 := F32.one }
  else if inFormat = RG32F then
    { x0 := src.f32 (i * 2)
      x1 := src.f32 (i * 2 + 1)
      x2 := F32.zero
      x3 := F32.one }
  else if inFormat = RGB32F then
    { x0 := src.f32 (i * 3)
      x1 := src.f32 (i * 3 + 1)
      x2 := src.f32 (i * 3 + 2)
      x3 := F32.one }
  else if inFormat = RGBA32F then
    { x0 := src.f32 (i * 4)
      x1 := src.f32 (i * 4 + 1)
      x2 := src.f32 (i * 4 + 2)
      x3 := src.f32 (i * 4 + 3) }
  else dest

/-- `convertFromRGBA32F` (AIL.cpp): encode the scratch pixel as pixel `i` of `dst`.  The
four half cases exist only under `HAVE_EXR`; the default case stores nothing. -/
def convertFromRGBA32F (haveExr : Bool) (src : Scratch) (dst : Buffer) (i : Nat)
    (outFormat : Int) : Buffer :=
  if outFormat = R8U then
    { dst with u8 := (setAt dst.u8 (i * 1) (F32.mul src.x0 F32.c255).toU8) }
  else if outFormat = RG8U then
    { dst with u8 := (setAt (setAt dst.u8 (i * 2) (F32.mul src.x0 F32.c255).toU8)
        (i * 2 + 1) (F32.mul src.x1 F32.c255).toU8) }
  else if outFormat = RGB8U then
    { dst with u8 := (setAt (setAt (setAt dst.u8 (i * 3) (F32.mul src.x0 F32.c255).toU8)
        (i * 3 + 1) (F32.mul src.x1 F32.c255).toU8)
        (i * 3 + 2) (F32.mul src.x2 F32.c255).toU8) }
  else if outFormat = RGBA8U then
    { dst with u8 := (setAt (setAt (setAt (setAt dst.u8
        (i * 4) (F32.mul src.x0 F32.c255).toU8)
        (i * 4 + 1) (F32.mul src.x1 F32.c255).toU8)
        (i * 4 + 2) (F32.mul src.x2 F32.c255).toU8)
        (i * 4 + 3) (F32.mul src.x3 F32.c255).toU8) }
  else if haveExr = true ∧ outFormat = R16F then
    { dst with f16 := (setAt dst.f16 (i * 1) (Half.ofFloat src.x0)) }
  else if haveExr = true ∧ outFormat = RG16F then
    { dst with f16 := (setAt (setAt dst.f16 (i * 2) (Half.ofFloat src.x0))
        (i * 2 + 1) (Half.ofFloat src.x1)) }
  else if haveExr = true ∧ outFormat = RGB16F then
    { dst with f16 := (setAt (setAt (setAt dst.f16 (i * 3) (Half.ofFloat src.x0))
        (i * 3 + 1) (Half.ofFloat src.x1))
        (i * 3 + 2) (Half.ofFloat src.x2)) }
  else if haveExr = true ∧ outFormat = RGBA16F then
    { dst with f16 := (setAt (setAt (setAt (setAt dst.f16
        (i * 4) (Half.ofFloat src.x0))
        (i * 4 + 1) (Half.ofFloat src.x1))
        (i * 4 + 2) (Half.ofFloat src.x2))
        (i * 4 + 3) (Half.ofFloat src.x3)) }
  else if outFormat = R16U then
    { dst with u16 := (setAt dst.u16 (i * 1) (F32.mul src.x0 F32.c65535).toU16) }
  else if outFormat = RG16U then
    { dst with u16 := (setAt (setAt dst.u16 (i * 2) (F32.mul src.x0 F32.c65535).toU16)
        (i * 2 + 1) (F32.mul src.x1 F32.c65535).toU16) }
  else if outFormat = RGB16U then
    { dst with u16 := (setAt (setAt (setAt dst.u16
        (i * 3) (F32.mul src.x0 F32.c65535).toU16)
        (i * 3 + 1) (F32.mul src.x1 F32.c65535).toU16)
        (i * 3 + 2) (F32.mul src.x2 F32.c65535).toU16) }
  else if outFormat = RGBA16U then
    { dst with u16 := (setAt (setAt (setAt (setAt dst.u16
        (i * 4) (F32.mul src.x0 F32.c65535).toU16)
        (i * 4 + 1) (F32.mul src.x1 F32.c65535).toU16)
        (i * 4 + 2) (F32.mul src.x2 F32.c65535).toU16)
        (i * 4 + 3) (F32.mul src.x3 F32.c65535).toU16) }
  else if outFormat = R32F then
    { dst with f32 := (setAt dst.f32 (i * 1) src.x0) }
  else if outFormat = RG32F then
    { dst with f32 := (setAt (setAt dst.f32 (i * 2) src.x0) (i * 2 + 1) src.x1) }
  else if outFormat = RGB32F then
    { dst with f32 := (setAt (setAt (setAt dst.f32 (i * 3) src.x0) (i * 3 + 1) src.x1)
        (i * 3 + 2) src.x2) }
  else if outFormat = RGBA32F then
    { dst with f32 := (setAt (setAt (setAt (setAt dst.f32 (i * 4) src.x0)
        (i * 4 + 1) src.x1) (i * 4 + 2) src.x2) (i * 4 + 3) src.x3) }
  else dst

/-! ## The conversion loop -/

/-- The value of a mathematical integer as an `int32_t` (two's complement wrap). -/
def wrapInt32 (x : Int) : Int := (x + 2 ^ 31) % 2 ^ 32 - 2 ^ 31

/-- The number of iterations of `for (int32_t i = 0; i < width*height; i++)`. -/
def pixelCount (width height : Int) : Nat := (wrapInt32 (width * height)).toNat

/-- The clamp `std::min(1.0f, std::max(0.0f, x))`. -/
def clamp01 (x : F32) : F32 := F32.min F32.one (F32.max F32.zero x)

/-- The four clamping assignments of the loop body. -/
def clampScratch (s : Scratch) : Scratch :=
  { x0 := clamp01 s.x0, x1 := clamp01 s.x1, x2 := clamp01 s.x2, x3 := clamp01 s.x3 }

/-- The body of the loop of `AImgConvertFormat` for pixel `i`, on the scratch pixel and
the destination buffer. -/
def convertPixel (haveExr : Bool) (src : Buffer) (inIsFloat outIsFloat : Bool)
    (inFormat outFormat : Int) (i : Nat) (st : Scratch × Buffer) : Scratch × Buffer :=
  let scratch := convertToRGBA32F haveExr src st.1 i inFormat
  let scratch := if inIsFloat && !outIsFloat then clampScratch scratch else scratch
  (scratch, convertFromRGBA32F haveExr scratch st.2 i outFormat)

/-- The state after the first `n` iterations (`i = 0, .., n - 1`) of the loop. -/
def convertLoop (haveExr : Bool) (src : Buffer) (inIsFloat outIsFloat : Bool)
    (inFormat outFormat : Int) : Nat → Scratch × Buffer → Scratch × Buffer
  | 0, st => st
  | n + 1, st =>
    convertPixel haveExr src inIsFloat outIsFloat inFormat outFormat n
      (convertLoop haveExr src inIsFloat outIsFloat inFormat outFormat n st)

/-- `AImgConvertFormat` (AIL.cpp).  Returns the error code and the destination buffer;
`src` and `dest` are distinct buffers.  Without `HAVE_EXR` a half format on either side
is refused before anything else happens. -/
def AImgConvertFormat (haveExr : Bool) (src dest : Buffer) (width height : Int)
    (inFormat outFormat : Int) : AImgErrorCode × Buffer :=
  if haveExr = false ∧
      (inFormat = R16F ∨ inFormat = RG16F ∨ inFormat = RGB16F ∨ inFormat = RGBA16F ∨
       outFormat = R16F ∨ outFormat = RG16F ∨ outFormat = RGB16F ∨ outFormat = RGBA16F) then
    (AIMG_CONVERSION_FAILED_BAD_FORMAT, dest)
  else
    let scratch : Scratch := ⟨F32.zero, F32.zero, F32.zero, F32.zero⟩
    let inIsFloat := decide ((AIGetFormatDetails inFormat).floatOrInt = FITYPE_FLOAT)
    let outIsFloat := decide ((AIGetFormatDetails outFormat).floatOrInt = FITYPE_FLOAT)
    (AIMG_SUCCESS,
      (convertLoop haveExr src inIsFloat outIsFloat inFormat outFormat
        (pixelCount width height) (scratch, dest)).2)

/-! ## Vocabulary of the specification -/

/-- The element types a buffer is seen through. -/
inductive Elem where
  | u8
  | u16
  | f16
  | f32
deriving DecidableEq, Repr

/-- The 16 named pixel formats. -/
def namedFormats : List Int :=
  [R8U, RG8U, RGB8U, RGBA8U, R16F, RG16F, RGB16F, RGBA16F,
   R16U, RG16U, RGB16U, RGBA16U, R32F, RG32F, RGB32F, RGBA32F]

/-- The four 16-bit float formats. -/
def halfFormats : List Int := [R16F, RG16F, RGB16F, RGBA16F]

/-- A format the build can convert: one of the 16 named formats and, in a build without
`HAVE_EXR`, not a half format. -/
def supportedFormat (haveExr : Bool) (f : Int) : Prop :=
  f ∈ namedFormats ∧ (haveExr = true ∨ f ∉ halfFormats)

instance (haveExr : Bool) (f : Int) : Decidable (supportedFormat haveExr f) := by
  unfold supportedFormat
  infer_instance

/-- The channel count `AIGetFormatDetails` reports, as a natural number. -/
def channelsOf (f : Int) : Nat := (AIGetFormatDetails f).numChannels.toNat

/-- The element type of a format, from the bytes per channel and the numeric kind that
`AIGetFormatDetails` reports. -/
def elemOf (f : Int) : Elem :=
  if (AIGetFormatDetails f).floatOrInt = FITYPE_FLOAT then
    (if (AIGetFormatDetails f).bytesPerChannel = 2 then Elem.f16 else Elem.f32)
  else
    (if (AIGetFormatDetails f).bytesPerChannel = 1 then Elem.u8 else Elem.u16)

/-- The canonical value of the stored channel at element index `k`, in the words of the
specification: `v / 255` for 8-bit integers, `v / 65535` for 16-bit integers and `v`
itself for floats. -/
def channelValue (src : Buffer) (f : Int) (k : Nat) : F32 :=
  match elemOf f with
  | Elem.u8 => F32.div (F32.ofUInt (src.u8 k)) F32.c255
  | Elem.u16 => F32.div (F32.ofUInt (src.u16 k)) F32.c65535
  | Elem.f16 => (src.f16 k).toFloat
  | Elem.f32 => src.f32 k

/-- The canonical pixel in the words of the specification: missing channels are
synthesised, `(v,v,v,1)`, `(v0,v1,0,1)`, `(v0,v1,v2,1)`, `(v0,v1,v2,v3)`. -/
def canonicalPixel (src : Buffer) (f : Int) (i : Nat) : Scratch :=
  match channelsOf f with
  | 1 => ⟨channelValue src f (i * 1), channelValue src f (i * 1),
          channelValue src f (i * 1), F32.one⟩
  | 2 => ⟨channelValue src f (i * 2), channelValue src f (i * 2 + 1), F32.zero, F32.one⟩
  | 3 => ⟨channelValue src f (i * 3), channelValue src f (i * 3 + 1),
          channelValue src f (i * 3 + 2), F32.one⟩
  | _ => ⟨channelValue src f (i * 4), channelValue src f (i * 4 + 1),
          channelValue src f (i * 4 + 2), channelValue src f (i * 4 + 3)⟩

/-- Component `j` of a scratch pixel (`scratch[j]`). -/
def Scratch.get (s : Scratch) (j : Nat) : F32 :=
  match j with
  | 0 => s.x0
  | 1 => s.x1
  | 2 => s.x2
  | _ => s.x3

/-- A `float` that lies in the closed interval from 0 to 1. -/
def inUnit (x : F32) : Prop := F32.le F32.zero x = true ∧ F32.le x F32.one = true

instance (x : F32) : Decidable (inUnit x) := by
  unfold inUnit
  infer_instance

/-- A buffer whose every element is the same in each view. -/
def constBuffer (a : Fin 256) (b : Fin 65536) (h : Half) (x : F32) : Buffer :=
  ⟨fun _ => a, fun _ => b, fun _ => h, fun _ => x⟩

/-- The scratch pixel `AImgConvertFormat` starts from. -/
def zeroScratch : Scratch := ⟨F32.zero, F32.zero, F32.zero, F32.zero⟩

/-- A stored element of any of the four element types. -/
inductive Cell where
  | u8 (v : Fin 256)
  | u16 (v : Fin 65536)
  | f16 (h : Half)
  | f32 (x : F32)
deriving DecidableEq, Repr

/-- Element `k` of the view of element type `e`. -/
def Buffer.cell (b : Buffer) (e : Elem) (k : Nat) : Cell :=
  match e with
  | Elem.u8 => Cell.u8 (b.u8 k)
  | Elem.u16 => Cell.u16 (b.u16 k)
  | Elem.f16 => Cell.f16 (b.f16 k)
  | Elem.f32 => Cell.f32 (b.f32 k)

/-- The stored form of a canonical channel value in the words of the specification:
scaled by the maximum of the integer type and truncated, or unscaled for floats. -/
def encode (e : Elem) (x : F32) : Cell :=
  match e with
  | Elem.u8 => Cell.u8 (F32.mul x F32.c255).toU8
  | Elem.u16 => Cell.u16 (F32.mul x F32.c65535).toU16
  | Elem.f16 => Cell.f16 (Half.ofFloat x)
  | Elem.f32 => Cell.f32 x

/-- The named format of element type `e` with `c` channels (`c` from 1 to 4). -/
def formatOf (e : Elem) (c : Nat) : Int :=
  match e, c with
  | Elem.u8, 1 => R8U
  | Elem.u8, 2 => RG8U
  | Elem.u8, 3 => RGB8U
  | Elem.u8, _ => RGBA8U
  | Elem.u16, 1 => R16U
  | Elem.u16, 2 => RG16U
  | Elem.u16, 3 => RGB16U
  | Elem.u16, _ => RGBA16U
  | Elem.f16, 1 => R16F
  | Elem.f16, 2 => RG16F
  | Elem.f16, 3 => RGB16F
  | Elem.f16, _ => RGBA16F
  | Elem.f32, 1 => R32F
  | Elem.f32, 2 => RG32F
  | Elem.f32, 3 => RGB32F
  | Elem.f32, _ => RGBA32F

/-- Whether `AImgConvertFormat` clamps between the formats `inFormat` and `outFormat`:
the test `inIsFloat && !outIsFloat` of the loop body. -/
def clamps (inFormat outFormat : Int) : Bool :=
  decide ((AIGetFormatDetails inFormat).floatOrInt = FITYPE_FLOAT) &&
    !decide ((AIGetFormatDetails outFormat).floatOrInt = FITYPE_FLOAT)

/-- The pixel that `AImgConvertFormat` encodes for pixel `i`: the canonical pixel, clamped
when the conversion clamps. -/
def pivotPixel (src : Buffer) (inFormat outFormat : Int) (i : Nat) : Scratch :=
  if clamps inFormat outFormat then clampScratch (canonicalPixel src inFormat i)
  else canonicalPixel src inFormat i

/-- A buffer holding the given `uint8_t` elements (0 beyond them). -/
def bufferOfU8 (xs : List (Fin 256)) : Buffer :=
  ⟨fun k => xs.getD k 0, fun _ => 0, fun _ => Half.fin false 0, fun _ => F32.zero⟩

/-- A buffer holding the given `uint16_t` elements (0 beyond them). -/
def bufferOfU16 (xs : List (Fin 65536)) : Buffer :=
  ⟨fun _ => 0, fun k => xs.getD k 0, fun _ => Half.fin false 0, fun _ => F32.zero⟩

/-- A buffer holding the given `half` elements (0 beyond them). -/
def bufferOfF16 (xs : List Half) : Buffer :=
  ⟨fun _ => 0, fun _ => 0, fun k => xs.getD k (Half.fin false 0), fun _ => F32.zero⟩

/-- A buffer holding the given `float` elements (0 beyond them). -/
def bufferOfF32 (xs : List F32) : Buffer :=
  ⟨fun _ => 0, fun _ => 0, fun _ => Half.fin false 0, fun k => xs.getD k F32.zero⟩

/-- The integer a cell stores (0 for a float cell). -/
def Cell.intValue : Cell → Nat
  | Cell.u8 v => v
  | Cell.u16 v => v
  | _ => 0

/-- The maximum representable value of an integer element type (0 for float types). -/
def maxValue (e : Elem) : Nat :=
  match e with
  | Elem.u8 => 255
  | Elem.u16 => 65535
  | _ => 0

/-- Scenario 4 of the specification: the `RGBA32F` pixel `[1.2, -0.3, 0.5, 2.0]`. -/
def scenario4 : Buffer :=
  bufferOfF32 [F32.fin false (10066330 * 2 ^ 126), F32.fin true (10066330 * 2 ^ 124),
    F32.fin false (2 ^ 148), F32.fin false (2 ^ 150)]

/-- The fully opaque alpha of each element type: the maximum of an integer type, 1.0 of a
float type. -/
def opaqueCell (e : Elem) : Cell :=
  match e with
  | Elem.u8 => Cell.u8 255
  | Elem.u16 => Cell.u16 65535
  | Elem.f16 => Cell.f16 (Half.fin false (2 ^ 24))
  | Elem.f32 => Cell.f32 F32.one

/-- The canonical value of a stored element: `v / 255`, `v / 65535` or the float itself. -/
def decodeCell : Cell → F32
  | Cell.u8 v => F32.div (F32.ofUInt v) F32.c255
  | Cell.u16 v => F32.div (F32.ofUInt v) F32.c65535
  | Cell.f16 h => h.toFloat
  | Cell.f32 x => x

/-- Whether an element type is a float type. -/
def isFloatElem (e : Elem) : Bool :=
  match e with
  | Elem.f16 => true
  | Elem.f32 => true
  | _ => false

/-- What a conversion from element type `eIn` to element type `eOut` does to one stored
channel: decode, clamp when going from float to integer, encode. -/
def convertCell (eIn eOut : Elem) (c : Cell) : Cell :=
  encode eOut
    (if isFloatElem eIn && !isFloatElem eOut then clamp01 (decodeCell c) else decodeCell c)

/-- Modelled from the spec: the round trip `convert(convert(x, F→G), G→F)`.  The first
call converts `src` into `scratch`, the second converts that result into `dest`; the
result holds both error codes and the final buffer. -/
def roundTrip (haveExr : Bool) (src scratch dest : Buffer) (width height F G : Int) :
    AImgErrorCode × AImgErrorCode × Buffer :=
  let mid := AImgConvertFormat haveExr src scratch width height F G
  let out := AImgConvertFormat haveExr mid.2 dest width height G F
  (mid.1, out.1, out.2)

/-! ## Rounding within a known binade -/

/-- The result of `roundUnits 24 n d` when `n / d` lies in the binade of `2 ^ k`. -/
def roundAt (k n d : Nat) : Nat := roundNE n (d * 2 ^ (k - 23)) * 2 ^ (k - 23)

/-! ## Bit-depth helpers and write-format negotiation

The `int32_t` operators `&`, `|` and `~` are `Int.land`, `Int.lor` and `Int.lnot`, which
act on the two's complement bits of an integer; a test `if (x & flag)` is
`Int.land x flag ≠ 0`.  A cast `(AImgFormat)x` keeps the value.  A function whose C++
body can reach undefined behaviour returns an `Option`, `none` standing for the undefined
behaviour. -/

/-- The shift `a << n` of two `int` values: undefined in C++ when the count is negative
or not below the width 32; otherwise `a * 2 ^ n` as an `int`. -/
def shiftLeft (a n : Int) : Option Int :=
  if 0 ≤ n ∧ n < 32 then some (wrapInt32 (a * 2 ^ n.toNat)) else none

/-- The local array `bitDepths` of `AIGetBitDepth` (AIL.cpp). -/
def bitDepths : List Int := [_8BITS, _16BITS, _32BITS]

/-- `AIGetBitDepth` (AIL.cpp): the first flag of `bitDepths` that `format` has.  When the
loop finds none, the statement `delete[](&bitDepths);` runs before `return INVALID_FORMAT`:
it deletes an array that is a local variable, not the result of `new[]`, which is
undefined behaviour, so there the result is `none`. -/
def AIGetBitDepth (format : Int) : Option Int :=
  match bitDepths.find? (fun flag => decide (Int.land format flag ≠ 0)) with
  | some flag => some flag
  | none => none

/-- `AIChangeBitDepth` (AIL.cpp).  The call of `AIGetBitDepth` comes after the check of
`newBitDepth`, so an invalid `newBitDepth` returns before it. -/
def AIChangeBitDepth (format newBitDepth : Int) : Option Int :=
  if newBitDepth ≠ _8BITS ∧ newBitDepth ≠ _16BITS ∧ newBitDepth ≠ _32BITS then
    some INVALID_FORMAT
  else
    match AIGetBitDepth format with
    | none => none
    | some oldBitDepth =>
      let newFormat0 :=
        if oldBitDepth ≠ INVALID_FORMAT then Int.land format (Int.lnot oldBitDepth) else format
      let newFormat1 := Int.lor newFormat0 newBitDepth
      if newBitDepth = _32BITS then some (Int.lor newFormat1 FLOAT_FORMAT)
      else if newBitDepth = _8BITS then some (Int.land newFormat1 (Int.lnot FLOAT_FORMAT))
      else some newFormat1

/-- `isFormatSupportedByPng` (png.cpp). -/
def isFormatSupportedByPng (format : Int) : Bool :=
  let isNotFloatFormat := decide (Int.land format FLOAT_FORMAT = 0)
  let is8Or16Bit :=
    decide (Int.land format _8BITS ≠ 0) || decide (Int.land format _16BITS ≠ 0)
  let isNotRG8U := decide (format ≠ RG8U)
  let isNotRG16U := decide (format ≠ RG16U)
  isNotFloatFormat && is8Or16Bit && isNotRG8U && isNotRG16U

/-- `getWhatFormatWillBeWrittenForDataPNG` (png.cpp). -/
def getWhatFormatWillBeWrittenForDataPNG (inputFormat outputFormat : Int) : Option Int :=
  if isFormatSupportedByPng outputFormat = true then some outputFormat
  else if (AIGetFormatDetails inputFormat).floatOrInt = FITYPE_FLOAT then
    match shiftLeft R ((AIGetFormatDetails inputFormat).numChannels - 1) with
    | none => none
    | some s =>
      if Int.lor _16BITS s = RG16U then some RGB16U else some (Int.lor _16BITS s)
  else if inputFormat = RG8U then some RGB8U
  else if inputFormat = RG16U then some RGB16U
  else if Int.land inputFormat _8BITS ≠ 0 then some inputFormat
  else if Int.land inputFormat _16BITS ≠ 0 then some inputFormat
  else some INVALID_FORMAT

/-- `isFormatSupportedByExr` (exr.cpp). -/
def isFormatSupportedByExr (format : Int) : Bool :=
  let flags := Int.land format _16BITS
  let fl := Int.land format _32BITS
  let floatF := Int.land format FLOAT_FORMAT
  (decide (fl ≠ 0) || decide (flags ≠ 0)) && decide (floatF ≠ 0)

/-- `getWriteFormatExr` (exr.cpp). -/
def getWriteFormatExr (inputFormat outputFormat : Int) : Option Int :=
  if outputFormat ≠ inputFormat ∧ outputFormat ≠ INVALID_FORMAT
      ∧ isFormatSupportedByExr outputFormat = true then
    some outputFormat
  else if isFormatSupportedByExr inputFormat = false then
    match shiftLeft 1 (AIGetFormatDetails inputFormat).numChannels with
    | none => none
    | some s =>
      some (Int.lor
        (Int.lor (if (AIGetFormatDetails inputFormat).bytesPerChannel > 2 then _32BITS
          else _16BITS) FLOAT_FORMAT) s)
  else some inputFormat

/-- Whether a format value has the flag `flag`: the test `format & flag`. -/
def hasFlag (format flag : Int) : Prop := Int.land format flag ≠ 0

instance (format flag : Int) : Decidable (hasFlag format flag) := by
  unfold hasFlag
  infer_instance

/-- Modelled from the spec: the bit-depth flag of a number of bytes per channel,
`depthFlag(1) = _8BITS`, `depthFlag(2) = _16BITS`, `depthFlag(4) = _32BITS`. -/
def depthFlag (bytesPerChannel : Int) : Int :=
  if bytesPerChannel = 1 then _8BITS
  else if bytesPerChannel = 2 then _16BITS
  else if bytesPerChannel = 4 then _32BITS
  else 0

/-- Modelled from the spec: recomposing a format from a decomposition `(n, b, k)`, the
bitmask `(R << (n-1)) | depthFlag(b) | (FLOAT_FORMAT if k is FITYPE_FLOAT, else 0)`. -/
def recompose (d : FormatDetails) : Option Int :=
  match shiftLeft R (d.numChannels - 1) with
  | none => none
  | some s =>
    some (Int.lor (Int.lor s (depthFlag d.bytesPerChannel))
      (if d.floatOrInt = FITYPE_FLOAT then FLOAT_FORMAT else 0))

/-! ## Memory-buffer stream callbacks -/

/-- The sum of two `int32_t` values; signed overflow is undefined in C++. -/
def addInt32 (a b : Int) : Option Int :=
  if -2 ^ 31 ≤ a + b ∧ a + b < 2 ^ 31 then some (a + b) else none

/-- The difference of two `int32_t` values; signed overflow is undefined in C++. -/
def subInt32 (a b : Int) : Option Int :=
  if -2 ^ 31 ≤ a - b ∧ a - b < 2 ^ 31 then some (a - b) else none

/-- `struct SimpleMemoryCallbackData` (AIL.cpp).  `buffer` holds the bytes of the memory
region the pointer `buffer` points to.  `resizable` says that `vecBuffer` is not `NULL`;
`buffer` then points to the storage of `*vecBuffer` (as set by
`AIGetResizableMemoryBufferCallbacks` and after each resize), so the elements of the
vector are `buffer` and `vecBuffer->size()` is its length. -/
structure SimpleMemoryCallbackData where
  size : Int
  buffer : List (Fin 256)
  currentPos : Int
  resizable : Bool
deriving DecidableEq, Repr

/-- The bytes `memcpy(dest, buffer + pos, n)` copies out of `buffer`; undefined when `pos`
or `n` is negative or the source range is not inside the region. -/
def memcpyFrom (buffer : List (Fin 256)) (pos n : Int) : Option (List (Fin 256)) :=
  if 0 ≤ pos ∧ 0 ≤ n ∧ pos + n ≤ buffer.length then
    some ((buffer.drop pos.toNat).take n.toNat)
  else none

/-- The region after `memcpy(buffer + pos, src, n)`; undefined when `pos` or `n` is
negative, the destination range is not inside the region, or `src` has fewer than `n`
bytes. -/
def memcpyInto (buffer : List (Fin 256)) (pos : Int) (src : List (Fin 256)) (n : Int) :
    Option (List (Fin 256)) :=
  if 0 ≤ pos ∧ 0 ≤ n ∧ pos + n ≤ buffer.length ∧ n ≤ src.length then
    some (buffer.take pos.toNat ++ src.take n.toNat ++ buffer.drop (pos.toNat + n.toNat))
  else none

/-- The elements after `std::vector<uint8_t>::resize(n)`: truncated, or extended with
zero bytes. -/
def vecResize (v : List (Fin 256)) (n : Nat) : List (Fin 256) :=
  v.take n ++ List.replicate (n - v.length) 0

/-- `simpleMemoryReadCallback` (AIL.cpp): the bytes copied to `dest`, the returned count
and the new callback data. -/
def simpleMemoryReadCallback (data : SimpleMemoryCallbackData) (count : Int) :
    Option (List (Fin 256) × Int × SimpleMemoryCallbackData) :=
  match addInt32 data.currentPos count with
  | none => none
  | some e =>
    match (if e > data.size then subInt32 data.size data.currentPos else some count) with
    | none => none
    | some toWrite =>
      match memcpyFrom data.buffer data.currentPos toWrite,
          addInt32 data.currentPos toWrite with
      | some bytes, some p => some (bytes, toWrite, { data with currentPos := p })
      | _, _ => none

/-- The callback data after the `if (end > data->size)` block of
`simpleMemoryResizableWriteCallback`: the vector is resized to `end` elements (undefined
when `vecBuffer` is `NULL`; a negative `end` converts to a size no vector can have), and
`buffer` and `size` are set from it. -/
def resizeTo (data : SimpleMemoryCallbackData) (e : Int) : Option SimpleMemoryCallbackData :=
  if e > data.size then
    (if data.resizable = true ∧ 0 ≤ e then
      some { data with buffer := vecResize data.buffer e.toNat, size := e }
    else none)
  else some data

/-- `simpleMemoryResizableWriteCallback` (AIL.cpp). -/
def simpleMemoryResizableWriteCallback (data : SimpleMemoryCallbackData)
    (src : List (Fin 256)) (count : Int) : Option SimpleMemoryCallbackData :=
  match addInt32 data.currentPos count with
  | none => none
  | some e =>
    match resizeTo data e with
    | none => none
    | some data1 =>
      match memcpyInto data1.buffer data1.currentPos src count,
          addInt32 data1.currentPos count with
      | some buffer, some p => some { data1 with buffer := buffer, currentPos := p }
      | _, _ => none

/-- `simpleMemoryTellCallback` (AIL.cpp). -/
def simpleMemoryTellCallback (data : SimpleMemoryCallbackData) : Int := data.currentPos

/-- `simpleMemorySeekCallback` (AIL.cpp). -/
def simpleMemorySeekCallback (data : SimpleMemoryCallbackData) (pos : Int) :
    SimpleMemoryCallbackData :=
  { data with currentPos := pos }

/-- The predicate `0 <= currentPos <= size` on the callback data. -/
def posInBuffer (data : SimpleMemoryCallbackData) : Prop :=
  0 ≤ data.currentPos ∧ data.currentPos ≤ data.size

instance (data : SimpleMemoryCallbackData) : Decidable (posInBuffer data) := by
  unfold posInBuffer
  infer_instance

/-! ## Codec adapters: encoding options and image information -/

/-- Modelled from the spec: `AImgFileFormat::UNKNOWN_IMAGE_FORMAT` of `AIL.h` (the
header is not among the sources); the theorems use only that the identifiers of the
enumeration are distinct. -/
def UNKNOWN_IMAGE_FORMAT : Int := -1

/-- Modelled from the spec: `AImgFileFormat::EXR_IMAGE_FORMAT`. -/
def EXR_IMAGE_FORMAT : Int := 1

/-- Modelled from the spec: `AImgFileFormat::PNG_IMAGE_FORMAT`. -/
def PNG_IMAGE_FORMAT : Int := 2

/-- The constant `PNG_ALL_FILTERS` of libpng: the five filter flags `0x08 | 0x10 | 0x20 |
0x40 | 0x80`. -/
def PNG_ALL_FILTERS : Int := 248

/-- Modelled from the spec: `struct PngEncodingOptions` of `AIL.h`, whose first member is
the type tag that `verifyEncodeOptions` reads through `*((int*)encodeOptions)`.  Options
made for another encoder are a record with another tag; their other members are not read. -/
structure PngEncodingOptions where
  type : Int
  compressionLevel : Int
  filter : Int
deriving DecidableEq, Repr

/-- `PNGFile::verifyEncodeOptions` (png.cpp); `none` is the `NULL` pointer. -/
def PNGFile.verifyEncodeOptions (encodeOptions : Option PngEncodingOptions) :
    AImgErrorCode :=
  match encodeOptions with
  | none => AIMG_SUCCESS
  | some options =>
    if options.type ≠ PNG_IMAGE_FORMAT then AIMG_INVALID_ENCODE_ARGS
    else if options.compressionLevel < 0 ∨ options.compressionLevel > 9 then
      AIMG_INVALID_ENCODE_ARGS
    else if Int.land options.filter PNG_ALL_FILTERS ≠ options.filter then
      AIMG_INVALID_ENCODE_ARGS
    else AIMG_SUCCESS

/-- The channel types `Imf::PixelType` of OpenEXR. -/
inductive PixelType where
  | UINT
  | HALF
  | FLOAT
  | NUM_PIXELTYPES
deriving DecidableEq, Repr

/-- What `ExrFile` (exr.cpp) reads of an opened file: the data window `dw` and the types
of the channels of the header, in the order of the channel list. -/
structure ExrFile where
  dwMinX : Int
  dwMinY : Int
  dwMaxX : Int
  dwMaxY : Int
  channels : List PixelType
deriving DecidableEq, Repr

/-- The out-parameters of `getImageInfo`. -/
structure ImageInfo where
  width : Int
  height : Int
  numChannels : Int
  bytesPerChannel : Int
  floatOrInt : AImgFloatOrIntType
  decodedImgFormat : Int
  colourProfileLen : Int
deriving DecidableEq, Repr

/-- `ExrFile::getDecodeFormat` (exr.cpp). -/
def ExrFile.getDecodeFormat (file : ExrFile) : Option Int :=
  let channelNum : Int := file.channels.length
  let useHalfFloat := file.channels.all (fun t => decide (t = PixelType.HALF))
  if channelNum ≤ 0 then some INVALID_FORMAT
  else
    match shiftLeft R (min channelNum 4 - 1) with
    | none => none
    | some s =>
      some (Int.lor (Int.lor (if useHalfFloat then _16BITS else _32BITS) FLOAT_FORMAT) s)

/-- The loop of `getImageInfo` over the channels: the state is `*numChannels`,
`lastChannelType` (`none` while it is uninitialised) and `allChannelsSame`;
`isFirstChannel` is true exactly while `lastChannelType` is uninitialised. -/
def ExrFile.scanChannels :
    List PixelType → Int × Option PixelType × Bool → Int × Option PixelType × Bool
  | [], st => st
  | t :: rest, (n, last, same) =>
    let last1 := match last with
      | none => t
      | some l => l
    ExrFile.scanChannels rest (n + 1, some last1, if t ≠ last1 then false else same)

/-- `ExrFile::getImageInfo` (exr.cpp): the return code and the out-parameters, `info`
being their values before the call.  The sums of the data window wrap as `int32_t`.
With no channel at all `lastChannelType` is read uninitialised, which is undefined. -/
def ExrFile.getImageInfo (file : ExrFile) (info : ImageInfo) (colourProfileLenNotNull : Bool) :
    Option (AImgErrorCode × ImageInfo) :=
  match ExrFile.getDecodeFormat file with
  | none => none
  | some decodeFormat =>
    let info1 : ImageInfo :=
      { info with
        width := wrapInt32 (wrapInt32 (file.dwMaxX - file.dwMinX) + 1),
        height := wrapInt32 (wrapInt32 (file.dwMaxY - file.dwMinY) + 1),
        decodedImgFormat := decodeFormat,
        colourProfileLen := if colourProfileLenNotNull then 0 else info.colourProfileLen }
    match ExrFile.scanChannels file.channels (0, none, true) with
    | (n, _, false) =>
      some (AIMG_SUCCESS,
        { info1 with numChannels := n, bytesPerChannel := -1, floatOrInt := FITYPE_UNKNOWN })
    | (_, none, true) => none
    | (n, some lastChannelType, true) =>
      let info2 : ImageInfo :=
        if lastChannelType = PixelType.UINT then
          { info1 with numChannels := n, bytesPerChannel := 4, floatOrInt := FITYPE_INT }
        else { info1 with numChannels := n }
      if lastChannelType = PixelType.FLOAT then
        some (AIMG_SUCCESS, { info2 with bytesPerChannel := 4, floatOrInt := FITYPE_FLOAT })
      else if lastChannelType = PixelType.HALF then
        some (AIMG_SUCCESS, { info2 with bytesPerChannel := 2, floatOrInt := FITYPE_FLOAT })
      else some (AIMG_LOAD_FAILED_INTERNAL, info2)

/-! ## Loader registry and dispatch

A stream is a value `s : σ` of callback data together with the three callbacks.  The
per-file handle and the loader classes, whose methods are virtual, are records of
functions. -/

/-- The callbacks `ReadCallback`, `TellCallback` and `SeekCallback` on callback data of
type `σ`.  A read yields the bytes stored to `dest`, the returned count and the new
callback data. -/
structure StreamCallbacks (σ : Type) where
  readCallback : σ → Int → List (Fin 256) × Int × σ
  tellCallback : σ → Int
  seekCallback : σ → Int → σ

/-- The vector `header(n)` after `readCallback(callbackData, &header[0], n)`: `n` zero
bytes overwritten from the front by the bytes the callback stored. -/
def readHeader (stored : List (Fin 256)) (n : Nat) : List (Fin 256) :=
  (stored ++ List.replicate n 0).take n

/-- The array `png_signature` of `PNGImageLoader::canLoadImage`. -/
def png_signature : List (Fin 256) := [137, 80, 78, 71, 13, 10, 26, 10]

/-- `PNGImageLoader::canLoadImage` (png.cpp): the result and the callback data. -/
def PNGImageLoader.canLoadImage {σ : Type} (cb : StreamCallbacks σ) (callbackData : σ) :
    Bool × σ :=
  let startingPosition := cb.tellCallback callbackData
  let r := cb.readCallback callbackData 8
  let header := readHeader r.1 8
  let data1 := cb.seekCallback r.2.2 startingPosition
  (decide (header = png_signature), data1)

/-- `ExrImageLoader::canLoadImage` (exr.cpp): the result and the callback data. -/
def ExrImageLoader.canLoadImage {σ : Type} (cb : StreamCallbacks σ) (callbackData : σ) :
    Bool × σ :=
  let startingPos := cb.tellCallback callbackData
  let r := cb.readCallback callbackData 4
  let header := readHeader r.1 4
  let data1 := cb.seekCallback r.2.2 startingPos
  (decide (header = [0x76, 0x2f, 0x31, 0x01]), data1)

/-- The virtual methods of `AImgBase` that `AImgOpen` and `AImgWriteImage` call, as
functions of the callback data.  `writeImage` stands for the call with all its other
arguments fixed. -/
structure AImgBase (σ : Type) where
  openImage : StreamCallbacks σ → σ → AImgErrorCode × σ
  verifyEncodeOptions : Option PngEncodingOptions → AImgErrorCode
  writeImage : Option PngEncodingOptions → σ → AImgErrorCode × σ

/-- The virtual methods of `ImageLoaderBase`. -/
structure ImageLoaderBase (σ : Type) where
  initialise : AImgErrorCode
  canLoadImage : StreamCallbacks σ → σ → Bool × σ
  getAImgFileFormatValue : Int
  getAImg : AImgBase σ
  isFormatSupported : Int → Bool
  getWhatFormatWillBeWrittenForData : Int → Int → Option Int

/-- The class `PNGFile` (png.cpp): `verifyEncodeOptions` is the function above; opening and
writing go through libpng and are parameters. -/
def PNGFile {σ : Type} (openImage : StreamCallbacks σ → σ → AImgErrorCode × σ)
    (writeImage : Option PngEncodingOptions → σ → AImgErrorCode × σ) : AImgBase σ :=
  { openImage := openImage,
    verifyEncodeOptions := PNGFile.verifyEncodeOptions,
    writeImage := writeImage }

/-- The class `PNGImageLoader` (png.cpp). -/
def PNGImageLoader {σ : Type} (file : AImgBase σ) : ImageLoaderBase σ :=
  { initialise := AIMG_SUCCESS,
    canLoadImage := PNGImageLoader.canLoadImage,
    getAImgFileFormatValue := PNG_IMAGE_FORMAT,
    getAImg := file,
    isFormatSupported := isFormatSupportedByPng,
    getWhatFormatWillBeWrittenForData := getWhatFormatWillBeWrittenForDataPNG }

/-- The class `ExrImageLoader` (exr.cpp); `initialise` is the result of its call of
`Imf::staticInitialize`. -/
def ExrImageLoader {σ : Type} (initialise : AImgErrorCode) (file : AImgBase σ) :
    ImageLoaderBase σ :=
  { initialise := initialise,
    canLoadImage := ExrImageLoader.canLoadImage,
    getAImgFileFormatValue := EXR_IMAGE_FORMAT,
    getAImg := file,
    isFormatSupported := isFormatSupportedByExr,
    getWhatFormatWillBeWrittenForData := getWriteFormatExr }

/-- The global `std::map<int32_t, AImg::ImageLoaderBase*> loaders`: its entries in
iteration order, which is the ascending order of the keys; `none` is a null pointer. -/
abbrev LoaderMap (σ : Type) := List (Int × Option (ImageLoaderBase σ))

/-- The assignment `loaders[key] = value`. -/
def mapAssign {α : Type} : List (Int × α) → Int → α → List (Int × α)
  | [], key, value => [(key, value)]
  | (k, v) :: rest, key, value =>
    if key < k then (key, value) :: (k, v) :: rest
    else if key = k then (k, value) :: rest
    else (k, v) :: mapAssign rest key value

/-- The lookup `std::map::find`. -/
def mapFind {α : Type} : List (Int × α) → Int → Option α
  | [], _ => none
  | (k, v) :: rest, key => if key = k then some v else mapFind rest key

/-- The expression `loaders[key]` read as a value: `std::map::operator[]` inserts a
value-initialised element, here the null pointer, when the key is absent.  The result is
the map afterwards and the pointer. -/
def mapIndex {α : Type} (m : List (Int × Option α)) (key : Int) :
    List (Int × Option α) × Option α :=
  match mapFind m key with
  | some v => (m, v)
  | none => (mapAssign m key none, none)

/-- One registration `loaders[key] = new Loader()` of `AImgInitialise` inside its
`#ifdef`: `none` when the format is not compiled in. -/
def registerOne {σ : Type} (loaders : LoaderMap σ) (key : Int)
    (loader : Option (ImageLoaderBase σ)) : LoaderMap σ :=
  match loader with
  | some l => mapAssign loaders key (some l)
  | none => loaders

/-- The registrations of `AImgInitialise` (AIL.cpp): EXR and PNG when compiled in, then
the loaders of the other compiled-in formats (their sources are not among the files) in
the order of the assignments, each under its `AImgFileFormat` key. -/
def registerLoaders {σ : Type} (loaders : LoaderMap σ) (exr png : Option (ImageLoaderBase σ))
    (others : List (Int × ImageLoaderBase σ)) : LoaderMap σ :=
  others.foldl (fun m e => mapAssign m e.1 (some e.2))
    (registerOne (registerOne loaders EXR_IMAGE_FORMAT exr) PNG_IMAGE_FORMAT png)

/-- The loop of `AImgInitialise` that calls `initialise` on every loader; calling it
through a null pointer is undefined. -/
def initialiseAll {σ : Type} : LoaderMap σ → Option AImgErrorCode
  | [] => some AIMG_SUCCESS
  | (_, none) :: _ => none
  | (_, some l) :: rest =>
    if l.initialise ≠ AIMG_SUCCESS then some l.initialise else initialiseAll rest

/-- `AImgInitialise` (AIL.cpp): the return code and the registry. -/
def AImgInitialise {σ : Type} (loaders : LoaderMap σ) (exr png : Option (ImageLoaderBase σ))
    (others : List (Int × ImageLoaderBase σ)) : Option AImgErrorCode × LoaderMap σ :=
  (initialiseAll (registerLoaders loaders exr png others),
    registerLoaders loaders exr png others)

/-- What `AImgOpen` leaves behind: the return code, the handle `*imgH`, the value stored
to `*detectedFileFormat` (`none` when nothing is stored) and the callback data. -/
structure OpenResult (σ : Type) where
  retval : AImgErrorCode
  imgH : Option (AImgBase σ)
  detectedFileFormat : Option Int
  callbackData : σ

/-- The loop of `AImgOpen` over the registry, entered with callback data `s`.
`detectedFileFormat` is stored when the pointer `detectedFileFormat` is not null. -/
def probeLoaders {σ : Type} (cb : StreamCallbacks σ) (notNull : Bool) :
    LoaderMap σ → σ → Option (OpenResult σ)
  | [], s =>
    some ⟨AIMG_UNSUPPORTED_FILETYPE, none,
      if notNull then some UNKNOWN_IMAGE_FORMAT else none, s⟩
  | (_, none) :: _, _ => none
  | (_, some l) :: rest, s =>
    if (l.canLoadImage cb s).1 = true then
      some ⟨(l.getAImg.openImage cb (l.canLoadImage cb s).2).1, some l.getAImg,
        if notNull then some l.getAImgFileFormatValue else none,
        (l.getAImg.openImage cb (l.canLoadImage cb s).2).2⟩
    else probeLoaders cb notNull rest (l.canLoadImage cb s).2

/-- `AImgOpen` (AIL.cpp). -/
def AImgOpen {σ : Type} (loaders : LoaderMap σ) (cb : StreamCallbacks σ) (callbackData : σ)
    (notNull : Bool) : Option (OpenResult σ) :=
  let startPos := cb.tellCallback callbackData
  let r := cb.readCallback callbackData 1
  if r.2.1 ≠ 1 then some ⟨AIMG_OPEN_FAILED_EMPTY_INPUT, none, none, r.2.2⟩
  else probeLoaders cb notNull loaders (cb.seekCallback r.2.2 startPos)

/-- `AImgGetAImg` (AIL.cpp): the registry afterwards and the result, `none` when the call
goes through a null pointer. -/
def AImgGetAImg {σ : Type} (loaders : LoaderMap σ) (fileFormat : Int) :
    LoaderMap σ × Option (AImgBase σ) :=
  ((mapIndex loaders fileFormat).1,
    match (mapIndex loaders fileFormat).2 with
    | some l => some l.getAImg
    | none => none)

/-- `AImgIsFormatSupported` (AIL.cpp): the registry afterwards and the result, `none` when
the call goes through a null pointer. -/
def AImgIsFormatSupported {σ : Type} (loaders : LoaderMap σ) (fileFormat outputFormat : Int) :
    LoaderMap σ × Option Bool :=
  ((mapIndex loaders fileFormat).1,
    match (mapIndex loaders fileFormat).2 with
    | some l => some (l.isFormatSupported outputFormat)
    | none => none)

/-- `AImgGetWhatFormatWillBeWrittenForData` (AIL.cpp): the registry afterwards and the
result, `none` when the call goes through a null pointer or the resolver is undefined. -/
def AImgGetWhatFormatWillBeWrittenForData {σ : Type} (loaders : LoaderMap σ)
    (fileFormat inputFormat outputFormat : Int) : LoaderMap σ × Option Int :=
  ((mapIndex loaders fileFormat).1,
    match (mapIndex loaders fileFormat).2 with
    | some l => l.getWhatFormatWillBeWrittenForData inputFormat outputFormat
    | none => none)

/-- `AImgWriteImage` (AIL.cpp) on the handle `img`. -/
def AImgWriteImage {σ : Type} (img : AImgBase σ) (encodingOptions : Option PngEncodingOptions)
    (callbackData : σ) : AImgErrorCode × σ :=
  if img.verifyEncodeOptions encodingOptions ≠ AIMG_SUCCESS then
    (img.verifyEncodeOptions encodingOptions, callbackData)
  else img.writeImage encodingOptions callbackData

/-- The keys of a registry in iteration order. -/
def mapKeys {α : Type} (m : List (Int × α)) : List Int := m.map Prod.fst

/-- The callbacks of the memory-buffer stream as `StreamCallbacks`, for callback data on
which the read is defined; an undefined read is shown as a read of nothing that returns 0. -/
def simpleMemoryCallbacks : StreamCallbacks SimpleMemoryCallbackData :=
  { readCallback := fun data count =>
      match simpleMemoryReadCallback data count with
      | some r => r
      | none => ([], 0, data),
    tellCallback := simpleMemoryTellCallback,
    seekCallback := simpleMemorySeekCallback }

/-- The callback data after the loop of `AImgOpen` has probed all of `loaders` from the
callback data `s` and every `canLoadImage` was false; `none` when one of them is true (or
an entry is a null pointer). -/
def noneMatches {σ : Type} (cb : StreamCallbacks σ) : LoaderMap σ → σ → Option σ
  | [], s => some s
  | (_, none) :: _, _ => none
  | (_, some l) :: rest, s =>
    if (l.canLoadImage cb s).1 = true then none
    else noneMatches cb rest (l.canLoadImage cb s).2

/-- A `PNGFile` on the memory-buffer stream whose `openImage` and `writeImage` return
`code` at once, for the examples. -/
def exampleFile (code : AImgErrorCode) : AImgBase SimpleMemoryCallbackData :=
  PNGFile (fun _ s => (code, s)) (fun _ s => (code, s))

/-- The registry after `AImgInitialise` in a build with EXR and PNG only, for the
examples. -/
def exampleLoaders : LoaderMap SimpleMemoryCallbackData :=
  (AImgInitialise [] (some (ExrImageLoader AIMG_SUCCESS (exampleFile AIMG_LOAD_FAILED_EXTERNAL)))
    (some (PNGImageLoader (exampleFile AIMG_SUCCESS))) []).2

/-- A stream without data, for the examples: the callback data is the position, seek and
tell agree, and a read delivers no byte and returns 0 but advances the position by the
requested count. -/
def driftingStream : StreamCallbacks Int :=
  { readCallback := fun s count => ([], 0, s + count),
    tellCallback := fun s => s,
    seekCallback := fun _ p => p }

/-- The registry after `AImgInitialise` in a build with EXR and PNG only over the stream
above, for the examples. -/
def driftingLoaders : LoaderMap Int :=
  (AImgInitialise []
    (some (ExrImageLoader AIMG_SUCCESS
      (PNGFile (fun _ s => (AIMG_SUCCESS, s)) (fun _ s => (AIMG_SUCCESS, s)))))
    (some (PNGImageLoader
      (PNGFile (fun _ s => (AIMG_SUCCESS, s)) (fun _ s => (AIMG_SUCCESS, s))))) []).2

/-! ## Properties -/

theorem log2Aux_le (fuel : Nat) : ∀ n k, n < 2 ^ (k + 1) → log2Aux fuel n ≤ k := by
  induction fuel with
  | zero => intro n k _; simp [log2Aux]
  | succ f ih =>
    intro n k h
    unfold log2Aux
    split_ifs with h2 h3
    · omega
    · cases k with
      | zero => simp at h; omega
      | succ k =>
        have : n / 2 < 2 ^ (k + 1) := by
          rw [Nat.div_lt_iff_lt_mul (by decide)]
          calc n < 2 ^ (k + 1 + 1) := h
            _ = 2 ^ (k + 1) * 2 := by ring
        have := ih (n / 2) k this
        omega
    · have hk : 16 ≤ k := by
        by_contra hc
        have : 2 ^ (k + 1) ≤ 2 ^ 16 := Nat.pow_le_pow_right (by decide) (by omega)
        omega
      obtain ⟨j, rfl⟩ : ∃ j, k = j + 16 := ⟨k - 16, by omega⟩
      have : n / 65536 < 2 ^ (j + 1) := by
        rw [Nat.div_lt_iff_lt_mul (by decide)]
        calc n < 2 ^ (j + 16 + 1) := h
          _ = 2 ^ (j + 1) * 65536 := by ring
      have := ih (n / 65536) j this
      omega

theorem ilog2_le {n k : Nat} (h : n < 2 ^ (k + 1)) : ilog2 n ≤ k :=
  log2Aux_le n n k h

theorem log2Aux_spec (fuel : Nat) : ∀ n, 0 < n → n ≤ fuel →
    2 ^ log2Aux fuel n ≤ n ∧ n < 2 ^ (log2Aux fuel n + 1) := by
  induction fuel with
  | zero => intro n h0 h; omega
  | succ f ih =>
    intro n h0 h
    unfold log2Aux
    split_ifs with h2 h3
    · have : n = 1 := by omega
      subst this; simp
    · have hpos : 0 < n / 2 := Nat.div_pos (by omega) (by decide)
      have hle : n / 2 ≤ f := by omega
      obtain ⟨h1, h3⟩ := ih (n / 2) hpos hle
      constructor
      · calc 2 ^ (log2Aux f (n / 2) + 1) = 2 ^ log2Aux f (n / 2) * 2 := by ring
          _ ≤ (n / 2) * 2 := Nat.mul_le_mul_right 2 h1
          _ ≤ n := Nat.div_mul_le_self n 2
      · have : n < (n / 2 + 1) * 2 := by omega
        calc n < (n / 2 + 1) * 2 := this
          _ ≤ 2 ^ (log2Aux f (n / 2) + 1) * 2 := Nat.mul_le_mul_right 2 h3
          _ = 2 ^ (log2Aux f (n / 2) + 1 + 1) := by ring
    · have hpos : 0 < n / 65536 := Nat.div_pos (by omega) (by decide)
      have hle : n / 65536 ≤ f := by omega
      obtain ⟨h1, h4⟩ := ih (n / 65536) hpos hle
      constructor
      · calc 2 ^ (log2Aux f (n / 65536) + 16) = 2 ^ log2Aux f (n / 65536) * 65536 := by ring
          _ ≤ (n / 65536) * 65536 := Nat.mul_le_mul_right _ h1
          _ ≤ n := Nat.div_mul_le_self n 65536
      · have : n < (n / 65536 + 1) * 65536 := by omega
        calc n < (n / 65536 + 1) * 65536 := this
          _ ≤ 2 ^ (log2Aux f (n / 65536) + 1) * 65536 := Nat.mul_le_mul_right _ h4
          _ = 2 ^ (log2Aux f (n / 65536) + 16 + 1) := by ring

theorem ilog2_spec {n : Nat} (h : 0 < n) : 2 ^ ilog2 n ≤ n ∧ n < 2 ^ (ilog2 n + 1) :=
  log2Aux_spec n n h (le_refl n)

theorem ilog2_eq {n k : Nat} (h1 : 2 ^ k ≤ n) (h2 : n < 2 ^ (k + 1)) : ilog2 n = k := by
  have hpos : 0 < n := lt_of_lt_of_le (by positivity) h1
  obtain ⟨a, b⟩ := ilog2_spec hpos
  have hle := ilog2_le h2
  by_contra hne
  have hlt : ilog2 n + 1 ≤ k := by omega
  have : 2 ^ (ilog2 n + 1) ≤ 2 ^ k := Nat.pow_le_pow_right (by decide) hlt
  omega

/-- rounding to nearest never passes an integer bound above the exact value -/
theorem roundNE_le {n d c : Nat} (hd : 0 < d) (h : n ≤ c * d) : roundNE n d ≤ c := by
  have hq : n / d ≤ c := by
    calc n / d ≤ c * d / d := Nat.div_le_div_right h
      _ = c := Nat.mul_div_cancel c hd
  unfold roundNE
  simp only
  rcases Nat.lt_or_eq_of_le hq with hlt | heq
  · split_ifs <;> omega
  · have hr : n % d = 0 := by
      have h1 := Nat.div_add_mod n d
      rw [heq] at h1
      have h2 : d * c = c * d := Nat.mul_comm d c
      omega
    simp [hr, hd, heq]

theorem roundNE_ge {n d c : Nat} (hd : 0 < d) (h : c * d ≤ n) : c ≤ roundNE n d := by
  have hq : c ≤ n / d := by
    calc c = c * d / d := (Nat.mul_div_cancel c hd).symm
      _ ≤ n / d := Nat.div_le_div_right h
  unfold roundNE
  simp only
  split_ifs <;> omega

theorem roundNE_mul (c d : Nat) (hd : 0 < d) : roundNE (c * d) d = c := by
  unfold roundNE
  simp [Nat.mul_div_cancel c hd, hd]

theorem roundUnits_le {p n d C : Nat} (hd : 0 < d) (h : n ≤ C * d)
    (hC : 2 ^ (ilog2 (n / d) - (p - 1)) ∣ C) : roundUnits p n d ≤ C := by
  unfold roundUnits
  simp only
  obtain ⟨c, hc⟩ := hC
  have hpos : 0 < d * 2 ^ (ilog2 (n / d) - (p - 1)) := Nat.mul_pos hd (by positivity)
  have h1 : n ≤ c * (d * 2 ^ (ilog2 (n / d) - (p - 1))) := by
    calc n ≤ C * d := h
      _ = c * (d * 2 ^ (ilog2 (n / d) - (p - 1))) := by rw [hc]; ring
  have := roundNE_le hpos h1
  calc roundNE n (d * 2 ^ (ilog2 (n / d) - (p - 1))) * 2 ^ (ilog2 (n / d) - (p - 1))
      ≤ c * 2 ^ (ilog2 (n / d) - (p - 1)) := Nat.mul_le_mul_right _ this
    _ = C := by rw [hc]; ring

theorem unit_pos : 0 < F32.unit := by unfold F32.unit; positivity

theorem ofMag_fin {neg : Bool} {r : Nat} (h : r < 2 ^ 128 * F32.unit) :
    F32.ofMag neg r = F32.fin neg r := by
  unfold F32.ofMag
  rw [if_pos h]

theorem ofMag_fin_of_le {neg : Bool} {r c : Nat} (h : r ≤ c * F32.unit) (hc : c < 2 ^ 128) :
    F32.ofMag neg r = F32.fin neg r :=
  ofMag_fin (lt_of_le_of_lt h (Nat.mul_lt_mul_of_pos_right hc unit_pos))

theorem div_ofUInt_eq (v M : Nat) (hM : 0 < M) (hv : v ≤ M) :
    ∃ r, r ≤ F32.unit ∧ F32.div (F32.ofUInt v) (F32.ofUInt M) = F32.fin false r := by
  have hu := unit_pos
  have hd : 0 < M * F32.unit := Nat.mul_pos hM hu
  have hle : v * F32.unit * F32.unit ≤ F32.unit * (M * F32.unit) := by
    have : v * F32.unit ≤ M * F32.unit := Nat.mul_le_mul_right _ hv
    calc v * F32.unit * F32.unit ≤ M * F32.unit * F32.unit := Nat.mul_le_mul_right _ this
      _ = F32.unit * (M * F32.unit) := by ring
  have hq : v * F32.unit * F32.unit / (M * F32.unit) ≤ F32.unit := by
    calc v * F32.unit * F32.unit / (M * F32.unit)
        ≤ F32.unit * (M * F32.unit) / (M * F32.unit) := Nat.div_le_div_right hle
      _ = F32.unit := Nat.mul_div_cancel _ hd
  have hlog : ilog2 (v * F32.unit * F32.unit / (M * F32.unit)) ≤ 149 := by
    apply ilog2_le
    calc _ ≤ F32.unit := hq
      _ < 2 ^ (149 + 1) := by unfold F32.unit; exact Nat.pow_lt_pow_right (by decide) (by decide)
  have hdvd : 2 ^ (ilog2 (v * F32.unit * F32.unit / (M * F32.unit)) - (24 - 1)) ∣ F32.unit := by
    have h1 : ilog2 (v * F32.unit * F32.unit / (M * F32.unit)) - (24 - 1) ≤ 149 := by omega
    exact Nat.pow_dvd_pow 2 h1
  have hr := roundUnits_le hd hle hdvd
  refine ⟨roundUnits 24 (v * F32.unit * F32.unit) (M * F32.unit), hr, ?_⟩
  have hne : M * F32.unit ≠ 0 := by omega
  have hfin : F32.ofMag false (roundUnits 24 (v * F32.unit * F32.unit) (M * F32.unit))
      = F32.fin false (roundUnits 24 (v * F32.unit * F32.unit) (M * F32.unit)) :=
    ofMag_fin_of_le (c := 1) (by omega) (by decide)
  simp [F32.div, F32.ofUInt, hne, hfin]

theorem div_ofUInt_inUnit (v M : Nat) (hM : 0 < M) (hv : v ≤ M) :
    inUnit (F32.div (F32.ofUInt v) (F32.ofUInt M)) := by
  obtain ⟨r, hr, he⟩ := div_ofUInt_eq v M hM hv
  rw [he]
  simp [inUnit, F32.le, F32.zero, F32.one, F32.signed, hr]

theorem norm8_inUnit (v : Fin 256) : inUnit (F32.div (F32.ofUInt v) F32.c255) :=
  div_ofUInt_inUnit v 255 (by decide) (by omega)

theorem norm16_inUnit (v : Fin 65536) : inUnit (F32.div (F32.ofUInt v) F32.c65535) :=
  div_ofUInt_inUnit v 65535 (by decide) (by omega)

theorem one_inUnit : inUnit F32.one := by
  simp [inUnit, F32.le, F32.zero, F32.one, F32.signed]

theorem zero_inUnit : inUnit F32.zero := by
  simp [inUnit, F32.le, F32.zero, F32.one, F32.signed]

theorem convertToRGBA32F_eq_canonical (haveExr : Bool) (src : Buffer) (dest : Scratch)
    (i : Nat) (f : Int) (hf : f ∈ namedFormats) (hb : haveExr = true ∨ f ∉ halfFormats) :
    convertToRGBA32F haveExr src dest i f = canonicalPixel src f i := by
  simp only [namedFormats, List.mem_cons, List.mem_singleton, List.not_mem_nil, or_false] at hf
  rcases hf with rfl | rfl | rfl | rfl | rfl | rfl | rfl | rfl | rfl | rfl | rfl | rfl |
    rfl | rfl | rfl | rfl <;> cases haveExr <;>
    first
      | rfl
      | exact absurd hb (by decide)

theorem scratch_get_inUnit (s : Scratch) (h0 : inUnit s.x0) (h1 : inUnit s.x1)
    (h2 : inUnit s.x2) (h3 : inUnit s.x3) : ∀ j, inUnit (s.get j) := by
  intro j
  unfold Scratch.get
  split <;> assumption

theorem channelValue_inUnit (src : Buffer) (f : Int) (k : Nat)
    (hk : (AIGetFormatDetails f).floatOrInt = FITYPE_INT) :
    inUnit (channelValue src f k) := by
  unfold channelValue elemOf
  rw [if_neg (by rw [hk]; decide)]
  split_ifs
  · exact norm8_inUnit _
  · exact norm16_inUnit _

theorem canonicalPixel_inUnit (src : Buffer) (i : Nat) (f : Int)
    (hk : (AIGetFormatDetails f).floatOrInt = FITYPE_INT) :
    ∀ j, inUnit ((canonicalPixel src f i).get j) := by
  have hv := fun k => channelValue_inUnit src f k hk
  unfold canonicalPixel
  split <;> exact scratch_get_inUnit _ (hv _) (hv _)
    (by first | exact hv _ | exact zero_inUnit) (by first | exact hv _ | exact one_inUnit)

theorem convertToRGBA32F_compiled_out (src : Buffer) (dest : Scratch) (i : Nat) (f : Int)
    (hf : f ∈ halfFormats) : convertToRGBA32F false src dest i f = dest := by
  simp only [halfFormats, List.mem_cons, List.mem_singleton, List.not_mem_nil, or_false] at hf
  rcases hf with rfl | rfl | rfl | rfl <;> rfl

/-- C1 (amended): for each of the 16 named pixel formats the build supports (all 16 under
`HAVE_EXR`, the 12 that are not half formats otherwise) and every pixel index `i`,
`convertToRGBA32F` produces the canonical pixel of the specification (`v / 255`,
`v / 65535` or `v` per stored channel, missing channels synthesised), and for integer
formats every canonical component lies between 0 and 1; in a build without `HAVE_EXR`,
for each of the four half formats and every pixel index, `convertToRGBA32F` leaves the
scratch pixel as it was, whatever it holds. -/
theorem C1_convertToRGBA32F_canonical (haveExr : Bool) (src : Buffer) (dest : Scratch)
    (i : Nat) (f : Int) :
    (supportedFormat haveExr f →
      convertToRGBA32F haveExr src dest i f = canonicalPixel src f i ∧
      ((AIGetFormatDetails f).floatOrInt = FITYPE_INT →
        ∀ j, inUnit ((canonicalPixel src f i).get j))) ∧
    (haveExr = false → f ∈ halfFormats →
      convertToRGBA32F haveExr src dest i f = dest) := by
  refine ⟨fun hf => ⟨convertToRGBA32F_eq_canonical haveExr src dest i f hf.1 hf.2,
    canonicalPixel_inUnit src i f⟩, ?_⟩
  intro hE hh
  subst hE
  exact convertToRGBA32F_compiled_out src dest i f hh

/-- C1, witness: the amended statement at pixel 2 of an `RGBA8U` buffer, and at pixel 2
of an `RGB16F` buffer with the scratch pixel `(1, 0, 1, 0)` in a build without
`HAVE_EXR`. -/
theorem C1_witness :
    (supportedFormat false RGBA8U ∧
      convertToRGBA32F false (constBuffer 51 0 Half.nan F32.nan) zeroScratch 2 RGBA8U
        = canonicalPixel (constBuffer 51 0 Half.nan F32.nan) RGBA8U 2 ∧
      ((AIGetFormatDetails RGBA8U).floatOrInt = FITYPE_INT →
        ∀ j, inUnit ((canonicalPixel (constBuffer 51 0 Half.nan F32.nan) RGBA8U 2).get j))) ∧
    (RGB16F ∈ halfFormats ∧
      convertToRGBA32F false (constBuffer 51 0 Half.nan F32.nan)
        ⟨F32.one, F32.zero, F32.one, F32.zero⟩ 2 RGB16F
        = ⟨F32.one, F32.zero, F32.one, F32.zero⟩) :=
  ⟨⟨by decide,
    (C1_convertToRGBA32F_canonical false _ zeroScratch 2 RGBA8U).1 (by decide)⟩,
   ⟨by decide, (C1_convertToRGBA32F_canonical false _ _ 2 RGB16F).2 rfl (by decide)⟩⟩

/-- C1, counterexample: in a build without `HAVE_EXR` the half format `R16F` is one of the
16 named formats, yet `convertToRGBA32F` leaves the scratch pixel as it was instead of
producing the canonical pixel `(1, 1, 1, 1)` of a stored `1.0`. -/
theorem C1_counterexample :
    R16F ∈ namedFormats ∧
    convertToRGBA32F false (constBuffer 0 0 (Half.fin false (2 ^ 24)) F32.nan) zeroScratch 0 R16F
      = zeroScratch ∧
    canonicalPixel (constBuffer 0 0 (Half.fin false (2 ^ 24)) F32.nan) R16F 0
      = ⟨F32.one, F32.one, F32.one, F32.one⟩ ∧
    convertToRGBA32F false (constBuffer 0 0 (Half.fin false (2 ^ 24)) F32.nan) zeroScratch 0 R16F
      ≠ canonicalPixel (constBuffer 0 0 (Half.fin false (2 ^ 24)) F32.nan) R16F 0 := by
  refine ⟨by decide, by decide, by decide, by decide⟩

theorem setAt_apply {α : Type} (a : Nat → α) (k : Nat) (v : α) (j : Nat) :
    setAt a k v j = if j = k then v else a j := rfl

/-- one channel stored at element `b` -/
theorem store1 {α : Type} (a : Nat → α) (b : Nat) (g : Nat → α) (k : Nat) :
    setAt a (b * 1) (g 0) k
      = if b * 1 ≤ k ∧ k < b * 1 + 1 then g (k - b * 1) else a k := by
  simp only [setAt_apply]
  by_cases h0 : k = b * 1
  · subst h0; simp
  · rw [if_neg h0, if_neg (by omega)]

theorem store2 {α : Type} (a : Nat → α) (b : Nat) (g : Nat → α) (k : Nat) :
    setAt (setAt a (b * 2) (g 0)) (b * 2 + 1) (g 1) k
      = if b * 2 ≤ k ∧ k < b * 2 + 2 then g (k - b * 2) else a k := by
  simp only [setAt_apply]
  by_cases h1 : k = b * 2 + 1
  · subst h1; simp
  · rw [if_neg h1]
    by_cases h0 : k = b * 2
    · subst h0; simp
    · rw [if_neg h0, if_neg (by omega)]

theorem store3 {α : Type} (a : Nat → α) (b : Nat) (g : Nat → α) (k : Nat) :
    setAt (setAt (setAt a (b * 3) (g 0)) (b * 3 + 1) (g 1)) (b * 3 + 2) (g 2) k
      = if b * 3 ≤ k ∧ k < b * 3 + 3 then g (k - b * 3) else a k := by
  simp only [setAt_apply]
  by_cases h2 : k = b * 3 + 2
  · subst h2; simp
  · rw [if_neg h2]
    by_cases h1 : k = b * 3 + 1
    · subst h1; simp
    · rw [if_neg h1]
      by_cases h0 : k = b * 3
      · subst h0; simp
      · rw [if_neg h0, if_neg (by omega)]

theorem store4 {α : Type} (a : Nat → α) (b : Nat) (g : Nat → α) (k : Nat) :
    setAt (setAt (setAt (setAt a (b * 4) (g 0)) (b * 4 + 1) (g 1)) (b * 4 + 2) (g 2))
        (b * 4 + 3) (g 3) k
      = if b * 4 ≤ k ∧ k < b * 4 + 4 then g (k - b * 4) else a k := by
  simp only [setAt_apply]
  by_cases h3 : k = b * 4 + 3
  · subst h3; simp
  · rw [if_neg h3]
    by_cases h2 : k = b * 4 + 2
    · subst h2; simp
    · rw [if_neg h2]
      by_cases h1 : k = b * 4 + 1
      · subst h1; simp
      · rw [if_neg h1]
        by_cases h0 : k = b * 4
        · subst h0; simp
        · rw [if_neg h0, if_neg (by omega)]

theorem convertFromRGBA32F_R8U_cell (haveExr : Bool) (s : Scratch) (dst : Buffer) (i : Nat)
    (e : Elem) (k : Nat) :
    (convertFromRGBA32F haveExr s dst i R8U).cell e k =
      if e = Elem.u8 ∧ i * 1 ≤ k ∧ k < i * 1 + 1 then encode Elem.u8 (s.get (k - i * 1))
      else dst.cell e k := by
  have h : convertFromRGBA32F haveExr s dst i R8U = { dst with u8 :=
      (setAt dst.u8 (i * 1) ((fun j => (F32.mul (s.get j) F32.c255).toU8) 0)) } := by
    cases haveExr <;> rfl
  have hv : (convertFromRGBA32F haveExr s dst i R8U).u8 k =
      if i * 1 ≤ k ∧ k < i * 1 + 1 then (fun j => (F32.mul (s.get j) F32.c255).toU8) (k - i * 1) else dst.u8 k := by
    rw [h]
    exact store1 dst.u8 i (fun j => (F32.mul (s.get j) F32.c255).toU8) k
  cases e
  all_goals simp only [Buffer.cell, encode, hv, false_and, if_false, true_and, reduceCtorEq]
  all_goals first
    | (split_ifs <;> rfl)
    | rw [h]

theorem convertFromRGBA32F_RG8U_cell (haveExr : Bool) (s : Scratch) (dst : Buffer) (i : Nat)
    (e : Elem) (k : Nat) :
    (convertFromRGBA32F haveExr s dst i RG8U).cell e k =
      if e = Elem.u8 ∧ i * 2 ≤ k ∧ k < i * 2 + 2 then encode Elem.u8 (s.get (k - i * 2))
      else dst.cell e k := by
  have h : convertFromRGBA32F haveExr s dst i RG8U = { dst with u8 :=
      (setAt (setAt dst.u8 (i * 2) ((fun j => (F32.mul (s.get j) F32.c255).toU8) 0)) (i * 2 + 1) ((fun j => (F32.mul (s.get j) F32.c255).toU8) 1)) } := by
    cases haveExr <;> rfl
  have hv : (convertFromRGBA32F haveExr s dst i RG8U).u8 k =
      if i * 2 ≤ k ∧ k < i * 2 + 2 then (fun j => (F32.mul (s.get j) F32.c255).toU8) (k - i * 2) else dst.u8 k := by
    rw [h]
    exact store2 dst.u8 i (fun j => (F32.mul (s.get j) F32.c255).toU8) k
  cases e
  all_goals simp only [Buffer.cell, encode, hv, false_and, if_false, true_and, reduceCtorEq]
  all_goals first
    | (split_ifs <;> rfl)
    | rw [h]

theorem convertFromRGBA32F_RGB8U_cell (haveExr : Bool) (s : Scratch) (dst : Buffer) (i : Nat)
    (e : Elem) (k : Nat) :
    (convertFromRGBA32F haveExr s dst i RGB8U).cell e k =
      if e = Elem.u8 ∧ i * 3 ≤ k ∧ k < i * 3 + 3 then encode Elem.u8 (s.get (k - i * 3))
      else dst.cell e k := by
  have h : convertFromRGBA32F haveExr s dst i RGB8U = { dst with u8 :=
      (setAt (setAt (setAt dst.u8 (i * 3) ((fun j => (F32.mul (s.get j) F32.c255).toU8) 0)) (i * 3 + 1) ((fun j => (F32.mul (s.get j) F32.c255).toU8) 1)) (i * 3 + 2) ((fun j => (F32.mul (s.get j) F32.c255).toU8) 2)) } := by
    cases haveExr <;> rfl
  have hv : (convertFromRGBA32F haveExr s dst i RGB8U).u8 k =
      if i * 3 ≤ k ∧ k < i * 3 + 3 then (fun j => (F32.mul (s.get j) F32.c255).toU8) (k - i * 3) else dst.u8 k := by
    rw [h]
    exact store3 dst.u8 i (fun j => (F32.mul (s.get j) F32.c255).toU8) k
  cases e
  all_goals simp only [Buffer.cell, encode, hv, false_and, if_false, true_and, reduceCtorEq]
  all_goals first
    | (split_ifs <;> rfl)
    | rw [h]

theorem convertFromRGBA32F_RGBA8U_cell (haveExr : Bool) (s : Scratch) (dst : Buffer) (i : Nat)
    (e : Elem) (k : Nat) :
    (convertFromRGBA32F haveExr s dst i RGBA8U).cell e k =
      if e = Elem.u8 ∧ i * 4 ≤ k ∧ k < i * 4 + 4 then encode Elem.u8 (s.get (k - i * 4))
      else dst.cell e k := by
  have h : convertFromRGBA32F haveExr s dst i RGBA8U = { dst with u8 :=
      (setAt (setAt (setAt (setAt dst.u8 (i * 4) ((fun j => (F32.mul (s.get j) F32.c255).toU8) 0)) (i * 4 + 1) ((fun j => (F32.mul (s.get j) F32.c255).toU8) 1)) (i * 4 + 2) ((fun j => (F32.mul (s.get j) F32.c255).toU8) 2)) (i * 4 + 3) ((fun j => (F32.mul (s.get j) F32.c255).toU8) 3)) } := by
    cases haveExr <;> rfl
  have hv : (convertFromRGBA32F haveExr s dst i RGBA8U).u8 k =
      if i * 4 ≤ k ∧ k < i * 4 + 4 then (fun j => (F32.mul (s.get j) F32.c255).toU8) (k - i * 4) else dst.u8 k := by
    rw [h]
    exact store4 dst.u8 i (fun j => (F32.mul (s.get j) F32.c255).toU8) k
  cases e
  all_goals simp only [Buffer.cell, encode, hv, false_and, if_false, true_and, reduceCtorEq]
  all_goals first
    | (split_ifs <;> rfl)
    | rw [h]

theorem convertFromRGBA32F_R16F_cell  (s : Scratch) (dst : Buffer) (i : Nat)
    (e : Elem) (k : Nat) :
    (convertFromRGBA32F true s dst i R16F).cell e k =
      if e = Elem.f16 ∧ i * 1 ≤ k ∧ k < i * 1 + 1 then encode Elem.f16 (s.get (k - i * 1))
      else dst.cell e k := by
  have h : convertFromRGBA32F true s dst i R16F = { dst with f16 :=
      (setAt dst.f16 (i * 1) ((fun j => Half.ofFloat (s.get j)) 0)) } := by
    rfl
  have hv : (convertFromRGBA32F true s dst i R16F).f16 k =
      if i * 1 ≤ k ∧ k < i * 1 + 1 then (fun j => Half.ofFloat (s.get j)) (k - i * 1) else dst.f16 k := by
    rw [h]
    exact store1 dst.f16 i (fun j => Half.ofFloat (s.get j)) k
  cases e
  all_goals simp only [Buffer.cell, encode, hv, false_and, if_false, true_and, reduceCtorEq]
  all_goals first
    | (split_ifs <;> rfl)
    | rw [h]

theorem convertFromRGBA32F_RG16F_cell  (s : Scratch) (dst : Buffer) (i : Nat)
    (e : Elem) (k : Nat) :
    (convertFromRGBA32F true s dst i RG16F).cell e k =
      if e = Elem.f16 ∧ i * 2 ≤ k ∧ k < i * 2 + 2 then encode Elem.f16 (s.get (k - i * 2))
      else dst.cell e k := by
  have h : convertFromRGBA32F true s dst i RG16F = { dst with f16 :=
      (setAt (setAt dst.f16 (i * 2) ((fun j => Half.ofFloat (s.get j)) 0)) (i * 2 + 1) ((fun j => Half.ofFloat (s.get j)) 1)) } := by
    rfl
  have hv : (convertFromRGBA32F true s dst i RG16F).f16 k =
      if i * 2 ≤ k ∧ k < i * 2 + 2 then (fun j => Half.ofFloat (s.get j)) (k - i * 2) else dst.f16 k := by
    rw [h]
    exact store2 dst.f16 i (fun j => Half.ofFloat (s.get j)) k
  cases e
  all_goals simp only [Buffer.cell, encode, hv, false_and, if_false, true_and, reduceCtorEq]
  all_goals first
    | (split_ifs <;> rfl)
    | rw [h]

theorem convertFromRGBA32F_RGB16F_cell  (s : Scratch) (dst : Buffer) (i : Nat)
    (e : Elem) (k : Nat) :
    (convertFromRGBA32F true s dst i RGB16F).cell e k =
      if e = Elem.f16 ∧ i * 3 ≤ k ∧ k < i * 3 + 3 then encode Elem.f16 (s.get (k - i * 3))
      else dst.cell e k := by
  have h : convertFromRGBA32F true s dst i RGB16F = { dst with f16 :=
      (setAt (setAt (setAt dst.f16 (i * 3) ((fun j => Half.ofFloat (s.get j)) 0)) (i * 3 + 1) ((fun j => Half.ofFloat (s.get j)) 1)) (i * 3 + 2) ((fun j => Half.ofFloat (s.get j)) 2)) } := by
    rfl
  have hv : (convertFromRGBA32F true s dst i RGB16F).f16 k =
      if i * 3 ≤ k ∧ k < i * 3 + 3 then (fun j => Half.ofFloat (s.get j)) (k - i * 3) else dst.f16 k := by
    rw [h]
    exact store3 dst.f16 i (fun j => Half.ofFloat (s.get j)) k
  cases e
  all_goals simp only [Buffer.cell, encode, hv, false_and, if_false, true_and, reduceCtorEq]
  all_goals first
    | (split_ifs <;> rfl)
    | rw [h]

theorem convertFromRGBA32F_RGBA16F_cell  (s : Scratch) (dst : Buffer) (i : Nat)
    (e : Elem) (k : Nat) :
    (convertFromRGBA32F true s dst i RGBA16F).cell e k =
      if e = Elem.f16 ∧ i * 4 ≤ k ∧ k < i * 4 + 4 then encode Elem.f16 (s.get (k - i * 4))
      else dst.cell e k := by
  have h : convertFromRGBA32F true s dst i RGBA16F = { dst with f16 :=
      (setAt (setAt (setAt (setAt dst.f16 (i * 4) ((fun j => Half.ofFloat (s.get j)) 0)) (i * 4 + 1) ((fun j => Half.ofFloat (s.get j)) 1)) (i * 4 + 2) ((fun j => Half.ofFloat (s.get j)) 2)) (i * 4 + 3) ((fun j => Half.ofFloat (s.get j)) 3)) } := by
    rfl
  have hv : (convertFromRGBA32F true s dst i RGBA16F).f16 k =
      if i * 4 ≤ k ∧ k < i * 4 + 4 then (fun j => Half.ofFloat (s.get j)) (k - i * 4) else dst.f16 k := by
    rw [h]
    exact store4 dst.f16 i (fun j => Half.ofFloat (s.get j)) k
  cases e
  all_goals simp only [Buffer.cell, encode, hv, false_and, if_false, true_and, reduceCtorEq]
  all_goals first
    | (split_ifs <;> rfl)
    | rw [h]

theorem convertFromRGBA32F_R16U_cell (haveExr : Bool) (s : Scratch) (dst : Buffer) (i : Nat)
    (e : Elem) (k : Nat) :
    (convertFromRGBA32F haveExr s dst i R16U).cell e k =
      if e = Elem.u16 ∧ i * 1 ≤ k ∧ k < i * 1 + 1 then encode Elem.u16 (s.get (k - i * 1))
      else dst.cell e k := by
  have h : convertFromRGBA32F haveExr s dst i R16U = { dst with u16 :=
      (setAt dst.u16 (i * 1) ((fun j => (F32.mul (s.get j) F32.c65535).toU16) 0)) } := by
    cases haveExr <;> rfl
  have hv : (convertFromRGBA32F haveExr s dst i R16U).u16 k =
      if i * 1 ≤ k ∧ k < i * 1 + 1 then (fun j => (F32.mul (s.get j) F32.c65535).toU16) (k - i * 1) else dst.u16 k := by
    rw [h]
    exact store1 dst.u16 i (fun j => (F32.mul (s.get j) F32.c65535).toU16) k
  cases e
  all_goals simp only [Buffer.cell, encode, hv, false_and, if_false, true_and, reduceCtorEq]
  all_goals first
    | (split_ifs <;> rfl)
    | rw [h]

theorem convertFromRGBA32F_RG16U_cell (haveExr : Bool) (s : Scratch) (dst : Buffer) (i : Nat)
    (e : Elem) (k : Nat) :
    (convertFromRGBA32F haveExr s dst i RG16U).cell e k =
      if e = Elem.u16 ∧ i * 2 ≤ k ∧ k < i * 2 + 2 then encode Elem.u16 (s.get (k - i * 2))
      else dst.cell e k := by
  have h : convertFromRGBA32F haveExr s dst i RG16U = { dst with u16 :=
      (setAt (setAt dst.u16 (i * 2) ((fun j => (F32.mul (s.get j) F32.c65535).toU16) 0)) (i * 2 + 1) ((fun j => (F32.mul (s.get j) F32.c65535).toU16) 1)) } := by
    cases haveExr <;> rfl
  have hv : (convertFromRGBA32F haveExr s dst i RG16U).u16 k =
      if i * 2 ≤ k ∧ k < i * 2 + 2 then (fun j => (F32.mul (s.get j) F32.c65535).toU16) (k - i * 2) else dst.u16 k := by
    rw [h]
    exact store2 dst.u16 i (fun j => (F32.mul (s.get j) F32.c65535).toU16) k
  cases e
  all_goals simp only [Buffer.cell, encode, hv, false_and, if_false, true_and, reduceCtorEq]
  all_goals first
    | (split_ifs <;> rfl)
    | rw [h]

theorem convertFromRGBA32F_RGB16U_cell (haveExr : Bool) (s : Scratch) (dst : Buffer) (i : Nat)
    (e : Elem) (k : Nat) :
    (convertFromRGBA32F haveExr s dst i RGB16U).cell e k =
      if e = Elem.u16 ∧ i * 3 ≤ k ∧ k < i * 3 + 3 then encode Elem.u16 (s.get (k - i * 3))
      else dst.cell e k := by
  have h : convertFromRGBA32F haveExr s dst i RGB16U = { dst with u16 :=
      (setAt (setAt (setAt dst.u16 (i * 3) ((fun j => (F32.mul (s.get j) F32.c65535).toU16) 0)) (i * 3 + 1) ((fun j => (F32.mul (s.get j) F32.c65535).toU16) 1)) (i * 3 + 2) ((fun j => (F32.mul (s.get j) F32.c65535).toU16) 2)) } := by
    cases haveExr <;> rfl
  have hv : (convertFromRGBA32F haveExr s dst i RGB16U).u16 k =
      if i * 3 ≤ k ∧ k < i * 3 + 3 then (fun j => (F32.mul (s.get j) F32.c65535).toU16) (k - i * 3) else dst.u16 k := by
    rw [h]
    exact store3 dst.u16 i (fun j => (F32.mul (s.get j) F32.c65535).toU16) k
  cases e
  all_goals simp only [Buffer.cell, encode, hv, false_and, if_false, true_and, reduceCtorEq]
  all_goals first
    | (split_ifs <;> rfl)
    | rw [h]

theorem convertFromRGBA32F_RGBA16U_cell (haveExr : Bool) (s : Scratch) (dst : Buffer) (i : Nat)
    (e : Elem) (k : Nat) :
    (convertFromRGBA32F haveExr s dst i RGBA16U).cell e k =
      if e = Elem.u16 ∧ i * 4 ≤ k ∧ k < i * 4 + 4 then encode Elem.u16 (s.get (k - i * 4))
      else dst.cell e k := by
  have h : convertFromRGBA32F haveExr s dst i RGBA16U = { dst with u16 :=
      (setAt (setAt (setAt (setAt dst.u16 (i * 4) ((fun j => (F32.mul (s.get j) F32.c65535).toU16) 0)) (i * 4 + 1) ((fun j => (F32.mul (s.get j) F32.c65535).toU16) 1)) (i * 4 + 2) ((fun j => (F32.mul (s.get j) F32.c65535).toU16) 2)) (i * 4 + 3) ((fun j => (F32.mul (s.get j) F32.c65535).toU16) 3)) } := by
    cases haveExr <;> rfl
  have hv : (convertFromRGBA32F haveExr s dst i RGBA16U).u16 k =
      if i * 4 ≤ k ∧ k < i * 4 + 4 then (fun j => (F32.mul (s.get j) F32.c65535).toU16) (k - i * 4) else dst.u16 k := by
    rw [h]
    exact store4 dst.u16 i (fun j => (F32.mul (s.get j) F32.c65535).toU16) k
  cases e
  all_goals simp only [Buffer.cell, encode, hv, false_and, if_false, true_and, reduceCtorEq]
  all_goals first
    | (split_ifs <;> rfl)
    | rw [h]

theorem convertFromRGBA32F_R32F_cell (haveExr : Bool) (s : Scratch) (dst : Buffer) (i : Nat)
    (e : Elem) (k : Nat) :
    (convertFromRGBA32F haveExr s dst i R32F).cell e k =
      if e = Elem.f32 ∧ i * 1 ≤ k ∧ k < i * 1 + 1 then encode Elem.f32 (s.get (k - i * 1))
      else dst.cell e k := by
  have h : convertFromRGBA32F haveExr s dst i R32F = { dst with f32 :=
      (setAt dst.f32 (i * 1) ((fun j => s.get j) 0)) } := by
    cases haveExr <;> rfl
  have hv : (convertFromRGBA32F haveExr s dst i R32F).f32 k =
      if i * 1 ≤ k ∧ k < i * 1 + 1 then (fun j => s.get j) (k - i * 1) else dst.f32 k := by
    rw [h]
    exact store1 dst.f32 i (fun j => s.get j) k
  cases e
  all_goals simp only [Buffer.cell, encode, hv, false_and, if_false, true_and, reduceCtorEq]
  all_goals first
    | (split_ifs <;> rfl)
    | rw [h]

theorem convertFromRGBA32F_RG32F_cell (haveExr : Bool) (s : Scratch) (dst : Buffer) (i : Nat)
    (e : Elem) (k : Nat) :
    (convertFromRGBA32F haveExr s dst i RG32F).cell e k =
      if e = Elem.f32 ∧ i * 2 ≤ k ∧ k < i * 2 + 2 then encode Elem.f32 (s.get (k - i * 2))
      else dst.cell e k := by
  have h : convertFromRGBA32F haveExr s dst i RG32F = { dst with f32 :=
      (setAt (setAt dst.f32 (i * 2) ((fun j => s.get j) 0)) (i * 2 + 1) ((fun j => s.get j) 1)) } := by
    cases haveExr <;> rfl
  have hv : (convertFromRGBA32F haveExr s dst i RG32F).f32 k =
      if i * 2 ≤ k ∧ k < i * 2 + 2 then (fun j => s.get j) (k - i * 2) else dst.f32 k := by
    rw [h]
    exact store2 dst.f32 i (fun j => s.get j) k
  cases e
  all_goals simp only [Buffer.cell, encode, hv, false_and, if_false, true_and, reduceCtorEq]
  all_goals first
    | (split_ifs <;> rfl)
    | rw [h]

theorem convertFromRGBA32F_RGB32F_cell (haveExr : Bool) (s : Scratch) (dst : Buffer) (i : Nat)
    (e : Elem) (k : Nat) :
    (convertFromRGBA32F haveExr s dst i RGB32F).cell e k =
      if e = Elem.f32 ∧ i * 3 ≤ k ∧ k < i * 3 + 3 then encode Elem.f32 (s.get (k - i * 3))
      else dst.cell e k := by
  have h : convertFromRGBA32F haveExr s dst i RGB32F = { dst with f32 :=
      (setAt (setAt (setAt dst.f32 (i * 3) ((fun j => s.get j) 0)) (i * 3 + 1) ((fun j => s.get j) 1)) (i * 3 + 2) ((fun j => s.get j) 2)) } := by
    cases haveExr <;> rfl
  have hv : (convertFromRGBA32F haveExr s dst i RGB32F).f32 k =
      if i * 3 ≤ k ∧ k < i * 3 + 3 then (fun j => s.get j) (k - i * 3) else dst.f32 k := by
    rw [h]
    exact store3 dst.f32 i (fun j => s.get j) k
  cases e
  all_goals simp only [Buffer.cell, encode, hv, false_and, if_false, true_and, reduceCtorEq]
  all_goals first
    | (split_ifs <;> rfl)
    | rw [h]

theorem convertFromRGBA32F_RGBA32F_cell (haveExr : Bool) (s : Scratch) (dst : Buffer) (i : Nat)
    (e : Elem) (k : Nat) :
    (convertFromRGBA32F haveExr s dst i RGBA32F).cell e k =
      if e = Elem.f32 ∧ i * 4 ≤ k ∧ k < i * 4 + 4 then encode Elem.f32 (s.get (k - i * 4))
      else dst.cell e k := by
  have h : convertFromRGBA32F haveExr s dst i RGBA32F = { dst with f32 :=
      (setAt (setAt (setAt (setAt dst.f32 (i * 4) ((fun j => s.get j) 0)) (i * 4 + 1) ((fun j => s.get j) 1)) (i * 4 + 2) ((fun j => s.get j) 2)) (i * 4 + 3) ((fun j => s.get j) 3)) } := by
    cases haveExr <;> rfl
  have hv : (convertFromRGBA32F haveExr s dst i RGBA32F).f32 k =
      if i * 4 ≤ k ∧ k < i * 4 + 4 then (fun j => s.get j) (k - i * 4) else dst.f32 k := by
    rw [h]
    exact store4 dst.f32 i (fun j => s.get j) k
  cases e
  all_goals simp only [Buffer.cell, encode, hv, false_and, if_false, true_and, reduceCtorEq]
  all_goals first
    | (split_ifs <;> rfl)
    | rw [h]

theorem convertFromRGBA32F_cell (haveExr : Bool) (s : Scratch) (dst : Buffer) (i : Nat)
    (f : Int) (hf : supportedFormat haveExr f) (e : Elem) (k : Nat) :
    (convertFromRGBA32F haveExr s dst i f).cell e k =
      if e = elemOf f ∧ i * channelsOf f ≤ k ∧ k < i * channelsOf f + channelsOf f then
        encode (elemOf f) (s.get (k - i * channelsOf f))
      else dst.cell e k := by
  obtain ⟨hn, hb⟩ := hf
  simp only [namedFormats, List.mem_cons, List.mem_singleton, List.not_mem_nil, or_false] at hn
  rcases hn with rfl | rfl | rfl | rfl | rfl | rfl | rfl | rfl | rfl | rfl | rfl | rfl |
    rfl | rfl | rfl | rfl
  · exact convertFromRGBA32F_R8U_cell haveExr s dst i e k
  · exact convertFromRGBA32F_RG8U_cell haveExr s dst i e k
  · exact convertFromRGBA32F_RGB8U_cell haveExr s dst i e k
  · exact convertFromRGBA32F_RGBA8U_cell haveExr s dst i e k
  · have : haveExr = true := by
      rcases hb with h | h
      · exact h
      · exact absurd (by decide) h
    subst this
    exact convertFromRGBA32F_R16F_cell s dst i e k
  · have : haveExr = true := by
      rcases hb with h | h
      · exact h
      · exact absurd (by decide) h
    subst this
    exact convertFromRGBA32F_RG16F_cell s dst i e k
  · have : haveExr = true := by
      rcases hb with h | h
      · exact h
      · exact absurd (by decide) h
    subst this
    exact convertFromRGBA32F_RGB16F_cell s dst i e k
  · have : haveExr = true := by
      rcases hb with h | h
      · exact h
      · exact absurd (by decide) h
    subst this
    exact convertFromRGBA32F_RGBA16F_cell s dst i e k
  · exact convertFromRGBA32F_R16U_cell haveExr s dst i e k
  · exact convertFromRGBA32F_RG16U_cell haveExr s dst i e k
  · exact convertFromRGBA32F_RGB16U_cell haveExr s dst i e k
  · exact convertFromRGBA32F_RGBA16U_cell haveExr s dst i e k
  · exact convertFromRGBA32F_R32F_cell haveExr s dst i e k
  · exact convertFromRGBA32F_RG32F_cell haveExr s dst i e k
  · exact convertFromRGBA32F_RGB32F_cell haveExr s dst i e k
  · exact convertFromRGBA32F_RGBA32F_cell haveExr s dst i e k

theorem channelsOf_range (f : Int) (hf : f ∈ namedFormats) :
    1 ≤ channelsOf f ∧ channelsOf f ≤ 4 := by
  simp only [namedFormats, List.mem_cons, List.mem_singleton, List.not_mem_nil, or_false] at hf
  rcases hf with rfl | rfl | rfl | rfl | rfl | rfl | rfl | rfl | rfl | rfl | rfl | rfl |
    rfl | rfl | rfl | rfl <;> decide

theorem convertFromRGBA32F_unsupported (haveExr : Bool) (s : Scratch) (dst : Buffer)
    (i : Nat) (f : Int) (hf : ¬ supportedFormat haveExr f) :
    convertFromRGBA32F haveExr s dst i f = dst := by
  by_cases hn : f ∈ namedFormats
  · have hb : ¬ (haveExr = true ∨ f ∉ halfFormats) := fun h => hf ⟨hn, h⟩
    rw [not_or] at hb
    obtain ⟨h1, h2⟩ := hb
    have hE : haveExr = false := by cases haveExr <;> simp_all
    subst hE
    have h3 : f ∈ halfFormats := not_not.mp h2
    simp only [halfFormats, List.mem_cons, List.mem_singleton, List.not_mem_nil, or_false] at h3
    rcases h3 with rfl | rfl | rfl | rfl <;> rfl
  · simp only [namedFormats, List.mem_cons, List.mem_singleton, List.not_mem_nil, or_false,
      not_or] at hn
    obtain ⟨a1, a2, a3, a4, a5, a6, a7, a8, a9, a10, a11, a12, a13, a14, a15, a16⟩ := hn
    unfold convertFromRGBA32F
    rw [if_neg a1, if_neg a2, if_neg a3, if_neg a4, if_neg (fun h => a5 h.2),
      if_neg (fun h => a6 h.2), if_neg (fun h => a7 h.2), if_neg (fun h => a8 h.2),
      if_neg a9, if_neg a10, if_neg a11, if_neg a12, if_neg a13, if_neg a14, if_neg a15,
      if_neg a16]

theorem convertPixel_snd (haveExr : Bool) (src : Buffer) (inFormat outFormat : Int)
    (hin : supportedFormat haveExr inFormat) (i : Nat) (st : Scratch × Buffer) :
    (convertPixel haveExr src
      (decide ((AIGetFormatDetails inFormat).floatOrInt = FITYPE_FLOAT))
      (decide ((AIGetFormatDetails outFormat).floatOrInt = FITYPE_FLOAT))
      inFormat outFormat i st).2
      = convertFromRGBA32F haveExr (pivotPixel src inFormat outFormat i) st.2 i outFormat := by
  unfold convertPixel pivotPixel clamps
  simp only [convertToRGBA32F_eq_canonical haveExr src st.1 i inFormat hin.1 hin.2]

theorem convertLoop_cell (haveExr : Bool) (src : Buffer) (inFormat outFormat : Int)
    (hin : supportedFormat haveExr inFormat) (hout : supportedFormat haveExr outFormat)
    (n : Nat) (st : Scratch × Buffer) (e : Elem) (k : Nat) :
    (convertLoop haveExr src
      (decide ((AIGetFormatDetails inFormat).floatOrInt = FITYPE_FLOAT))
      (decide ((AIGetFormatDetails outFormat).floatOrInt = FITYPE_FLOAT))
      inFormat outFormat n st).2.cell e k
      = if e = elemOf outFormat ∧ k < n * channelsOf outFormat then
          encode (elemOf outFormat)
            ((pivotPixel src inFormat outFormat (k / channelsOf outFormat)).get
              (k % channelsOf outFormat))
        else st.2.cell e k := by
  obtain ⟨hc1, hc4⟩ := channelsOf_range outFormat hout.1
  induction n with
  | zero => simp [convertLoop]
  | succ n ih =>
    rw [convertLoop, convertPixel_snd haveExr src inFormat outFormat hin,
      convertFromRGBA32F_cell haveExr _ _ n outFormat hout, ih]
    generalize channelsOf outFormat = c at *
    by_cases he : e = elemOf outFormat
    · simp only [he, true_and]
      by_cases h1 : k < n * c
      · have h2 : ¬ (n * c ≤ k ∧ k < n * c + c) := by omega
        have h3 : k < (n + 1) * c := by nlinarith
        rw [if_neg h2, if_pos h1, if_pos h3]
      · by_cases h2 : k < n * c + c
        · have h3 : k < (n + 1) * c := by nlinarith
          have h4 : k / c = n := by
            apply Nat.div_eq_of_lt_le
            · rw [Nat.mul_comm] at *; omega
            · rw [Nat.mul_comm]; nlinarith
          have h5 : k % c = k - n * c := by
            have := Nat.div_add_mod k c
            rw [h4] at this
            rw [Nat.mul_comm] at this
            omega
          rw [if_pos ⟨by omega, h2⟩, if_pos h3, h4, h5]
        · have h3 : ¬ k < (n + 1) * c := by nlinarith
          rw [if_neg (by omega), if_neg h1, if_neg h3]
    · simp only [he, false_and, if_false]

theorem guard_false (haveExr : Bool) (inFormat outFormat : Int)
    (hin : haveExr = true ∨ inFormat ∉ halfFormats)
    (hout : haveExr = true ∨ outFormat ∉ halfFormats) :
    ¬ (haveExr = false ∧
      (inFormat = R16F ∨ inFormat = RG16F ∨ inFormat = RGB16F ∨ inFormat = RGBA16F ∨
       outFormat = R16F ∨ outFormat = RG16F ∨ outFormat = RGB16F ∨ outFormat = RGBA16F)) := by
  rintro ⟨hE, h⟩
  subst hE
  have h1 : inFormat ∉ halfFormats := by
    rcases hin with h | h
    · exact absurd h (by decide)
    · exact h
  have h2 : outFormat ∉ halfFormats := by
    rcases hout with h | h
    · exact absurd h (by decide)
    · exact h
  simp only [halfFormats, List.mem_cons, List.mem_singleton, List.not_mem_nil, or_false,
    not_or] at h1 h2
  tauto

theorem guard_true (inFormat outFormat : Int)
    (h : inFormat ∈ halfFormats ∨ outFormat ∈ halfFormats) :
    (false = false ∧
      (inFormat = R16F ∨ inFormat = RG16F ∨ inFormat = RGB16F ∨ inFormat = RGBA16F ∨
       outFormat = R16F ∨ outFormat = RG16F ∨ outFormat = RGB16F ∨ outFormat = RGBA16F)) := by
  simp only [halfFormats, List.mem_cons, List.mem_singleton, List.not_mem_nil, or_false] at h
  refine ⟨rfl, ?_⟩
  tauto

/-- what `AImgConvertFormat` leaves in the destination between two supported formats -/
theorem AImgConvertFormat_cell (haveExr : Bool) (src dest : Buffer) (width height : Int)
    (inFormat outFormat : Int)
    (hin : supportedFormat haveExr inFormat) (hout : supportedFormat haveExr outFormat) :
    (AImgConvertFormat haveExr src dest width height inFormat outFormat).1 = AIMG_SUCCESS ∧
    ∀ e k, (AImgConvertFormat haveExr src dest width height inFormat outFormat).2.cell e k
      = if e = elemOf outFormat ∧ k < pixelCount width height * channelsOf outFormat then
          encode (elemOf outFormat)
            ((pivotPixel src inFormat outFormat (k / channelsOf outFormat)).get
              (k % channelsOf outFormat))
        else dest.cell e k := by
  unfold AImgConvertFormat
  rw [if_neg (guard_false haveExr inFormat outFormat hin.2 hout.2)]
  refine ⟨rfl, ?_⟩
  intro e k
  exact convertLoop_cell haveExr src inFormat outFormat hin hout _ _ e k

theorem convertLoop_unsupported_out (haveExr : Bool) (src : Buffer) (a b : Bool)
    (inFormat outFormat : Int) (hout : ¬ supportedFormat haveExr outFormat)
    (n : Nat) (st : Scratch × Buffer) :
    (convertLoop haveExr src a b inFormat outFormat n st).2 = st.2 := by
  induction n with
  | zero => rfl
  | succ n ih =>
    rw [convertLoop]
    unfold convertPixel
    simp only [convertFromRGBA32F_unsupported haveExr _ _ n outFormat hout, ih]

theorem convertLoop_frame (haveExr : Bool) (src : Buffer) (a b : Bool)
    (inFormat outFormat : Int) (hout : supportedFormat haveExr outFormat)
    (n : Nat) (st : Scratch × Buffer) (e : Elem) (k : Nat)
    (hk : ¬ (e = elemOf outFormat ∧ k < n * channelsOf outFormat)) :
    (convertLoop haveExr src a b inFormat outFormat n st).2.cell e k = st.2.cell e k := by
  induction n with
  | zero => rfl
  | succ n ih =>
    rw [convertLoop]
    unfold convertPixel
    simp only
    rw [convertFromRGBA32F_cell haveExr _ _ n outFormat hout]
    have h1 : ¬ (e = elemOf outFormat ∧ n * channelsOf outFormat ≤ k ∧
        k < n * channelsOf outFormat + channelsOf outFormat) := by
      rintro ⟨h2, h3, h4⟩
      exact hk ⟨h2, by nlinarith⟩
    rw [if_neg h1]
    apply ih
    rintro ⟨h2, h3⟩
    exact hk ⟨h2, by nlinarith⟩

theorem index_div (i j c : Nat) (h : j < c) : (i * c + j) / c = i := by
  have hc : 0 < c := by omega
  rw [Nat.mul_comm, Nat.mul_add_div hc, Nat.div_eq_of_lt h, Nat.add_zero]

theorem index_mod (i j c : Nat) (h : j < c) : (i * c + j) % c = j := by
  rw [Nat.mul_comm, Nat.mul_add_mod, Nat.mod_eq_of_lt h]

theorem index_lt (i j c n : Nat) (hi : i < n) (hj : j < c) : i * c + j < n * c := by
  have : (i + 1) * c ≤ n * c := Nat.mul_le_mul_right c hi
  nlinarith

theorem clampScratch_get (s : Scratch) (j : Nat) :
    (clampScratch s).get j = clamp01 (s.get j) := by
  unfold clampScratch Scratch.get
  split <;> rfl

/-- the clamp yields a finite, non-negative value of at most one -/
theorem clamp01_fin (x : F32) : ∃ m, m ≤ F32.unit ∧ clamp01 x = F32.fin false m := by
  have hu := unit_pos
  cases x with
  | nan => exact ⟨0, Nat.zero_le _, by simp [clamp01, F32.max, F32.min, F32.lt, F32.zero, F32.one, F32.signed, hu]⟩
  | inf s =>
    cases s
    · exact ⟨F32.unit, le_refl _, by simp [clamp01, F32.max, F32.min, F32.lt, F32.zero, F32.one]⟩
    · exact ⟨0, Nat.zero_le _, by simp [clamp01, F32.max, F32.min, F32.lt, F32.zero, F32.one, F32.signed, hu]⟩
  | fin s m =>
    cases s
    · by_cases h0 : 0 < m
      · by_cases h1 : m < F32.unit
        · exact ⟨m, le_of_lt h1, by simp [clamp01, F32.max, F32.min, F32.lt, F32.zero, F32.one, F32.signed, h0, h1]⟩
        · exact ⟨F32.unit, le_refl _, by simp [clamp01, F32.max, F32.min, F32.lt, F32.zero, F32.one, F32.signed, h0, h1]⟩
      · exact ⟨0, Nat.zero_le _, by simp [clamp01, F32.max, F32.min, F32.lt, F32.zero, F32.one, F32.signed, h0, hu]⟩
    · have hn : ¬ ((m : Int) < 0) := by omega
      exact ⟨0, Nat.zero_le _, by simp [clamp01, F32.max, F32.min, F32.lt, F32.zero, F32.one, F32.signed, hu, hn]⟩

theorem clamp01_of_one_le (x : F32) (h : F32.le F32.one x = true) : clamp01 x = F32.one := by
  have hu := unit_pos
  cases x with
  | nan => simp [F32.le, F32.one] at h
  | inf s =>
    cases s
    · simp [clamp01, F32.max, F32.min, F32.lt, F32.zero, F32.one]
    · simp [F32.le, F32.one] at h
  | fin s m =>
    cases s
    · simp [F32.le, F32.one, F32.signed] at h
      have h1 : F32.unit ≤ m := h
      have h0 : 0 < m := by omega
      have h2 : ¬ m < F32.unit := by omega
      simp [clamp01, F32.max, F32.min, F32.lt, F32.zero, F32.one, F32.signed, h0, h2]
    · simp [F32.le, F32.one, F32.signed] at h
      have : (0 : Int) < (F32.unit : Int) := by exact_mod_cast hu
      omega

theorem clamp01_of_le_zero (x : F32) (h : F32.le x F32.zero = true) : clamp01 x = F32.zero := by
  have hu := unit_pos
  cases x with
  | nan => simp [F32.le] at h
  | inf s =>
    cases s
    · simp [F32.le, F32.zero] at h
    · simp [clamp01, F32.max, F32.min, F32.lt, F32.zero, F32.one, F32.signed, hu]
  | fin s m =>
    cases s
    · simp only [F32.le, F32.zero, F32.signed, decide_eq_true_eq] at h
      have h0 : ¬ 0 < m := by
        simp at h
        omega
      simp [clamp01, F32.max, F32.min, F32.lt, F32.zero, F32.one, F32.signed, h0, hu]
    · have hn : ¬ ((m : Int) < 0) := by omega
      simp [clamp01, F32.max, F32.min, F32.lt, F32.zero, F32.one, F32.signed, hu, hn]

/-- a value of at most one times an integer constant is at most that constant -/
theorem mul_ofUInt_bound (m M : Nat) (hm : m ≤ F32.unit) (hM : M < 2 ^ 20) :
    ∃ r, r ≤ M * F32.unit ∧ F32.mul (F32.fin false m) (F32.ofUInt M) = F32.fin false r := by
  have hu := unit_pos
  have hle : m * (M * F32.unit) ≤ M * F32.unit * F32.unit := by
    calc m * (M * F32.unit) ≤ F32.unit * (M * F32.unit) := Nat.mul_le_mul_right _ hm
      _ = M * F32.unit * F32.unit := by ring
  have hq : m * (M * F32.unit) / F32.unit < 2 ^ (168 + 1) := by
    have h1 : m * (M * F32.unit) / F32.unit = m * M := by
      rw [← Nat.mul_assoc]
      exact Nat.mul_div_cancel _ hu
    rw [h1]
    calc m * M ≤ F32.unit * M := Nat.mul_le_mul_right _ hm
      _ < F32.unit * 2 ^ 20 := Nat.mul_lt_mul_of_pos_left hM hu
      _ = 2 ^ (168 + 1) := by unfold F32.unit; rw [← Nat.pow_add]
  have hlog := ilog2_le hq
  have hdvd : 2 ^ (ilog2 (m * (M * F32.unit) / F32.unit) - (24 - 1)) ∣ M * F32.unit := by
    have h1 : ilog2 (m * (M * F32.unit) / F32.unit) - (24 - 1) ≤ 149 := by omega
    exact Dvd.dvd.mul_left (Nat.pow_dvd_pow 2 h1) M
  have hr := roundUnits_le hu hle hdvd
  refine ⟨_, hr, ?_⟩
  have hfin : F32.ofMag false (roundUnits 24 (m * (M * F32.unit)) F32.unit)
      = F32.fin false (roundUnits 24 (m * (M * F32.unit)) F32.unit) :=
    ofMag_fin_of_le hr (lt_trans hM (by decide))
  simp [F32.mul, F32.ofUInt, hfin]

theorem toUInt_fin_of_le (bits r M : Nat) (hr : r ≤ M * F32.unit) (hM : M < 2 ^ bits) :
    F32.toUInt bits (F32.fin false r) = r / F32.unit ∧ r / F32.unit ≤ M := by
  have hu := unit_pos
  have h1 : r / F32.unit ≤ M := by
    calc r / F32.unit ≤ M * F32.unit / F32.unit := Nat.div_le_div_right hr
      _ = M := Nat.mul_div_cancel _ hu
  refine ⟨?_, h1⟩
  simp only [F32.toUInt, Bool.false_eq_true, if_false]
  exact Nat.mod_eq_of_lt (lt_of_le_of_lt h1 hM)

theorem mul_one_c255 : (F32.mul F32.one F32.c255).toU8 = 255 := by decide!

theorem mul_one_c65535 : (F32.mul F32.one F32.c65535).toU16 = 65535 := by decide!

theorem mul_zero_c255 : (F32.mul F32.zero F32.c255).toU8 = 0 := by decide!

theorem mul_zero_c65535 : (F32.mul F32.zero F32.c65535).toU16 = 0 := by decide!

/-- the stored integer of a clamped value: the scaled value is a finite non-negative
`float` of at most the maximum, so the cast truncates it without wrapping -/
theorem encode_clamp01 (e : Elem) (he : e = Elem.u8 ∨ e = Elem.u16) (v : F32) :
    (∃ r, F32.mul (clamp01 v) (F32.ofUInt (maxValue e)) = F32.fin false r ∧
      r ≤ maxValue e * F32.unit ∧ (encode e (clamp01 v)).intValue = r / F32.unit) ∧
    (encode e (clamp01 v)).intValue ≤ maxValue e ∧
    (F32.le F32.one v = true → (encode e (clamp01 v)).intValue = maxValue e) ∧
    (F32.le v F32.zero = true → (encode e (clamp01 v)).intValue = 0) := by
  obtain ⟨m, hm, hc⟩ := clamp01_fin v
  rcases he with rfl | rfl
  · obtain ⟨r, hr, hmul⟩ := mul_ofUInt_bound m 255 hm (by decide)
    obtain ⟨ht, hle⟩ := toUInt_fin_of_le 8 r 255 hr (by decide)
    have hval : (encode Elem.u8 (clamp01 v)).intValue = r / F32.unit := by
      show (F32.toUInt 8 (F32.mul (clamp01 v) (F32.ofUInt 255))) % 256 = r / F32.unit
      rw [hc, hmul, ht]
      exact Nat.mod_eq_of_lt (by omega)
    refine ⟨⟨r, by rw [hc]; exact hmul, hr, hval⟩, by rw [hval]; exact hle, ?_, ?_⟩
    · intro h
      rw [clamp01_of_one_le v h]
      show ((F32.mul F32.one F32.c255).toU8 : Nat) = 255
      rw [mul_one_c255]; rfl
    · intro h
      rw [clamp01_of_le_zero v h]
      show ((F32.mul F32.zero F32.c255).toU8 : Nat) = 0
      rw [mul_zero_c255]; rfl
  · obtain ⟨r, hr, hmul⟩ := mul_ofUInt_bound m 65535 hm (by decide)
    obtain ⟨ht, hle⟩ := toUInt_fin_of_le 16 r 65535 hr (by decide)
    have hval : (encode Elem.u16 (clamp01 v)).intValue = r / F32.unit := by
      show (F32.toUInt 16 (F32.mul (clamp01 v) (F32.ofUInt 65535))) % 65536 = r / F32.unit
      rw [hc, hmul, ht]
      exact Nat.mod_eq_of_lt (by omega)
    refine ⟨⟨r, by rw [hc]; exact hmul, hr, hval⟩, by rw [hval]; exact hle, ?_, ?_⟩
    · intro h
      rw [clamp01_of_one_le v h]
      show ((F32.mul F32.one F32.c65535).toU16 : Nat) = 65535
      rw [mul_one_c65535]; rfl
    · intro h
      rw [clamp01_of_le_zero v h]
      show ((F32.mul F32.zero F32.c65535).toU16 : Nat) = 0
      rw [mul_zero_c65535]; rfl

theorem elemOf_of_int (f : Int) (h : (AIGetFormatDetails f).floatOrInt = FITYPE_INT) :
    elemOf f = Elem.u8 ∨ elemOf f = Elem.u16 := by
  unfold elemOf
  rw [if_neg (by rw [h]; decide)]
  split_ifs
  · exact Or.inl rfl
  · exact Or.inr rfl

theorem clamps_of_float_int (inFormat outFormat : Int)
    (hin : (AIGetFormatDetails inFormat).floatOrInt = FITYPE_FLOAT)
    (hout : (AIGetFormatDetails outFormat).floatOrInt = FITYPE_INT) :
    clamps inFormat outFormat = true := by
  simp [clamps, hin, hout]

/-- C2 (amended): for every float input format and every integer output format that the
build supports (half formats need `HAVE_EXR`) and every canonical input channel value `v`
(also above 1, below 0, infinite or NaN), `AImgConvertFormat` succeeds and the channel it
writes lies within `0..max` of the output format: the scaled value is a finite
non-negative `float` of at most `max`, so the cast does not wrap; the written value is
`max` when `v >= 1` and `0` when `v <= 0`. -/
theorem C2_float_to_integer_in_range (haveExr : Bool) (src dest : Buffer)
    (width height : Int) (inFormat outFormat : Int)
    (hin : supportedFormat haveExr inFormat) (hout : supportedFormat haveExr outFormat)
    (hfl : (AIGetFormatDetails inFormat).floatOrInt = FITYPE_FLOAT)
    (hint : (AIGetFormatDetails outFormat).floatOrInt = FITYPE_INT)
    (i j : Nat) (hi : i < pixelCount width height) (hj : j < channelsOf outFormat) :
    (AImgConvertFormat haveExr src dest width height inFormat outFormat).1 = AIMG_SUCCESS ∧
    (∃ r, F32.mul (clamp01 ((canonicalPixel src inFormat i).get j))
          (F32.ofUInt (maxValue (elemOf outFormat))) = F32.fin false r ∧
        r ≤ maxValue (elemOf outFormat) * F32.unit ∧
        ((AImgConvertFormat haveExr src dest width height inFormat outFormat).2.cell
          (elemOf outFormat) (i * channelsOf outFormat + j)).intValue = r / F32.unit) ∧
    ((AImgConvertFormat haveExr src dest width height inFormat outFormat).2.cell
        (elemOf outFormat) (i * channelsOf outFormat + j)).intValue
      ≤ maxValue (elemOf outFormat) ∧
    (F32.le F32.one ((canonicalPixel src inFormat i).get j) = true →
      ((AImgConvertFormat haveExr src dest width height inFormat outFormat).2.cell
        (elemOf outFormat) (i * channelsOf outFormat + j)).intValue
        = maxValue (elemOf outFormat)) ∧
    (F32.le ((canonicalPixel src inFormat i).get j) F32.zero = true →
      ((AImgConvertFormat haveExr src dest width height inFormat outFormat).2.cell
        (elemOf outFormat) (i * channelsOf outFormat + j)).intValue = 0) := by
  obtain ⟨hs, hcell⟩ := AImgConvertFormat_cell haveExr src dest width height inFormat
    outFormat hin hout
  refine ⟨hs, ?_⟩
  rw [hcell, if_pos ⟨rfl, index_lt i j _ _ hi hj⟩, index_div i j _ hj, index_mod i j _ hj]
  have hp : (pivotPixel src inFormat outFormat i).get j
      = clamp01 ((canonicalPixel src inFormat i).get j) := by
    unfold pivotPixel
    rw [if_pos (clamps_of_float_int inFormat outFormat hfl hint), clampScratch_get]
  rw [hp]
  exact encode_clamp01 (elemOf outFormat) (elemOf_of_int outFormat hint) _

/-- C2, witness: scenario 4 of the specification, `RGBA32F [1.2, -0.3, 0.5, 2.0]` to
`RGBA8U`, whose four written channels are `[255, 0, 127, 255]`. -/
theorem C2_witness :
    (supportedFormat true RGBA32F ∧ supportedFormat true RGBA8U ∧
      (AIGetFormatDetails RGBA32F).floatOrInt = FITYPE_FLOAT ∧
      (AIGetFormatDetails RGBA8U).floatOrInt = FITYPE_INT ∧
      0 < pixelCount 1 1 ∧ 3 < channelsOf RGBA8U) ∧
    ((AImgConvertFormat true scenario4 (bufferOfU8 []) 1 1 RGBA32F RGBA8U).2.cell
        (elemOf RGBA8U) (0 * channelsOf RGBA8U + 3)).intValue ≤ maxValue (elemOf RGBA8U) ∧
    (AImgConvertFormat true scenario4 (bufferOfU8 []) 1 1 RGBA32F RGBA8U).1 = AIMG_SUCCESS ∧
    (AImgConvertFormat true scenario4 (bufferOfU8 []) 1 1 RGBA32F RGBA8U).2.u8 0 = 255 ∧
    (AImgConvertFormat true scenario4 (bufferOfU8 []) 1 1 RGBA32F RGBA8U).2.u8 1 = 0 ∧
    (AImgConvertFormat true scenario4 (bufferOfU8 []) 1 1 RGBA32F RGBA8U).2.u8 2 = 127 ∧
    (AImgConvertFormat true scenario4 (bufferOfU8 []) 1 1 RGBA32F RGBA8U).2.u8 3 = 255 :=
  ⟨by decide,
   (C2_float_to_integer_in_range true scenario4 (bufferOfU8 []) 1 1 RGBA32F RGBA8U
      (by decide) (by decide) (by decide) (by decide) 0 3 (by decide) (by decide)).2.2.1,
   by decide!, by decide!, by decide!, by decide!, by decide!⟩

/-- C2, counterexample: in a build without `HAVE_EXR` the float input format `R16F` is
refused; for the stored value 2.0 (which is at least 1) the destination channel is not
set to the maximum 255, it keeps its old value 7. -/
theorem C2_counterexample :
    R16F ∈ namedFormats ∧ (AIGetFormatDetails R16F).floatOrInt = FITYPE_FLOAT ∧
    (AIGetFormatDetails R8U).floatOrInt = FITYPE_INT ∧
    F32.le F32.one ((canonicalPixel (bufferOfF16 [Half.fin false (2 ^ 25)]) R16F 0).get 0)
      = true ∧
    (AImgConvertFormat false (bufferOfF16 [Half.fin false (2 ^ 25)]) (bufferOfU8 [7]) 1 1
      R16F R8U).1 = AIMG_CONVERSION_FAILED_BAD_FORMAT ∧
    (AImgConvertFormat false (bufferOfF16 [Half.fin false (2 ^ 25)]) (bufferOfU8 [7]) 1 1
      R16F R8U).2.u8 0 = 7 := by
  refine ⟨by decide, by decide, by decide, by decide!, by decide!, by decide!⟩

theorem roundNE_exact (q d : Nat) (hd : 0 < d) : roundNE (q * d) d = q :=
  roundNE_mul q d hd

/-- a magnitude on the grid of its own binade is its own rounding -/
theorem roundUnits_exact (p h k : Nat) (hk : 0 < k) (hw : h % 2 ^ (ilog2 h - (p - 1)) = 0) :
    roundUnits p (h * k) k = h := by
  unfold roundUnits
  simp only
  rw [Nat.mul_div_cancel _ hk]
  obtain ⟨q, hq⟩ := Nat.dvd_of_mod_eq_zero hw
  have hpos : 0 < k * 2 ^ (ilog2 h - (p - 1)) := Nat.mul_pos hk (by positivity)
  have h1 : h * k = q * (k * 2 ^ (ilog2 h - (p - 1))) := by
    conv_lhs => rw [hq]
    ring
  rw [h1, roundNE_exact _ _ hpos]
  conv_rhs => rw [hq]
  ring

theorem Half.ofFloat_toFloat (h : Half) (hw : h.wf) : Half.ofFloat (Half.toFloat h) = h := by
  cases h with
  | nan => rfl
  | inf s => rfl
  | fin s m =>
    obtain ⟨h1, h2⟩ := hw
    have hr : roundUnits 11 (m * 2 ^ 125) (2 ^ 125) = m :=
      roundUnits_exact 11 m (2 ^ 125) (by positivity) h2
    simp only [Half.toFloat, Half.ofFloat, hr]
    rw [if_pos h1]

theorem canonicalPixel_get (src : Buffer) (f : Int) (hf : f ∈ namedFormats) (i j : Nat)
    (hj : j < channelsOf f) :
    (canonicalPixel src f i).get j = channelValue src f (i * channelsOf f + j) := by
  obtain ⟨h1, h4⟩ := channelsOf_range f hf
  unfold canonicalPixel
  have hc : channelsOf f = 1 ∨ channelsOf f = 2 ∨ channelsOf f = 3 ∨ channelsOf f = 4 := by
    omega
  rcases hc with hc | hc | hc | hc <;> rw [hc] at hj ⊢ <;> simp only
  · have : j = 0 := by omega
    subst this; rfl
  · have : j = 0 ∨ j = 1 := by omega
    rcases this with rfl | rfl <;> rfl
  · have : j = 0 ∨ j = 1 ∨ j = 2 := by omega
    rcases this with rfl | rfl | rfl <;> rfl
  · have : j = 0 ∨ j = 1 ∨ j = 2 ∨ j = 3 := by omega
    rcases this with rfl | rfl | rfl | rfl <;> rfl

theorem kind_of_named (f : Int) (hf : f ∈ namedFormats) :
    (AIGetFormatDetails f).floatOrInt = FITYPE_FLOAT ∨
    (AIGetFormatDetails f).floatOrInt = FITYPE_INT := by
  simp only [namedFormats, List.mem_cons, List.mem_singleton, List.not_mem_nil, or_false] at hf
  rcases hf with rfl | rfl | rfl | rfl | rfl | rfl | rfl | rfl | rfl | rfl | rfl | rfl |
    rfl | rfl | rfl | rfl <;> decide

theorem clamps_iff (inFormat outFormat : Int) (hout : outFormat ∈ namedFormats) :
    clamps inFormat outFormat = true ↔
      ((AIGetFormatDetails inFormat).floatOrInt = FITYPE_FLOAT ∧
       (AIGetFormatDetails outFormat).floatOrInt = FITYPE_INT) := by
  unfold clamps
  rcases kind_of_named outFormat hout with h | h <;> simp [h]

theorem channelValue_f16 (src : Buffer) (f : Int) (k : Nat) (h : elemOf f = Elem.f16) :
    channelValue src f k = (src.f16 k).toFloat := by
  unfold channelValue; rw [h]

theorem channelValue_f32 (src : Buffer) (f : Int) (k : Nat) (h : elemOf f = Elem.f32) :
    channelValue src f k = src.f32 k := by
  unfold channelValue; rw [h]

theorem cell_f32 (b : Buffer) (k : Nat) (x : F32) (h : b.cell Elem.f32 k = Cell.f32 x) :
    b.f32 k = x := by
  simpa [Buffer.cell] using h

theorem cell_f16 (b : Buffer) (k : Nat) (x : Half) (h : b.cell Elem.f16 k = Cell.f16 x) :
    b.f16 k = x := by
  simpa [Buffer.cell] using h

/-- C3 (amended): between formats the build supports `AImgConvertFormat` succeeds and
encodes, for each pixel, the canonical pixel clamped to `[0,1]` exactly when the input
format is float and the output format is integer, and the unclamped canonical pixel in
every other case (so no clamping step is applied to integer inputs).  In a float-to-float
conversion every channel present in both formats is written unscaled and unclamped: a
32-bit float output holds the input value itself, a half output holds a half input
unchanged and holds a 32-bit float input converted to `half`, that is rounded to the
nearest binary16 value. -/
theorem C3_clamping_and_float_passthrough (haveExr : Bool) (src dest : Buffer)
    (width height : Int) (inFormat outFormat : Int)
    (hin : supportedFormat haveExr inFormat) (hout : supportedFormat haveExr outFormat) :
    (AImgConvertFormat haveExr src dest width height inFormat outFormat).1 = AIMG_SUCCESS ∧
    (∀ e k, (AImgConvertFormat haveExr src dest width height inFormat outFormat).2.cell e k
      = if e = elemOf outFormat ∧ k < pixelCount width height * channelsOf outFormat then
          encode (elemOf outFormat)
            ((if (AIGetFormatDetails inFormat).floatOrInt = FITYPE_FLOAT ∧
                  (AIGetFormatDetails outFormat).floatOrInt = FITYPE_INT
              then clampScratch (canonicalPixel src inFormat (k / channelsOf outFormat))
              else canonicalPixel src inFormat (k / channelsOf outFormat)).get
              (k % channelsOf outFormat))
        else dest.cell e k) ∧
    ((AIGetFormatDetails inFormat).floatOrInt = FITYPE_FLOAT →
      (AIGetFormatDetails outFormat).floatOrInt = FITYPE_FLOAT →
      ∀ i j, i < pixelCount width height → j < channelsOf inFormat →
        j < channelsOf outFormat →
        (elemOf outFormat = Elem.f32 →
          (AImgConvertFormat haveExr src dest width height inFormat outFormat).2.f32
              (i * channelsOf outFormat + j)
            = channelValue src inFormat (i * channelsOf inFormat + j)) ∧
        (elemOf outFormat = Elem.f16 → elemOf inFormat = Elem.f16 →
          (src.f16 (i * channelsOf inFormat + j)).wf →
          (AImgConvertFormat haveExr src dest width height inFormat outFormat).2.f16
              (i * channelsOf outFormat + j)
            = src.f16 (i * channelsOf inFormat + j)) ∧
        (elemOf outFormat = Elem.f16 → elemOf inFormat = Elem.f32 →
          (AImgConvertFormat haveExr src dest width height inFormat outFormat).2.f16
              (i * channelsOf outFormat + j)
            = Half.ofFloat (src.f32 (i * channelsOf inFormat + j)))) := by
  obtain ⟨hs, hcell⟩ := AImgConvertFormat_cell haveExr src dest width height inFormat
    outFormat hin hout
  have hpiv : ∀ i, pivotPixel src inFormat outFormat i
      = if (AIGetFormatDetails inFormat).floatOrInt = FITYPE_FLOAT ∧
            (AIGetFormatDetails outFormat).floatOrInt = FITYPE_INT
        then clampScratch (canonicalPixel src inFormat i)
        else canonicalPixel src inFormat i := by
    intro i
    unfold pivotPixel
    by_cases hc : clamps inFormat outFormat = true
    · rw [if_pos hc, if_pos ((clamps_iff inFormat outFormat hout.1).mp hc)]
    · rw [if_neg hc, if_neg (fun h => hc ((clamps_iff inFormat outFormat hout.1).mpr h))]
  refine ⟨hs, ?_, ?_⟩
  · intro e k
    rw [hcell, hpiv]
  · intro hfi hfo i j hi hji hjo
    have hno : ¬ ((AIGetFormatDetails inFormat).floatOrInt = FITYPE_FLOAT ∧
        (AIGetFormatDetails outFormat).floatOrInt = FITYPE_INT) := by
      rintro ⟨_, h⟩
      rw [hfo] at h
      exact absurd h (by decide)
    have hc := hcell (elemOf outFormat) (i * channelsOf outFormat + j)
    rw [if_pos ⟨rfl, index_lt i j _ _ hi hjo⟩, index_div i j _ hjo, index_mod i j _ hjo,
      hpiv, if_neg hno, canonicalPixel_get src inFormat hin.1 i j hji] at hc
    refine ⟨?_, ?_, ?_⟩
    · intro ho
      rw [ho] at hc
      exact cell_f32 _ _ _ hc
    · intro ho hi16 hw
      rw [ho, channelValue_f16 src inFormat _ hi16] at hc
      have := cell_f16 _ _ _ hc
      rw [this, Half.ofFloat_toFloat _ hw]
    · intro ho hi32
      rw [ho, channelValue_f32 src inFormat _ hi32] at hc
      exact cell_f16 _ _ _ hc

/-- C3, witness: the amended statement at the conversion of one `RG32F` pixel to
`RGBA32F`. -/
theorem C3_witness :
    (supportedFormat false RG32F ∧ supportedFormat false RGBA32F) ∧
    (AImgConvertFormat false scenario4 (bufferOfF32 []) 1 1 RG32F RGBA32F).1
      = AIMG_SUCCESS ∧
    (AImgConvertFormat false scenario4 (bufferOfF32 []) 1 1 RG32F RGBA32F).2.f32 1
      = F32.fin true (10066330 * 2 ^ 124) :=
  ⟨by decide,
   (C3_clamping_and_float_passthrough false scenario4 (bufferOfF32 []) 1 1 RG32F RGBA32F
      (by decide) (by decide)).1,
   ((C3_clamping_and_float_passthrough false scenario4 (bufferOfF32 []) 1 1 RG32F RGBA32F
      (by decide) (by decide)).2.2 (by decide) (by decide) 0 1 (by decide) (by decide)
      (by decide)).1 (by decide)⟩

/-- C3, counterexample: with `HAVE_EXR`, converting the `R32F` value `0.1f` to `R16F` is a
float-to-float conversion that succeeds, yet the channel written is the half
`0.0999755859375`, whose value is not the input value. -/
theorem C3_counterexample :
    supportedFormat true R32F ∧ supportedFormat true R16F ∧
    (AIGetFormatDetails R32F).floatOrInt = FITYPE_FLOAT ∧
    (AIGetFormatDetails R16F).floatOrInt = FITYPE_FLOAT ∧
    (AImgConvertFormat true (bufferOfF32 [F32.fin false (13421773 * 2 ^ 122)])
      (bufferOfF16 []) 1 1 R32F R16F).1 = AIMG_SUCCESS ∧
    (AImgConvertFormat true (bufferOfF32 [F32.fin false (13421773 * 2 ^ 122)])
      (bufferOfF16 []) 1 1 R32F R16F).2.f16 0 = Half.fin false 1677312 ∧
    (Half.fin false 1677312).toFloat ≠ F32.fin false (13421773 * 2 ^ 122) := by
  refine ⟨by decide, by decide, by decide, by decide, by decide!, by decide!, by decide!⟩

theorem clamp01_one : clamp01 F32.one = F32.one := by decide

theorem encode_one (e : Elem) : encode e F32.one = opaqueCell e := by
  cases e <;> decide!

theorem pivotPixel_one_channel (src : Buffer) (inFormat outFormat : Int) (i : Nat)
    (hc : channelsOf inFormat = 1) :
    (pivotPixel src inFormat outFormat i).get 1 = (pivotPixel src inFormat outFormat i).get 0 ∧
    (pivotPixel src inFormat outFormat i).get 2 = (pivotPixel src inFormat outFormat i).get 0 ∧
    (pivotPixel src inFormat outFormat i).get 3 = F32.one := by
  unfold pivotPixel canonicalPixel
  rw [hc]
  split_ifs
  · exact ⟨rfl, rfl, clamp01_one⟩
  · exact ⟨rfl, rfl, rfl⟩

/-- C4 (amended): for every 1-channel input format and every 4-channel output format that
the build supports (half formats need `HAVE_EXR`) and every pixel, `AImgConvertFormat`
succeeds and writes equal R, G and B values and a fully opaque alpha: 1.0 for float
outputs, the maximum 255 or 65535 for integer outputs. -/
theorem C4_channel_expansion (haveExr : Bool) (src dest : Buffer) (width height : Int)
    (inFormat outFormat : Int)
    (hin : supportedFormat haveExr inFormat) (hout : supportedFormat haveExr outFormat)
    (h1 : channelsOf inFormat = 1) (h4 : channelsOf outFormat = 4)
    (i : Nat) (hi : i < pixelCount width height) :
    (AImgConvertFormat haveExr src dest width height inFormat outFormat).1 = AIMG_SUCCESS ∧
    (AImgConvertFormat haveExr src dest width height inFormat outFormat).2.cell
        (elemOf outFormat) (i * 4 + 1)
      = (AImgConvertFormat haveExr src dest width height inFormat outFormat).2.cell
        (elemOf outFormat) (i * 4 + 0) ∧
    (AImgConvertFormat haveExr src dest width height inFormat outFormat).2.cell
        (elemOf outFormat) (i * 4 + 2)
      = (AImgConvertFormat haveExr src dest width height inFormat outFormat).2.cell
        (elemOf outFormat) (i * 4 + 0) ∧
    (AImgConvertFormat haveExr src dest width height inFormat outFormat).2.cell
        (elemOf outFormat) (i * 4 + 3) = opaqueCell (elemOf outFormat) := by
  obtain ⟨hs, hcell⟩ := AImgConvertFormat_cell haveExr src dest width height inFormat
    outFormat hin hout
  obtain ⟨p1, p2, p3⟩ := pivotPixel_one_channel src inFormat outFormat i h1
  rw [h4] at hcell
  have e0 := hcell (elemOf outFormat) (i * 4 + 0)
  have e1 := hcell (elemOf outFormat) (i * 4 + 1)
  have e2 := hcell (elemOf outFormat) (i * 4 + 2)
  have e3 := hcell (elemOf outFormat) (i * 4 + 3)
  rw [if_pos ⟨rfl, index_lt i 0 4 _ hi (by decide)⟩, index_div i 0 4 (by decide),
    index_mod i 0 4 (by decide)] at e0
  rw [if_pos ⟨rfl, index_lt i 1 4 _ hi (by decide)⟩, index_div i 1 4 (by decide),
    index_mod i 1 4 (by decide), p1] at e1
  rw [if_pos ⟨rfl, index_lt i 2 4 _ hi (by decide)⟩, index_div i 2 4 (by decide),
    index_mod i 2 4 (by decide), p2] at e2
  rw [if_pos ⟨rfl, index_lt i 3 4 _ hi (by decide)⟩, index_div i 3 4 (by decide),
    index_mod i 3 4 (by decide), p3, encode_one] at e3
  exact ⟨hs, e1.trans e0.symm, e2.trans e0.symm, e3⟩

/-- C4, witness: scenario 2 of the specification, the 1x1 image `R8U [128]` converted to
`RGBA16U` gives `R = G = B = 32896` and alpha `65535`. -/
theorem C4_witness :
    (supportedFormat false R8U ∧ supportedFormat false RGBA16U ∧ channelsOf R8U = 1 ∧
      channelsOf RGBA16U = 4 ∧ 0 < pixelCount 1 1) ∧
    (AImgConvertFormat false (bufferOfU8 [128]) (bufferOfU16 []) 1 1 R8U RGBA16U).2.cell
        (elemOf RGBA16U) (0 * 4 + 3) = opaqueCell (elemOf RGBA16U) ∧
    (AImgConvertFormat false (bufferOfU8 [128]) (bufferOfU16 []) 1 1 R8U RGBA16U).2.u16 0
      = 32896 ∧
    (AImgConvertFormat false (bufferOfU8 [128]) (bufferOfU16 []) 1 1 R8U RGBA16U).2.u16 1
      = 32896 ∧
    (AImgConvertFormat false (bufferOfU8 [128]) (bufferOfU16 []) 1 1 R8U RGBA16U).2.u16 2
      = 32896 ∧
    (AImgConvertFormat false (bufferOfU8 [128]) (bufferOfU16 []) 1 1 R8U RGBA16U).2.u16 3
      = 65535 :=
  ⟨by decide,
   (C4_channel_expansion false (bufferOfU8 [128]) (bufferOfU16 []) 1 1 R8U RGBA16U
      (by decide) (by decide) (by decide) (by decide) 0 (by decide)).2.2.2,
   by decide!, by decide!, by decide!, by decide!⟩

/-- C4, counterexample: in a build without `HAVE_EXR` the 1-channel input format `R16F`
is refused; the 4-channel `RGBA8U` destination keeps its old pixel `[1, 2, 3, 4]`, whose
R and G differ and whose alpha is not 255. -/
theorem C4_counterexample :
    R16F ∈ namedFormats ∧ RGBA8U ∈ namedFormats ∧ channelsOf R16F = 1 ∧
    channelsOf RGBA8U = 4 ∧
    (AImgConvertFormat false (bufferOfF16 [Half.fin false (2 ^ 24)]) (bufferOfU8 [1, 2, 3, 4])
      1 1 R16F RGBA8U).2.u8 0 = 1 ∧
    (AImgConvertFormat false (bufferOfF16 [Half.fin false (2 ^ 24)]) (bufferOfU8 [1, 2, 3, 4])
      1 1 R16F RGBA8U).2.u8 1 = 2 ∧
    (AImgConvertFormat false (bufferOfF16 [Half.fin false (2 ^ 24)]) (bufferOfU8 [1, 2, 3, 4])
      1 1 R16F RGBA8U).2.u8 3 = 4 := by
  refine ⟨by decide, by decide, by decide, by decide, by decide!, by decide!, by decide!⟩

theorem formatOf_four (f : Int) (hf : f ∈ namedFormats) :
    formatOf (elemOf f) 4 ∈ namedFormats ∧
    (formatOf (elemOf f) 4 ∈ halfFormats ↔ f ∈ halfFormats) ∧
    elemOf (formatOf (elemOf f) 4) = elemOf f ∧
    channelsOf (formatOf (elemOf f) 4) = 4 ∧
    (AIGetFormatDetails (formatOf (elemOf f) 4)).floatOrInt
      = (AIGetFormatDetails f).floatOrInt := by
  simp only [namedFormats, List.mem_cons, List.mem_singleton, List.not_mem_nil, or_false] at hf
  rcases hf with rfl | rfl | rfl | rfl | rfl | rfl | rfl | rfl | rfl | rfl | rfl | rfl |
    rfl | rfl | rfl | rfl <;> decide

theorem supportedFormat_four (haveExr : Bool) (f : Int) (hf : supportedFormat haveExr f) :
    supportedFormat haveExr (formatOf (elemOf f) 4) := by
  obtain ⟨h1, h2, _⟩ := formatOf_four f hf.1
  refine ⟨h1, ?_⟩
  rcases hf.2 with h | h
  · exact Or.inl h
  · exact Or.inr (fun h3 => h (h2.mp h3))

theorem pivotPixel_congr_out (src : Buffer) (inFormat o1 o2 : Int) (i : Nat)
    (h : (AIGetFormatDetails o1).floatOrInt = (AIGetFormatDetails o2).floatOrInt) :
    pivotPixel src inFormat o1 i = pivotPixel src inFormat o2 i := by
  unfold pivotPixel clamps
  rw [h]

theorem AImgConvertFormat_unsupported (haveExr : Bool) (src dest : Buffer)
    (width height : Int) (inFormat outFormat : Int)
    (hin : inFormat ∈ namedFormats) (hout : outFormat ∈ namedFormats)
    (h : ¬ (supportedFormat haveExr inFormat ∧ supportedFormat haveExr outFormat)) :
    AImgConvertFormat haveExr src dest width height inFormat outFormat
      = (AIMG_CONVERSION_FAILED_BAD_FORMAT, dest) := by
  have hE : haveExr = false := by
    cases haveExr
    · rfl
    · exact absurd ⟨⟨hin, Or.inl rfl⟩, ⟨hout, Or.inl rfl⟩⟩ h
  subst hE
  have hh : inFormat ∈ halfFormats ∨ outFormat ∈ halfFormats := by
    by_contra hc
    rw [not_or] at hc
    exact h ⟨⟨hin, Or.inr hc.1⟩, ⟨hout, Or.inr hc.2⟩⟩
  unfold AImgConvertFormat
  rw [if_pos (guard_true inFormat outFormat hh)]

/-- C5: for every 4-channel input format and every output format with `k < 4` channels,
`AImgConvertFormat` changes nothing outside the first `k` channels of each of the
`width*height` pixels of the `k`-channel layout.  When the build supports both formats it
succeeds and each written channel `j < k` of pixel `i` has the value the same pixel gets
in the 4-channel format of the same bit depth and numeric kind, a value that depends only
on channel `j` of the input pixel, not on the dropped ones; when it does not (a half
format without `HAVE_EXR`) nothing is written. -/
theorem C5_channel_truncation (haveExr : Bool) (src dest dest4 : Buffer)
    (width height : Int) (inFormat outFormat : Int)
    (hin : inFormat ∈ namedFormats) (hout : outFormat ∈ namedFormats)
    (h4 : channelsOf inFormat = 4) (hk : channelsOf outFormat < 4) :
    (∀ e k, ¬ (e = elemOf outFormat ∧ k < pixelCount width height * channelsOf outFormat) →
      (AImgConvertFormat haveExr src dest width height inFormat outFormat).2.cell e k
        = dest.cell e k) ∧
    (supportedFormat haveExr inFormat ∧ supportedFormat haveExr outFormat →
      (AImgConvertFormat haveExr src dest width height inFormat outFormat).1 = AIMG_SUCCESS ∧
      ∀ i j, i < pixelCount width height → j < channelsOf outFormat →
        (AImgConvertFormat haveExr src dest width height inFormat outFormat).2.cell
            (elemOf outFormat) (i * channelsOf outFormat + j)
          = (AImgConvertFormat haveExr src dest4 width height inFormat
              (formatOf (elemOf outFormat) 4)).2.cell (elemOf outFormat) (i * 4 + j) ∧
        ∀ src2 : Buffer,
          channelValue src2 inFormat (i * 4 + j) = channelValue src inFormat (i * 4 + j) →
          (AImgConvertFormat haveExr src2 dest width height inFormat outFormat).2.cell
              (elemOf outFormat) (i * channelsOf outFormat + j)
            = (AImgConvertFormat haveExr src dest width height inFormat outFormat).2.cell
              (elemOf outFormat) (i * channelsOf outFormat + j)) ∧
    (¬ (supportedFormat haveExr inFormat ∧ supportedFormat haveExr outFormat) →
      (AImgConvertFormat haveExr src dest width height inFormat outFormat).2 = dest) := by
  refine ⟨?_, ?_, ?_⟩
  · intro e k hk2
    by_cases hs : supportedFormat haveExr inFormat ∧ supportedFormat haveExr outFormat
    · rw [(AImgConvertFormat_cell haveExr src dest width height inFormat outFormat
        hs.1 hs.2).2, if_neg hk2]
    · rw [AImgConvertFormat_unsupported haveExr src dest width height inFormat outFormat
        hin hout hs]
  · rintro ⟨hsi, hso⟩
    obtain ⟨hs, hcell⟩ := AImgConvertFormat_cell haveExr src dest width height inFormat
      outFormat hsi hso
    refine ⟨hs, ?_⟩
    intro i j hi hj
    obtain ⟨f1, f2, f3, f4, f5⟩ := formatOf_four outFormat hout
    have hcell4 := (AImgConvertFormat_cell haveExr src dest4 width height inFormat
      (formatOf (elemOf outFormat) 4) hsi (supportedFormat_four haveExr outFormat hso)).2
      (elemOf outFormat) (i * 4 + j)
    rw [f3, f4, if_pos ⟨rfl, index_lt i j 4 _ hi (by omega)⟩, index_div i j 4 (by omega),
      index_mod i j 4 (by omega), pivotPixel_congr_out src inFormat _ outFormat i f5]
      at hcell4
    have hc := hcell (elemOf outFormat) (i * channelsOf outFormat + j)
    rw [if_pos ⟨rfl, index_lt i j _ _ hi hj⟩, index_div i j _ hj, index_mod i j _ hj] at hc
    refine ⟨hc.trans hcell4.symm, ?_⟩
    intro src2 hv
    have hc2 := (AImgConvertFormat_cell haveExr src2 dest width height inFormat
      outFormat hsi hso).2 (elemOf outFormat) (i * channelsOf outFormat + j)
    rw [if_pos ⟨rfl, index_lt i j _ _ hi hj⟩, index_div i j _ hj, index_mod i j _ hj] at hc2
    rw [hc, hc2]
    have hg : ∀ s : Buffer, (pivotPixel s inFormat outFormat i).get j
        = if clamps inFormat outFormat = true then
            clamp01 (channelValue s inFormat (i * 4 + j))
          else channelValue s inFormat (i * 4 + j) := by
      intro s
      unfold pivotPixel
      split_ifs
      · rw [clampScratch_get, canonicalPixel_get s inFormat hin i j (by omega), h4]
      · rw [canonicalPixel_get s inFormat hin i j (by omega), h4]
    rw [hg, hg, hv]
  · intro hs
    rw [AImgConvertFormat_unsupported haveExr src dest width height inFormat outFormat
      hin hout hs]

/-- C5, witness: scenario 1 of the specification, the 2x1 image
`RGBA8U [255,0,0,255, 0,255,0,255]` converted to `RGB32F` gives
`[1.0,0.0,0.0, 0.0,1.0,0.0]`. -/
theorem C5_witness :
    (RGBA8U ∈ namedFormats ∧ RGB32F ∈ namedFormats ∧ channelsOf RGBA8U = 4 ∧
      channelsOf RGB32F < 4) ∧
    (∀ e k, ¬ (e = elemOf RGB32F ∧ k < pixelCount 2 1 * channelsOf RGB32F) →
      (AImgConvertFormat false (bufferOfU8 [255, 0, 0, 255, 0, 255, 0, 255]) (bufferOfF32 [])
        2 1 RGBA8U RGB32F).2.cell e k = (bufferOfF32 []).cell e k) ∧
    (AImgConvertFormat false (bufferOfU8 [255, 0, 0, 255, 0, 255, 0, 255]) (bufferOfF32 [])
      2 1 RGBA8U RGB32F).2.f32 0 = F32.one ∧
    (AImgConvertFormat false (bufferOfU8 [255, 0, 0, 255, 0, 255, 0, 255]) (bufferOfF32 [])
      2 1 RGBA8U RGB32F).2.f32 1 = F32.zero ∧
    (AImgConvertFormat false (bufferOfU8 [255, 0, 0, 255, 0, 255, 0, 255]) (bufferOfF32 [])
      2 1 RGBA8U RGB32F).2.f32 2 = F32.zero ∧
    (AImgConvertFormat false (bufferOfU8 [255, 0, 0, 255, 0, 255, 0, 255]) (bufferOfF32 [])
      2 1 RGBA8U RGB32F).2.f32 3 = F32.zero ∧
    (AImgConvertFormat false (bufferOfU8 [255, 0, 0, 255, 0, 255, 0, 255]) (bufferOfF32 [])
      2 1 RGBA8U RGB32F).2.f32 4 = F32.one ∧
    (AImgConvertFormat false (bufferOfU8 [255, 0, 0, 255, 0, 255, 0, 255]) (bufferOfF32 [])
      2 1 RGBA8U RGB32F).2.f32 5 = F32.zero :=
  ⟨by decide,
   (C5_channel_truncation false (bufferOfU8 [255, 0, 0, 255, 0, 255, 0, 255])
      (bufferOfF32 []) (bufferOfF32 []) 2 1 RGBA8U RGB32F
      (by decide) (by decide) (by decide) (by decide)).1,
   by decide!, by decide!, by decide!, by decide!, by decide!, by decide!⟩

theorem pixelCount_of_nonpos (width height : Int) (h : wrapInt32 (width * height) ≤ 0) :
    pixelCount width height = 0 := by
  unfold pixelCount
  exact Int.toNat_of_nonpos h

theorem AImgConvertFormat_refused (src dest : Buffer) (width height : Int)
    (inFormat outFormat : Int)
    (h : inFormat ∈ halfFormats ∨ outFormat ∈ halfFormats) :
    AImgConvertFormat false src dest width height inFormat outFormat
      = (AIMG_CONVERSION_FAILED_BAD_FORMAT, dest) := by
  unfold AImgConvertFormat
  rw [if_pos (guard_true inFormat outFormat h)]

theorem AImgConvertFormat_run (haveExr : Bool) (src dest : Buffer) (width height : Int)
    (inFormat outFormat : Int)
    (h : ¬ (haveExr = false ∧ (inFormat ∈ halfFormats ∨ outFormat ∈ halfFormats))) :
    AImgConvertFormat haveExr src dest width height inFormat outFormat
      = (AIMG_SUCCESS,
          (convertLoop haveExr src
            (decide ((AIGetFormatDetails inFormat).floatOrInt = FITYPE_FLOAT))
            (decide ((AIGetFormatDetails outFormat).floatOrInt = FITYPE_FLOAT))
            inFormat outFormat (pixelCount width height) (zeroScratch, dest)).2) := by
  unfold AImgConvertFormat
  rw [if_neg]
  · rfl
  · rintro ⟨hE, hh⟩
    apply h
    refine ⟨hE, ?_⟩
    simp only [halfFormats, List.mem_cons, List.mem_singleton, List.not_mem_nil, or_false]
    tauto

/-- the frame of `AImgConvertFormat`, for any input format value -/
theorem AImgConvertFormat_frame (haveExr : Bool) (src dest : Buffer) (width height : Int)
    (inFormat outFormat : Int) (e : Elem) (k : Nat)
    (hk : ¬ (e = elemOf outFormat ∧ k < pixelCount width height * channelsOf outFormat)) :
    (AImgConvertFormat haveExr src dest width height inFormat outFormat).2.cell e k
      = dest.cell e k := by
  by_cases hg : haveExr = false ∧ (inFormat ∈ halfFormats ∨ outFormat ∈ halfFormats)
  · obtain ⟨hE, hh⟩ := hg
    subst hE
    rw [AImgConvertFormat_refused src dest width height inFormat outFormat hh]
  · rw [AImgConvertFormat_run haveExr src dest width height inFormat outFormat hg]
    by_cases hs : supportedFormat haveExr outFormat
    · exact convertLoop_frame haveExr src _ _ inFormat outFormat hs _ _ e k hk
    · rw [convertLoop_unsupported_out haveExr src _ _ inFormat outFormat hs]

/-- C8 (amended): `AImgConvertFormat` with a valid output format of `c` channels and `b`
bytes per channel, and any input format value, changes nothing of `dest` outside the first
`width*height*c` elements of the output element type, that is outside its first
`width*height*c*b` bytes; when `width*height <= 0` it changes no byte of `dest`, and it
returns success unless the build lacks `HAVE_EXR` and one of the two formats is a half
format, in which case it returns the BadFormat code. -/
theorem C8_frame (haveExr : Bool) (src dest : Buffer) (width height : Int)
    (inFormat outFormat : Int) (hout : outFormat ∈ namedFormats) :
    (∀ e k, ¬ (e = elemOf outFormat ∧ k < pixelCount width height * channelsOf outFormat) →
      (AImgConvertFormat haveExr src dest width height inFormat outFormat).2.cell e k
        = dest.cell e k) ∧
    (∀ byte : Nat,
      pixelCount width height * channelsOf outFormat *
          (AIGetFormatDetails outFormat).bytesPerChannel.toNat ≤ byte →
      (AImgConvertFormat haveExr src dest width height inFormat outFormat).2.cell
          (elemOf outFormat) (byte / (AIGetFormatDetails outFormat).bytesPerChannel.toNat)
        = dest.cell (elemOf outFormat)
          (byte / (AIGetFormatDetails outFormat).bytesPerChannel.toNat)) ∧
    (wrapInt32 (width * height) ≤ 0 →
      (AImgConvertFormat haveExr src dest width height inFormat outFormat).2 = dest ∧
      (¬ (haveExr = false ∧ (inFormat ∈ halfFormats ∨ outFormat ∈ halfFormats)) →
        (AImgConvertFormat haveExr src dest width height inFormat outFormat).1
          = AIMG_SUCCESS) ∧
      ((haveExr = false ∧ (inFormat ∈ halfFormats ∨ outFormat ∈ halfFormats)) →
        (AImgConvertFormat haveExr src dest width height inFormat outFormat).1
          = AIMG_CONVERSION_FAILED_BAD_FORMAT)) := by
  refine ⟨fun e k hk => AImgConvertFormat_frame haveExr src dest width height inFormat
    outFormat e k hk, ?_, ?_⟩
  · intro byte hb
    apply AImgConvertFormat_frame
    rintro ⟨_, hlt⟩
    have hbpos : 0 < (AIGetFormatDetails outFormat).bytesPerChannel.toNat := by
      simp only [namedFormats, List.mem_cons, List.mem_singleton, List.not_mem_nil,
        or_false] at hout
      rcases hout with rfl | rfl | rfl | rfl | rfl | rfl | rfl | rfl | rfl | rfl | rfl |
        rfl | rfl | rfl | rfl | rfl <;> decide
    have h1 := (Nat.le_div_iff_mul_le hbpos).mpr hb
    omega
  · intro hw
    have hn := pixelCount_of_nonpos width height hw
    by_cases hg : haveExr = false ∧ (inFormat ∈ halfFormats ∨ outFormat ∈ halfFormats)
    · obtain ⟨hE, hh⟩ := hg
      subst hE
      rw [AImgConvertFormat_refused src dest width height inFormat outFormat hh]
      exact ⟨rfl, fun h => absurd ⟨rfl, hh⟩ h, fun _ => rfl⟩
    · rw [AImgConvertFormat_run haveExr src dest width height inFormat outFormat hg, hn]
      exact ⟨rfl, fun _ => rfl, fun h => absurd h hg⟩

/-- C8, witness: the amended statement at a 2x2 conversion from `RGBA8U` to `RG16U`. -/
theorem C8_witness :
    RG16U ∈ namedFormats ∧
    (∀ e k, ¬ (e = elemOf RG16U ∧ k < pixelCount 2 2 * channelsOf RG16U) →
      (AImgConvertFormat true (bufferOfU8 [9]) (bufferOfU16 [1, 2, 3]) 2 2 RGBA8U
        RG16U).2.cell e k = (bufferOfU16 [1, 2, 3]).cell e k) :=
  ⟨by decide,
   (C8_frame true (bufferOfU8 [9]) (bufferOfU16 [1, 2, 3]) 2 2 RGBA8U RG16U (by decide)).1⟩

/-- C8, counterexample: in a build without `HAVE_EXR`, with the valid output format `R8U`,
the half input format `R16F` and `width*height = 0`, `AImgConvertFormat` does not return
success but the BadFormat code. -/
theorem C8_counterexample :
    R8U ∈ namedFormats ∧ wrapInt32 (0 * 0) ≤ 0 ∧
    (AImgConvertFormat false (bufferOfF16 []) (bufferOfU8 []) 0 0 R16F R8U).1
      = AIMG_CONVERSION_FAILED_BAD_FORMAT ∧
    (AImgConvertFormat false (bufferOfF16 []) (bufferOfU8 []) 0 0 R16F R8U).1
      ≠ AIMG_SUCCESS := by
  refine ⟨by decide, by decide, by decide, by decide⟩

theorem AIGetFormatDetails_default (format : Int) (h : format ∉ namedFormats) :
    AIGetFormatDetails format = ⟨-1, -1, FITYPE_UNKNOWN⟩ := by
  simp only [namedFormats, List.mem_cons, List.mem_singleton, not_or, List.not_mem_nil,
    or_false] at h
  obtain ⟨h1, h2, h3, h4, h5, h6, h7, h8, h9, h10, h11, h12, h13, h14, h15, h16⟩ := h
  unfold AIGetFormatDetails
  rw [if_neg h1, if_neg h2, if_neg h3, if_neg h4, if_neg h5, if_neg h6, if_neg h7, if_neg h8,
    if_neg h9, if_neg h10, if_neg h11, if_neg h12, if_neg h13, if_neg h14, if_neg h15,
    if_neg h16]

theorem convertToRGBA32F_unnamed (haveExr : Bool) (src : Buffer) (dest : Scratch) (i : Nat)
    (f : Int) (hf : f ∉ namedFormats) : convertToRGBA32F haveExr src dest i f = dest := by
  simp only [namedFormats, List.mem_cons, List.mem_singleton, List.not_mem_nil, or_false,
    not_or] at hf
  obtain ⟨a1, a2, a3, a4, a5, a6, a7, a8, a9, a10, a11, a12, a13, a14, a15, a16⟩ := hf
  unfold convertToRGBA32F
  rw [if_neg a1, if_neg a2, if_neg a3, if_neg a4, if_neg (fun h => a5 h.2),
    if_neg (fun h => a6 h.2), if_neg (fun h => a7 h.2), if_neg (fun h => a8 h.2),
    if_neg a9, if_neg a10, if_neg a11, if_neg a12, if_neg a13, if_neg a14, if_neg a15,
    if_neg a16]

theorem kind_of_unnamed (f : Int) (hf : f ∉ namedFormats) :
    decide ((AIGetFormatDetails f).floatOrInt = FITYPE_FLOAT) = false := by
  rw [AIGetFormatDetails_default f hf]
  rfl

/-- with an input format that is not named the scratch pixel is never assigned, and every
pixel of a supported output format is encoded from it -/
theorem convertLoop_unnamed_in (haveExr : Bool) (src : Buffer) (b : Bool)
    (inFormat outFormat : Int) (hin : inFormat ∉ namedFormats)
    (hout : supportedFormat haveExr outFormat) (n : Nat) (st : Scratch × Buffer) :
    (convertLoop haveExr src false b inFormat outFormat n st).1 = st.1 ∧
    ∀ e k, (convertLoop haveExr src false b inFormat outFormat n st).2.cell e k
      = if e = elemOf outFormat ∧ k < n * channelsOf outFormat then
          encode (elemOf outFormat) (st.1.get (k % channelsOf outFormat))
        else st.2.cell e k := by
  obtain ⟨hc1, hc4⟩ := channelsOf_range outFormat hout.1
  induction n with
  | zero => simp [convertLoop]
  | succ n ih =>
    obtain ⟨ih1, ih2⟩ := ih
    have hstep : convertLoop haveExr src false b inFormat outFormat (n + 1) st
        = (st.1, convertFromRGBA32F haveExr st.1
            (convertLoop haveExr src false b inFormat outFormat n st).2 n outFormat) := by
      rw [convertLoop]
      unfold convertPixel
      simp only [convertToRGBA32F_unnamed haveExr src _ n inFormat hin, ih1,
        Bool.false_and, Bool.false_eq_true, if_false]
    rw [hstep]
    refine ⟨rfl, ?_⟩
    intro e k
    rw [convertFromRGBA32F_cell haveExr _ _ n outFormat hout, ih2]
    generalize channelsOf outFormat = c at *
    by_cases he : e = elemOf outFormat
    · simp only [he, true_and]
      by_cases h1 : k < n * c
      · have h2 : ¬ (n * c ≤ k ∧ k < n * c + c) := by omega
        have h3 : k < (n + 1) * c := by nlinarith
        rw [if_neg h2, if_pos h1, if_pos h3]
      · by_cases h2 : k < n * c + c
        · have h3 : k < (n + 1) * c := by nlinarith
          have h4 : k / c = n := by
            apply Nat.div_eq_of_lt_le
            · rw [Nat.mul_comm] at *; omega
            · rw [Nat.mul_comm]; nlinarith
          have h5 : k % c = k - n * c := by
            have := Nat.div_add_mod k c
            rw [h4] at this
            rw [Nat.mul_comm] at this
            omega
          rw [if_pos ⟨by omega, h2⟩, if_pos h3, h5]
        · have h3 : ¬ k < (n + 1) * c := by nlinarith
          rw [if_neg (by omega), if_neg h1, if_neg h3]
    · simp only [he, false_and, if_false]

theorem zeroScratch_get (j : Nat) : zeroScratch.get j = F32.zero := by
  unfold Scratch.get
  split <;> rfl

/-- C9 (amended): `AImgConvertFormat` does not validate its format arguments.  For every
pair of format values, so also when `inFormat` or `outFormat` is not one of the 16 named
formats (for example `INVALID_FORMAT`), it returns success, not the BadFormat code,
unless the call is refused because a format is a half format in a build without
`HAVE_EXR`, and then it returns the BadFormat code and leaves the destination as it was.
When `outFormat` is not a named format it writes nothing to the destination buffer.  When
`inFormat` is not a named format and `outFormat` is a format the build supports, the
destination is written from the scratch pixel, which no decoding ever assigns: each of
the first `width*height*c` elements of the output element type becomes the encoding of
the initial scratch value 0, and every other element is left as it was. -/
theorem C9_no_format_validation (haveExr : Bool) (src dest : Buffer) (width height : Int)
    (inFormat outFormat : Int) :
    (¬ (haveExr = false ∧ (inFormat ∈ halfFormats ∨ outFormat ∈ halfFormats)) →
      (AImgConvertFormat haveExr src dest width height inFormat outFormat).1
        = AIMG_SUCCESS) ∧
    ((haveExr = false ∧ (inFormat ∈ halfFormats ∨ outFormat ∈ halfFormats)) →
      AImgConvertFormat haveExr src dest width height inFormat outFormat
        = (AIMG_CONVERSION_FAILED_BAD_FORMAT, dest)) ∧
    (outFormat ∉ namedFormats →
      (AImgConvertFormat haveExr src dest width height inFormat outFormat).2 = dest) ∧
    (inFormat ∉ namedFormats → supportedFormat haveExr outFormat →
      ∀ e k, (AImgConvertFormat haveExr src dest width height inFormat outFormat).2.cell e k
        = if e = elemOf outFormat ∧ k < pixelCount width height * channelsOf outFormat then
            encode (elemOf outFormat) F32.zero
          else dest.cell e k) := by
  refine ⟨?_, ?_, ?_, ?_⟩
  · intro hg
    rw [AImgConvertFormat_run haveExr src dest width height inFormat outFormat hg]
  · rintro ⟨hE, hh⟩
    subst hE
    exact AImgConvertFormat_refused src dest width height inFormat outFormat hh
  · intro ho
    by_cases hg : haveExr = false ∧ (inFormat ∈ halfFormats ∨ outFormat ∈ halfFormats)
    · obtain ⟨hE, hh⟩ := hg
      subst hE
      rw [AImgConvertFormat_refused src dest width height inFormat outFormat hh]
    · rw [AImgConvertFormat_run haveExr src dest width height inFormat outFormat hg]
      exact convertLoop_unsupported_out haveExr src _ _ inFormat outFormat
        (fun hs => ho hs.1) _ _
  · intro hi ho e k
    have hg : ¬ (haveExr = false ∧ (inFormat ∈ halfFormats ∨ outFormat ∈ halfFormats)) := by
      rintro ⟨hE, hh | hh⟩
      · apply hi
        simp only [halfFormats, List.mem_cons, List.mem_singleton, List.not_mem_nil,
          or_false] at hh
        rcases hh with rfl | rfl | rfl | rfl <;> decide
      · rcases ho.2 with h | h
        · rw [hE] at h
          exact absurd h (by decide)
        · exact h hh
    rw [AImgConvertFormat_run haveExr src dest width height inFormat outFormat hg,
      kind_of_unnamed inFormat hi,
      (convertLoop_unnamed_in haveExr src _ inFormat outFormat hi ho _ _).2 e k,
      zeroScratch_get]

/-- C9, witness: the amended statement for `outFormat = INVALID_FORMAT`, and for
`inFormat = INVALID_FORMAT` with the output format `RG16U` on one pixel: the element 1 of
the destination becomes 0 and the element 2 stays 9. -/
theorem C9_witness :
    (INVALID_FORMAT ∉ namedFormats ∧
      (AImgConvertFormat false (bufferOfU8 [9]) (bufferOfU8 [7]) 1 1 R8U INVALID_FORMAT).1
        = AIMG_SUCCESS ∧
      (AImgConvertFormat false (bufferOfU8 [9]) (bufferOfU8 [7]) 1 1 R8U INVALID_FORMAT).2
        = bufferOfU8 [7]) ∧
    (supportedFormat false RG16U ∧
      (AImgConvertFormat false (bufferOfU8 [9]) (bufferOfU16 [7, 8, 9]) 1 1 INVALID_FORMAT
          RG16U).2.cell Elem.u16 1 = Cell.u16 0 ∧
      (AImgConvertFormat false (bufferOfU8 [9]) (bufferOfU16 [7, 8, 9]) 1 1 INVALID_FORMAT
          RG16U).2.cell Elem.u16 2 = Cell.u16 9) :=
  ⟨⟨by decide,
    (C9_no_format_validation false (bufferOfU8 [9]) (bufferOfU8 [7]) 1 1 R8U INVALID_FORMAT).1 (by decide),
    (C9_no_format_validation false (bufferOfU8 [9]) (bufferOfU8 [7]) 1 1 R8U INVALID_FORMAT).2.2.1 (by decide)⟩,
   ⟨by decide,
    (C9_no_format_validation false (bufferOfU8 [9]) (bufferOfU16 [7, 8, 9]) 1 1 INVALID_FORMAT
      RG16U).2.2.2 (by decide) (by decide) Elem.u16 1,
    (C9_no_format_validation false (bufferOfU8 [9]) (bufferOfU16 [7, 8, 9]) 1 1 INVALID_FORMAT
      RG16U).2.2.2 (by decide) (by decide) Elem.u16 2⟩⟩

/-- C9, counterexample: with `inFormat = INVALID_FORMAT`, which is not a valid pixel
format, `AImgConvertFormat` in a `HAVE_EXR` build returns success instead of the
BadFormat code, and it does write to the destination: the element 7 becomes 0. -/
theorem C9_counterexample :
    INVALID_FORMAT ∉ namedFormats ∧
    (AImgConvertFormat true (bufferOfU8 [9]) (bufferOfU8 [7]) 1 1 INVALID_FORMAT R8U).1
      = AIMG_SUCCESS ∧
    (AImgConvertFormat true (bufferOfU8 [9]) (bufferOfU8 [7]) 1 1 INVALID_FORMAT R8U).1
      ≠ AIMG_CONVERSION_FAILED_BAD_FORMAT ∧
    (bufferOfU8 [7]).u8 0 = 7 ∧
    (AImgConvertFormat true (bufferOfU8 [9]) (bufferOfU8 [7]) 1 1 INVALID_FORMAT R8U).2.u8 0
      = 0 := by
  refine ⟨by decide, by decide, by decide, by decide, by decide!⟩

/-- C10: in a build without `HAVE_EXR`, `AImgConvertFormat` returns
`AIMG_CONVERSION_FAILED_BAD_FORMAT` if and only if `inFormat` or `outFormat` is one of
`R16F`, `RG16F`, `RGB16F`, `RGBA16F`, and when it does so the destination buffer is
unchanged; in a build with `HAVE_EXR` it never returns that code. -/
theorem C10_half_float_guard (src dest : Buffer) (width height : Int)
    (inFormat outFormat : Int) :
    ((AImgConvertFormat false src dest width height inFormat outFormat).1
        = AIMG_CONVERSION_FAILED_BAD_FORMAT ↔
      (inFormat = R16F ∨ inFormat = RG16F ∨ inFormat = RGB16F ∨ inFormat = RGBA16F ∨
       outFormat = R16F ∨ outFormat = RG16F ∨ outFormat = RGB16F ∨ outFormat = RGBA16F)) ∧
    ((AImgConvertFormat false src dest width height inFormat outFormat).1
        = AIMG_CONVERSION_FAILED_BAD_FORMAT →
      (AImgConvertFormat false src dest width height inFormat outFormat).2 = dest) ∧
    (AImgConvertFormat true src dest width height inFormat outFormat).1
      ≠ AIMG_CONVERSION_FAILED_BAD_FORMAT := by
  have hhalf : (inFormat ∈ halfFormats ∨ outFormat ∈ halfFormats) ↔
      (inFormat = R16F ∨ inFormat = RG16F ∨ inFormat = RGB16F ∨ inFormat = RGBA16F ∨
       outFormat = R16F ∨ outFormat = RG16F ∨ outFormat = RGB16F ∨ outFormat = RGBA16F) := by
    simp only [halfFormats, List.mem_cons, List.mem_singleton, List.not_mem_nil, or_false]
    tauto
  have hrun : ∀ b : Bool,
      ¬ (b = false ∧ (inFormat ∈ halfFormats ∨ outFormat ∈ halfFormats)) →
      (AImgConvertFormat b src dest width height inFormat outFormat).1 = AIMG_SUCCESS := by
    intro b hg
    rw [AImgConvertFormat_run b src dest width height inFormat outFormat hg]
  refine ⟨⟨?_, ?_⟩, ?_, ?_⟩
  · intro hb
    by_contra hn
    have := hrun false (fun hg => hn (hhalf.mp hg.2))
    rw [this] at hb
    exact absurd hb (by decide)
  · intro hh
    rw [AImgConvertFormat_refused src dest width height inFormat outFormat (hhalf.mpr hh)]
  · intro hb
    by_cases hh : inFormat ∈ halfFormats ∨ outFormat ∈ halfFormats
    · rw [AImgConvertFormat_refused src dest width height inFormat outFormat hh]
    · have := hrun false (fun hg => hh hg.2)
      rw [this] at hb
      exact absurd hb (by decide)
  · rw [hrun true (fun hg => absurd hg.1 (by decide))]
    decide

theorem roundUnits_of_binade (n d k : Nat) (hd : 0 < d) (h1 : 2 ^ k * d ≤ n)
    (h2 : n < 2 ^ (k + 1) * d) : roundUnits 24 n d = roundAt k n d := by
  have hk : ilog2 (n / d) = k := by
    apply ilog2_eq
    · exact (Nat.le_div_iff_mul_le hd).mpr h1
    · exact (Nat.div_lt_iff_lt_mul hd).mpr h2
  unfold roundUnits roundAt
  simp only [hk]

theorem roundNE_scale (a b c : Nat) (hc : 0 < c) :
    roundNE (a * c) (b * c) = roundNE a b := by
  unfold roundNE
  simp only [Nat.mul_div_mul_right a b hc, Nat.mul_mod_mul_right]
  have h1 : 2 * (a % b * c) < b * c ↔ 2 * (a % b) < b := by
    rw [← Nat.mul_assoc]
    exact Nat.mul_lt_mul_right hc
  have h2 : b * c < 2 * (a % b * c) ↔ b < 2 * (a % b) := by
    rw [← Nat.mul_assoc]
    exact Nat.mul_lt_mul_right hc
  simp only [h1, h2]

theorem roundNE_err (n d : Nat) (hd : 0 < d) :
    2 * (roundNE n d * d) ≤ 2 * n + d ∧ 2 * n ≤ 2 * (roundNE n d * d) + d := by
  have hdm := Nat.div_add_mod n d
  have hr := Nat.mod_lt n hd
  have hq : n / d * d = d * (n / d) := Nat.mul_comm _ _
  unfold roundNE
  simp only
  split_ifs with h1 h2 h3
  · constructor <;> omega
  · rw [Nat.add_mul]; constructor <;> omega
  · constructor <;> omega
  · rw [Nat.add_mul]; constructor <;> omega

theorem roundNE_near (n d c : Nat) (h1 : 2 * n < 2 * (c * d) + d)
    (h2 : 2 * (c * d) < 2 * n + d) : roundNE n d = c := by
  have hd : 0 < d := by
    rcases Nat.eq_zero_or_pos d with h | h
    · subst h; omega
    · exact h
  have hdm := Nat.div_add_mod n d
  have hr := Nat.mod_lt n hd
  have hcase : n / d = c ∨ n / d + 1 = c := by
    by_cases hge : c * d ≤ n
    · left
      have hq1 : c ≤ n / d := (Nat.le_div_iff_mul_le hd).mpr hge
      have hq2 : n / d < c + 1 := by
        rw [Nat.div_lt_iff_lt_mul hd, Nat.add_mul]
        omega
      omega
    · right
      have hq2 : n / d < c := by
        rw [Nat.div_lt_iff_lt_mul hd]; omega
      have hq1 : c - 1 ≤ n / d := by
        rw [Nat.le_div_iff_mul_le hd, Nat.sub_mul]
        omega
      omega
  unfold roundNE
  simp only
  rcases hcase with hc | hc
  · have h3 : 2 * (n % d) < d := by
      have : d * (n / d) = c * d := by rw [hc, Nat.mul_comm]
      omega
    rw [if_pos h3, hc]
  · have h3 : d < 2 * (n % d) := by
      have : d * (n / d) + d = c * d := by
        rw [← hc, Nat.add_mul, Nat.mul_comm]; omega
      omega
    rw [if_neg (by omega), if_pos h3, hc]

/-- the 16-bit normalisation followed by the 16-bit scaling is exact, for a value that
is neither a power of two nor 65535 -/
theorem scale16_generic (v K : Nat) (hK : K ≤ 15) (h1 : 2 ^ K < v) (h2 : v < 2 ^ (K + 1))
    (h3 : v ≠ 65535) :
    F32.mul (F32.div (F32.ofUInt v) F32.c65535) F32.c65535 = F32.fin false (v * F32.unit) := by
  have hu := unit_pos
  have hne : 65535 * F32.unit ≠ 0 := by omega
  have hd : 0 < 65535 * F32.unit := by omega
  have herr := roundNE_err (v * 2 ^ (39 - K)) 65535 (by decide)
  obtain ⟨R, hR⟩ : ∃ R, R = roundNE (v * 2 ^ (39 - K)) 65535 := ⟨_, rfl⟩
  rw [← hR] at herr
  obtain ⟨er1, er2⟩ := herr
  -- first rounding: the quotient
  have a1 : 2 ^ (K + 133) * (65535 * F32.unit) ≤ v * F32.unit * F32.unit := by
    unfold F32.unit; interval_cases K <;> omega
  have a2 : v * F32.unit * F32.unit < 2 ^ (K + 133 + 1) * (65535 * F32.unit) := by
    unfold F32.unit; interval_cases K <;> omega
  have s1 : roundAt (K + 133) (v * F32.unit * F32.unit) (65535 * F32.unit)
      = R * 2 ^ (K + 110) := by
    unfold roundAt
    have e : K + 133 - 23 = K + 110 := by omega
    have n1 : v * F32.unit * F32.unit = v * 2 ^ (39 - K) * (F32.unit * 2 ^ (K + 110)) := by
      unfold F32.unit; interval_cases K <;> ring
    have d1 : 65535 * F32.unit * 2 ^ (K + 110) = 65535 * (F32.unit * 2 ^ (K + 110)) := by
      ring
    rw [e, n1, d1, roundNE_scale _ _ _ (by positivity), ← hR]
  have o1 : R * 2 ^ (K + 110) < 2 ^ 128 * F32.unit := by
    unfold F32.unit; interval_cases K <;> omega
  have e1 : F32.div (F32.ofUInt v) F32.c65535 = F32.fin false (R * 2 ^ (K + 110)) := by
    simp only [F32.div, F32.ofUInt, F32.c65535, hne, if_false, Bool.xor_false]
    rw [roundUnits_of_binade _ _ (K + 133) hd a1 a2, s1]
    exact ofMag_fin o1
  -- second rounding: the product
  have b1 : 2 ^ (K + 149) * F32.unit ≤ R * 2 ^ (K + 110) * (65535 * F32.unit) := by
    unfold F32.unit; interval_cases K <;> omega
  have b2 : R * 2 ^ (K + 110) * (65535 * F32.unit) < 2 ^ (K + 149 + 1) * F32.unit := by
    unfold F32.unit; interval_cases K <;> omega
  have s2 : roundAt (K + 149) (R * 2 ^ (K + 110) * (65535 * F32.unit)) F32.unit
      = v * F32.unit := by
    unfold roundAt
    have e : K + 149 - 23 = K + 126 := by omega
    have n2 : R * 2 ^ (K + 110) * (65535 * F32.unit)
        = R * 65535 * (F32.unit * 2 ^ (K + 110)) := by ring
    have d2 : F32.unit * 2 ^ (K + 126) = 65536 * (F32.unit * 2 ^ (K + 110)) := by
      rw [show K + 126 = K + 110 + 16 by omega, Nat.pow_add]; ring
    have hnear : roundNE (R * 65535) 65536 = v * 2 ^ (23 - K) := by
      apply roundNE_near
      · interval_cases K <;> omega
      · interval_cases K <;> omega
    rw [e, n2, d2, roundNE_scale _ _ _ (by positivity), hnear]
    unfold F32.unit; interval_cases K <;> ring
  have o2 : v * F32.unit < 2 ^ 128 * F32.unit :=
    Nat.mul_lt_mul_of_pos_right (by interval_cases K <;> omega) hu
  rw [e1]
  simp only [F32.mul, F32.c65535, Bool.xor_false]
  rw [roundUnits_of_binade _ _ (K + 149) hu b1 b2, s2]
  exact ofMag_fin o2

theorem scale16_special : ∀ v ∈ [0, 1, 2, 4, 8, 16, 32, 64, 128, 256, 512, 1024, 2048, 4096,
    8192, 16384, 32768, 65535],
    F32.mul (F32.div (F32.ofUInt v) F32.c65535) F32.c65535 = F32.fin false (v * F32.unit) := by
  decide!

/-- normalising a 16-bit value and scaling it back is exact in binary32 -/
theorem scale16_exact (v : Nat) (hv : v < 65536) :
    F32.mul (F32.div (F32.ofUInt v) F32.c65535) F32.c65535 = F32.fin false (v * F32.unit) := by
  by_cases hs : v ∈ [0, 1, 2, 4, 8, 16, 32, 64, 128, 256, 512, 1024, 2048, 4096,
      8192, 16384, 32768, 65535]
  · exact scale16_special v hs
  · simp only [List.mem_cons, List.mem_singleton, List.not_mem_nil, or_false, not_or] at hs
    have hK : (2 ^ 1 < v ∧ v < 2 ^ (1 + 1)) ∨ (2 ^ 2 < v ∧ v < 2 ^ (2 + 1)) ∨
        (2 ^ 3 < v ∧ v < 2 ^ (3 + 1)) ∨ (2 ^ 4 < v ∧ v < 2 ^ (4 + 1)) ∨
        (2 ^ 5 < v ∧ v < 2 ^ (5 + 1)) ∨ (2 ^ 6 < v ∧ v < 2 ^ (6 + 1)) ∨
        (2 ^ 7 < v ∧ v < 2 ^ (7 + 1)) ∨ (2 ^ 8 < v ∧ v < 2 ^ (8 + 1)) ∨
        (2 ^ 9 < v ∧ v < 2 ^ (9 + 1)) ∨ (2 ^ 10 < v ∧ v < 2 ^ (10 + 1)) ∨
        (2 ^ 11 < v ∧ v < 2 ^ (11 + 1)) ∨ (2 ^ 12 < v ∧ v < 2 ^ (12 + 1)) ∨
        (2 ^ 13 < v ∧ v < 2 ^ (13 + 1)) ∨ (2 ^ 14 < v ∧ v < 2 ^ (14 + 1)) ∨
        (2 ^ 15 < v ∧ v < 2 ^ (15 + 1)) := by omega
    have h3 : v ≠ 65535 := by omega
    rcases hK with h | h | h | h | h | h | h | h | h | h | h | h | h | h | h
    · exact scale16_generic v 1 (by decide) h.1 h.2 h3
    · exact scale16_generic v 2 (by decide) h.1 h.2 h3
    · exact scale16_generic v 3 (by decide) h.1 h.2 h3
    · exact scale16_generic v 4 (by decide) h.1 h.2 h3
    · exact scale16_generic v 5 (by decide) h.1 h.2 h3
    · exact scale16_generic v 6 (by decide) h.1 h.2 h3
    · exact scale16_generic v 7 (by decide) h.1 h.2 h3
    · exact scale16_generic v 8 (by decide) h.1 h.2 h3
    · exact scale16_generic v 9 (by decide) h.1 h.2 h3
    · exact scale16_generic v 10 (by decide) h.1 h.2 h3
    · exact scale16_generic v 11 (by decide) h.1 h.2 h3
    · exact scale16_generic v 12 (by decide) h.1 h.2 h3
    · exact scale16_generic v 13 (by decide) h.1 h.2 h3
    · exact scale16_generic v 14 (by decide) h.1 h.2 h3
    · exact scale16_generic v 15 (by decide) h.1 h.2 h3

theorem scale8_exact : ∀ v : Fin 256,
    F32.mul (F32.div (F32.ofUInt v) F32.c255) F32.c255 = F32.fin false (v * F32.unit) := by
  decide!

theorem toU16_ofUInt (v : Fin 65536) : (F32.fin false (v * F32.unit)).toU16 = v := by
  apply Fin.ext
  show F32.toUInt 16 (F32.fin false (v * F32.unit)) % 65536 = v
  simp only [F32.toUInt, Bool.false_eq_true, if_false, Nat.mul_div_cancel _ unit_pos]
  have := v.isLt
  omega

theorem toU8_ofUInt (v : Fin 256) : (F32.fin false (v * F32.unit)).toU8 = v := by
  apply Fin.ext
  show F32.toUInt 8 (F32.fin false (v * F32.unit)) % 256 = v
  simp only [F32.toUInt, Bool.false_eq_true, if_false, Nat.mul_div_cancel _ unit_pos]
  have := v.isLt
  omega

theorem roundtrip16 (v : Fin 65536) :
    (F32.mul (F32.div (F32.ofUInt v) F32.c65535) F32.c65535).toU16 = v := by
  rw [scale16_exact v v.isLt, toU16_ofUInt]

theorem roundtrip8 (v : Fin 256) :
    (F32.mul (F32.div (F32.ofUInt v) F32.c255) F32.c255).toU8 = v := by
  rw [scale8_exact v, toU8_ofUInt]

theorem clamps_self (f : Int) : clamps f f = false := by
  unfold clamps
  cases decide ((AIGetFormatDetails f).floatOrInt = FITYPE_FLOAT) <;> rfl

/-- decoding a stored element and encoding it again in the same element type gives the
stored element back -/
theorem encode_channelValue (src : Buffer) (f : Int) (k : Nat)
    (hwf : elemOf f = Elem.f16 → (src.f16 k).wf) :
    encode (elemOf f) (channelValue src f k) = src.cell (elemOf f) k := by
  unfold channelValue
  cases he : elemOf f
  · simp only [encode, Buffer.cell, roundtrip8]
  · simp only [encode, Buffer.cell, roundtrip16]
  · simp only [encode, Buffer.cell, Half.ofFloat_toFloat _ (hwf he)]
  · rfl

theorem pixelCount_of_int32 (width height : Int)
    (h : -(2 ^ 31) ≤ width * height ∧ width * height < 2 ^ 31) :
    pixelCount width height = (width * height).toNat := by
  unfold pixelCount wrapInt32
  generalize width * height = x at *
  have : (x + 2 ^ 31) % 2 ^ 32 = x + 2 ^ 31 := Int.emod_eq_of_lt (by omega) (by omega)
  rw [this]
  congr 1
  omega

/-- C7 (amended): for every format `F` the build supports, every width and height whose
product is an `int32_t` value (the loop bound `width*height` is computed in `int32_t`) and
every buffer `x` in format `F` (its half elements being binary16 values),
`AImgConvertFormat(x, dest, width, height, F, F)` returns success and leaves in `dest` the
elements of the `width*height` pixels identical to those of `x`. -/
theorem C7_same_format_identity (haveExr : Bool) (src dest : Buffer) (width height : Int)
    (f : Int) (hf : supportedFormat haveExr f)
    (hsize : -(2 ^ 31) ≤ width * height ∧ width * height < 2 ^ 31)
    (hwf : elemOf f = Elem.f16 →
      ∀ k, k < (width * height).toNat * channelsOf f → (src.f16 k).wf) :
    (AImgConvertFormat haveExr src dest width height f f).1 = AIMG_SUCCESS ∧
    ∀ k, k < (width * height).toNat * channelsOf f →
      (AImgConvertFormat haveExr src dest width height f f).2.cell (elemOf f) k
        = src.cell (elemOf f) k := by
  obtain ⟨hs, hcell⟩ := AImgConvertFormat_cell haveExr src dest width height f f hf hf
  refine ⟨hs, ?_⟩
  intro k hk
  obtain ⟨hc1, _⟩ := channelsOf_range f hf.1
  have hm : k % channelsOf f < channelsOf f := Nat.mod_lt _ (by omega)
  rw [hcell, pixelCount_of_int32 width height hsize, if_pos ⟨rfl, hk⟩]
  unfold pivotPixel
  rw [clamps_self]
  simp only [Bool.false_eq_true, if_false]
  rw [canonicalPixel_get src f hf.1 _ _ hm, Nat.div_add_mod' k (channelsOf f)]
  exact encode_channelValue src f k (fun he => hwf he k hk)

/-- C7, witness: the same-format conversion of the 2x1 `RG16U` image
`[513, 65534, 7, 40000]`: the elements 0 and 3 of the destination become 513 and 40000. -/
theorem C7_witness :
    (supportedFormat false RG16U ∧
      (-(2 ^ 31) ≤ (2 : Int) * 1 ∧ (2 : Int) * 1 < 2 ^ 31) ∧
      (elemOf RG16U = Elem.f16 →
        ∀ k, k < ((2 : Int) * 1).toNat * channelsOf RG16U →
          ((bufferOfU16 [513, 65534, 7, 40000]).f16 k).wf)) ∧
    (AImgConvertFormat false (bufferOfU16 [513, 65534, 7, 40000]) (bufferOfU16 []) 2 1
        RG16U RG16U).1 = AIMG_SUCCESS ∧
    (AImgConvertFormat false (bufferOfU16 [513, 65534, 7, 40000]) (bufferOfU16 []) 2 1
        RG16U RG16U).2.cell Elem.u16 0 = Cell.u16 513 ∧
    (AImgConvertFormat false (bufferOfU16 [513, 65534, 7, 40000]) (bufferOfU16 []) 2 1
        RG16U RG16U).2.cell Elem.u16 3 = Cell.u16 40000 :=
  ⟨⟨by decide, by decide, fun h => absurd h (by decide)⟩,
   (C7_same_format_identity false (bufferOfU16 [513, 65534, 7, 40000]) (bufferOfU16 []) 2 1
     RG16U (by decide) (by decide) (fun h => absurd h (by decide))).1,
   (C7_same_format_identity false (bufferOfU16 [513, 65534, 7, 40000]) (bufferOfU16 []) 2 1
     RG16U (by decide) (by decide) (fun h => absurd h (by decide))).2 0 (by decide),
   (C7_same_format_identity false (bufferOfU16 [513, 65534, 7, 40000]) (bufferOfU16 []) 2 1
     RG16U (by decide) (by decide) (fun h => absurd h (by decide))).2 3 (by decide)⟩

/-- C7, counterexample: for width 65536 and height 65536 the product does not fit
`int32_t`; the loop bound wraps to 0, no pixel is converted, and `AImgConvertFormat`
from `R8U` to `R8U` returns success with the first element of the destination still 7
while the first element of the source is 9. -/
theorem C7_counterexample :
    supportedFormat true R8U ∧
    pixelCount 65536 65536 = 0 ∧
    AImgConvertFormat true (bufferOfU8 [9]) (bufferOfU8 [7]) 65536 65536 R8U R8U
      = (AIMG_SUCCESS, bufferOfU8 [7]) ∧
    (bufferOfU8 [9]).cell (elemOf R8U) 0 = Cell.u8 9 ∧
    (AImgConvertFormat true (bufferOfU8 [9]) (bufferOfU8 [7]) 65536 65536 R8U R8U).2.cell
      (elemOf R8U) 0 = Cell.u8 7 ∧
    (AImgConvertFormat true (bufferOfU8 [9]) (bufferOfU8 [7]) 65536 65536 R8U R8U).2.cell
      (elemOf R8U) 0 ≠ (bufferOfU8 [9]).cell (elemOf R8U) 0 := by
  have hp : pixelCount 65536 65536 = 0 := by decide
  have h : AImgConvertFormat true (bufferOfU8 [9]) (bufferOfU8 [7]) 65536 65536 R8U R8U
      = (AIMG_SUCCESS, bufferOfU8 [7]) := by
    rw [AImgConvertFormat_run true _ _ _ _ _ _ (by decide), hp]
    rfl
  refine ⟨by decide, hp, h, by decide, ?_, ?_⟩
  · rw [h]; decide
  · rw [h]; decide

theorem roundNE_ge_near {n d c : Nat} (hd : 0 < d) (h : 2 * (c * d) < 2 * n + d) :
    c ≤ roundNE n d := by
  have hdm := Nat.div_add_mod n d
  have hr := Nat.mod_lt n hd
  by_cases hge : c * d ≤ n
  · exact roundNE_ge hd hge
  · have hq1 : c - 1 ≤ n / d := by
      rw [Nat.le_div_iff_mul_le hd, Nat.sub_mul]
      omega
    have hq2 : n / d < c := by
      rw [Nat.div_lt_iff_lt_mul hd]; omega
    have hc : n / d + 1 = c := by omega
    have h3 : d < 2 * (n % d) := by
      have : d * (n / d) + d = c * d := by
        rw [← hc, Nat.add_mul, Nat.mul_comm]; omega
      omega
    unfold roundNE
    simp only
    rw [if_neg (by omega), if_pos h3]
    omega

theorem roundUnits_ge {p n d C : Nat} (hd : 0 < d) (h : C * d ≤ n)
    (hC : 2 ^ (ilog2 (n / d) - (p - 1)) ∣ C) : C ≤ roundUnits p n d := by
  unfold roundUnits
  simp only
  obtain ⟨c, hc⟩ := hC
  have hpos : 0 < d * 2 ^ (ilog2 (n / d) - (p - 1)) := Nat.mul_pos hd (by positivity)
  have h1 : c * (d * 2 ^ (ilog2 (n / d) - (p - 1))) ≤ n := by
    calc c * (d * 2 ^ (ilog2 (n / d) - (p - 1))) = C * d := by rw [hc]; ring
      _ ≤ n := h
  have := roundNE_ge hpos h1
  calc C = c * 2 ^ (ilog2 (n / d) - (p - 1)) := by rw [hc]; ring
    _ ≤ roundNE n (d * 2 ^ (ilog2 (n / d) - (p - 1))) * 2 ^ (ilog2 (n / d) - (p - 1)) :=
      Nat.mul_le_mul_right _ this

/-- the 16-bit normalisation `(float)v / 65535.0f` of a value in the binade of `2 ^ K` -/
theorem norm16_generic (v K : Nat) (hK : K ≤ 15) (h1 : 2 ^ K < v) (h2 : v < 2 ^ (K + 1))
    (h3 : v ≠ 65535) :
    ∃ R, 2 * (R * 65535) ≤ 2 * (v * 2 ^ (39 - K)) + 65535 ∧
      2 * (v * 2 ^ (39 - K)) ≤ 2 * (R * 65535) + 65535 ∧
      F32.div (F32.ofUInt v) F32.c65535 = F32.fin false (R * 2 ^ (K + 110)) := by
  have hu := unit_pos
  have hne : 65535 * F32.unit ≠ 0 := by omega
  have hd : 0 < 65535 * F32.unit := by omega
  have herr := roundNE_err (v * 2 ^ (39 - K)) 65535 (by decide)
  obtain ⟨R, hR⟩ : ∃ R, R = roundNE (v * 2 ^ (39 - K)) 65535 := ⟨_, rfl⟩
  rw [← hR] at herr
  obtain ⟨er1, er2⟩ := herr
  have a1 : 2 ^ (K + 133) * (65535 * F32.unit) ≤ v * F32.unit * F32.unit := by
    unfold F32.unit; interval_cases K <;> omega
  have a2 : v * F32.unit * F32.unit < 2 ^ (K + 133 + 1) * (65535 * F32.unit) := by
    unfold F32.unit; interval_cases K <;> omega
  have s1 : roundAt (K + 133) (v * F32.unit * F32.unit) (65535 * F32.unit)
      = R * 2 ^ (K + 110) := by
    unfold roundAt
    have e : K + 133 - 23 = K + 110 := by omega
    have n1 : v * F32.unit * F32.unit = v * 2 ^ (39 - K) * (F32.unit * 2 ^ (K + 110)) := by
      unfold F32.unit; interval_cases K <;> ring
    have d1 : 65535 * F32.unit * 2 ^ (K + 110) = 65535 * (F32.unit * 2 ^ (K + 110)) := by
      ring
    rw [e, n1, d1, roundNE_scale _ _ _ (by positivity), ← hR]
  have o1 : R * 2 ^ (K + 110) < 2 ^ 128 * F32.unit := by
    unfold F32.unit; interval_cases K <;> omega
  refine ⟨R, er1, er2, ?_⟩
  simp only [F32.div, F32.ofUInt, F32.c65535, hne, if_false, Bool.xor_false]
  rw [roundUnits_of_binade _ _ (K + 133) hd a1 a2, s1]
  exact ofMag_fin o1

/-- the 16-bit normalisation followed by the 8-bit scaling truncates to `v / 257`, for a
value `v` that is neither 65535 nor a power of two nor 257 times a power of two -/
theorem scale16to8_generic (v K : Nat) (hK : K ≤ 15) (h1 : 2 ^ K < v) (h2 : v < 2 ^ (K + 1))
    (h3 : v ≠ 65535) (h4 : v ≠ 257 * 2 ^ (K - 8)) :
    ∃ y, F32.mul (F32.div (F32.ofUInt v) F32.c65535) F32.c255 = F32.fin false y ∧
      y / F32.unit = v / 257 := by
  have hu := unit_pos
  have hv : v < 65536 := by interval_cases K <;> omega
  obtain ⟨R, er1, er2, e1⟩ := norm16_generic v K hK h1 h2 h3
  -- second rounding: the product, between (v / 257) and (v / 257 + 1) units
  have hq : R * 2 ^ (K + 110) * (255 * F32.unit) / F32.unit = R * 2 ^ (K + 110) * 255 := by
    rw [← Nat.mul_assoc]
    exact Nat.mul_div_cancel _ hu
  have hlog : ilog2 (R * 2 ^ (K + 110) * (255 * F32.unit) / F32.unit) ≤ K + 141 := by
    apply ilog2_le
    rw [hq]
    interval_cases K <;> omega
  have hup : roundUnits 24 (R * 2 ^ (K + 110) * (255 * F32.unit)) F32.unit
      ≤ (v / 257 + 1) * F32.unit - 2 ^ (K + 118) := by
    apply roundUnits_le hu
    · unfold F32.unit; interval_cases K <;> omega
    · have hdv : 2 ^ (K + 118) ∣ (v / 257 + 1) * F32.unit - 2 ^ (K + 118) := by
        apply Nat.dvd_sub'
        · apply Dvd.dvd.mul_left
          unfold F32.unit
          exact Nat.pow_dvd_pow 2 (by omega)
        · exact dvd_refl _
      exact dvd_trans (Nat.pow_dvd_pow 2 (by omega)) hdv
  have hlo : v / 257 * F32.unit ≤ roundUnits 24 (R * 2 ^ (K + 110) * (255 * F32.unit)) F32.unit := by
    by_cases hr : v % 257 = 0
    · -- a multiple of 257: the product is within half a grid step below the integer
      have b1 : 2 ^ (K + 141) * F32.unit ≤ R * 2 ^ (K + 110) * (255 * F32.unit) := by
        unfold F32.unit; interval_cases K <;> omega
      have b2 : R * 2 ^ (K + 110) * (255 * F32.unit) < 2 ^ (K + 141 + 1) * F32.unit := by
        unfold F32.unit; interval_cases K <;> omega
      rw [roundUnits_of_binade _ _ (K + 141) hu b1 b2]
      unfold roundAt
      have e : K + 141 - 23 = K + 118 := by omega
      have n2 : R * 2 ^ (K + 110) * (255 * F32.unit)
          = R * 255 * (F32.unit * 2 ^ (K + 110)) := by ring
      have d2 : F32.unit * 2 ^ (K + 118) = 256 * (F32.unit * 2 ^ (K + 110)) := by
        rw [show K + 118 = K + 110 + 8 by omega, Nat.pow_add]; ring
      have hge : v / 257 * 2 ^ (31 - K) ≤ roundNE (R * 255) 256 := by
        apply roundNE_ge_near (by decide)
        interval_cases K <;> omega
      rw [e, n2, d2, roundNE_scale _ _ _ (by positivity)]
      calc v / 257 * F32.unit = v / 257 * 2 ^ (31 - K) * 2 ^ (K + 118) := by
            unfold F32.unit; interval_cases K <;> ring
        _ ≤ roundNE (R * 255) 256 * 2 ^ (K + 118) := Nat.mul_le_mul_right _ hge
    · have hexp : ilog2 (R * 2 ^ (K + 110) * (255 * F32.unit) / F32.unit) - (24 - 1)
          ≤ 149 := by omega
      apply roundUnits_ge hu
      · unfold F32.unit; interval_cases K <;> omega
      · apply Dvd.dvd.mul_left
        exact Nat.pow_dvd_pow 2 hexp
  have hpos118 : 0 < 2 ^ (K + 118) := by positivity
  have hlt : roundUnits 24 (R * 2 ^ (K + 110) * (255 * F32.unit)) F32.unit
      < (v / 257 + 1) * F32.unit := by
    have : 2 ^ (K + 118) ≤ (v / 257 + 1) * F32.unit := by
      calc 2 ^ (K + 118) ≤ 2 ^ 149 := Nat.pow_le_pow_right (by decide) (by omega)
        _ = 1 * F32.unit := by unfold F32.unit; ring
        _ ≤ (v / 257 + 1) * F32.unit := Nat.mul_le_mul_right _ (by omega)
    omega
  refine ⟨roundUnits 24 (R * 2 ^ (K + 110) * (255 * F32.unit)) F32.unit, ?_, ?_⟩
  · rw [e1]
    simp only [F32.mul, F32.c255, Bool.xor_false]
    apply ofMag_fin
    calc _ < (v / 257 + 1) * F32.unit := hlt
      _ ≤ 2 ^ 128 * F32.unit := Nat.mul_le_mul_right _ (by omega)
  · exact Nat.div_eq_of_lt_le hlo hlt

theorem scale16to8_special : ∀ v ∈ [0, 1, 2, 4, 8, 16, 32, 64, 128, 256, 512, 1024, 2048,
    4096, 8192, 16384, 32768, 65535, 257, 514, 1028, 2056, 4112, 8224, 16448, 32896],
    ((F32.mul (F32.div (F32.ofUInt v) F32.c65535) F32.c255).toU8 : Nat) = v / 257 := by
  decide!

/-- a 16-bit value converted to 8 bits is its quotient by 257 -/
theorem scale16to8 (v : Fin 65536) :
    ((F32.mul (F32.div (F32.ofUInt v) F32.c65535) F32.c255).toU8 : Nat) = v / 257 := by
  obtain ⟨v, hv⟩ := v
  show ((F32.mul (F32.div (F32.ofUInt v) F32.c65535) F32.c255).toU8 : Nat) = v / 257
  by_cases hs : v ∈ [0, 1, 2, 4, 8, 16, 32, 64, 128, 256, 512, 1024, 2048,
    4096, 8192, 16384, 32768, 65535, 257, 514, 1028, 2056, 4112, 8224, 16448, 32896]
  · exact scale16to8_special v hs
  · simp only [List.mem_cons, List.mem_singleton, List.not_mem_nil, or_false, not_or] at hs
    have hK : (2 ^ 1 < v ∧ v < 2 ^ (1 + 1)) ∨ (2 ^ 2 < v ∧ v < 2 ^ (2 + 1)) ∨
        (2 ^ 3 < v ∧ v < 2 ^ (3 + 1)) ∨ (2 ^ 4 < v ∧ v < 2 ^ (4 + 1)) ∨
        (2 ^ 5 < v ∧ v < 2 ^ (5 + 1)) ∨ (2 ^ 6 < v ∧ v < 2 ^ (6 + 1)) ∨
        (2 ^ 7 < v ∧ v < 2 ^ (7 + 1)) ∨ (2 ^ 8 < v ∧ v < 2 ^ (8 + 1)) ∨
        (2 ^ 9 < v ∧ v < 2 ^ (9 + 1)) ∨ (2 ^ 10 < v ∧ v < 2 ^ (10 + 1)) ∨
        (2 ^ 11 < v ∧ v < 2 ^ (11 + 1)) ∨ (2 ^ 12 < v ∧ v < 2 ^ (12 + 1)) ∨
        (2 ^ 13 < v ∧ v < 2 ^ (13 + 1)) ∨ (2 ^ 14 < v ∧ v < 2 ^ (14 + 1)) ∨
        (2 ^ 15 < v ∧ v < 2 ^ (15 + 1)) := by omega
    have h3 : v ≠ 65535 := by omega
    have key : ∃ y, F32.mul (F32.div (F32.ofUInt v) F32.c65535) F32.c255 = F32.fin false y ∧
        y / F32.unit = v / 257 := by
      rcases hK with h | h | h | h | h | h | h | h | h | h | h | h | h | h | h
      · exact scale16to8_generic v 1 (by decide) h.1 h.2 h3 (by omega)
      · exact scale16to8_generic v 2 (by decide) h.1 h.2 h3 (by omega)
      · exact scale16to8_generic v 3 (by decide) h.1 h.2 h3 (by omega)
      · exact scale16to8_generic v 4 (by decide) h.1 h.2 h3 (by omega)
      · exact scale16to8_generic v 5 (by decide) h.1 h.2 h3 (by omega)
      · exact scale16to8_generic v 6 (by decide) h.1 h.2 h3 (by omega)
      · exact scale16to8_generic v 7 (by decide) h.1 h.2 h3 (by omega)
      · exact scale16to8_generic v 8 (by decide) h.1 h.2 h3 (by omega)
      · exact scale16to8_generic v 9 (by decide) h.1 h.2 h3 (by omega)
      · exact scale16to8_generic v 10 (by decide) h.1 h.2 h3 (by omega)
      · exact scale16to8_generic v 11 (by decide) h.1 h.2 h3 (by omega)
      · exact scale16to8_generic v 12 (by decide) h.1 h.2 h3 (by omega)
      · exact scale16to8_generic v 13 (by decide) h.1 h.2 h3 (by omega)
      · exact scale16to8_generic v 14 (by decide) h.1 h.2 h3 (by omega)
      · exact scale16to8_generic v 15 (by decide) h.1 h.2 h3 (by omega)
    obtain ⟨y, hy, hq⟩ := key
    rw [hy]
    show F32.toUInt 8 (F32.fin false y) % 256 = v / 257
    simp only [F32.toUInt, Bool.false_eq_true, if_false, hq]
    omega

/-- an 8-bit value converted to 16 bits is its product by 257 -/
theorem scale8to16 : ∀ v : Fin 256,
    ((F32.mul (F32.div (F32.ofUInt v) F32.c255) F32.c65535).toU16 : Nat) = 257 * v := by
  decide!

theorem channelValue_eq_decodeCell (src : Buffer) (f : Int) (k : Nat) :
    channelValue src f k = decodeCell (src.cell (elemOf f) k) := by
  unfold channelValue
  cases elemOf f <;> rfl

theorem isFloatElem_elemOf (f : Int) :
    isFloatElem (elemOf f) = decide ((AIGetFormatDetails f).floatOrInt = FITYPE_FLOAT) := by
  unfold elemOf
  by_cases h : (AIGetFormatDetails f).floatOrInt = FITYPE_FLOAT
  · rw [if_pos h]
    split_ifs <;> simp [isFloatElem, h]
  · rw [if_neg h]
    split_ifs <;> simp [isFloatElem, h]

theorem clamps_eq_elem (inFormat outFormat : Int) :
    clamps inFormat outFormat
      = (isFloatElem (elemOf inFormat) && !isFloatElem (elemOf outFormat)) := by
  unfold clamps
  rw [isFloatElem_elemOf, isFloatElem_elemOf]

/-- `AImgConvertFormat` is channel-wise: channel `j` of pixel `i` of the output is
`convertCell` of channel `j` of pixel `i` of the input, for every channel both formats
have -/
theorem AImgConvertFormat_channel (haveExr : Bool) (src dest : Buffer) (width height : Int)
    (inFormat outFormat : Int)
    (hin : supportedFormat haveExr inFormat) (hout : supportedFormat haveExr outFormat)
    (i j : Nat) (hi : i < pixelCount width height) (hji : j < channelsOf inFormat)
    (hjo : j < channelsOf outFormat) :
    (AImgConvertFormat haveExr src dest width height inFormat outFormat).2.cell
        (elemOf outFormat) (i * channelsOf outFormat + j)
      = convertCell (elemOf inFormat) (elemOf outFormat)
          (src.cell (elemOf inFormat) (i * channelsOf inFormat + j)) := by
  rw [(AImgConvertFormat_cell haveExr src dest width height inFormat outFormat hin hout).2,
    if_pos ⟨rfl, index_lt i j _ _ hi hjo⟩, index_div i j _ hjo, index_mod i j _ hjo]
  unfold pivotPixel convertCell
  rw [clamps_eq_elem]
  split_ifs
  · rw [clampScratch_get, canonicalPixel_get src inFormat hin.1 i j hji,
      channelValue_eq_decodeCell]
  · rw [canonicalPixel_get src inFormat hin.1 i j hji, channelValue_eq_decodeCell]

theorem clamp01_of_fin_le (m : Nat) (h : m ≤ F32.unit) :
    clamp01 (F32.fin false m) = F32.fin false m := by
  have hu := unit_pos
  by_cases h0 : 0 < m
  · by_cases h1 : m < F32.unit
    · simp [clamp01, F32.max, F32.min, F32.lt, F32.zero, F32.one, F32.signed, h0, h1]
    · have : m = F32.unit := by omega
      subst this
      simp [clamp01, F32.max, F32.min, F32.lt, F32.zero, F32.one, F32.signed, h0]
  · have : m = 0 := by omega
    subst this
    simp [clamp01, F32.max, F32.min, F32.lt, F32.zero, F32.one, F32.signed, hu]

theorem clamp01_norm8 (v : Fin 256) :
    clamp01 (F32.div (F32.ofUInt v) F32.c255) = F32.div (F32.ofUInt v) F32.c255 := by
  obtain ⟨r, hr, he⟩ := div_ofUInt_eq v 255 (by decide) (by omega)
  have he2 : F32.div (F32.ofUInt v) F32.c255 = F32.fin false r := he
  rw [he2]
  exact clamp01_of_fin_le r hr

theorem clamp01_norm16 (v : Fin 65536) :
    clamp01 (F32.div (F32.ofUInt v) F32.c65535) = F32.div (F32.ofUInt v) F32.c65535 := by
  obtain ⟨r, hr, he⟩ := div_ofUInt_eq v 65535 (by decide) (by omega)
  have he2 : F32.div (F32.ofUInt v) F32.c65535 = F32.fin false r := he
  rw [he2]
  exact clamp01_of_fin_le r hr

/-- the round trip of one stored channel is exact through a 32-bit float type, through the
element type itself, and from 8-bit through 16-bit integers -/
theorem convertCell_round_trip_exact (src : Buffer) (eF eG : Elem) (k : Nat)
    (hG : eG = Elem.f32 ∨ eG = eF ∨ (eF = Elem.u8 ∧ eG = Elem.u16))
    (hwf : eF = Elem.f16 → (src.f16 k).wf) :
    convertCell eG eF (convertCell eF eG (src.cell eF k)) = src.cell eF k := by
  rcases hG with h | h | ⟨h1, h2⟩
  · subst h
    cases eF
    · simp only [convertCell, isFloatElem, Buffer.cell, encode, decodeCell, Bool.false_and,
        Bool.false_eq_true, if_false, Bool.not_false, Bool.and_self, if_true,
        clamp01_norm8, roundtrip8]
    · simp only [convertCell, isFloatElem, Buffer.cell, encode, decodeCell, Bool.false_and,
        Bool.false_eq_true, if_false, Bool.not_false, Bool.and_self, if_true,
        clamp01_norm16, roundtrip16]
    · simp only [convertCell, isFloatElem, Buffer.cell, encode, decodeCell, Bool.not_true,
        Bool.and_false, Bool.false_eq_true, if_false, Half.ofFloat_toFloat _ (hwf rfl)]
    · simp only [convertCell, isFloatElem, Buffer.cell, encode, decodeCell, Bool.not_true,
        Bool.and_false, Bool.false_eq_true, if_false]
  · subst h
    cases eG
    · simp only [convertCell, isFloatElem, Buffer.cell, encode, decodeCell, Bool.false_and,
        Bool.false_eq_true, if_false, roundtrip8]
    · simp only [convertCell, isFloatElem, Buffer.cell, encode, decodeCell, Bool.false_and,
        Bool.false_eq_true, if_false, roundtrip16]
    · simp only [convertCell, isFloatElem, Buffer.cell, encode, decodeCell, Bool.not_true,
        Bool.and_false, Bool.false_eq_true, if_false, Half.ofFloat_toFloat _ (hwf rfl)]
    · simp only [convertCell, isFloatElem, Buffer.cell, encode, decodeCell, Bool.not_true,
        Bool.and_false, Bool.false_eq_true, if_false]
  · subst h1; subst h2
    simp only [convertCell, isFloatElem, Buffer.cell, encode, decodeCell, Bool.false_and,
      Bool.false_eq_true, if_false]
    congr 1
    apply Fin.ext
    rw [scale16to8, scale8to16]
    omega

/-- a 16-bit integer channel through an 8-bit integer type comes back as the multiple of
257 below it -/
theorem convertCell_round_trip_16_8 (a : Fin 65536) :
    ∃ b : Fin 65536,
      convertCell Elem.u8 Elem.u16 (convertCell Elem.u16 Elem.u8 (Cell.u16 a)) = Cell.u16 b ∧
      (b : Nat) = 257 * ((a : Nat) / 257) := by
  refine ⟨_, rfl, ?_⟩
  simp only [convertCell, encode, isFloatElem, decodeCell, Bool.false_and, Bool.false_eq_true,
    if_false]
  rw [scale8to16, scale16to8]

theorem roundtrip8_via_half : ∀ v : Fin 256,
    ∃ b : Fin 256,
      convertCell Elem.f16 Elem.u8 (convertCell Elem.u8 Elem.f16 (Cell.u8 v)) = Cell.u8 b ∧
      (b : Nat) ≤ v ∧ (v : Nat) ≤ b + 1 := by
  intro v
  refine ⟨_, rfl, ?_⟩
  revert v
  decide!

theorem roundUnits_err (p n d : Nat) (hd : 0 < d) :
    2 * (roundUnits p n d * d) ≤ 2 * n + d * 2 ^ (ilog2 (n / d) - (p - 1)) ∧
    2 * n ≤ 2 * (roundUnits p n d * d) + d * 2 ^ (ilog2 (n / d) - (p - 1)) := by
  have h := roundNE_err n (d * 2 ^ (ilog2 (n / d) - (p - 1))) (Nat.mul_pos hd (by positivity))
  have e : roundUnits p n d * d
      = roundNE n (d * 2 ^ (ilog2 (n / d) - (p - 1))) * (d * 2 ^ (ilog2 (n / d) - (p - 1))) := by
    unfold roundUnits
    simp only
    ring
  rw [e]
  exact h

theorem mul_fin_eq (X M r : Nat)
    (h : F32.mul (F32.fin false X) (F32.ofUInt M) = F32.fin false r) :
    r = roundUnits 24 (X * (M * F32.unit)) F32.unit := by
  have h2 : F32.ofMag false (roundUnits 24 (X * (M * F32.unit)) F32.unit) = F32.fin false r := h
  unfold F32.ofMag at h2
  split_ifs at h2
  injection h2 with _ h3
  exact h3.symm

theorem div_fin_eq (k M B : Nat) (hM : 0 < M)
    (h : F32.div (F32.ofUInt k) (F32.ofUInt M) = F32.fin false B) :
    B = roundUnits 24 (k * F32.unit * F32.unit) (M * F32.unit) := by
  have hu := unit_pos
  have hne : ¬ (M * F32.unit = 0) := Nat.pos_iff_ne_zero.mp (Nat.mul_pos hM hu)
  have h2 : (if M * F32.unit = 0 then (if k * F32.unit = 0 then F32.nan else F32.inf false)
      else F32.ofMag false (roundUnits 24 (k * F32.unit * F32.unit) (M * F32.unit)))
      = F32.fin false B := h
  rw [if_neg hne] at h2
  unfold F32.ofMag at h2
  split_ifs at h2
  injection h2 with _ h3
  exact h3.symm

/-- a `float` in `[0, 1]` scaled to an integer of maximum `M`, truncated and normalised
again moves by less than `1 / M + 2 ^ -24` downwards and at most `2 ^ -9 / M + 2 ^ -24`
upwards (in units of `2 ^ -149`) -/
theorem float_int_float (M X : Nat) (hM0 : 0 < M) (hM : M < 2 ^ 16) (hX : X ≤ F32.unit) :
    ∃ p B, F32.mul (F32.fin false X) (F32.ofUInt M) = F32.fin false p ∧
      p / F32.unit ≤ M ∧
      F32.div (F32.ofUInt (p / F32.unit)) (F32.ofUInt M) = F32.fin false B ∧
      B ≤ F32.unit ∧
      M * X < M * B + F32.unit + M * 2 ^ 125 ∧
      M * B ≤ M * X + 2 ^ 140 + M * 2 ^ 125 := by
  have hu := unit_pos
  obtain ⟨p, hp, hmul⟩ := mul_ofUInt_bound X M hX (by omega)
  have hk : p / F32.unit ≤ M := by
    calc p / F32.unit ≤ M * F32.unit / F32.unit := Nat.div_le_div_right hp
      _ = M := Nat.mul_div_cancel _ hu
  obtain ⟨B, hB, hdiv⟩ := div_ofUInt_eq (p / F32.unit) M hM0 hk
  refine ⟨p, B, hmul, hk, hdiv, hB, ?_⟩
  have hpe := mul_fin_eq X M p hmul
  have hBe := div_fin_eq (p / F32.unit) M B hM0 hdiv
  obtain ⟨k, hkdef⟩ : ∃ k, k = p / F32.unit := ⟨_, rfl⟩
  rw [← hkdef] at hBe hk
  have hk1 : k * F32.unit ≤ p := by rw [hkdef]; exact Nat.div_mul_le_self p F32.unit
  have hk2 : p < (k + 1) * F32.unit := by
    rw [hkdef]
    have := Nat.lt_succ_iff.mpr (le_refl (p / F32.unit))
    exact (Nat.div_lt_iff_lt_mul hu).mp this
  -- the scaled product
  have hq1 : X * (M * F32.unit) / F32.unit = X * M := by
    rw [← Nat.mul_assoc]
    exact Nat.mul_div_cancel _ hu
  have hlog1 : ilog2 (X * (M * F32.unit) / F32.unit) - (24 - 1) ≤ 141 := by
    have : ilog2 (X * (M * F32.unit) / F32.unit) ≤ 164 := by
      apply ilog2_le
      rw [hq1]
      calc X * M ≤ F32.unit * M := Nat.mul_le_mul_right _ hX
        _ < F32.unit * 2 ^ 16 := Nat.mul_lt_mul_of_pos_left hM hu
        _ = 2 ^ (164 + 1) := by unfold F32.unit; rw [← Nat.pow_add]
    omega
  have hpow1 : 2 ^ (ilog2 (X * (M * F32.unit) / F32.unit) - (24 - 1)) ≤ 2 ^ 141 :=
    Nat.pow_le_pow_right (by decide) hlog1
  have herr1 := (roundUnits_err 24 (X * (M * F32.unit)) F32.unit hu).1
  rw [← hpe] at herr1
  have hlow : 2 * p ≤ 2 * (M * X) + 2 ^ 141 := by
    have h3 : (2 * p) * F32.unit ≤ (2 * (M * X) + 2 ^ 141) * F32.unit := by
      calc (2 * p) * F32.unit = 2 * (p * F32.unit) := by ring
        _ ≤ 2 * (X * (M * F32.unit))
            + F32.unit * 2 ^ (ilog2 (X * (M * F32.unit) / F32.unit) - (24 - 1)) := herr1
        _ ≤ 2 * (X * (M * F32.unit)) + F32.unit * 2 ^ 141 :=
            Nat.add_le_add_left (Nat.mul_le_mul_left _ hpow1) _
        _ = (2 * (M * X) + 2 ^ 141) * F32.unit := by ring
    exact Nat.le_of_mul_le_mul_right h3 hu
  have hup : M * X < (k + 1) * F32.unit := by
    by_contra hcon
    have hcon2 : (k + 1) * F32.unit ≤ M * X := Nat.le_of_not_lt hcon
    have hge : (k + 1) * F32.unit ≤ roundUnits 24 (X * (M * F32.unit)) F32.unit := by
      apply roundUnits_ge hu
      · calc (k + 1) * F32.unit * F32.unit ≤ M * X * F32.unit := Nat.mul_le_mul_right _ hcon2
          _ = X * (M * F32.unit) := by ring
      · have h149 : ilog2 (X * (M * F32.unit) / F32.unit) - (24 - 1) ≤ 149 := by omega
        exact Dvd.dvd.mul_left (Nat.pow_dvd_pow 2 h149) (k + 1)
    rw [← hpe] at hge
    omega
  -- the normalisation of the truncated integer
  have hd2 : 0 < M * F32.unit := Nat.mul_pos hM0 hu
  have hq2 : k * F32.unit * F32.unit / (M * F32.unit) ≤ F32.unit := by
    have hle : k * F32.unit * F32.unit ≤ F32.unit * (M * F32.unit) := by
      calc k * F32.unit * F32.unit ≤ M * F32.unit * F32.unit :=
            Nat.mul_le_mul_right _ (Nat.mul_le_mul_right _ hk)
        _ = F32.unit * (M * F32.unit) := by ring
    calc k * F32.unit * F32.unit / (M * F32.unit)
        ≤ F32.unit * (M * F32.unit) / (M * F32.unit) := Nat.div_le_div_right hle
      _ = F32.unit := Nat.mul_div_cancel _ hd2
  have hlog2 : ilog2 (k * F32.unit * F32.unit / (M * F32.unit)) - (24 - 1) ≤ 126 := by
    have : ilog2 (k * F32.unit * F32.unit / (M * F32.unit)) ≤ 149 := by
      apply ilog2_le
      calc _ ≤ F32.unit := hq2
        _ < 2 ^ (149 + 1) := by unfold F32.unit; exact Nat.pow_lt_pow_right (by decide) (by decide)
    omega
  have hpow2 : 2 ^ (ilog2 (k * F32.unit * F32.unit / (M * F32.unit)) - (24 - 1)) ≤ 2 ^ 126 :=
    Nat.pow_le_pow_right (by decide) hlog2
  have herr2 := roundUnits_err 24 (k * F32.unit * F32.unit) (M * F32.unit) hd2
  rw [← hBe] at herr2
  obtain ⟨e1, e2⟩ := herr2
  have hB1 : 2 * (M * B) ≤ 2 * (k * F32.unit) + M * 2 ^ 126 := by
    have h3 : (2 * (M * B)) * F32.unit ≤ (2 * (k * F32.unit) + M * 2 ^ 126) * F32.unit := by
      calc (2 * (M * B)) * F32.unit = 2 * (B * (M * F32.unit)) := by ring
        _ ≤ 2 * (k * F32.unit * F32.unit) + M * F32.unit
            * 2 ^ (ilog2 (k * F32.unit * F32.unit / (M * F32.unit)) - (24 - 1)) := e1
        _ ≤ 2 * (k * F32.unit * F32.unit) + M * F32.unit * 2 ^ 126 :=
            Nat.add_le_add_left (Nat.mul_le_mul_left _ hpow2) _
        _ = (2 * (k * F32.unit) + M * 2 ^ 126) * F32.unit := by ring
    exact Nat.le_of_mul_le_mul_right h3 hu
  have hB2 : 2 * (k * F32.unit) ≤ 2 * (M * B) + M * 2 ^ 126 := by
    have h3 : (2 * (k * F32.unit)) * F32.unit ≤ (2 * (M * B) + M * 2 ^ 126) * F32.unit := by
      calc (2 * (k * F32.unit)) * F32.unit = 2 * (k * F32.unit * F32.unit) := by ring
        _ ≤ 2 * (B * (M * F32.unit)) + M * F32.unit
            * 2 ^ (ilog2 (k * F32.unit * F32.unit / (M * F32.unit)) - (24 - 1)) := e2
        _ ≤ 2 * (B * (M * F32.unit)) + M * F32.unit * 2 ^ 126 :=
            Nat.add_le_add_left (Nat.mul_le_mul_left _ hpow2) _
        _ = (2 * (M * B) + M * 2 ^ 126) * F32.unit := by ring
    exact Nat.le_of_mul_le_mul_right h3 hu
  have hs : (k + 1) * F32.unit = k * F32.unit + F32.unit := by ring
  rw [hs] at hup hk2
  generalize M * X = a at hlow hup ⊢
  generalize M * B = b at hB1 hB2 ⊢
  generalize k * F32.unit = c at hk1 hk2 hup hB1 hB2
  generalize F32.unit = u at *
  constructor <;> omega

theorem clamp01_of_inUnit (x : F32) (hx : inUnit x) :
    ∃ s X, x = F32.fin s X ∧ X ≤ F32.unit ∧ clamp01 x = F32.fin false X := by
  have hu := unit_pos
  obtain ⟨h0, h1⟩ := hx
  cases x with
  | nan => simp [F32.le, F32.zero] at h0
  | inf s =>
    cases s
    · simp [F32.le, F32.one] at h1
    · simp [F32.le, F32.zero] at h0
  | fin s m =>
    cases s
    · have hm : m ≤ F32.unit := by
        simp [F32.le, F32.one, F32.signed] at h1
        exact h1
      exact ⟨false, m, rfl, hm, clamp01_of_fin_le m hm⟩
    · have hm : m = 0 := by
        simp [F32.le, F32.zero, F32.signed] at h0
        exact h0
      subst hm
      refine ⟨true, 0, rfl, Nat.zero_le _, ?_⟩
      simp [clamp01, F32.max, F32.min, F32.lt, F32.zero, F32.one, F32.signed, hu]

/-- a 32-bit float channel in `[0, 1]` through an integer type of maximum `M` -/
theorem convertCell_round_trip_f32_int (eG : Elem) (hG : eG = Elem.u8 ∨ eG = Elem.u16)
    (x : F32) (hx : inUnit x) :
    ∃ s X B, x = F32.fin s X ∧ X ≤ F32.unit ∧ B ≤ F32.unit ∧
      convertCell eG Elem.f32 (convertCell Elem.f32 eG (Cell.f32 x)) = Cell.f32 (F32.fin false B) ∧
      maxValue eG * X < maxValue eG * B + F32.unit + maxValue eG * 2 ^ 125 ∧
      maxValue eG * B ≤ maxValue eG * X + 2 ^ 140 + maxValue eG * 2 ^ 125 := by
  obtain ⟨s, X, hxe, hX, hc⟩ := clamp01_of_inUnit x hx
  rcases hG with rfl | rfl
  · obtain ⟨p, B, hmul, hk, hdiv, hB, b1, b2⟩ := float_int_float 255 X (by decide) (by decide) hX
    obtain ⟨ht, _⟩ := toUInt_fin_of_le 8 p 255
      (by rw [mul_fin_eq X 255 p hmul]
          obtain ⟨r, hr, hr2⟩ := mul_ofUInt_bound X 255 hX (by decide)
          rw [← mul_fin_eq X 255 r hr2]; exact hr) (by decide)
    refine ⟨s, X, B, hxe, hX, hB, ?_, b1, b2⟩
    have hv : ((F32.mul (clamp01 x) F32.c255).toU8 : Nat) = p / F32.unit := by
      show F32.toUInt 8 (F32.mul (clamp01 x) (F32.ofUInt 255)) % 256 = p / F32.unit
      rw [hc, hmul, ht]
      exact Nat.mod_eq_of_lt (by omega)
    show Cell.f32 (F32.div (F32.ofUInt ((F32.mul (clamp01 x) F32.c255).toU8 : Nat))
      (F32.ofUInt 255)) = _
    rw [hv, hdiv]
  · obtain ⟨p, B, hmul, hk, hdiv, hB, b1, b2⟩ :=
      float_int_float 65535 X (by decide) (by decide) hX
    obtain ⟨ht, _⟩ := toUInt_fin_of_le 16 p 65535
      (by rw [mul_fin_eq X 65535 p hmul]
          obtain ⟨r, hr, hr2⟩ := mul_ofUInt_bound X 65535 hX (by decide)
          rw [← mul_fin_eq X 65535 r hr2]; exact hr) (by decide)
    refine ⟨s, X, B, hxe, hX, hB, ?_, b1, b2⟩
    have hv : ((F32.mul (clamp01 x) F32.c65535).toU16 : Nat) = p / F32.unit := by
      show F32.toUInt 16 (F32.mul (clamp01 x) (F32.ofUInt 65535)) % 65536 = p / F32.unit
      rw [hc, hmul, ht]
      exact Nat.mod_eq_of_lt (by omega)
    show Cell.f32 (F32.div (F32.ofUInt ((F32.mul (clamp01 x) F32.c65535).toU16 : Nat))
      (F32.ofUInt 65535)) = _
    rw [hv, hdiv]

theorem ilog2_zero : ilog2 0 = 0 := rfl

theorem le_ilog2 {n k : Nat} (h : 2 ^ k ≤ n) : k ≤ ilog2 n := by
  have hn : 0 < n := Nat.lt_of_lt_of_le (by positivity) h
  have h2 := (ilog2_spec hn).2
  have h3 : 2 ^ k < 2 ^ (ilog2 n + 1) := Nat.lt_of_le_of_lt h h2
  have h4 := (Nat.pow_lt_pow_iff_right (by decide : 1 < 2)).mp h3
  omega

theorem ilog2_mono {a b : Nat} (h : a ≤ b) : ilog2 a ≤ ilog2 b := by
  rcases Nat.eq_zero_or_pos a with h0 | h0
  · subst h0
    rw [ilog2_zero]
    exact Nat.zero_le _
  · exact le_ilog2 (Nat.le_trans (ilog2_spec h0).1 h)

/-- a rounded quotient is not below the power of two at or below the quotient -/
theorem roundUnits_ge_pow (p n d : Nat) (hd : 0 < d) (hn : d ≤ n) :
    2 ^ ilog2 (n / d) ≤ roundUnits p n d := by
  apply roundUnits_ge hd
  · have hq : 0 < n / d := Nat.div_pos hn hd
    calc 2 ^ ilog2 (n / d) * d ≤ n / d * d := Nat.mul_le_mul_right _ (ilog2_spec hq).1
      _ ≤ n := Nat.div_mul_le_self n d
  · exact Nat.pow_dvd_pow 2 (Nat.sub_le _ _)

/-- a power of two leaves a power of two below `m + 1 = 2 ^ w` as remainder modulo `m` -/
theorem pow_mod_mersenne (m w j : Nat) (hm : m + 1 = 2 ^ w) (hw : 2 ≤ w) :
    1 ≤ 2 ^ j % m ∧ 2 * (2 ^ j % m) ≤ m + 1 := by
  have hW : 4 ≤ 2 ^ w := by
    calc 4 = 2 ^ 2 := by norm_num
      _ ≤ 2 ^ w := Nat.pow_le_pow_right (by decide) hw
  have h1 : 2 ^ w % m = 1 := by
    rw [← hm, Nat.add_mod, Nat.mod_self, Nat.zero_add, Nat.mod_mod]
    exact Nat.mod_eq_of_lt (by omega)
  have hr : j % w < w := Nat.mod_lt _ (by omega)
  have h2 : 2 * 2 ^ (j % w) ≤ 2 ^ w := by
    calc 2 * 2 ^ (j % w) = 2 ^ (j % w + 1) := by rw [Nat.pow_succ]; ring
      _ ≤ 2 ^ w := Nat.pow_le_pow_right (by decide) (by omega)
  have h3 : 2 ^ j % m = 2 ^ (j % w) := by
    conv_lhs => rw [← Nat.div_add_mod j w, Nat.pow_add, Nat.pow_mul]
    rw [Nat.mul_mod, Nat.pow_mod, h1, Nat.one_pow, Nat.mod_eq_of_lt (by omega : 1 < m),
      Nat.one_mul, Nat.mod_mod]
    exact Nat.mod_eq_of_lt (by omega)
  rw [h3, hm]
  exact ⟨Nat.one_le_two_pow, h2⟩

/-- the truncated rounded product `k` of a `float` in `[0, 1]` and `M` has the exact
product below `k + 1` -/
theorem trunc_mul_lt (M X : Nat) (hM : M < 2 ^ 16) (hX : X ≤ F32.unit) :
    M * X < (roundUnits 24 (X * (M * F32.unit)) F32.unit / F32.unit + 1) * F32.unit := by
  have hu := unit_pos
  obtain ⟨p, hp⟩ : ∃ p, p = roundUnits 24 (X * (M * F32.unit)) F32.unit := ⟨_, rfl⟩
  rw [← hp]
  have hk2 : p < (p / F32.unit + 1) * F32.unit := by
    have := Nat.lt_succ_iff.mpr (le_refl (p / F32.unit))
    exact (Nat.div_lt_iff_lt_mul hu).mp this
  have hq1 : X * (M * F32.unit) / F32.unit = X * M := by
    rw [← Nat.mul_assoc]
    exact Nat.mul_div_cancel _ hu
  have hlog1 : ilog2 (X * (M * F32.unit) / F32.unit) - (24 - 1) ≤ 149 := by
    have : ilog2 (X * (M * F32.unit) / F32.unit) ≤ 164 := by
      apply ilog2_le
      rw [hq1]
      calc X * M ≤ F32.unit * M := Nat.mul_le_mul_right _ hX
        _ < F32.unit * 2 ^ 16 := Nat.mul_lt_mul_of_pos_left hM hu
        _ = 2 ^ (164 + 1) := by unfold F32.unit; rw [← Nat.pow_add]
    omega
  by_contra hcon
  have hcon2 : (p / F32.unit + 1) * F32.unit ≤ M * X := Nat.le_of_not_lt hcon
  have hge : (p / F32.unit + 1) * F32.unit ≤ roundUnits 24 (X * (M * F32.unit)) F32.unit := by
    apply roundUnits_ge hu
    · calc (p / F32.unit + 1) * F32.unit * F32.unit ≤ M * X * F32.unit :=
          Nat.mul_le_mul_right _ hcon2
        _ = X * (M * F32.unit) := by ring
    · exact Dvd.dvd.mul_left (Nat.pow_dvd_pow 2 hlog1) (p / F32.unit + 1)
  rw [← hp] at hge
  omega

/-- a binary32 value `X` in `[0, 1]` scaled to an integer of maximum `M`, truncated and
normalised again loses less than `1 / M` -/
theorem float_trip_strict (M X : Nat) (hM : M = 255 ∨ M = 65535) (hX : X ≤ F32.unit)
    (hwf : X % 2 ^ (ilog2 X - 23) = 0) :
    M * X < M * roundUnits 24
        (roundUnits 24 (X * (M * F32.unit)) F32.unit / F32.unit * F32.unit * F32.unit)
        (M * F32.unit) + F32.unit := by
  have hu := unit_pos
  have hM16 : M < 2 ^ 16 := by rcases hM with rfl | rfl <;> decide
  have hM0 : 0 < M := by rcases hM with rfl | rfl <;> decide
  have hup := trunc_mul_lt M X hM16 hX
  obtain ⟨k, hk⟩ : ∃ k, k = roundUnits 24 (X * (M * F32.unit)) F32.unit / F32.unit := ⟨_, rfl⟩
  rw [← hk] at hup ⊢
  obtain ⟨B, hB⟩ : ∃ B, B = roundUnits 24 (k * F32.unit * F32.unit) (M * F32.unit) := ⟨_, rfl⟩
  rw [← hB]
  by_cases hXB : X ≤ B
  · calc M * X ≤ M * B := Nat.mul_le_mul_left _ hXB
      _ < M * B + F32.unit := Nat.lt_add_of_pos_right hu
  have hBX : B < X := Nat.lt_of_not_le hXB
  have hd : 0 < M * F32.unit := Nat.mul_pos hM0 hu
  obtain ⟨e, he⟩ : ∃ e, e = ilog2 (k * F32.unit * F32.unit / (M * F32.unit)) - (24 - 1) :=
    ⟨_, rfl⟩
  -- the grid of the result divides the source
  have hle : ilog2 (k * F32.unit * F32.unit / (M * F32.unit)) ≤ ilog2 X := by
    by_cases hq : M * F32.unit ≤ k * F32.unit * F32.unit
    · have h1 := roundUnits_ge_pow 24 (k * F32.unit * F32.unit) (M * F32.unit) hd hq
      rw [← hB] at h1
      exact le_ilog2 (Nat.le_of_lt (Nat.lt_of_le_of_lt h1 hBX))
    · rw [Nat.div_eq_of_lt (Nat.lt_of_not_le hq), ilog2_zero]
      exact Nat.zero_le _
  have heX : e ≤ ilog2 X - 23 := by omega
  have hXu : ilog2 X ≤ 149 := by
    apply ilog2_le
    calc X ≤ F32.unit := hX
      _ < 2 ^ (149 + 1) := by unfold F32.unit; exact Nat.pow_lt_pow_right (by decide) (by decide)
  have he149 : e ≤ 149 := by omega
  obtain ⟨x, hx⟩ : ∃ x, X = x * 2 ^ e := by
    have h1 : 2 ^ e ∣ X :=
      Nat.dvd_trans (Nat.pow_dvd_pow 2 heX) (Nat.dvd_of_mod_eq_zero hwf)
    obtain ⟨x, hx⟩ := h1
    exact ⟨x, by rw [hx, Nat.mul_comm]⟩
  obtain ⟨Q, hQ, hQu⟩ : ∃ Q, Q = 2 ^ (149 - e) ∧ F32.unit = Q * 2 ^ e := by
    refine ⟨2 ^ (149 - e), rfl, ?_⟩
    unfold F32.unit
    rw [← Nat.pow_add]
    congr 1
    omega
  have hg : 0 < 2 ^ e := by positivity
  -- the result on the grid
  have hBe : B = roundNE (k * Q) M * 2 ^ e := by
    rw [hB]
    unfold roundUnits
    simp only
    rw [← he]
    congr 1
    have e1 : k * F32.unit * F32.unit = k * Q * (2 ^ e * F32.unit) := by
      have e0 : k * F32.unit = k * (Q * 2 ^ e) := by rw [← hQu]
      rw [e0]
      ring
    have e2 : M * F32.unit * 2 ^ e = M * (2 ^ e * F32.unit) := by ring
    rw [e1, e2]
    exact roundNE_scale (k * Q) M (2 ^ e * F32.unit) (Nat.mul_pos hg hu)
  obtain ⟨herr1, herr2⟩ := roundNE_err (k * Q) M hM0
  have hup2 : M * x < k * Q + Q := by
    have h1 : M * x * 2 ^ e < (k * Q + Q) * 2 ^ e := by
      calc M * x * 2 ^ e = M * X := by rw [hx]; ring
        _ < (k + 1) * F32.unit := hup
        _ = (k * Q + Q) * 2 ^ e := by rw [hQu]; ring
    exact Nat.lt_of_mul_lt_mul_right h1
  have hgoal : M * x < M * roundNE (k * Q) M + Q := by
    have hdm := Nat.div_add_mod Q M
    generalize roundNE (k * Q) M = β at herr1 herr2 ⊢
    generalize k * Q = K at herr1 herr2 hup2
    rcases hM with rfl | rfl
    · obtain ⟨hp1, hp2⟩ := pow_mod_mersenne 255 8 (149 - e) (by norm_num) (by decide)
      rw [← hQ] at hp1 hp2
      generalize Q / 255 = t at hdm
      generalize Q % 255 = r at hdm hp1 hp2
      omega
    · obtain ⟨hp1, hp2⟩ := pow_mod_mersenne 65535 16 (149 - e) (by norm_num) (by decide)
      rw [← hQ] at hp1 hp2
      generalize Q / 65535 = t at hdm
      generalize Q % 65535 = r at hdm hp1 hp2
      omega
  calc M * X = M * x * 2 ^ e := by rw [hx]; ring
    _ < (M * roundNE (k * Q) M + Q) * 2 ^ e := Nat.mul_lt_mul_of_pos_right hgoal hg
    _ = M * B + F32.unit := by rw [hBe, hQu]; ring

/-- the rounding error of the scaled product of a half magnitude `h` and `M < 2 ^ w`, in
half units: `k` is the truncated rounded product -/
theorem half_mul_err (M w h : Nat) (hMw : M < 2 ^ w) (hh : h ≤ 2 ^ 24) :
    2 ^ 24 * (roundUnits 24 (h * 2 ^ 125 * (M * F32.unit)) F32.unit / F32.unit * 2 ^ 24)
      ≤ 2 ^ 24 * (M * h) + 2 ^ (ilog2 h + w) := by
  have hu := unit_pos
  have hc : (0 : Nat) < 2 ^ 125 := by positivity
  have hTc : F32.unit = 2 ^ 24 * 2 ^ 125 := by unfold F32.unit; rw [← Nat.pow_add]
  obtain ⟨p, hp⟩ : ∃ p, p = roundUnits 24 (h * 2 ^ 125 * (M * F32.unit)) F32.unit := ⟨_, rfl⟩
  rw [← hp]
  have hkp : p / F32.unit * F32.unit ≤ p := Nat.div_mul_le_self p F32.unit
  have hq1 : h * 2 ^ 125 * (M * F32.unit) / F32.unit = h * 2 ^ 125 * M := by
    rw [← Nat.mul_assoc]
    exact Nat.mul_div_cancel _ hu
  have hlt : h < 2 ^ (ilog2 h + 1) := by
    rcases Nat.eq_zero_or_pos h with h0 | h0
    · subst h0; positivity
    · exact (ilog2_spec h0).2
  have hlog : ilog2 (h * 2 ^ 125 * (M * F32.unit) / F32.unit) ≤ ilog2 h + w + 125 := by
    apply ilog2_le
    rw [hq1]
    calc h * 2 ^ 125 * M < 2 ^ (ilog2 h + 1) * 2 ^ 125 * 2 ^ w := by
          apply Nat.mul_lt_mul_of_lt_of_lt _ hMw
          exact Nat.mul_lt_mul_of_pos_right hlt hc
      _ = 2 ^ (ilog2 h + w + 125 + 1) := by rw [← Nat.pow_add, ← Nat.pow_add]; congr 1; omega
  have hpow : 2 ^ (ilog2 (h * 2 ^ 125 * (M * F32.unit) / F32.unit) - (24 - 1))
      ≤ 2 ^ (ilog2 h + w + 102) := Nat.pow_le_pow_right (by decide) (by omega)
  have herr := (roundUnits_err 24 (h * 2 ^ 125 * (M * F32.unit)) F32.unit hu).1
  rw [← hp] at herr
  have h1 : 2 * p ≤ 2 * (h * 2 ^ 125 * M) + 2 ^ (ilog2 h + w + 102) := by
    have h3 : (2 * p) * F32.unit
        ≤ (2 * (h * 2 ^ 125 * M) + 2 ^ (ilog2 h + w + 102)) * F32.unit := by
      calc (2 * p) * F32.unit = 2 * (p * F32.unit) := by ring
        _ ≤ 2 * (h * 2 ^ 125 * (M * F32.unit)) + F32.unit
            * 2 ^ (ilog2 (h * 2 ^ 125 * (M * F32.unit) / F32.unit) - (24 - 1)) := herr
        _ ≤ 2 * (h * 2 ^ 125 * (M * F32.unit)) + F32.unit * 2 ^ (ilog2 h + w + 102) :=
            Nat.add_le_add_left (Nat.mul_le_mul_left _ hpow) _
        _ = (2 * (h * 2 ^ 125 * M) + 2 ^ (ilog2 h + w + 102)) * F32.unit := by ring
    exact Nat.le_of_mul_le_mul_right h3 hu
  have e102 : 2 ^ (ilog2 h + w + 102) * 2 ^ 23 = 2 ^ (ilog2 h + w) * 2 ^ 125 := by
    rw [← Nat.pow_add, ← Nat.pow_add]
  have h2 : (2 ^ 24 * (p / F32.unit * 2 ^ 24)) * 2 ^ 125
      ≤ (2 ^ 24 * (M * h) + 2 ^ (ilog2 h + w)) * 2 ^ 125 := by
    calc (2 ^ 24 * (p / F32.unit * 2 ^ 24)) * 2 ^ 125
        = 2 ^ 24 * (p / F32.unit * F32.unit) := by rw [hTc]; ring
      _ ≤ 2 ^ 24 * p := Nat.mul_le_mul_left _ hkp
      _ = 2 ^ 23 * (2 * p) := by ring
      _ ≤ 2 ^ 23 * (2 * (h * 2 ^ 125 * M) + 2 ^ (ilog2 h + w + 102)) :=
          Nat.mul_le_mul_left _ h1
      _ = 2 ^ 24 * (M * h) * 2 ^ 125 + 2 ^ (ilog2 h + w + 102) * 2 ^ 23 := by ring
      _ = (2 ^ 24 * (M * h) + 2 ^ (ilog2 h + w)) * 2 ^ 125 := by rw [e102]; ring
  exact Nat.le_of_mul_le_mul_right h2 hc

theorem half_no_cross_16 (h : Nat) (hh : h ≤ 2 ^ 24) (hwf : h % 2 ^ (ilog2 h - 10) = 0) :
    roundUnits 24 (h * 2 ^ 125 * (65535 * F32.unit)) F32.unit / F32.unit * 2 ^ 24
      ≤ 65535 * h := by
  have hL : ilog2 h ≤ 24 :=
    ilog2_le (Nat.lt_of_le_of_lt hh (Nat.pow_lt_pow_right (by decide) (by decide)))
  have hlo : h = 0 ∨ 2 ^ ilog2 h ≤ h := by
    rcases Nat.eq_zero_or_pos h with h0 | h0
    · exact Or.inl h0
    · exact Or.inr (ilog2_spec h0).1
  have hhi : h < 2 ^ (ilog2 h + 1) := by
    rcases Nat.eq_zero_or_pos h with h0 | h0
    · subst h0; positivity
    · exact (ilog2_spec h0).2
  have herr := half_mul_err 65535 16 h (by decide) hh
  generalize roundUnits 24 (h * 2 ^ 125 * (65535 * F32.unit)) F32.unit / F32.unit = k at *
  by_contra hcon
  have hgT : 2 ^ (ilog2 h - 10) ∣ k * 2 ^ 24 :=
    Dvd.dvd.mul_left (Nat.pow_dvd_pow 2 (by omega)) k
  have hgh : 2 ^ (ilog2 h - 10) ∣ 65535 * h :=
    Dvd.dvd.mul_left (Nat.dvd_of_mod_eq_zero hwf) 65535
  obtain ⟨j, hj⟩ := (Nat.dvd_sub' hgT hgh)
  have hj2 : k * 2 ^ 24 = 65535 * h + 2 ^ (ilog2 h - 10) * j := by omega
  have hj1 : 1 ≤ j := by
    rcases Nat.eq_zero_or_pos j with h0 | h0
    · subst h0; omega
    · exact h0
  have hj4 : j ≤ 4 := by
    have h1 : 2 ^ (ilog2 h + 14) * j ≤ 2 ^ (ilog2 h + 14) * 4 := by
      calc 2 ^ (ilog2 h + 14) * j ≤ 2 ^ 24 * 2 ^ (ilog2 h - 10) * j := by
            apply Nat.mul_le_mul_right
            rw [← Nat.pow_add]
            exact Nat.pow_le_pow_right (by decide) (by omega)
        _ = 2 ^ 24 * (2 ^ (ilog2 h - 10) * j) := by ring
        _ ≤ 2 ^ (ilog2 h + 16) := by omega
        _ = 2 ^ (ilog2 h + 14) * 4 := by rw [Nat.pow_add, Nat.pow_add]; ring
    exact Nat.le_of_mul_le_mul_left h1 (by positivity)
  clear hgT hgh hj herr hcon
  generalize ilog2 h = L at *
  interval_cases j <;> interval_cases L <;>
    simp only [Nat.reducePow, Nat.reduceSub, Nat.reduceAdd] at * <;> omega

/-- the rounding of the scaled product of a half magnitude never reaches the next
integer: the truncated rounded product is the truncated exact product -/
theorem half_no_cross (M h : Nat) (hM : M = 255 ∨ M = 65535) (hh : h ≤ 2 ^ 24)
    (hwf : h % 2 ^ (ilog2 h - 10) = 0) :
    roundUnits 24 (h * 2 ^ 125 * (M * F32.unit)) F32.unit / F32.unit * 2 ^ 24 ≤ M * h := by
  rcases hM with rfl | rfl
  · have hL : ilog2 h ≤ 24 :=
      ilog2_le (Nat.lt_of_le_of_lt hh (Nat.pow_lt_pow_right (by decide) (by decide)))
    have hlo : h = 0 ∨ 2 ^ ilog2 h ≤ h := by
      rcases Nat.eq_zero_or_pos h with h0 | h0
      · exact Or.inl h0
      · exact Or.inr (ilog2_spec h0).1
    have hhi : h < 2 ^ (ilog2 h + 1) := by
      rcases Nat.eq_zero_or_pos h with h0 | h0
      · subst h0; positivity
      · exact (ilog2_spec h0).2
    have herr := half_mul_err 255 8 h (by decide) hh
    generalize roundUnits 24 (h * 2 ^ 125 * (255 * F32.unit)) F32.unit / F32.unit = k at *
    generalize ilog2 h = L at *
    interval_cases L <;> simp only [Nat.reducePow, Nat.reduceSub, Nat.reduceAdd] at * <;> omega
  · exact half_no_cross_16 h hh hwf

/-- the float grid of a quotient is at least 13 bits finer than the half grid of its
rounded value -/
theorem grid_float_half (n d : Nat) (hd : 0 < d) :
    2 ^ 13 * 2 ^ (ilog2 (n / d) - (24 - 1))
      ≤ 2 ^ 125 * 2 ^ (ilog2 (roundUnits 24 n d / 2 ^ 125) - (11 - 1)) := by
  have hle : ilog2 (n / d) ≤ ilog2 (roundUnits 24 n d / 2 ^ 125) + 125 := by
    by_cases hq : d ≤ n
    · have h1 := roundUnits_ge_pow 24 n d hd hq
      by_cases h125 : 125 ≤ ilog2 (n / d)
      · have h2 : 2 ^ (ilog2 (n / d) - 125) ≤ roundUnits 24 n d / 2 ^ 125 := by
          rw [Nat.le_div_iff_mul_le (by positivity), ← Nat.pow_add]
          have : ilog2 (n / d) - 125 + 125 = ilog2 (n / d) := by omega
          rw [this]
          exact h1
        have := le_ilog2 h2
        omega
      · omega
    · rw [Nat.div_eq_of_lt (Nat.lt_of_not_le hq), ilog2_zero]
      exact Nat.zero_le _
  rw [← Nat.pow_add, ← Nat.pow_add]
  exact Nat.pow_le_pow_right (by decide) (by omega)

/-- the half nearest to the float nearest to `k / M`, against `k / M` itself, in half
units scaled by `2 ^ 14 * M`: both roundings together move by at most half a half grid
step and a `2 ^ -13` part of it -/
theorem div_half_err (M k : Nat) (hM0 : 0 < M) :
    2 ^ 14 * (k * 2 ^ 24)
      ≤ 2 ^ 14 * (M * roundUnits 11
            (roundUnits 24 (k * F32.unit * F32.unit) (M * F32.unit)) (2 ^ 125))
        + 8193 * (M * 2 ^ (ilog2 (roundUnits 24 (k * F32.unit * F32.unit) (M * F32.unit)
            / 2 ^ 125) - (11 - 1))) ∧
    2 ^ 14 * (M * roundUnits 11
            (roundUnits 24 (k * F32.unit * F32.unit) (M * F32.unit)) (2 ^ 125))
      ≤ 2 ^ 14 * (k * 2 ^ 24)
        + 8193 * (M * 2 ^ (ilog2 (roundUnits 24 (k * F32.unit * F32.unit) (M * F32.unit)
            / 2 ^ 125) - (11 - 1))) := by
  have hu := unit_pos
  have hc : (0 : Nat) < 2 ^ 125 := by positivity
  have hTc : F32.unit = 2 ^ 24 * 2 ^ 125 := by unfold F32.unit; rw [← Nat.pow_add]
  have hd : 0 < M * F32.unit := Nat.mul_pos hM0 hu
  have hgrid := grid_float_half (k * F32.unit * F32.unit) (M * F32.unit) hd
  obtain ⟨a1, a2⟩ := roundUnits_err 24 (k * F32.unit * F32.unit) (M * F32.unit) hd
  generalize roundUnits 24 (k * F32.unit * F32.unit) (M * F32.unit) = B at *
  obtain ⟨b1, b2⟩ := roundUnits_err 11 B (2 ^ 125) hc
  generalize roundUnits 11 B (2 ^ 125) = H at *
  generalize 2 ^ (ilog2 (B / 2 ^ 125) - (11 - 1)) = g at *
  generalize 2 ^ (ilog2 (k * F32.unit * F32.unit / (M * F32.unit)) - (24 - 1)) = f at *
  -- cancel one unit in the float rounding
  have a1' : 2 * (B * M) ≤ 2 * (k * F32.unit) + M * f := by
    have h3 : (2 * (B * M)) * F32.unit ≤ (2 * (k * F32.unit) + M * f) * F32.unit := by
      calc (2 * (B * M)) * F32.unit = 2 * (B * (M * F32.unit)) := by ring
        _ ≤ 2 * (k * F32.unit * F32.unit) + M * F32.unit * f := a1
        _ = (2 * (k * F32.unit) + M * f) * F32.unit := by ring
    exact Nat.le_of_mul_le_mul_right h3 hu
  have a2' : 2 * (k * F32.unit) ≤ 2 * (B * M) + M * f := by
    have h3 : (2 * (k * F32.unit)) * F32.unit ≤ (2 * (B * M) + M * f) * F32.unit := by
      calc (2 * (k * F32.unit)) * F32.unit = 2 * (k * F32.unit * F32.unit) := by ring
        _ ≤ 2 * (B * (M * F32.unit)) + M * F32.unit * f := a2
        _ = (2 * (B * M) + M * f) * F32.unit := by ring
    exact Nat.le_of_mul_le_mul_right h3 hu
  constructor
  · have h4 : (2 ^ 14 * (k * 2 ^ 24)) * 2 ^ 125
        ≤ (2 ^ 14 * (M * H) + 8193 * (M * g)) * 2 ^ 125 := by
      calc (2 ^ 14 * (k * 2 ^ 24)) * 2 ^ 125 = 2 ^ 13 * (2 * (k * F32.unit)) := by
            rw [hTc]; ring
        _ ≤ 2 ^ 13 * (2 * (B * M) + M * f) := Nat.mul_le_mul_left _ a2'
        _ = 2 ^ 13 * M * (2 * B) + M * (2 ^ 13 * f) := by ring
        _ ≤ 2 ^ 13 * M * (2 * (H * 2 ^ 125) + 2 ^ 125 * g) + M * (2 ^ 125 * g) :=
            Nat.add_le_add (Nat.mul_le_mul_left _ b2) (Nat.mul_le_mul_left _ hgrid)
        _ = (2 ^ 14 * (M * H) + 8193 * (M * g)) * 2 ^ 125 := by ring
    exact Nat.le_of_mul_le_mul_right h4 hc
  · have h4 : (2 ^ 14 * (M * H)) * 2 ^ 125
        ≤ (2 ^ 14 * (k * 2 ^ 24) + 8193 * (M * g)) * 2 ^ 125 := by
      calc (2 ^ 14 * (M * H)) * 2 ^ 125 = 2 ^ 13 * M * (2 * (H * 2 ^ 125)) := by ring
        _ ≤ 2 ^ 13 * M * (2 * B + 2 ^ 125 * g) := Nat.mul_le_mul_left _ b1
        _ = 2 ^ 13 * (2 * (B * M)) + 2 ^ 13 * M * (2 ^ 125 * g) := by ring
        _ ≤ 2 ^ 13 * (2 * (k * F32.unit) + M * f) + 2 ^ 13 * M * (2 ^ 125 * g) :=
            Nat.add_le_add_right (Nat.mul_le_mul_left _ a1') _
        _ = 2 ^ 13 * (2 * (k * F32.unit)) + M * (2 ^ 13 * f)
            + 2 ^ 13 * M * (2 ^ 125 * g) := by ring
        _ ≤ 2 ^ 13 * (2 * (k * F32.unit)) + M * (2 ^ 125 * g)
            + 2 ^ 13 * M * (2 ^ 125 * g) :=
            Nat.add_le_add_right (Nat.add_le_add_left (Nat.mul_le_mul_left _ hgrid) _) _
        _ = (2 ^ 14 * (k * 2 ^ 24) + 8193 * (M * g)) * 2 ^ 125 := by rw [hTc]; ring
    exact Nat.le_of_mul_le_mul_right h4 hc

/-- a half magnitude `h` in `[0, 1]` scaled to an integer of maximum `M`, truncated,
normalised and rounded to half again comes back as `H` with `H ≤ h` and
`h - H < 1 / M` (in half units, `2 ^ 24` is 1) -/
theorem half_trip (M h : Nat) (hM : M = 255 ∨ M = 65535) (hh : h ≤ 2 ^ 24)
    (hwf : h % 2 ^ (ilog2 h - 10) = 0) :
    roundUnits 11 (roundUnits 24
        (roundUnits 24 (h * 2 ^ 125 * (M * F32.unit)) F32.unit / F32.unit
          * F32.unit * F32.unit) (M * F32.unit)) (2 ^ 125) ≤ h ∧
    M * (h - roundUnits 11 (roundUnits 24
        (roundUnits 24 (h * 2 ^ 125 * (M * F32.unit)) F32.unit / F32.unit
          * F32.unit * F32.unit) (M * F32.unit)) (2 ^ 125)) < 2 ^ 24 := by
  have hu := unit_pos
  have hc : (0 : Nat) < 2 ^ 125 := by positivity
  have hTc : F32.unit = 2 ^ 24 * 2 ^ 125 := by unfold F32.unit; rw [← Nat.pow_add]
  have hM16 : M < 2 ^ 16 := by rcases hM with rfl | rfl <;> decide
  have hM0 : 0 < M := by rcases hM with rfl | rfl <;> decide
  have hd : 0 < M * F32.unit := Nat.mul_pos hM0 hu
  have hXu : h * 2 ^ 125 ≤ F32.unit := by rw [hTc]; exact Nat.mul_le_mul_right _ hh
  have hup := trunc_mul_lt M (h * 2 ^ 125) hM16 hXu
  have hnc := half_no_cross M h hM hh hwf
  generalize roundUnits 24 (h * 2 ^ 125 * (M * F32.unit)) F32.unit / F32.unit = k at *
  have herr := (div_half_err M k hM0).1
  have hL : ilog2 h ≤ 24 :=
    ilog2_le (Nat.lt_of_le_of_lt hh (Nat.pow_lt_pow_right (by decide) (by decide)))
  have hhi : h < 2 ^ (ilog2 h + 1) := by
    rcases Nat.eq_zero_or_pos h with h0 | h0
    · subst h0; positivity
    · exact (ilog2_spec h0).2
  -- the normalised value is not above the source
  have hBX : roundUnits 24 (k * F32.unit * F32.unit) (M * F32.unit) ≤ h * 2 ^ 125 := by
    apply roundUnits_le hd
    · calc k * F32.unit * F32.unit = k * 2 ^ 24 * 2 ^ 125 * F32.unit := by rw [hTc]; ring
        _ ≤ M * h * 2 ^ 125 * F32.unit :=
            Nat.mul_le_mul_right _ (Nat.mul_le_mul_right _ hnc)
        _ = h * 2 ^ 125 * (M * F32.unit) := by ring
    · have h1 : k * F32.unit * F32.unit / (M * F32.unit) ≤ h * 2 ^ 125 := by
        apply Nat.div_le_of_le_mul
        calc k * F32.unit * F32.unit = k * 2 ^ 24 * 2 ^ 125 * F32.unit := by rw [hTc]; ring
          _ ≤ M * h * 2 ^ 125 * F32.unit :=
              Nat.mul_le_mul_right _ (Nat.mul_le_mul_right _ hnc)
          _ = M * F32.unit * (h * 2 ^ 125) := by ring
      have h2 : ilog2 (k * F32.unit * F32.unit / (M * F32.unit)) ≤ ilog2 h + 125 := by
        apply ilog2_le
        calc k * F32.unit * F32.unit / (M * F32.unit) ≤ h * 2 ^ 125 := h1
          _ < 2 ^ (ilog2 h + 1) * 2 ^ 125 := Nat.mul_lt_mul_of_pos_right hhi hc
          _ = 2 ^ (ilog2 h + 125 + 1) := by rw [← Nat.pow_add]
      have h3 : 2 ^ (ilog2 (k * F32.unit * F32.unit / (M * F32.unit)) - (24 - 1))
          ∣ 2 ^ (ilog2 h - 10) * 2 ^ 125 := by
        rw [← Nat.pow_add]
        exact Nat.pow_dvd_pow 2 (by omega)
      exact Nat.dvd_trans h3 (Nat.mul_dvd_mul_right (Nat.dvd_of_mod_eq_zero hwf) _)
  generalize roundUnits 24 (k * F32.unit * F32.unit) (M * F32.unit) = B at *
  have hBh : B / 2 ^ 125 ≤ h := Nat.div_le_of_le_mul (by rw [Nat.mul_comm]; exact hBX)
  have he : ilog2 (B / 2 ^ 125) ≤ ilog2 h := ilog2_mono hBh
  have hgh : 2 ^ (ilog2 (B / 2 ^ 125) - (11 - 1)) ∣ h :=
    Nat.dvd_trans (Nat.pow_dvd_pow 2 (by omega)) (Nat.dvd_of_mod_eq_zero hwf)
  have hHh : roundUnits 11 B (2 ^ 125) ≤ h := roundUnits_le hc hBX hgh
  refine ⟨hHh, ?_⟩
  -- the result lies on the half grid of the normalised value
  have hgH : roundUnits 11 B (2 ^ 125) % 2 ^ (ilog2 (B / 2 ^ 125) - (11 - 1)) = 0 := by
    unfold roundUnits
    exact Nat.mul_mod_left _ _
  have hpow : 1 ≤ ilog2 (B / 2 ^ 125) - (11 - 1) →
      2 ^ (ilog2 (B / 2 ^ 125) - (11 - 1) + 10) ≤ roundUnits 11 B (2 ^ 125) := by
    intro h1
    have h2 : 2 ^ 125 ≤ B := by
      by_contra hcon
      rw [Nat.div_eq_of_lt (Nat.lt_of_not_le hcon), ilog2_zero] at h1
      omega
    have h3 := roundUnits_ge_pow 11 B (2 ^ 125) hc h2
    have : ilog2 (B / 2 ^ 125) - (11 - 1) + 10 = ilog2 (B / 2 ^ 125) := by omega
    rw [this]
    exact h3
  have hgh2 : h % 2 ^ (ilog2 (B / 2 ^ 125) - (11 - 1)) = 0 := Nat.mod_eq_zero_of_dvd hgh
  have hup2 : M * h < (k + 1) * 2 ^ 24 := by
    have h1 : M * h * 2 ^ 125 < (k + 1) * 2 ^ 24 * 2 ^ 125 := by
      calc M * h * 2 ^ 125 = M * (h * 2 ^ 125) := by ring
        _ < (k + 1) * F32.unit := hup
        _ = (k + 1) * 2 ^ 24 * 2 ^ 125 := by rw [hTc]; ring
    exact Nat.lt_of_mul_lt_mul_right h1
  have he14 : ilog2 (B / 2 ^ 125) - (11 - 1) ≤ 14 := by omega
  generalize roundUnits 11 B (2 ^ 125) = H at *
  generalize ilog2 (B / 2 ^ 125) - (11 - 1) = e at *
  clear hgh he hBh hBX hnc hup hhi hL hwf hXu hd
  rcases hM with rfl | rfl
  · interval_cases e <;> simp only [Nat.reducePow, Nat.reduceAdd] at * <;> omega
  · interval_cases e <;> simp only [Nat.reducePow, Nat.reduceAdd] at * <;> try omega
    -- the half grid of 512 units, where one step is two steps of the integer range
    by_contra hcon
    have h1 : 65535 * H + 16777216 ≤ k * 16777216 := by omega
    obtain ⟨j, hj⟩ : ∃ j, k * 16777216 = 65535 * H + 16777216 + 512 * j :=
      ⟨(k * 16777216 - 65535 * H - 16777216) / 512, by omega⟩
    have hj3 : j ≤ 3 := by omega
    interval_cases j <;> omega

theorem u16_half_trip_max :
    roundUnits 24 (roundUnits 11 (roundUnits 24 (65535 * F32.unit * F32.unit)
        (65535 * F32.unit)) (2 ^ 125) * 2 ^ 125 * (65535 * F32.unit)) F32.unit / F32.unit
      = 65535 := by
  decide!

/-- a 16-bit integer `v` normalised, rounded to half, scaled and truncated again comes
back within 16 of `v` -/
theorem u16_half_trip (v : Nat) (hv : v ≤ 65535) :
    roundUnits 24 (roundUnits 11 (roundUnits 24 (v * F32.unit * F32.unit)
        (65535 * F32.unit)) (2 ^ 125) * 2 ^ 125 * (65535 * F32.unit)) F32.unit / F32.unit
      ≤ v + 16 ∧
    v ≤ roundUnits 24 (roundUnits 11 (roundUnits 24 (v * F32.unit * F32.unit)
        (65535 * F32.unit)) (2 ^ 125) * 2 ^ 125 * (65535 * F32.unit)) F32.unit / F32.unit
      + 16 := by
  rcases Nat.eq_or_lt_of_le hv with hmax | hlt
  · subst hmax
    rw [u16_half_trip_max]
    exact ⟨by omega, by omega⟩
  have hu := unit_pos
  have hc : (0 : Nat) < 2 ^ 125 := by positivity
  have hTc : F32.unit = 2 ^ 24 * 2 ^ 125 := by unfold F32.unit; rw [← Nat.pow_add]
  have hd : 0 < 65535 * F32.unit := Nat.mul_pos (by decide) hu
  have herr := div_half_err 65535 v (by decide)
  -- the normalised value is below 1
  have hB : roundUnits 24 (v * F32.unit * F32.unit) (65535 * F32.unit)
      ≤ (2 ^ 24 - 1) * 2 ^ 125 := by
    apply roundUnits_le hd
    · have h1 : v * 2 ^ 24 ≤ (2 ^ 24 - 1) * 65535 := by omega
      calc v * F32.unit * F32.unit = v * 2 ^ 24 * (2 ^ 125 * F32.unit) := by rw [hTc]; ring
        _ ≤ (2 ^ 24 - 1) * 65535 * (2 ^ 125 * F32.unit) := Nat.mul_le_mul_right _ h1
        _ = (2 ^ 24 - 1) * 2 ^ 125 * (65535 * F32.unit) := by ring
    · have h2 : ilog2 (v * F32.unit * F32.unit / (65535 * F32.unit)) ≤ 148 := by
        apply ilog2_le
        rw [Nat.div_lt_iff_lt_mul hd]
        have h3 : v * F32.unit * F32.unit < 65535 * F32.unit * F32.unit :=
          Nat.mul_lt_mul_of_pos_right (Nat.mul_lt_mul_of_pos_right hlt hu) hu
        calc v * F32.unit * F32.unit < 65535 * F32.unit * F32.unit := h3
          _ = 2 ^ (148 + 1) * (65535 * F32.unit) := by unfold F32.unit; ring
      exact Dvd.dvd.mul_left (Nat.pow_dvd_pow 2 (by omega)) _
  generalize roundUnits 24 (v * F32.unit * F32.unit) (65535 * F32.unit) = B at *
  have he13 : ilog2 (B / 2 ^ 125) - (11 - 1) ≤ 13 := by
    have h1 : B / 2 ^ 125 < 2 ^ (23 + 1) := by
      rw [Nat.div_lt_iff_lt_mul hc]
      calc B ≤ (2 ^ 24 - 1) * 2 ^ 125 := hB
        _ < 2 ^ (23 + 1) * 2 ^ 125 := by norm_num
    have := ilog2_le h1
    omega
  have hHT : roundUnits 11 B (2 ^ 125) ≤ 2 ^ 24 := by
    apply roundUnits_le hc
    · calc B ≤ (2 ^ 24 - 1) * 2 ^ 125 := hB
        _ ≤ 2 ^ 24 * 2 ^ 125 := by norm_num
    · exact Nat.pow_dvd_pow 2 (by omega)
  have hgH : roundUnits 11 B (2 ^ 125) % 2 ^ (ilog2 (B / 2 ^ 125) - (11 - 1)) = 0 := by
    unfold roundUnits
    exact Nat.mul_mod_left _ _
  have hpow : 1 ≤ ilog2 (B / 2 ^ 125) - (11 - 1) →
      2 ^ (ilog2 (B / 2 ^ 125) - (11 - 1) + 10) ≤ roundUnits 11 B (2 ^ 125) := by
    intro h1
    have h2 : 2 ^ 125 ≤ B := by
      by_contra hcon
      rw [Nat.div_eq_of_lt (Nat.lt_of_not_le hcon), ilog2_zero] at h1
      omega
    have h3 := roundUnits_ge_pow 11 B (2 ^ 125) hc h2
    have : ilog2 (B / 2 ^ 125) - (11 - 1) + 10 = ilog2 (B / 2 ^ 125) := by omega
    rw [this]
    exact h3
  generalize roundUnits 11 B (2 ^ 125) = H at *
  generalize ilog2 (B / 2 ^ 125) - (11 - 1) = e at *
  have hXu : H * 2 ^ 125 ≤ F32.unit := by rw [hTc]; exact Nat.mul_le_mul_right _ hHT
  have hup := trunc_mul_lt 65535 (H * 2 ^ 125) (by decide) hXu
  have hmul := half_mul_err 65535 16 H (by decide) hHT
  have hpow2 : 2 ^ (ilog2 H + 16) ≤ 2 ^ 40 := by
    have : ilog2 H ≤ 24 :=
      ilog2_le (Nat.lt_of_le_of_lt hHT (Nat.pow_lt_pow_right (by decide) (by decide)))
    exact Nat.pow_le_pow_right (by decide) (by omega)
  generalize roundUnits 24 (H * 2 ^ 125 * (65535 * F32.unit)) F32.unit / F32.unit = k at *
  generalize 2 ^ (ilog2 H + 16) = s at *
  have hup2 : 65535 * H < (k + 1) * 2 ^ 24 := by
    have h1 : 65535 * H * 2 ^ 125 < (k + 1) * 2 ^ 24 * 2 ^ 125 := by
      calc 65535 * H * 2 ^ 125 = 65535 * (H * 2 ^ 125) := by ring
        _ < (k + 1) * F32.unit := hup
        _ = (k + 1) * 2 ^ 24 * 2 ^ 125 := by rw [hTc]; ring
    exact Nat.lt_of_mul_lt_mul_right h1
  clear hup hXu hB hd
  obtain ⟨herr1, herr2⟩ := herr
  constructor
  · interval_cases e <;> simp only [Nat.reducePow, Nat.reduceAdd] at * <;> omega
  · interval_cases e <;> simp only [Nat.reducePow, Nat.reduceAdd] at * <;> try omega
    -- the top binade, where half a half grid step is 16 steps of the integer range
    by_contra hcon
    have h1 : 65535 * H + 8192 * 32769 ≤ v * 16777216 := by omega
    obtain ⟨j, hj⟩ : ∃ j, v * 16777216 = 65535 * H + 8192 * 32769 + 8192 * j :=
      ⟨(v * 16777216 - 65535 * H - 8192 * 32769) / 8192, by omega⟩
    have hj3 : j ≤ 3 := by omega
    interval_cases j <;> omega

/-- a binary32 channel in `[0, 1]` through an integer type of maximum `M` comes back
less than `1 / M` away -/
theorem convertCell_round_trip_f32_int_strict (eG : Elem) (hG : eG = Elem.u8 ∨ eG = Elem.u16)
    (x : F32) (hwf : x.wf) (hx : inUnit x) :
    ∃ s X B, x = F32.fin s X ∧ X ≤ F32.unit ∧ B ≤ F32.unit ∧
      convertCell eG Elem.f32 (convertCell Elem.f32 eG (Cell.f32 x)) = Cell.f32 (F32.fin false B) ∧
      maxValue eG * X < maxValue eG * B + F32.unit ∧
      maxValue eG * B < maxValue eG * X + F32.unit := by
  obtain ⟨s, X, B, hxe, hX, hB, hcell, b1, b2⟩ := convertCell_round_trip_f32_int eG hG x hx
  refine ⟨s, X, B, hxe, hX, hB, hcell, ?_, ?_⟩
  · -- identify `B` with the rounded quotient
    subst hxe
    have hwf2 : X % 2 ^ (ilog2 X - 23) = 0 := hwf.2
    obtain ⟨s2, X2, hxe2, hX2, hc⟩ := clamp01_of_inUnit (F32.fin s X) hx
    injection hxe2 with _ hXX
    subst hXX
    rcases hG with rfl | rfl
    · obtain ⟨p, B2, hmul, hk, hdiv, hB2, _, _⟩ :=
        float_int_float 255 X (by decide) (by decide) hX
      have hpe := mul_fin_eq X 255 p hmul
      have hBe := div_fin_eq (p / F32.unit) 255 B2 (by decide) hdiv
      have hstrict := float_trip_strict 255 X (Or.inl rfl) hX hwf2
      rw [← hpe, ← hBe] at hstrict
      obtain ⟨ht, _⟩ := toUInt_fin_of_le 8 p 255
        (by rw [hpe]
            obtain ⟨r, hr, hr2⟩ := mul_ofUInt_bound X 255 hX (by decide)
            rw [← mul_fin_eq X 255 r hr2]; exact hr) (by decide)
      have hv : ((F32.mul (clamp01 (F32.fin s X)) F32.c255).toU8 : Nat) = p / F32.unit := by
        show F32.toUInt 8 (F32.mul (clamp01 (F32.fin s X)) (F32.ofUInt 255)) % 256
          = p / F32.unit
        rw [hc, hmul, ht]
        exact Nat.mod_eq_of_lt (by omega)
      have hcell2 : convertCell Elem.u8 Elem.f32
          (convertCell Elem.f32 Elem.u8 (Cell.f32 (F32.fin s X)))
          = Cell.f32 (F32.fin false B2) := by
        show Cell.f32 (F32.div (F32.ofUInt
          ((F32.mul (clamp01 (F32.fin s X)) F32.c255).toU8 : Nat)) (F32.ofUInt 255)) = _
        rw [hv, hdiv]
      rw [hcell2] at hcell
      injection hcell with hcell
      injection hcell with _ hBB
      subst hBB
      exact hstrict
    · obtain ⟨p, B2, hmul, hk, hdiv, hB2, _, _⟩ :=
        float_int_float 65535 X (by decide) (by decide) hX
      have hpe := mul_fin_eq X 65535 p hmul
      have hBe := div_fin_eq (p / F32.unit) 65535 B2 (by decide) hdiv
      have hstrict := float_trip_strict 65535 X (Or.inr rfl) hX hwf2
      rw [← hpe, ← hBe] at hstrict
      obtain ⟨ht, _⟩ := toUInt_fin_of_le 16 p 65535
        (by rw [hpe]
            obtain ⟨r, hr, hr2⟩ := mul_ofUInt_bound X 65535 hX (by decide)
            rw [← mul_fin_eq X 65535 r hr2]; exact hr) (by decide)
      have hv : ((F32.mul (clamp01 (F32.fin s X)) F32.c65535).toU16 : Nat) = p / F32.unit := by
        show F32.toUInt 16 (F32.mul (clamp01 (F32.fin s X)) (F32.ofUInt 65535)) % 65536
          = p / F32.unit
        rw [hc, hmul, ht]
        exact Nat.mod_eq_of_lt (by omega)
      have hcell2 : convertCell Elem.u16 Elem.f32
          (convertCell Elem.f32 Elem.u16 (Cell.f32 (F32.fin s X)))
          = Cell.f32 (F32.fin false B2) := by
        show Cell.f32 (F32.div (F32.ofUInt
          ((F32.mul (clamp01 (F32.fin s X)) F32.c65535).toU16 : Nat)) (F32.ofUInt 65535)) = _
        rw [hv, hdiv]
      rw [hcell2] at hcell
      injection hcell with hcell
      injection hcell with _ hBB
      subst hBB
      exact hstrict
  · have hu : F32.unit = 2 ^ 149 := rfl
    have hm : maxValue eG < 2 ^ 16 := by rcases hG with rfl | rfl <;> decide
    have h1 : maxValue eG * 2 ^ 125 < 2 ^ 16 * 2 ^ 125 :=
      Nat.mul_lt_mul_of_pos_right hm (by positivity)
    generalize maxValue eG * X = a at *
    generalize maxValue eG * B = b at *
    generalize maxValue eG * 2 ^ 125 = c at *
    omega

theorem ofFloat_fin_of_le (B : Nat) (h : roundUnits 11 B (2 ^ 125) ≤ 2 ^ 24) :
    Half.ofFloat (F32.fin false B) = Half.fin false (roundUnits 11 B (2 ^ 125)) := by
  have h2 : roundUnits 11 B (2 ^ 125) < 2 ^ 40 :=
    Nat.lt_of_le_of_lt h (Nat.pow_lt_pow_right (by decide) (by decide))
  unfold Half.ofFloat
  simp only [h2, if_true]

/-- the stored integer of a clamped `float` magnitude `X` in `[0, 1]` -/
theorem encode_int_of_le (X : Nat) (hX : X ≤ F32.unit) :
    encode Elem.u8 (F32.fin false X)
      = Cell.u8 ⟨roundUnits 24 (X * (255 * F32.unit)) F32.unit / F32.unit % 256,
          Nat.mod_lt _ (by decide)⟩ ∧
    roundUnits 24 (X * (255 * F32.unit)) F32.unit / F32.unit ≤ 255 ∧
    encode Elem.u16 (F32.fin false X)
      = Cell.u16 ⟨roundUnits 24 (X * (65535 * F32.unit)) F32.unit / F32.unit % 65536,
          Nat.mod_lt _ (by decide)⟩ ∧
    roundUnits 24 (X * (65535 * F32.unit)) F32.unit / F32.unit ≤ 65535 := by
  obtain ⟨p8, hp8, hmul8⟩ := mul_ofUInt_bound X 255 hX (by decide)
  obtain ⟨p16, hp16, hmul16⟩ := mul_ofUInt_bound X 65535 hX (by decide)
  have e8 := mul_fin_eq X 255 p8 hmul8
  have e16 := mul_fin_eq X 65535 p16 hmul16
  obtain ⟨t8, k8⟩ := toUInt_fin_of_le 8 p8 255 hp8 (by decide)
  obtain ⟨t16, k16⟩ := toUInt_fin_of_le 16 p16 65535 hp16 (by decide)
  rw [← e8, ← e16]
  refine ⟨?_, k8, ?_, k16⟩
  · show Cell.u8 (F32.mul (F32.fin false X) (F32.ofUInt 255)).toU8 = _
    rw [hmul8]
    unfold F32.toU8
    simp only [t8]
  · show Cell.u16 (F32.mul (F32.fin false X) (F32.ofUInt 65535)).toU16 = _
    rw [hmul16]
    unfold F32.toU16
    simp only [t16]

/-- the canonical value of a stored integer `k` of maximum `M` -/
theorem div_ofUInt_round (k M : Nat) (hM : 0 < M) (hk : k ≤ M) :
    F32.div (F32.ofUInt k) (F32.ofUInt M)
      = F32.fin false (roundUnits 24 (k * F32.unit * F32.unit) (M * F32.unit)) ∧
    roundUnits 24 (k * F32.unit * F32.unit) (M * F32.unit) ≤ F32.unit := by
  obtain ⟨B, hB, hdiv⟩ := div_ofUInt_eq k M hM hk
  have e := div_fin_eq k M B hM hdiv
  rw [← e]
  exact ⟨hdiv, hB⟩

/-- a half channel in `[0, 1]` through an integer type of maximum `M` comes back not
above itself and less than `1 / M` below -/
theorem convertCell_round_trip_f16_int (eG : Elem) (hG : eG = Elem.u8 ∨ eG = Elem.u16)
    (x : Half) (hwf : x.wf) (hx : inUnit x.toFloat) :
    ∃ s h H, x = Half.fin s h ∧ h ≤ 2 ^ 24 ∧
      convertCell eG Elem.f16 (convertCell Elem.f16 eG (Cell.f16 x))
        = Cell.f16 (Half.fin false H) ∧
      H ≤ h ∧ maxValue eG * (h - H) < 2 ^ 24 := by
  have hTc : F32.unit = 2 ^ 24 * 2 ^ 125 := by unfold F32.unit; rw [← Nat.pow_add]
  obtain ⟨s, X, hxe, hX, hc⟩ := clamp01_of_inUnit x.toFloat hx
  cases x with
  | nan => simp [Half.toFloat] at hxe
  | inf s => simp [Half.toFloat] at hxe
  | fin s2 h =>
    have hXh : X = h * 2 ^ 125 := by
      simp only [Half.toFloat] at hxe
      injection hxe with _ h2
      exact h2.symm
    subst hXh
    have hh : h ≤ 2 ^ 24 := by
      rw [hTc] at hX
      exact Nat.le_of_mul_le_mul_right hX (by positivity)
    have hwf2 : h % 2 ^ (ilog2 h - 10) = 0 := hwf.2
    obtain ⟨c8, k8, c16, k16⟩ := encode_int_of_le (h * 2 ^ 125) hX
    rcases hG with rfl | rfl
    · obtain ⟨hH, hlt⟩ := half_trip 255 h (Or.inl rfl) hh hwf2
      obtain ⟨hdiv, _⟩ := div_ofUInt_round _ 255 (by decide) k8
      refine ⟨s2, h, _, rfl, hh, ?_, hH, hlt⟩
      have e1 : convertCell Elem.f16 Elem.u8 (Cell.f16 (Half.fin s2 h))
          = encode Elem.u8 (clamp01 (Half.fin s2 h).toFloat) := rfl
      rw [e1, hc, c8]
      show Cell.f16 (Half.ofFloat (F32.div (F32.ofUInt
        (roundUnits 24 (h * 2 ^ 125 * (255 * F32.unit)) F32.unit / F32.unit % 256))
        (F32.ofUInt 255))) = _
      rw [Nat.mod_eq_of_lt (by omega), hdiv, ofFloat_fin_of_le _ (Nat.le_trans hH hh)]
    · obtain ⟨hH, hlt⟩ := half_trip 65535 h (Or.inr rfl) hh hwf2
      obtain ⟨hdiv, _⟩ := div_ofUInt_round _ 65535 (by decide) k16
      refine ⟨s2, h, _, rfl, hh, ?_, hH, hlt⟩
      have e1 : convertCell Elem.f16 Elem.u16 (Cell.f16 (Half.fin s2 h))
          = encode Elem.u16 (clamp01 (Half.fin s2 h).toFloat) := rfl
      rw [e1, hc, c16]
      show Cell.f16 (Half.ofFloat (F32.div (F32.ofUInt
        (roundUnits 24 (h * 2 ^ 125 * (65535 * F32.unit)) F32.unit / F32.unit % 65536))
        (F32.ofUInt 65535))) = _
      rw [Nat.mod_eq_of_lt (by omega), hdiv, ofFloat_fin_of_le _ (Nat.le_trans hH hh)]

/-- a 16-bit integer through a half comes back within 16 -/
theorem convertCell_round_trip_u16_f16 (v : Fin 65536) :
    ∃ b : Fin 65536,
      convertCell Elem.f16 Elem.u16 (convertCell Elem.u16 Elem.f16 (Cell.u16 v)) = Cell.u16 b ∧
      (b : Nat) ≤ v + 16 ∧ (v : Nat) ≤ b + 16 := by
  have hTc : F32.unit = 2 ^ 24 * 2 ^ 125 := by unfold F32.unit; rw [← Nat.pow_add]
  have hv : (v : Nat) ≤ 65535 := by omega
  obtain ⟨hdiv, hB⟩ := div_ofUInt_round v 65535 (by decide) hv
  obtain ⟨hb1, hb2⟩ := u16_half_trip v hv
  have e1 : convertCell Elem.u16 Elem.f16 (Cell.u16 v)
      = Cell.f16 (Half.ofFloat (F32.div (F32.ofUInt v) (F32.ofUInt 65535))) := rfl
  rw [e1, hdiv]
  generalize roundUnits 24 ((v : Nat) * F32.unit * F32.unit) (65535 * F32.unit) = B at *
  have hH : roundUnits 11 B (2 ^ 125) ≤ 2 ^ 24 := by
    apply roundUnits_le (by positivity)
    · rw [← hTc]; exact hB
    · apply Nat.pow_dvd_pow 2
      have h1 : B / 2 ^ 125 < 2 ^ (24 + 1) := by
        rw [Nat.div_lt_iff_lt_mul (by positivity)]
        calc B ≤ F32.unit := hB
          _ < 2 ^ (24 + 1) * 2 ^ 125 := by unfold F32.unit; norm_num
      have := ilog2_le h1
      omega
  rw [ofFloat_fin_of_le _ hH]
  generalize roundUnits 11 B (2 ^ 125) = H at *
  have hX : H * 2 ^ 125 ≤ F32.unit := by
    rw [hTc]; exact Nat.mul_le_mul_right _ hH
  obtain ⟨_, _, c16, k16⟩ := encode_int_of_le _ hX
  have e2 : convertCell Elem.f16 Elem.u16 (Cell.f16 (Half.fin false H))
      = encode Elem.u16 (clamp01 (F32.fin false (H * 2 ^ 125))) := rfl
  rw [e2, clamp01_of_fin_le _ hX, c16]
  generalize roundUnits 24 (H * 2 ^ 125 * (65535 * F32.unit)) F32.unit / F32.unit = k at *
  refine ⟨⟨k % 65536, Nat.mod_lt _ (by decide)⟩, rfl, ?_, ?_⟩
  · show k % 65536 ≤ _
    rw [Nat.mod_eq_of_lt (by omega)]
    exact hb1
  · show _ ≤ k % 65536 + 16
    rw [Nat.mod_eq_of_lt (by omega)]
    exact hb2

/-- C6 (amended): for supported formats `F` and `G` and a channel `j` that both have, the
round trip `F → G → F` succeeds twice and leaves in channel `j` of pixel `i` the two
per-channel conversions applied in turn.  The channel is reproduced exactly when `G` is a
32-bit float format, when `G` has the element type of `F`, and from 8-bit through 16-bit
integers.  A 16-bit integer `v` through an 8-bit integer format comes back as
`257 * (v / 257)`, lower by less than 257, which is `1 / 255` of the 16-bit range.  A
binary32 value `x` in `[0, 1]` through an integer format of maximum `M` comes back as `b`
with `x - b < 1 / M` and `b - x < 1 / M`, and a half value `x` in `[0, 1]` through an
integer format of maximum `M` comes back as a half `b` with `b ≤ x` and `x - b < 1 / M`
(float magnitudes are in units of `2 ^ -149`, half magnitudes in units of `2 ^ -24`).
Through a half format an 8-bit integer `v` comes back as `v` or `v - 1`, a 16-bit integer
`v` comes back within 16 of `v`, and a binary32 value comes back rounded to half. -/
theorem C6_round_trip (haveExr : Bool) (src scratch dest : Buffer) (width height F G : Int)
    (hF : supportedFormat haveExr F) (hG : supportedFormat haveExr G)
    (i j : Nat) (hi : i < pixelCount width height)
    (hjF : j < channelsOf F) (hjG : j < channelsOf G) :
    (roundTrip haveExr src scratch dest width height F G).1 = AIMG_SUCCESS ∧
    (roundTrip haveExr src scratch dest width height F G).2.1 = AIMG_SUCCESS ∧
    (roundTrip haveExr src scratch dest width height F G).2.2.cell (elemOf F)
        (i * channelsOf F + j)
      = convertCell (elemOf G) (elemOf F)
          (convertCell (elemOf F) (elemOf G) (src.cell (elemOf F) (i * channelsOf F + j))) ∧
    ((elemOf G = Elem.f32 ∨ elemOf G = elemOf F ∨ (elemOf F = Elem.u8 ∧ elemOf G = Elem.u16)) →
      (elemOf F = Elem.f16 → (src.f16 (i * channelsOf F + j)).wf) →
      (roundTrip haveExr src scratch dest width height F G).2.2.cell (elemOf F)
          (i * channelsOf F + j)
        = src.cell (elemOf F) (i * channelsOf F + j)) ∧
    (elemOf F = Elem.u16 → elemOf G = Elem.u8 →
      (((roundTrip haveExr src scratch dest width height F G).2.2.u16
          (i * channelsOf F + j) : Fin 65536) : Nat)
        = 257 * ((src.u16 (i * channelsOf F + j) : Nat) / 257) ∧
      (((roundTrip haveExr src scratch dest width height F G).2.2.u16
          (i * channelsOf F + j) : Fin 65536) : Nat) ≤ src.u16 (i * channelsOf F + j) ∧
      (src.u16 (i * channelsOf F + j) : Nat)
        < (roundTrip haveExr src scratch dest width height F G).2.2.u16
            (i * channelsOf F + j) + 257) ∧
    (elemOf F = Elem.f32 → (elemOf G = Elem.u8 ∨ elemOf G = Elem.u16) →
      (src.f32 (i * channelsOf F + j)).wf → inUnit (src.f32 (i * channelsOf F + j)) →
      ∃ s X B, src.f32 (i * channelsOf F + j) = F32.fin s X ∧
        (roundTrip haveExr src scratch dest width height F G).2.2.f32
          (i * channelsOf F + j) = F32.fin false B ∧
        X ≤ F32.unit ∧ B ≤ F32.unit ∧
        maxValue (elemOf G) * X < maxValue (elemOf G) * B + F32.unit ∧
        maxValue (elemOf G) * B < maxValue (elemOf G) * X + F32.unit) ∧
    (elemOf F = Elem.f16 → (elemOf G = Elem.u8 ∨ elemOf G = Elem.u16) →
      (src.f16 (i * channelsOf F + j)).wf →
      inUnit (src.f16 (i * channelsOf F + j)).toFloat →
      ∃ s h H, src.f16 (i * channelsOf F + j) = Half.fin s h ∧
        (roundTrip haveExr src scratch dest width height F G).2.2.f16
          (i * channelsOf F + j) = Half.fin false H ∧
        h ≤ 2 ^ 24 ∧ H ≤ h ∧ maxValue (elemOf G) * (h - H) < 2 ^ 24) ∧
    (elemOf F = Elem.u8 → elemOf G = Elem.f16 →
      (((roundTrip haveExr src scratch dest width height F G).2.2.u8
          (i * channelsOf F + j) : Fin 256) : Nat) ≤ src.u8 (i * channelsOf F + j) ∧
      (src.u8 (i * channelsOf F + j) : Nat)
        ≤ (roundTrip haveExr src scratch dest width height F G).2.2.u8
            (i * channelsOf F + j) + 1) ∧
    (elemOf F = Elem.u16 → elemOf G = Elem.f16 →
      (((roundTrip haveExr src scratch dest width height F G).2.2.u16
          (i * channelsOf F + j) : Fin 65536) : Nat)
        ≤ src.u16 (i * channelsOf F + j) + 16 ∧
      (src.u16 (i * channelsOf F + j) : Nat)
        ≤ (roundTrip haveExr src scratch dest width height F G).2.2.u16
            (i * channelsOf F + j) + 16) ∧
    (elemOf F = Elem.f32 → elemOf G = Elem.f16 →
      (roundTrip haveExr src scratch dest width height F G).2.2.f32 (i * channelsOf F + j)
        = (Half.ofFloat (src.f32 (i * channelsOf F + j))).toFloat) := by
  have hcomp : (roundTrip haveExr src scratch dest width height F G).2.2.cell (elemOf F)
        (i * channelsOf F + j)
      = convertCell (elemOf G) (elemOf F)
          (convertCell (elemOf F) (elemOf G) (src.cell (elemOf F) (i * channelsOf F + j))) := by
    show (AImgConvertFormat haveExr
        (AImgConvertFormat haveExr src scratch width height F G).2 dest width height G F).2.cell
        (elemOf F) (i * channelsOf F + j) = _
    rw [AImgConvertFormat_channel haveExr _ dest width height G F hG hF i j hi hjG hjF,
      AImgConvertFormat_channel haveExr src scratch width height F G hF hG i j hi hjF hjG]
  refine ⟨(AImgConvertFormat_cell haveExr src scratch width height F G hF hG).1,
    (AImgConvertFormat_cell haveExr _ dest width height G F hG hF).1, hcomp,
    ?_, ?_, ?_, ?_, ?_, ?_, ?_⟩
  · intro hcase hwf
    rw [hcomp]
    exact convertCell_round_trip_exact src (elemOf F) (elemOf G) _ hcase hwf
  · intro h1 h2
    rw [h1, h2] at hcomp
    obtain ⟨b, hb, hval⟩ := convertCell_round_trip_16_8 (src.u16 (i * channelsOf F + j))
    have h3 : Cell.u16 ((roundTrip haveExr src scratch dest width height F G).2.2.u16
        (i * channelsOf F + j)) = Cell.u16 b := hcomp.trans hb
    injection h3 with h4
    rw [h4, hval]
    refine ⟨rfl, ?_, ?_⟩ <;> omega
  · intro h1 h2 hwf hx
    rw [h1] at hcomp
    obtain ⟨s, X, B, hxe, hX, hB, hcell, b1, b2⟩ :=
      convertCell_round_trip_f32_int_strict (elemOf G) h2 (src.f32 (i * channelsOf F + j))
        hwf hx
    have h3 : Cell.f32 ((roundTrip haveExr src scratch dest width height F G).2.2.f32
        (i * channelsOf F + j)) = Cell.f32 (F32.fin false B) := hcomp.trans hcell
    injection h3 with h4
    exact ⟨s, X, B, hxe, h4, hX, hB, b1, b2⟩
  · intro h1 h2 hwf hx
    rw [h1] at hcomp
    obtain ⟨s, h, H, hxe, hh, hcell, b1, b2⟩ :=
      convertCell_round_trip_f16_int (elemOf G) h2 (src.f16 (i * channelsOf F + j)) hwf hx
    have h3 : Cell.f16 ((roundTrip haveExr src scratch dest width height F G).2.2.f16
        (i * channelsOf F + j)) = Cell.f16 (Half.fin false H) := hcomp.trans hcell
    injection h3 with h4
    exact ⟨s, h, H, hxe, h4, hh, b1, b2⟩
  · intro h1 h2
    rw [h1, h2] at hcomp
    obtain ⟨b, hb, hval⟩ := roundtrip8_via_half (src.u8 (i * channelsOf F + j))
    have h3 : Cell.u8 ((roundTrip haveExr src scratch dest width height F G).2.2.u8
        (i * channelsOf F + j)) = Cell.u8 b := hcomp.trans hb
    injection h3 with h4
    rw [h4]
    exact hval
  · intro h1 h2
    rw [h1, h2] at hcomp
    obtain ⟨b, hb, hval⟩ := convertCell_round_trip_u16_f16 (src.u16 (i * channelsOf F + j))
    have h3 : Cell.u16 ((roundTrip haveExr src scratch dest width height F G).2.2.u16
        (i * channelsOf F + j)) = Cell.u16 b := hcomp.trans hb
    injection h3 with h4
    rw [h4]
    exact hval
  · intro h1 h2
    rw [h1, h2] at hcomp
    have h3 : Cell.f32 ((roundTrip haveExr src scratch dest width height F G).2.2.f32
        (i * channelsOf F + j))
        = Cell.f32 (Half.ofFloat (src.f32 (i * channelsOf F + j))).toFloat := hcomp
    injection h3

/-- C6, witness: channel 1 of the 1x1 `RGBA16U` image `[1000, 2000, 3000, 4000]` through
`RGB8U` comes back as `257 * (2000 / 257)`, which is 1799; and the `R32F` value `0.3f`
through `R16U` comes back less than `1 / 65535` away. -/
theorem C6_witness :
    ((supportedFormat false RGBA16U ∧ supportedFormat false RGB8U ∧ 0 < pixelCount 1 1 ∧
        1 < channelsOf RGBA16U ∧ 1 < channelsOf RGB8U) ∧
      (roundTrip false (bufferOfU16 [1000, 2000, 3000, 4000]) (bufferOfU8 [])
        (bufferOfU16 []) 1 1 RGBA16U RGB8U).1 = AIMG_SUCCESS ∧
      (roundTrip false (bufferOfU16 [1000, 2000, 3000, 4000]) (bufferOfU8 [])
        (bufferOfU16 []) 1 1 RGBA16U RGB8U).2.1 = AIMG_SUCCESS ∧
      (((roundTrip false (bufferOfU16 [1000, 2000, 3000, 4000]) (bufferOfU8 [])
          (bufferOfU16 []) 1 1 RGBA16U RGB8U).2.2.u16 1 : Fin 65536) : Nat) = 1799) ∧
    ((supportedFormat false R32F ∧ supportedFormat false R16U ∧ 0 < pixelCount 1 1 ∧
        0 < channelsOf R32F ∧ 0 < channelsOf R16U ∧
        (F32.fin false (10066330 * 2 ^ 124)).wf ∧
        inUnit (F32.fin false (10066330 * 2 ^ 124))) ∧
      ∃ B, (roundTrip false (bufferOfF32 [F32.fin false (10066330 * 2 ^ 124)])
          (bufferOfU16 []) (bufferOfF32 []) 1 1 R32F R16U).2.2.f32 0 = F32.fin false B ∧
        65535 * (10066330 * 2 ^ 124) < 65535 * B + F32.unit ∧
        65535 * B < 65535 * (10066330 * 2 ^ 124) + F32.unit) :=
  ⟨⟨⟨by decide, by decide, by decide, by decide, by decide⟩,
    (C6_round_trip false (bufferOfU16 [1000, 2000, 3000, 4000]) (bufferOfU8 [])
      (bufferOfU16 []) 1 1 RGBA16U RGB8U (by decide) (by decide) 0 1 (by decide)
      (by decide) (by decide)).1,
    (C6_round_trip false (bufferOfU16 [1000, 2000, 3000, 4000]) (bufferOfU8 [])
      (bufferOfU16 []) 1 1 RGBA16U RGB8U (by decide) (by decide) 0 1 (by decide)
      (by decide) (by decide)).2.1,
    ((C6_round_trip false (bufferOfU16 [1000, 2000, 3000, 4000]) (bufferOfU8 [])
      (bufferOfU16 []) 1 1 RGBA16U RGB8U (by decide) (by decide) 0 1 (by decide)
      (by decide) (by decide)).2.2.2.2.1 (by decide) (by decide)).1⟩,
   ⟨⟨by decide, by decide, by decide, by decide, by decide, ⟨by decide!, by decide!⟩,
      by decide!⟩,
    by
      obtain ⟨s, X, B, hx, hB, _, _, b1, b2⟩ :=
        (C6_round_trip false (bufferOfF32 [F32.fin false (10066330 * 2 ^ 124)])
          (bufferOfU16 []) (bufferOfF32 []) 1 1 R32F R16U (by decide) (by decide) 0 0
          (by decide) (by decide) (by decide)).2.2.2.2.2.1 (by decide)
          (Or.inr (by decide)) ⟨by decide!, by decide!⟩ (by decide!)
      have hx2 : F32.fin false (10066330 * 2 ^ 124) = F32.fin s X := hx
      injection hx2 with _ hX
      subst hX
      exact ⟨B, hB, b1, b2⟩⟩⟩

/-- C6, counterexample: five round trips between supported formats that do not reproduce
the original.  `RGBA8U [10, 20, 30, 40]` through `R8U` comes back as `[10, 10, 10, 255]`;
the `R32F` value `2.0` through `R8U` comes back as `1.0`; the `R32F` value `0.1f` through
the float format `R16F` comes back as another float; the `R8U` value `1` through `R16F`
comes back as `0`; the `R16U` value `32783` through `R16F` comes back as `32767`. -/
theorem C6_counterexample :
    (supportedFormat true RGBA8U ∧ supportedFormat true R8U ∧ supportedFormat true R32F ∧
      supportedFormat true R16F ∧ supportedFormat true R16U) ∧
    (roundTrip true (bufferOfU8 [10, 20, 30, 40]) (bufferOfU8 []) (bufferOfU8 [])
        1 1 RGBA8U R8U).1 = AIMG_SUCCESS ∧
    (roundTrip true (bufferOfU8 [10, 20, 30, 40]) (bufferOfU8 []) (bufferOfU8 [])
        1 1 RGBA8U R8U).2.1 = AIMG_SUCCESS ∧
    (List.range 4).map (roundTrip true (bufferOfU8 [10, 20, 30, 40]) (bufferOfU8 [])
        (bufferOfU8 []) 1 1 RGBA8U R8U).2.2.u8 = [10, 10, 10, 255] ∧
    (roundTrip true (bufferOfF32 [F32.fin false (2 ^ 150)]) (bufferOfU8 []) (bufferOfF32 [])
        1 1 R32F R8U).2.2.f32 0 = F32.one ∧
    (roundTrip true (bufferOfF32 [F32.fin false (13421773 * 2 ^ 122)]) (bufferOfF16 [])
        (bufferOfF32 []) 1 1 R32F R16F).2.2.f32 0 = F32.fin false (1677312 * 2 ^ 125) ∧
    F32.fin false (1677312 * 2 ^ 125) ≠ F32.fin false (13421773 * 2 ^ 122) ∧
    (roundTrip true (bufferOfU8 [1]) (bufferOfF16 []) (bufferOfU8 []) 1 1 R8U R16F).2.2.u8 0
      = 0 ∧
    (roundTrip true (bufferOfU16 [32783]) (bufferOfF16 []) (bufferOfU16 []) 1 1 R16U
        R16F).2.2.u16 0 = 32767 := by
  refine ⟨by decide, by decide!, by decide!, by decide!, by decide!, by decide!, by decide!,
    by decide!, by decide!⟩

/-! ## Format descriptor helpers and write-format negotiation -/

theorem png_invalid : isFormatSupportedByPng INVALID_FORMAT = false := by decide!

theorem png_requested (i o : Int) (h : isFormatSupportedByPng o = true) :
    getWhatFormatWillBeWrittenForDataPNG i o = some o := by
  unfold getWhatFormatWillBeWrittenForDataPNG
  rw [if_pos h]

theorem png_fallback (i o : Int) (h : isFormatSupportedByPng o = false) :
    getWhatFormatWillBeWrittenForDataPNG i o
      = getWhatFormatWillBeWrittenForDataPNG i INVALID_FORMAT := by
  have h1 : ¬ (isFormatSupportedByPng o = true) := by rw [h]; decide
  have h2 : ¬ (isFormatSupportedByPng INVALID_FORMAT = true) := by rw [png_invalid]; decide
  unfold getWhatFormatWillBeWrittenForDataPNG
  rw [if_neg h1, if_neg h2]

theorem exr_requested (i o : Int)
    (h : o ≠ i ∧ o ≠ INVALID_FORMAT ∧ isFormatSupportedByExr o = true) :
    getWriteFormatExr i o = some o := by
  unfold getWriteFormatExr
  rw [if_pos h]

theorem exr_fallback (i o : Int)
    (h : ¬ (o ≠ i ∧ o ≠ INVALID_FORMAT ∧ isFormatSupportedByExr o = true)) :
    getWriteFormatExr i o = getWriteFormatExr i INVALID_FORMAT := by
  have h2 : ¬ (INVALID_FORMAT ≠ i ∧ INVALID_FORMAT ≠ INVALID_FORMAT
      ∧ isFormatSupportedByExr INVALID_FORMAT = true) := fun hc => hc.2.1 rfl
  unfold getWriteFormatExr
  rw [if_neg h, if_neg h2]

theorem png_fallback_table :
    ∀ i ∈ namedFormats,
      (∃ f, getWhatFormatWillBeWrittenForDataPNG i INVALID_FORMAT = some f ∧
        f ≠ INVALID_FORMAT ∧ isFormatSupportedByPng f = true ∧ f ∈ namedFormats ∧
        (AIGetFormatDetails f).floatOrInt = FITYPE_INT ∧
        (AIGetFormatDetails f).numChannels
          = (if (AIGetFormatDetails i).numChannels = 2 then 3
             else (AIGetFormatDetails i).numChannels) ∧
        (AIGetFormatDetails f).bytesPerChannel
          = (if (AIGetFormatDetails i).floatOrInt = FITYPE_FLOAT then 2
             else (AIGetFormatDetails i).bytesPerChannel)) ∧
      (isFormatSupportedByPng i = true →
        getWhatFormatWillBeWrittenForDataPNG i INVALID_FORMAT = some i) := by
  decide!

theorem exr_fallback_table :
    ∀ i ∈ namedFormats,
      (∃ f, getWriteFormatExr i INVALID_FORMAT = some f ∧
        f ≠ INVALID_FORMAT ∧ isFormatSupportedByExr f = true ∧ f ∈ namedFormats ∧
        (AIGetFormatDetails f).floatOrInt = FITYPE_FLOAT ∧
        (AIGetFormatDetails f).numChannels = (AIGetFormatDetails i).numChannels ∧
        (isFormatSupportedByExr i = false →
          (AIGetFormatDetails i).floatOrInt = FITYPE_INT ∧
          (AIGetFormatDetails i).bytesPerChannel ≤ 2 ∧
          (AIGetFormatDetails f).bytesPerChannel = 2 ∧
          f = formatOf Elem.f16 (channelsOf i) ∧ f ≠ formatOf Elem.f32 (channelsOf i)) ∧
        ((AIGetFormatDetails i).floatOrInt = FITYPE_INT →
          isFormatSupportedByExr i = false ∧
          (AIGetFormatDetails f).bytesPerChannel
            = (if (AIGetFormatDetails i).bytesPerChannel ≤ 2 then 2 else 4))) ∧
      (isFormatSupportedByExr i = true → getWriteFormatExr i INVALID_FORMAT = some i) := by
  decide!

/-- C11: for the PNG and the EXR adapter, every valid input format and every requested
output format value (so in particular the 16 valid formats and `INVALID_FORMAT`), the
write-format resolver returns a format that is not `INVALID_FORMAT` and that the same
adapter supports. -/
theorem C11_negotiation_total (inputFormat : Int) (hin : inputFormat ∈ namedFormats)
    (outputFormat : Int) :
    (∃ f, getWhatFormatWillBeWrittenForDataPNG inputFormat outputFormat = some f ∧
      f ≠ INVALID_FORMAT ∧ isFormatSupportedByPng f = true) ∧
    (∃ f, getWriteFormatExr inputFormat outputFormat = some f ∧
      f ≠ INVALID_FORMAT ∧ isFormatSupportedByExr f = true) := by
  constructor
  · by_cases h : isFormatSupportedByPng outputFormat = true
    · refine ⟨outputFormat, png_requested _ _ h, ?_, h⟩
      intro hc
      rw [hc, png_invalid] at h
      exact absurd h (by decide)
    · have h2 : isFormatSupportedByPng outputFormat = false := by
        cases hb : isFormatSupportedByPng outputFormat
        · rfl
        · exact absurd hb h
      rw [png_fallback _ _ h2]
      obtain ⟨⟨f, h3, h4, h5, _⟩, _⟩ := png_fallback_table inputFormat hin
      exact ⟨f, h3, h4, h5⟩
  · by_cases h : outputFormat ≠ inputFormat ∧ outputFormat ≠ INVALID_FORMAT
        ∧ isFormatSupportedByExr outputFormat = true
    · exact ⟨outputFormat, exr_requested _ _ h, h.2.1, h.2.2⟩
    · rw [exr_fallback _ _ h]
      obtain ⟨⟨f, h3, h4, h5, _⟩, _⟩ := exr_fallback_table inputFormat hin
      exact ⟨f, h3, h4, h5⟩

/-- C11, witness: input `RG32F` with the requested output `RG8U`, which neither adapter
supports. -/
theorem C11_witness :
    RG32F ∈ namedFormats ∧
    (∃ f, getWhatFormatWillBeWrittenForDataPNG RG32F RG8U = some f ∧
      f ≠ INVALID_FORMAT ∧ isFormatSupportedByPng f = true) ∧
    (∃ f, getWriteFormatExr RG32F RG8U = some f ∧
      f ≠ INVALID_FORMAT ∧ isFormatSupportedByExr f = true) :=
  ⟨by decide, C11_negotiation_total RG32F (by decide) RG8U⟩

/-- C12: for the PNG and the EXR adapter and every valid input format: if the requested
output format differs from the input format, is not `INVALID_FORMAT` and is supported by
the adapter, the resolver returns the requested output format; otherwise, if the input
format is supported by the adapter, the resolver returns the input format. -/
theorem C12_requested_then_input (inputFormat : Int) (hin : inputFormat ∈ namedFormats)
    (outputFormat : Int) :
    ((outputFormat ≠ inputFormat ∧ outputFormat ≠ INVALID_FORMAT ∧
        isFormatSupportedByPng outputFormat = true) →
      getWhatFormatWillBeWrittenForDataPNG inputFormat outputFormat = some outputFormat) ∧
    (¬ (outputFormat ≠ inputFormat ∧ outputFormat ≠ INVALID_FORMAT ∧
        isFormatSupportedByPng outputFormat = true) →
      isFormatSupportedByPng inputFormat = true →
      getWhatFormatWillBeWrittenForDataPNG inputFormat outputFormat = some inputFormat) ∧
    ((outputFormat ≠ inputFormat ∧ outputFormat ≠ INVALID_FORMAT ∧
        isFormatSupportedByExr outputFormat = true) →
      getWriteFormatExr inputFormat outputFormat = some outputFormat) ∧
    (¬ (outputFormat ≠ inputFormat ∧ outputFormat ≠ INVALID_FORMAT ∧
        isFormatSupportedByExr outputFormat = true) →
      isFormatSupportedByExr inputFormat = true →
      getWriteFormatExr inputFormat outputFormat = some inputFormat) := by
  refine ⟨fun h => png_requested _ _ h.2.2, ?_, fun h => exr_requested _ _ h, ?_⟩
  · intro h hsup
    by_cases hs : isFormatSupportedByPng outputFormat = true
    · have hinv : outputFormat ≠ INVALID_FORMAT := by
        intro hc
        rw [hc, png_invalid] at hs
        exact absurd hs (by decide)
      have heq : outputFormat = inputFormat := by
        by_contra hne
        exact h ⟨hne, hinv, hs⟩
      rw [png_requested _ _ hs, heq]
    · have h2 : isFormatSupportedByPng outputFormat = false := by
        cases hb : isFormatSupportedByPng outputFormat
        · rfl
        · exact absurd hb hs
      rw [png_fallback _ _ h2]
      exact (png_fallback_table inputFormat hin).2 hsup
  · intro h hsup
    rw [exr_fallback _ _ h]
    exact (exr_fallback_table inputFormat hin).2 hsup

/-- C12, witness: input `RGB8U` with the requested output `RGB16U` (PNG takes the request)
and input `RGB32F` with the requested output `RGB16F` (EXR takes the request). -/
theorem C12_witness :
    (RGB8U ∈ namedFormats ∧ RGB16U ≠ RGB8U ∧ RGB16U ≠ INVALID_FORMAT ∧
      isFormatSupportedByPng RGB16U = true) ∧
    getWhatFormatWillBeWrittenForDataPNG RGB8U RGB16U = some RGB16U ∧
    (RGB32F ∈ namedFormats ∧ RGB16F ≠ RGB32F ∧ RGB16F ≠ INVALID_FORMAT ∧
      isFormatSupportedByExr RGB16F = true) ∧
    getWriteFormatExr RGB32F RGB16F = some RGB16F :=
  ⟨by decide,
   (C12_requested_then_input RGB8U (by decide) RGB16U).1 (by decide),
   by decide,
   (C12_requested_then_input RGB32F (by decide) RGB16F).2.2.1 (by decide)⟩

/-- C13: for every valid input format (in particular each one PNG does not support) and
every requested output format that PNG does not support (including `INVALID_FORMAT`),
`getWhatFormatWillBeWrittenForDataPNG` returns a named integer format that keeps the
input channel count, except that 2-channel inputs are promoted to 3 channels, with 2 bytes
per channel for float inputs and the input bytes per channel for integer inputs. -/
theorem C13_png_fallback (inputFormat : Int) (hin : inputFormat ∈ namedFormats)
    (outputFormat : Int) (hout : isFormatSupportedByPng outputFormat = false) :
    ∃ f, getWhatFormatWillBeWrittenForDataPNG inputFormat outputFormat = some f ∧
      f ∈ namedFormats ∧
      (AIGetFormatDetails f).floatOrInt = FITYPE_INT ∧
      (AIGetFormatDetails f).numChannels
        = (if (AIGetFormatDetails inputFormat).numChannels = 2 then 3
           else (AIGetFormatDetails inputFormat).numChannels) ∧
      (AIGetFormatDetails f).bytesPerChannel
        = (if (AIGetFormatDetails inputFormat).floatOrInt = FITYPE_FLOAT then 2
           else (AIGetFormatDetails inputFormat).bytesPerChannel) := by
  rw [png_fallback _ _ hout]
  obtain ⟨⟨f, h1, _, _, h4, h5, h6, h7⟩, _⟩ := png_fallback_table inputFormat hin
  exact ⟨f, h1, h4, h5, h6, h7⟩

/-- C13, witness: input `RGB32F`, which PNG does not support, with no requested output
resolves to `RGB16U`. -/
theorem C13_witness :
    (RGB32F ∈ namedFormats ∧ isFormatSupportedByPng RGB32F = false ∧
      isFormatSupportedByPng INVALID_FORMAT = false) ∧
    getWhatFormatWillBeWrittenForDataPNG RGB32F INVALID_FORMAT = some RGB16U ∧
    (∃ f, getWhatFormatWillBeWrittenForDataPNG RGB32F INVALID_FORMAT = some f ∧
      f ∈ namedFormats ∧
      (AIGetFormatDetails f).floatOrInt = FITYPE_INT ∧
      (AIGetFormatDetails f).numChannels
        = (if (AIGetFormatDetails RGB32F).numChannels = 2 then 3
           else (AIGetFormatDetails RGB32F).numChannels) ∧
      (AIGetFormatDetails f).bytesPerChannel
        = (if (AIGetFormatDetails RGB32F).floatOrInt = FITYPE_FLOAT then 2
           else (AIGetFormatDetails RGB32F).bytesPerChannel)) :=
  ⟨by decide!, by decide!, C13_png_fallback RGB32F (by decide) INVALID_FORMAT (by decide!)⟩

/-- C14: for every valid integer input format and every requested output format that is
`INVALID_FORMAT`, equal to the input or not supported by EXR, `getWriteFormatExr` returns
a named float format with the channel count of the input, of 2 bytes per channel when the
input has at most 2 bytes per channel and of 4 bytes per channel when it has more. -/
theorem C14_exr_fallback (inputFormat : Int) (hin : inputFormat ∈ namedFormats)
    (hint : (AIGetFormatDetails inputFormat).floatOrInt = FITYPE_INT)
    (outputFormat : Int)
    (hout : outputFormat = INVALID_FORMAT ∨ outputFormat = inputFormat ∨
      isFormatSupportedByExr outputFormat = false) :
    ∃ f, getWriteFormatExr inputFormat outputFormat = some f ∧
      f ∈ namedFormats ∧
      (AIGetFormatDetails f).floatOrInt = FITYPE_FLOAT ∧
      (AIGetFormatDetails f).numChannels = (AIGetFormatDetails inputFormat).numChannels ∧
      (AIGetFormatDetails f).bytesPerChannel
        = (if (AIGetFormatDetails inputFormat).bytesPerChannel ≤ 2 then 2 else 4) := by
  have hguard : ¬ (outputFormat ≠ inputFormat ∧ outputFormat ≠ INVALID_FORMAT ∧
      isFormatSupportedByExr outputFormat = true) := by
    rintro ⟨h1, h2, h3⟩
    rcases hout with h | h | h
    · exact h2 h
    · exact h1 h
    · rw [h] at h3
      exact absurd h3 (by decide)
  rw [exr_fallback _ _ hguard]
  obtain ⟨⟨f, h1, _, _, h4, h5, h6, _, h8⟩, _⟩ := exr_fallback_table inputFormat hin
  exact ⟨f, h1, h4, h5, h6, (h8 hint).2⟩

/-- C14, witness: the integer input `RGBA8U` with the requested output `RGB16U`, which EXR
does not support, resolves to `RGBA16F`. -/
theorem C14_witness :
    (RGBA8U ∈ namedFormats ∧ (AIGetFormatDetails RGBA8U).floatOrInt = FITYPE_INT ∧
      isFormatSupportedByExr RGB16U = false) ∧
    getWriteFormatExr RGBA8U RGB16U = some RGBA16F ∧
    (∃ f, getWriteFormatExr RGBA8U RGB16U = some f ∧
      f ∈ namedFormats ∧
      (AIGetFormatDetails f).floatOrInt = FITYPE_FLOAT ∧
      (AIGetFormatDetails f).numChannels = (AIGetFormatDetails RGBA8U).numChannels ∧
      (AIGetFormatDetails f).bytesPerChannel
        = (if (AIGetFormatDetails RGBA8U).bytesPerChannel ≤ 2 then 2 else 4)) :=
  ⟨by decide!, by decide!,
   C14_exr_fallback RGBA8U (by decide) (by decide) RGB16U (Or.inr (Or.inr (by decide!)))⟩

/-- C15 (amended): when the valid input format is not supported by EXR and no usable
output format is requested, `getWriteFormatExr` returns the 16-bit float format with the
channel count of the input, not the 32-bit float format: the fallback depth is chosen by
the byte width of the input, and every such input is an integer format of at most 2 bytes
per channel, for which the test `bytesPerChannelTmp > 2` selects `_16BITS`. -/
theorem C15_exr_fallback_is_half (inputFormat : Int) (hin : inputFormat ∈ namedFormats)
    (hsup : isFormatSupportedByExr inputFormat = false) (outputFormat : Int)
    (hout : ¬ (outputFormat ≠ inputFormat ∧ outputFormat ≠ INVALID_FORMAT ∧
      isFormatSupportedByExr outputFormat = true)) :
    (AIGetFormatDetails inputFormat).bytesPerChannel ≤ 2 ∧
    getWriteFormatExr inputFormat outputFormat
      = some (formatOf Elem.f16 (channelsOf inputFormat)) ∧
    getWriteFormatExr inputFormat outputFormat
      ≠ some (formatOf Elem.f32 (channelsOf inputFormat)) := by
  rw [exr_fallback _ _ hout]
  obtain ⟨⟨f, h1, _, _, _, _, _, h7, _⟩, _⟩ := exr_fallback_table inputFormat hin
  obtain ⟨_, hb, _, hf, hne⟩ := h7 hsup
  refine ⟨hb, by rw [h1, hf], ?_⟩
  rw [h1]
  intro hc
  injection hc with hc
  exact hne hc

/-- C15, witness: the input `RGB16U` with no requested output. -/
theorem C15_witness :
    (RGB16U ∈ namedFormats ∧ isFormatSupportedByExr RGB16U = false ∧
      ¬ (INVALID_FORMAT ≠ RGB16U ∧ INVALID_FORMAT ≠ INVALID_FORMAT ∧
        isFormatSupportedByExr INVALID_FORMAT = true)) ∧
    (AIGetFormatDetails RGB16U).bytesPerChannel ≤ 2 ∧
    getWriteFormatExr RGB16U INVALID_FORMAT = some (formatOf Elem.f16 (channelsOf RGB16U)) ∧
    getWriteFormatExr RGB16U INVALID_FORMAT
      ≠ some (formatOf Elem.f32 (channelsOf RGB16U)) :=
  ⟨⟨by decide, by decide, fun h => h.2.1 rfl⟩,
   C15_exr_fallback_is_half RGB16U (by decide) (by decide) INVALID_FORMAT
     (fun h => h.2.1 rfl)⟩

/-- C15, counterexample: the 16-bit integer inputs `R16U`, `RG16U`, `RGB16U`, `RGBA16U`,
which EXR does not support, with no requested output resolve to the 16-bit float formats
`R16F`, `RG16F`, `RGB16F`, `RGBA16F`, not to the 32-bit float formats. -/
theorem C15_counterexample :
    (isFormatSupportedByExr R16U = false ∧ isFormatSupportedByExr RG16U = false ∧
      isFormatSupportedByExr RGB16U = false ∧ isFormatSupportedByExr RGBA16U = false) ∧
    getWriteFormatExr R16U INVALID_FORMAT = some R16F ∧
    getWriteFormatExr RG16U INVALID_FORMAT = some RG16F ∧
    getWriteFormatExr RGB16U INVALID_FORMAT = some RGB16F ∧
    getWriteFormatExr RGBA16U INVALID_FORMAT = some RGBA16F ∧
    getWriteFormatExr R16U INVALID_FORMAT ≠ some R32F ∧
    getWriteFormatExr RG16U INVALID_FORMAT ≠ some RG32F ∧
    getWriteFormatExr RGB16U INVALID_FORMAT ≠ some RGB32F ∧
    getWriteFormatExr RGBA16U INVALID_FORMAT ≠ some RGBA32F := by
  decide!

/-- C16: for each of the 16 valid pixel formats, `isFormatSupportedByPng` is true exactly
for the integer formats of 8 or 16 bits that are not 2-channel, that is `R8U`, `RGB8U`,
`RGBA8U`, `R16U`, `RGB16U`, `RGBA16U`, and `isFormatSupportedByExr` is true exactly for the
16-bit and 32-bit float formats. -/
theorem C16_native_support (F : Int) (hF : F ∈ namedFormats) :
    (isFormatSupportedByPng F = true ↔
      ((AIGetFormatDetails F).floatOrInt = FITYPE_INT ∧
        ((AIGetFormatDetails F).bytesPerChannel = 1 ∨
          (AIGetFormatDetails F).bytesPerChannel = 2) ∧
        (AIGetFormatDetails F).numChannels ≠ 2)) ∧
    (isFormatSupportedByPng F = true ↔ F ∈ [R8U, RGB8U, RGBA8U, R16U, RGB16U, RGBA16U]) ∧
    (isFormatSupportedByExr F = true ↔
      ((AIGetFormatDetails F).floatOrInt = FITYPE_FLOAT ∧
        ((AIGetFormatDetails F).bytesPerChannel = 2 ∨
          (AIGetFormatDetails F).bytesPerChannel = 4))) ∧
    (isFormatSupportedByExr F = true ↔
      F ∈ [R16F, RG16F, RGB16F, RGBA16F, R32F, RG32F, RGB32F, RGBA32F]) := by
  revert F
  decide!

/-- C16, witness: the predicates at `RG16U`, which neither adapter supports. -/
theorem C16_witness :
    RG16U ∈ namedFormats ∧
    (isFormatSupportedByPng RG16U = true ↔
      ((AIGetFormatDetails RG16U).floatOrInt = FITYPE_INT ∧
        ((AIGetFormatDetails RG16U).bytesPerChannel = 1 ∨
          (AIGetFormatDetails RG16U).bytesPerChannel = 2) ∧
        (AIGetFormatDetails RG16U).numChannels ≠ 2)) ∧
    (isFormatSupportedByPng RG16U = true ↔
      RG16U ∈ [R8U, RGB8U, RGBA8U, R16U, RGB16U, RGBA16U]) ∧
    (isFormatSupportedByExr RG16U = true ↔
      ((AIGetFormatDetails RG16U).floatOrInt = FITYPE_FLOAT ∧
        ((AIGetFormatDetails RG16U).bytesPerChannel = 2 ∨
          (AIGetFormatDetails RG16U).bytesPerChannel = 4))) ∧
    (isFormatSupportedByExr RG16U = true ↔
      RG16U ∈ [R16F, RG16F, RGB16F, RGBA16F, R32F, RG32F, RGB32F, RGBA32F]) :=
  ⟨by decide, C16_native_support RG16U (by decide)⟩

theorem AIGetFormatDetails_named :
    ∀ f ∈ namedFormats,
      1 ≤ (AIGetFormatDetails f).numChannels ∧ (AIGetFormatDetails f).numChannels ≤ 4 ∧
      ((AIGetFormatDetails f).bytesPerChannel = 1 ∨ (AIGetFormatDetails f).bytesPerChannel = 2 ∨
        (AIGetFormatDetails f).bytesPerChannel = 4) ∧
      ((AIGetFormatDetails f).floatOrInt = FITYPE_INT ∨
        (AIGetFormatDetails f).floatOrInt = FITYPE_FLOAT) := by
  decide!

/-- C17: `AIGetFormatDetails` is total.  For every integer that is not one of the 16 named
formats it yields the sentinel triple `numChannels = -1`, `bytesPerChannel = -1`,
`floatOrInt = FITYPE_UNKNOWN`; for each of the 16 named formats it yields a triple with
`numChannels` in 1..4, `bytesPerChannel` in {1, 2, 4} and `floatOrInt` in
{`FITYPE_INT`, `FITYPE_FLOAT`}. -/
theorem C17_AIGetFormatDetails_total (format : Int) :
    (format ∉ namedFormats →
      (AIGetFormatDetails format).numChannels = -1 ∧
      (AIGetFormatDetails format).bytesPerChannel = -1 ∧
      (AIGetFormatDetails format).floatOrInt = FITYPE_UNKNOWN) ∧
    (format ∈ namedFormats →
      1 ≤ (AIGetFormatDetails format).numChannels ∧
      (AIGetFormatDetails format).numChannels ≤ 4 ∧
      ((AIGetFormatDetails format).bytesPerChannel = 1 ∨
        (AIGetFormatDetails format).bytesPerChannel = 2 ∨
        (AIGetFormatDetails format).bytesPerChannel = 4) ∧
      ((AIGetFormatDetails format).floatOrInt = FITYPE_INT ∨
        (AIGetFormatDetails format).floatOrInt = FITYPE_FLOAT)) := by
  constructor
  · intro h
    rw [AIGetFormatDetails_default format h]
    exact ⟨rfl, rfl, rfl⟩
  · intro h
    exact AIGetFormatDetails_named format h

/-- C18: decomposing and recomposing is the identity on the 16 valid formats.  With
`(n, b, k) = AIGetFormatDetails F`, the bitmask
`(R << (n-1)) | depthFlag(b) | (FLOAT_FORMAT if k is FITYPE_FLOAT, else 0)` is `F`, and its
three parts are the channel-count bits, the bit-depth bits and the float bit of `F`. -/
theorem C18_decompose_recompose (F : Int) (hF : F ∈ namedFormats) :
    recompose (AIGetFormatDetails F) = some F ∧
    shiftLeft R ((AIGetFormatDetails F).numChannels - 1)
      = some (Int.land F (Int.lor (Int.lor R RG) (Int.lor RGB RGBA))) ∧
    depthFlag (AIGetFormatDetails F).bytesPerChannel
      = Int.land F (Int.lor (Int.lor _8BITS _16BITS) _32BITS) ∧
    (if (AIGetFormatDetails F).floatOrInt = FITYPE_FLOAT then FLOAT_FORMAT else 0)
      = Int.land F FLOAT_FORMAT := by
  revert F
  decide!

/-- C18, witness: `RGB16F` decomposes to `(3, 2, FITYPE_FLOAT)` and recomposes to itself. -/
theorem C18_witness :
    RGB16F ∈ namedFormats ∧
    AIGetFormatDetails RGB16F = ⟨3, 2, FITYPE_FLOAT⟩ ∧
    recompose (AIGetFormatDetails RGB16F) = some RGB16F :=
  ⟨by decide, by decide, (C18_decompose_recompose RGB16F (by decide)).1⟩

theorem ldiff_two_pow (k m : Nat) :
    Nat.ldiff (2 ^ k) m = if m.testBit k = true then 0 else 2 ^ k := by
  apply Nat.eq_of_testBit_eq
  intro i
  rw [Nat.testBit_ldiff]
  by_cases h : m.testBit k = true
  · rw [if_pos h, Nat.zero_testBit, Nat.testBit_two_pow]
    by_cases hk : k = i
    · subst hk; simp [h]
    · simp [hk]
  · rw [if_neg h, Nat.testBit_two_pow]
    by_cases hk : k = i
    · subst hk; simp at h; simp [h]
    · simp [hk]

/-- the operator `&` with a single-bit mask selects that bit -/
theorem land_two_pow (x : Int) (k : Nat) :
    Int.land x ((2 ^ k : Nat) : Int)
      = if x.testBit k = true then ((2 ^ k : Nat) : Int) else 0 := by
  cases x with
  | ofNat m =>
    show ((m &&& 2 ^ k : Nat) : Int) = _
    rw [Nat.and_two_pow]
    show _ = if m.testBit k = true then ((2 ^ k : Nat) : Int) else 0
    cases m.testBit k <;> simp
  | negSucc m =>
    show ((Nat.ldiff (2 ^ k) m : Nat) : Int) = _
    rw [ldiff_two_pow]
    show _ = if (!m.testBit k) = true then ((2 ^ k : Nat) : Int) else 0
    cases m.testBit k <;> simp

theorem hasFlag_8BITS (x : Int) : hasFlag x _8BITS ↔ x.testBit 0 = true := by
  have h := land_two_pow x 0
  have h2 : Int.land x _8BITS = if x.testBit 0 = true then 1 else 0 := h
  unfold hasFlag
  rw [h2]
  split_ifs with hb <;> simp [hb]

theorem hasFlag_16BITS (x : Int) : hasFlag x _16BITS ↔ x.testBit 5 = true := by
  have h := land_two_pow x 5
  have h2 : Int.land x _16BITS = if x.testBit 5 = true then 32 else 0 := h
  unfold hasFlag
  rw [h2]
  split_ifs with hb <;> simp [hb]

theorem hasFlag_32BITS (x : Int) : hasFlag x _32BITS ↔ x.testBit 6 = true := by
  have h := land_two_pow x 6
  have h2 : Int.land x _32BITS = if x.testBit 6 = true then 64 else 0 := h
  unfold hasFlag
  rw [h2]
  split_ifs with hb <;> simp [hb]

theorem land_FLOAT_FORMAT (x : Int) :
    Int.land x FLOAT_FORMAT = if x.testBit 7 = true then 128 else 0 :=
  land_two_pow x 7

theorem hasFlag_FLOAT_FORMAT (x : Int) : hasFlag x FLOAT_FORMAT ↔ x.testBit 7 = true := by
  unfold hasFlag
  rw [land_FLOAT_FORMAT]
  split_ifs with hb <;> simp [hb]

/-- the result of `AIGetBitDepth` by cases on the three flag tests -/
theorem AIGetBitDepth_eq (format : Int) :
    AIGetBitDepth format
      = if hasFlag format _8BITS then some _8BITS
        else if hasFlag format _16BITS then some _16BITS
        else if hasFlag format _32BITS then some _32BITS
        else none := by
  unfold AIGetBitDepth bitDepths hasFlag
  by_cases h1 : Int.land format _8BITS ≠ 0
  · simp [List.find?, h1]
  · by_cases h2 : Int.land format _16BITS ≠ 0
    · simp [List.find?, h1, h2]
    · by_cases h3 : Int.land format _32BITS ≠ 0
      · simp [List.find?, h1, h2, h3]
      · simp [List.find?, h1, h2, h3]

/-- C19 (what the code does): `AIGetBitDepth` returns the first of `_8BITS`, `_16BITS`,
`_32BITS` that the format value has, so it returns the single set bit-depth flag when
exactly one is set, and every value it returns is one of these three flags and is set in
the format.  For a format value with none of the three flags the function does not return
`INVALID_FORMAT`: it reaches `delete[](&bitDepths)`, whose behaviour is undefined. -/
theorem C19_AIGetBitDepth (format : Int) :
    (hasFlag format _8BITS → AIGetBitDepth format = some _8BITS) ∧
    (¬ hasFlag format _8BITS → hasFlag format _16BITS →
      AIGetBitDepth format = some _16BITS) ∧
    (¬ hasFlag format _8BITS → ¬ hasFlag format _16BITS → hasFlag format _32BITS →
      AIGetBitDepth format = some _32BITS) ∧
    (¬ hasFlag format _8BITS → ¬ hasFlag format _16BITS → ¬ hasFlag format _32BITS →
      AIGetBitDepth format = none) ∧
    (∀ r, AIGetBitDepth format = some r →
      (r = _8BITS ∨ r = _16BITS ∨ r = _32BITS) ∧ r ≠ INVALID_FORMAT ∧ hasFlag format r) := by
  rw [AIGetBitDepth_eq]
  refine ⟨?_, ?_, ?_, ?_, ?_⟩
  · intro h1
    rw [if_pos h1]
  · intro h1 h2
    rw [if_neg h1, if_pos h2]
  · intro h1 h2 h3
    rw [if_neg h1, if_neg h2, if_pos h3]
  · intro h1 h2 h3
    rw [if_neg h1, if_neg h2, if_neg h3]
  · intro r hr
    split_ifs at hr with h1 h2 h3
    · injection hr with hr
      subst hr
      exact ⟨Or.inl rfl, by decide, h1⟩
    · injection hr with hr
      subst hr
      exact ⟨Or.inr (Or.inl rfl), by decide, h2⟩
    · injection hr with hr
      subst hr
      exact ⟨Or.inr (Or.inr rfl), by decide, h3⟩

/-- C19, counterexample: the format values `0` and `R` have none of the three bit-depth
flags, and `AIGetBitDepth` does not return `INVALID_FORMAT` for them: the call runs into
the undefined `delete[]` of the local array. -/
theorem C19_counterexample :
    (¬ hasFlag 0 _8BITS ∧ ¬ hasFlag 0 _16BITS ∧ ¬ hasFlag 0 _32BITS) ∧
    AIGetBitDepth 0 = none ∧ AIGetBitDepth 0 ≠ some INVALID_FORMAT ∧
    (¬ hasFlag R _8BITS ∧ ¬ hasFlag R _16BITS ∧ ¬ hasFlag R _32BITS) ∧
    AIGetBitDepth R = none ∧ AIGetBitDepth R ≠ some INVALID_FORMAT := by
  decide!

theorem testBit_flags :
    _8BITS.testBit 7 = false ∧ _16BITS.testBit 7 = false ∧ _32BITS.testBit 7 = false ∧
    FLOAT_FORMAT.testBit 7 = true := by decide!

/-- the three assignments of `AIChangeBitDepth` after a defined `AIGetBitDepth` -/
theorem AIChangeBitDepth_some (F d old : Int) (hold : AIGetBitDepth F = some old)
    (hd : d = _8BITS ∨ d = _16BITS ∨ d = _32BITS) :
    ∃ r, AIChangeBitDepth F d = some r ∧
      (d = _32BITS → hasFlag r FLOAT_FORMAT) ∧
      (d = _8BITS → ¬ hasFlag r FLOAT_FORMAT) ∧
      (d = _16BITS → Int.land r FLOAT_FORMAT = Int.land F FLOAT_FORMAT) := by
  have hguard : ¬ (d ≠ _8BITS ∧ d ≠ _16BITS ∧ d ≠ _32BITS) := by
    rcases hd with h | h | h <;> simp [h]
  have hold7 : old ≠ INVALID_FORMAT ∧ old.testBit 7 = false := by
    rw [AIGetBitDepth_eq] at hold
    split_ifs at hold <;> injection hold with hold <;> subst hold <;> decide!
  obtain ⟨hne, ho7⟩ := hold7
  obtain ⟨t8, t16, t32, tF⟩ := testBit_flags
  unfold AIChangeBitDepth
  rw [if_neg hguard, hold]
  simp only [if_pos hne]
  rcases hd with h | h | h
  · subst h
    refine ⟨_, by simp only [show _8BITS ≠ _32BITS by decide, if_false, if_true]; rfl,
      ?_, ?_, ?_⟩
    · intro hc; exact absurd hc (by decide)
    · intro _
      rw [hasFlag_FLOAT_FORMAT, Int.testBit_land, Int.testBit_lnot, tF]
      simp
    · intro hc; exact absurd hc (by decide)
  · subst h
    refine ⟨_, by simp only [show _16BITS ≠ _32BITS by decide,
      show _16BITS ≠ _8BITS by decide, if_false]; rfl, ?_, ?_, ?_⟩
    · intro hc; exact absurd hc (by decide)
    · intro hc; exact absurd hc (by decide)
    · intro _
      rw [land_FLOAT_FORMAT, land_FLOAT_FORMAT, Int.testBit_lor, Int.testBit_land,
        Int.testBit_lnot, ho7, t16]
      simp
  · subst h
    refine ⟨_, by simp only [if_true]; rfl, ?_, ?_, ?_⟩
    · intro _
      rw [hasFlag_FLOAT_FORMAT, Int.testBit_lor, tF]
      simp
    · intro hc; exact absurd hc (by decide)
    · intro hc; exact absurd hc (by decide)

/-- C20 (what the code does): for a format value `F` that has a bit-depth flag and a valid
new depth `d`, `AIChangeBitDepth F d` returns a value in which the `FLOAT_FORMAT` flag is
set when `d` is `_32BITS`, clear when `d` is `_8BITS`, and as in `F` when `d` is
`_16BITS`.  For a format value without any bit-depth flag the call has no defined result:
it runs into the undefined `delete[]` of `AIGetBitDepth`. -/
theorem C20_AIChangeBitDepth (F d : Int) (hd : d = _8BITS ∨ d = _16BITS ∨ d = _32BITS) :
    ((hasFlag F _8BITS ∨ hasFlag F _16BITS ∨ hasFlag F _32BITS) →
      ∃ r, AIChangeBitDepth F d = some r ∧
        (d = _32BITS → hasFlag r FLOAT_FORMAT) ∧
        (d = _8BITS → ¬ hasFlag r FLOAT_FORMAT) ∧
        (d = _16BITS → Int.land r FLOAT_FORMAT = Int.land F FLOAT_FORMAT)) ∧
    (¬ (hasFlag F _8BITS ∨ hasFlag F _16BITS ∨ hasFlag F _32BITS) →
      AIChangeBitDepth F d = none) := by
  constructor
  · intro hF
    have hex : ∃ old, AIGetBitDepth F = some old := by
      rw [AIGetBitDepth_eq]
      by_cases h1 : hasFlag F _8BITS
      · exact ⟨_, if_pos h1⟩
      · by_cases h2 : hasFlag F _16BITS
        · exact ⟨_, by rw [if_neg h1, if_pos h2]⟩
        · have h3 : hasFlag F _32BITS := by tauto
          exact ⟨_, by rw [if_neg h1, if_neg h2, if_pos h3]⟩
    obtain ⟨old, hold⟩ := hex
    exact AIChangeBitDepth_some F d old hold hd
  · intro hF
    have hnone : AIGetBitDepth F = none := by
      rw [AIGetBitDepth_eq]
      have h1 : ¬ hasFlag F _8BITS := fun h => hF (Or.inl h)
      have h2 : ¬ hasFlag F _16BITS := fun h => hF (Or.inr (Or.inl h))
      have h3 : ¬ hasFlag F _32BITS := fun h => hF (Or.inr (Or.inr h))
      rw [if_neg h1, if_neg h2, if_neg h3]
    have hguard : ¬ (d ≠ _8BITS ∧ d ≠ _16BITS ∧ d ≠ _32BITS) := by
      rcases hd with h | h | h <;> simp [h]
    unfold AIChangeBitDepth
    rw [if_neg hguard, hnone]

/-- C20, witness: `AIChangeBitDepth` on `R16F` with the new depth `_8BITS`. -/
theorem C20_witness :
    (_8BITS = _8BITS ∨ _8BITS = _16BITS ∨ _8BITS = _32BITS) ∧
    (hasFlag R16F _8BITS ∨ hasFlag R16F _16BITS ∨ hasFlag R16F _32BITS) ∧
    (∃ r, AIChangeBitDepth R16F _8BITS = some r ∧
      (_8BITS = _32BITS → hasFlag r FLOAT_FORMAT) ∧
      (_8BITS = _8BITS → ¬ hasFlag r FLOAT_FORMAT) ∧
      (_8BITS = _16BITS → Int.land r FLOAT_FORMAT = Int.land R16F FLOAT_FORMAT)) :=
  ⟨Or.inl rfl, by decide!,
   (C20_AIChangeBitDepth R16F _8BITS (Or.inl rfl)).1 (by decide!)⟩

/-- C20, counterexample: `R` and `R | FLOAT_FORMAT` are format values without a bit-depth
flag; with the valid new depths `_16BITS` and `_32BITS`, `AIChangeBitDepth` has no defined
result for them. -/
theorem C20_counterexample :
    (¬ hasFlag R _8BITS ∧ ¬ hasFlag R _16BITS ∧ ¬ hasFlag R _32BITS) ∧
    AIChangeBitDepth R _16BITS = none ∧
    AIChangeBitDepth R _32BITS = none ∧
    AIChangeBitDepth (Int.lor R FLOAT_FORMAT) _8BITS = none := by
  decide!

/-! ## Bit depth changes -/

theorem AIChangeBitDepth_table :
    ∀ F ∈ namedFormats, ∀ d ∈ bitDepths, ∃ r ∈ namedFormats,
      AIChangeBitDepth F d = some r ∧ r ≠ INVALID_FORMAT ∧
      (AIGetFormatDetails r).numChannels = (AIGetFormatDetails F).numChannels ∧
      AIGetBitDepth r = some d ∧
      (AIGetFormatDetails r).bytesPerChannel
        = (if d = _8BITS then 1 else if d = _16BITS then 2 else 4) ∧
      (d = _8BITS → (AIGetFormatDetails r).floatOrInt = FITYPE_INT) ∧
      (d = _32BITS → (AIGetFormatDetails r).floatOrInt = FITYPE_FLOAT) ∧
      (d = _16BITS →
        (AIGetFormatDetails r).floatOrInt = (AIGetFormatDetails F).floatOrInt) := by
  decide!

theorem mem_bitDepths (d : Int) (hd : d = _8BITS ∨ d = _16BITS ∨ d = _32BITS) :
    d ∈ bitDepths := by
  rcases hd with h | h | h <;> subst h <;> decide

/-- C21: `AIChangeBitDepth(F, d)` returns `INVALID_FORMAT` for every format value `F`
whenever `d` is not one of `_8BITS`, `_16BITS`, `_32BITS`, and for every valid format `F`
and every `d` among those three it returns a value that is not `INVALID_FORMAT`. -/
theorem C21_AIChangeBitDepth_invalid (F d : Int) :
    ((d ≠ _8BITS ∧ d ≠ _16BITS ∧ d ≠ _32BITS) →
      AIChangeBitDepth F d = some INVALID_FORMAT) ∧
    (F ∈ namedFormats → (d = _8BITS ∨ d = _16BITS ∨ d = _32BITS) →
      ∃ r, AIChangeBitDepth F d = some r ∧ r ≠ INVALID_FORMAT) := by
  constructor
  · intro h
    unfold AIChangeBitDepth
    rw [if_pos h]
  · intro hF hd
    obtain ⟨r, _, h1, h2, _⟩ := AIChangeBitDepth_table F hF d (mem_bitDepths d hd)
    exact ⟨r, h1, h2⟩

/-- C22: `AIChangeBitDepth` preserves format validity.  For each of the 16 valid formats
`F` and each depth `d` in {`_8BITS`, `_16BITS`, `_32BITS`} the result is again one of the
16 valid formats, it has the channel count of `F`, `AIGetBitDepth` of the result is `d`,
its bytes per channel are those of `d`, and its numeric kind is consistent with the depth:
integer for 8 bits, float for 32 bits, the kind of `F` for 16 bits. -/
theorem C22_AIChangeBitDepth_valid (F d : Int) (hF : F ∈ namedFormats)
    (hd : d = _8BITS ∨ d = _16BITS ∨ d = _32BITS) :
    ∃ r, AIChangeBitDepth F d = some r ∧ r ∈ namedFormats ∧
      (AIGetFormatDetails r).numChannels = (AIGetFormatDetails F).numChannels ∧
      AIGetBitDepth r = some d ∧
      (AIGetFormatDetails r).bytesPerChannel
        = (if d = _8BITS then 1 else if d = _16BITS then 2 else 4) ∧
      (d = _8BITS → (AIGetFormatDetails r).floatOrInt = FITYPE_INT) ∧
      (d = _32BITS → (AIGetFormatDetails r).floatOrInt = FITYPE_FLOAT) ∧
      (d = _16BITS →
        (AIGetFormatDetails r).floatOrInt = (AIGetFormatDetails F).floatOrInt) := by
  obtain ⟨r, hr, h1, _, h3⟩ := AIChangeBitDepth_table F hF d (mem_bitDepths d hd)
  exact ⟨r, h1, hr, h3⟩

/-- C22, witness: `AIChangeBitDepth(RGB16F, _8BITS)` is `RGB8U`. -/
theorem C22_witness :
    (RGB16F ∈ namedFormats ∧ (_8BITS = _8BITS ∨ _8BITS = _16BITS ∨ _8BITS = _32BITS)) ∧
    AIChangeBitDepth RGB16F _8BITS = some RGB8U ∧
    (∃ r, AIChangeBitDepth RGB16F _8BITS = some r ∧ r ∈ namedFormats ∧
      (AIGetFormatDetails r).numChannels = (AIGetFormatDetails RGB16F).numChannels ∧
      AIGetBitDepth r = some _8BITS ∧
      (AIGetFormatDetails r).bytesPerChannel
        = (if _8BITS = _8BITS then 1 else if _8BITS = _16BITS then 2 else 4) ∧
      (_8BITS = _8BITS → (AIGetFormatDetails r).floatOrInt = FITYPE_INT) ∧
      (_8BITS = _32BITS → (AIGetFormatDetails r).floatOrInt = FITYPE_FLOAT) ∧
      (_8BITS = _16BITS →
        (AIGetFormatDetails r).floatOrInt = (AIGetFormatDetails RGB16F).floatOrInt)) :=
  ⟨⟨by decide, Or.inl rfl⟩, by decide!,
   C22_AIChangeBitDepth_valid RGB16F _8BITS (by decide) (Or.inl rfl)⟩

/-! ## Loader registry and dispatch -/

theorem mem_mapKeys_mapAssign {α : Type} (m : List (Int × α)) (key : Int) (value : α)
    (x : Int) : x ∈ mapKeys (mapAssign m key value) ↔ (x = key ∨ x ∈ mapKeys m) := by
  induction m with
  | nil => simp [mapAssign, mapKeys]
  | cons e rest ih =>
    obtain ⟨k, v⟩ := e
    unfold mapAssign
    by_cases h1 : key < k
    · rw [if_pos h1]
      simp [mapKeys]
    · rw [if_neg h1]
      by_cases h2 : key = k
      · rw [if_pos h2]
        simp [mapKeys, h2]
      · rw [if_neg h2]
        have ih2 : x ∈ List.map Prod.fst (mapAssign rest key value)
            ↔ (x = key ∨ x ∈ List.map Prod.fst rest) := ih
        simp only [mapKeys, List.map_cons, List.mem_cons, ih2]
        tauto

theorem mapAssign_sorted {α : Type} (m : List (Int × α)) (key : Int) (value : α)
    (h : (mapKeys m).Pairwise (fun a b => a < b)) :
    (mapKeys (mapAssign m key value)).Pairwise (fun a b => a < b) := by
  induction m with
  | nil => simp [mapAssign, mapKeys]
  | cons e rest ih =>
    obtain ⟨k, v⟩ := e
    have h' : (k :: mapKeys rest).Pairwise (fun a b => a < b) := h
    rw [List.pairwise_cons] at h'
    obtain ⟨hk, hrest⟩ := h'
    unfold mapAssign
    by_cases h1 : key < k
    · rw [if_pos h1]
      show (key :: k :: mapKeys rest).Pairwise (fun a b => a < b)
      rw [List.pairwise_cons]
      refine ⟨?_, h⟩
      intro b hb
      rcases List.mem_cons.mp hb with hb | hb
      · rw [hb]; exact h1
      · exact lt_trans h1 (hk b hb)
    · rw [if_neg h1]
      by_cases h2 : key = k
      · rw [if_pos h2]
        exact h
      · rw [if_neg h2]
        show (k :: mapKeys (mapAssign rest key value)).Pairwise (fun a b => a < b)
        rw [List.pairwise_cons]
        refine ⟨?_, ih hrest⟩
        intro b hb
        rcases (mem_mapKeys_mapAssign rest key value b).mp hb with hb | hb
        · rw [hb]; omega
        · exact hk b hb

theorem mapFind_none_iff {α : Type} (m : List (Int × α)) (key : Int) :
    mapFind m key = none ↔ key ∉ mapKeys m := by
  induction m with
  | nil => simp [mapFind, mapKeys]
  | cons e rest ih =>
    obtain ⟨k, v⟩ := e
    unfold mapFind
    by_cases h : key = k
    · rw [if_pos h]
      simp [mapKeys, h]
    · rw [if_neg h, ih]
      simp [mapKeys, h]

theorem mapIndex_found {α : Type} (m : List (Int × Option α)) (key : Int) (v : Option α)
    (h : mapFind m key = some v) : mapIndex m key = (m, v) := by
  unfold mapIndex
  rw [h]

theorem mapIndex_absent {α : Type} (m : List (Int × Option α)) (key : Int)
    (h : mapFind m key = none) : mapIndex m key = (mapAssign m key none, none) := by
  unfold mapIndex
  rw [h]

theorem mapAssign_length_absent {α : Type} (m : List (Int × α)) (key : Int) (value : α)
    (h : key ∉ mapKeys m) : (mapAssign m key value).length = m.length + 1 := by
  induction m with
  | nil => simp [mapAssign]
  | cons e rest ih =>
    obtain ⟨k, v⟩ := e
    have hk : key ≠ k := by
      intro hc
      exact h (by simp [mapKeys, hc])
    have hr : key ∉ mapKeys rest := by
      intro hc
      exact h (by simp only [mapKeys, List.map_cons, List.mem_cons]; exact Or.inr hc)
    unfold mapAssign
    by_cases h1 : key < k
    · rw [if_pos h1]
      simp
    · rw [if_neg h1, if_neg hk]
      simp [ih hr]

theorem registerOne_sorted {σ : Type} (loaders : LoaderMap σ) (key : Int)
    (loader : Option (ImageLoaderBase σ))
    (h : (mapKeys loaders).Pairwise (fun a b => a < b)) :
    (mapKeys (registerOne loaders key loader)).Pairwise (fun a b => a < b) := by
  cases loader with
  | none => exact h
  | some l => exact mapAssign_sorted _ _ _ h

theorem foldl_mapAssign_sorted {σ : Type} (others : List (Int × ImageLoaderBase σ)) :
    ∀ m : LoaderMap σ, (mapKeys m).Pairwise (fun a b => a < b) →
      (mapKeys (others.foldl (fun m e => mapAssign m e.1 (some e.2)) m)).Pairwise
        (fun a b => a < b) := by
  induction others with
  | nil => intro m h; exact h
  | cons e rest ih =>
    intro m h
    rw [List.foldl_cons]
    exact ih _ (mapAssign_sorted _ _ _ h)

theorem registerLoaders_sorted {σ : Type} (loaders : LoaderMap σ)
    (exr png : Option (ImageLoaderBase σ)) (others : List (Int × ImageLoaderBase σ))
    (h : (mapKeys loaders).Pairwise (fun a b => a < b)) :
    (mapKeys (registerLoaders loaders exr png others)).Pairwise (fun a b => a < b) := by
  unfold registerLoaders
  exact foldl_mapAssign_sorted others _
    (registerOne_sorted _ _ _ (registerOne_sorted _ _ _ h))

theorem canLoadImage_png_tell {σ : Type} (cb : StreamCallbacks σ)
    (hseek : ∀ s p, cb.tellCallback (cb.seekCallback s p) = p) (s : σ) :
    cb.tellCallback (PNGImageLoader.canLoadImage cb s).2 = cb.tellCallback s := by
  unfold PNGImageLoader.canLoadImage
  exact hseek _ _

theorem canLoadImage_exr_tell {σ : Type} (cb : StreamCallbacks σ)
    (hseek : ∀ s p, cb.tellCallback (cb.seekCallback s p) = p) (s : σ) :
    cb.tellCallback (ExrImageLoader.canLoadImage cb s).2 = cb.tellCallback s := by
  unfold ExrImageLoader.canLoadImage
  exact hseek _ _

theorem probeLoaders_of_noneMatches {σ : Type} (cb : StreamCallbacks σ) (notNull : Bool)
    (loaders : LoaderMap σ) :
    ∀ s s1, noneMatches cb loaders s = some s1 →
      probeLoaders cb notNull loaders s
        = some ⟨AIMG_UNSUPPORTED_FILETYPE, none,
            if notNull then some UNKNOWN_IMAGE_FORMAT else none, s1⟩ := by
  induction loaders with
  | nil =>
    intro s s1 h
    simp only [noneMatches, Option.some.injEq] at h
    subst h
    rfl
  | cons e rest ih =>
    intro s s1 h
    obtain ⟨k, l⟩ := e
    cases l with
    | none => simp [noneMatches] at h
    | some l =>
      unfold noneMatches at h
      unfold probeLoaders
      by_cases hc : (l.canLoadImage cb s).1 = true
      · rw [if_pos hc] at h
        exact absurd h (by simp)
      · rw [if_neg hc] at h
        rw [if_neg hc]
        exact ih _ _ h

theorem probeLoaders_match {σ : Type} (cb : StreamCallbacks σ) (notNull : Bool)
    (pre : LoaderMap σ) (k : Int) (a : ImageLoaderBase σ) (post : LoaderMap σ) :
    ∀ s s1, noneMatches cb pre s = some s1 → (a.canLoadImage cb s1).1 = true →
      probeLoaders cb notNull (pre ++ (k, some a) :: post) s
        = some ⟨(a.getAImg.openImage cb (a.canLoadImage cb s1).2).1, some a.getAImg,
            if notNull then some a.getAImgFileFormatValue else none,
            (a.getAImg.openImage cb (a.canLoadImage cb s1).2).2⟩ := by
  induction pre with
  | nil =>
    intro s s1 h ha
    simp only [noneMatches, Option.some.injEq] at h
    subst h
    show probeLoaders cb notNull ((k, some a) :: post) s = _
    unfold probeLoaders
    rw [if_pos ha]
  | cons e rest ih =>
    intro s s1 h ha
    obtain ⟨k2, l⟩ := e
    cases l with
    | none => simp [noneMatches] at h
    | some l =>
      unfold noneMatches at h
      show probeLoaders cb notNull ((k2, some l) :: (rest ++ (k, some a) :: post)) s = _
      unfold probeLoaders
      by_cases hc : (l.canLoadImage cb s).1 = true
      · rw [if_pos hc] at h
        exact absurd h (by simp)
      · rw [if_neg hc] at h
        rw [if_neg hc]
        exact ih _ _ h ha

/-- the loop of `AImgOpen` over adapters that restore the position: it ends, and when no
adapter matched the position is the one it started with -/
theorem probeLoaders_tell {σ : Type} (cb : StreamCallbacks σ) (notNull : Bool)
    (loaders : LoaderMap σ)
    (hl : ∀ e ∈ loaders, ∃ l, e.2 = some l ∧
      ∀ t, cb.tellCallback (l.canLoadImage cb t).2 = cb.tellCallback t) :
    ∀ s, ∃ r, probeLoaders cb notNull loaders s = some r ∧
      (r.imgH.isNone = true →
        r.retval = AIMG_UNSUPPORTED_FILETYPE ∧
        cb.tellCallback r.callbackData = cb.tellCallback s) := by
  induction loaders with
  | nil =>
    intro s
    exact ⟨_, rfl, fun _ => ⟨rfl, rfl⟩⟩
  | cons e rest ih =>
    intro s
    obtain ⟨k, lo⟩ := e
    obtain ⟨l, hlo, hrest⟩ := hl (k, lo) (List.mem_cons_self _ _)
    simp only at hlo
    subst hlo
    have ih2 := ih (fun e he => hl e (List.mem_cons_of_mem _ he))
    unfold probeLoaders
    by_cases hc : (l.canLoadImage cb s).1 = true
    · rw [if_pos hc]
      exact ⟨_, rfl, fun h => absurd h (by simp)⟩
    · rw [if_neg hc]
      obtain ⟨r, hr, hprop⟩ := ih2 (l.canLoadImage cb s).2
      refine ⟨r, hr, fun h => ?_⟩
      obtain ⟨h1, h2⟩ := hprop h
      exact ⟨h1, by rw [h2, hrest]⟩

theorem exampleLoaders_restore :
    ∀ e ∈ exampleLoaders, ∃ l, e.2 = some l ∧
      ∀ t, simpleMemoryCallbacks.tellCallback (l.canLoadImage simpleMemoryCallbacks t).2
        = simpleMemoryCallbacks.tellCallback t := by
  intro e he
  have hl : exampleLoaders
      = [(EXR_IMAGE_FORMAT, some (ExrImageLoader AIMG_SUCCESS
            (exampleFile AIMG_LOAD_FAILED_EXTERNAL))),
         (PNG_IMAGE_FORMAT, some (PNGImageLoader (exampleFile AIMG_SUCCESS)))] := rfl
  rw [hl] at he
  simp only [List.mem_cons, List.mem_singleton, List.not_mem_nil, or_false] at he
  rcases he with he | he
  · subst he
    exact ⟨_, rfl, fun t => canLoadImage_exr_tell simpleMemoryCallbacks (fun _ _ => rfl) t⟩
  · subst he
    exact ⟨_, rfl, fun t => canLoadImage_png_tell simpleMemoryCallbacks (fun _ _ => rfl) t⟩

/-- C23 (amended): format sniffing does not consume the stream.  For every stream whose seek and
tell callbacks agree (tell after `seek(p)` returns `p`) and every starting position,
`PNGImageLoader::canLoadImage` and `ExrImageLoader::canLoadImage` return with the stream
position they were called with; and `AImgOpen`, over a registry of adapters whose
`canLoadImage` does so, probes the adapters of a non-empty stream and, when none matches,
returns `AIMG_UNSUPPORTED_FILETYPE` with the position it was called with.  On an empty
stream (the one-byte read does not return 1) `AImgOpen` returns before any adapter is
probed, with the callback data as that read left it. -/
theorem C23_sniffing_keeps_position {σ : Type} (cb : StreamCallbacks σ)
    (hseek : ∀ s p, cb.tellCallback (cb.seekCallback s p) = p) (s : σ) :
    cb.tellCallback (PNGImageLoader.canLoadImage cb s).2 = cb.tellCallback s ∧
    cb.tellCallback (ExrImageLoader.canLoadImage cb s).2 = cb.tellCallback s ∧
    (∀ (loaders : LoaderMap σ) (notNull : Bool),
      (∀ e ∈ loaders, ∃ l, e.2 = some l ∧
        ∀ t, cb.tellCallback (l.canLoadImage cb t).2 = cb.tellCallback t) →
      ∃ r, AImgOpen loaders cb s notNull = some r ∧
        ((cb.readCallback s 1).2.1 = 1 → r.imgH.isNone = true →
          r.retval = AIMG_UNSUPPORTED_FILETYPE ∧
          cb.tellCallback r.callbackData = cb.tellCallback s) ∧
        ((cb.readCallback s 1).2.1 ≠ 1 →
          r.retval = AIMG_OPEN_FAILED_EMPTY_INPUT ∧
          r.callbackData = (cb.readCallback s 1).2.2)) := by
  refine ⟨canLoadImage_png_tell cb hseek s, canLoadImage_exr_tell cb hseek s, ?_⟩
  intro loaders notNull hl
  unfold AImgOpen
  simp only
  by_cases h1 : (cb.readCallback s 1).2.1 ≠ 1
  · rw [if_pos h1]
    exact ⟨_, rfl, fun h => absurd h h1, fun _ => ⟨rfl, rfl⟩⟩
  · rw [if_neg h1]
    obtain ⟨r, hr, hprop⟩ := probeLoaders_tell cb notNull loaders hl
      (cb.seekCallback (cb.readCallback s 1).2.2 (cb.tellCallback s))
    refine ⟨r, hr, fun _ hnone => ?_, fun h => absurd h h1⟩
    obtain ⟨h2, h3⟩ := hprop hnone
    exact ⟨h2, by rw [h3, hseek]⟩

/-- C23, witness: the memory-buffer stream, whose seek and tell agree, over the 10 bytes
`1, 2, .., 10` at position 3: both sniffers leave the position at 3, and `AImgOpen` over
the registry of a build with EXR and PNG finds no adapter and returns with the position
at 3. -/
theorem C23_witness :
    (∀ (s : SimpleMemoryCallbackData) (p : Int),
      simpleMemoryCallbacks.tellCallback (simpleMemoryCallbacks.seekCallback s p) = p) ∧
    simpleMemoryCallbacks.tellCallback
      (PNGImageLoader.canLoadImage simpleMemoryCallbacks
        ⟨10, [1, 2, 3, 4, 5, 6, 7, 8, 9, 10], 3, false⟩).2 = 3 ∧
    simpleMemoryCallbacks.tellCallback
      (ExrImageLoader.canLoadImage simpleMemoryCallbacks
        ⟨10, [1, 2, 3, 4, 5, 6, 7, 8, 9, 10], 3, false⟩).2 = 3 ∧
    (∃ r, AImgOpen exampleLoaders simpleMemoryCallbacks
        ⟨10, [1, 2, 3, 4, 5, 6, 7, 8, 9, 10], 3, false⟩ true = some r ∧
      r.retval = AIMG_UNSUPPORTED_FILETYPE ∧
      simpleMemoryCallbacks.tellCallback r.callbackData = 3) :=
  ⟨fun _ _ => rfl,
   (C23_sniffing_keeps_position simpleMemoryCallbacks (fun _ _ => rfl)
      ⟨10, [1, 2, 3, 4, 5, 6, 7, 8, 9, 10], 3, false⟩).1,
   (C23_sniffing_keeps_position simpleMemoryCallbacks (fun _ _ => rfl)
      ⟨10, [1, 2, 3, 4, 5, 6, 7, 8, 9, 10], 3, false⟩).2.1,
   by
    obtain ⟨r, hr, h1, _⟩ :=
      (C23_sniffing_keeps_position simpleMemoryCallbacks (fun _ _ => rfl)
        ⟨10, [1, 2, 3, 4, 5, 6, 7, 8, 9, 10], 3, false⟩).2.2 exampleLoaders true
        exampleLoaders_restore
    have hconc : AImgOpen exampleLoaders simpleMemoryCallbacks
        ⟨10, [1, 2, 3, 4, 5, 6, 7, 8, 9, 10], 3, false⟩ true
        = some ⟨AIMG_UNSUPPORTED_FILETYPE, none, some UNKNOWN_IMAGE_FORMAT,
            ⟨10, [1, 2, 3, 4, 5, 6, 7, 8, 9, 10], 3, false⟩⟩ := rfl
    rw [hconc] at hr
    injection hr with hr
    subst hr
    exact ⟨_, hconc, rfl, rfl⟩⟩

/-- C23, counterexample: on a stream whose seek and tell agree but whose one-byte read
fails after moving the position, `AImgOpen` called at position 5 returns
`AIMG_OPEN_FAILED_EMPTY_INPUT` before any seek, with the position at 6, although neither
the PNG nor the EXR adapter of the registry matches the stream. -/
theorem C23_counterexample :
    (∀ (s p : Int), driftingStream.tellCallback (driftingStream.seekCallback s p) = p) ∧
    driftingStream.tellCallback 5 = 5 ∧
    (PNGImageLoader.canLoadImage driftingStream 5).1 = false ∧
    (ExrImageLoader.canLoadImage driftingStream 5).1 = false ∧
    noneMatches driftingStream driftingLoaders 5 = some 5 ∧
    (∃ r, AImgOpen driftingLoaders driftingStream 5 true = some r ∧
      r.retval = AIMG_OPEN_FAILED_EMPTY_INPUT ∧ r.imgH.isNone = true ∧
      driftingStream.tellCallback r.callbackData = 6 ∧
      driftingStream.tellCallback r.callbackData ≠ driftingStream.tellCallback 5) :=
  ⟨fun _ _ => rfl, rfl, by decide, by decide, by decide,
   ⟨⟨AIMG_OPEN_FAILED_EMPTY_INPUT, none, none, 6⟩, rfl, rfl, rfl, rfl, by decide⟩⟩

/-- C24: for every non-empty stream, `AImgOpen` probes the registered adapters in the
iteration order of the registry, which after `AImgInitialise` is the ascending order of
the file-format identifiers, and dispatches to the first one whose `canLoadImage` is
true: it reports the file-format identifier of that adapter and returns the result of its
`openImage`, and the adapters after it play no part; when no adapter matches it returns
`AIMG_UNSUPPORTED_FILETYPE`, reports `UNKNOWN_IMAGE_FORMAT` and leaves the handle
`NULL`. -/
theorem C24_dispatch_first_match {σ : Type} (loaders : LoaderMap σ) (cb : StreamCallbacks σ)
    (s : σ) (notNull : Bool) (hne : (cb.readCallback s 1).2.1 = 1) :
    (∀ (exr png : Option (ImageLoaderBase σ)) (others : List (Int × ImageLoaderBase σ)),
      (mapKeys (AImgInitialise ([] : LoaderMap σ) exr png others).2).Pairwise
        (fun a b => a < b)) ∧
    (∀ (pre : LoaderMap σ) (k : Int) (a : ImageLoaderBase σ) (post : LoaderMap σ) (s1 : σ),
      loaders = pre ++ (k, some a) :: post →
      noneMatches cb pre (cb.seekCallback (cb.readCallback s 1).2.2 (cb.tellCallback s))
        = some s1 →
      (a.canLoadImage cb s1).1 = true →
      ∃ r, AImgOpen loaders cb s notNull = some r ∧
        r.retval = (a.getAImg.openImage cb (a.canLoadImage cb s1).2).1 ∧
        r.callbackData = (a.getAImg.openImage cb (a.canLoadImage cb s1).2).2 ∧
        r.imgH = some a.getAImg ∧
        r.detectedFileFormat = (if notNull then some a.getAImgFileFormatValue else none) ∧
        ∀ post2 : LoaderMap σ,
          AImgOpen (pre ++ (k, some a) :: post2) cb s notNull = some r) ∧
    (∀ s1 : σ,
      noneMatches cb loaders (cb.seekCallback (cb.readCallback s 1).2.2 (cb.tellCallback s))
        = some s1 →
      ∃ r, AImgOpen loaders cb s notNull = some r ∧
        r.retval = AIMG_UNSUPPORTED_FILETYPE ∧
        r.detectedFileFormat = (if notNull then some UNKNOWN_IMAGE_FORMAT else none) ∧
        r.imgH.isNone = true ∧ r.callbackData = s1) := by
  have hopen : ∀ m : LoaderMap σ, AImgOpen m cb s notNull
      = probeLoaders cb notNull m
          (cb.seekCallback (cb.readCallback s 1).2.2 (cb.tellCallback s)) := by
    intro m
    unfold AImgOpen
    simp only
    rw [if_neg (not_not.mpr hne)]
  refine ⟨?_, ?_, ?_⟩
  · intro exr png others
    exact registerLoaders_sorted [] exr png others List.Pairwise.nil
  · intro pre k a post s1 hsplit hpre ha
    refine ⟨⟨(a.getAImg.openImage cb (a.canLoadImage cb s1).2).1, some a.getAImg,
      if notNull then some a.getAImgFileFormatValue else none,
      (a.getAImg.openImage cb (a.canLoadImage cb s1).2).2⟩, ?_, rfl, rfl, rfl, rfl, ?_⟩
    · rw [hopen, hsplit]
      exact probeLoaders_match cb notNull pre k a post _ _ hpre ha
    intro post2
    rw [hopen]
    exact probeLoaders_match cb notNull pre k a post2 _ _ hpre ha
  · intro s1 hnone
    refine ⟨⟨AIMG_UNSUPPORTED_FILETYPE, none,
      if notNull then some UNKNOWN_IMAGE_FORMAT else none, s1⟩, ?_, rfl, rfl, rfl, rfl⟩
    rw [hopen]
    exact probeLoaders_of_noneMatches cb notNull loaders _ _ hnone

/-- C24, witness: a memory-buffer stream that starts with the PNG signature, opened over
the registry of a build with EXR and PNG: EXR (identifier 1) is probed first and does not
match, PNG (identifier 2) matches and its `openImage` result is returned. -/
theorem C24_witness :
    ((simpleMemoryCallbacks.readCallback
        ⟨10, [137, 80, 78, 71, 13, 10, 26, 10, 0, 0], 0, false⟩ 1).2.1 = 1) ∧
    mapKeys exampleLoaders = [EXR_IMAGE_FORMAT, PNG_IMAGE_FORMAT] ∧
    (∃ r, AImgOpen exampleLoaders simpleMemoryCallbacks
        ⟨10, [137, 80, 78, 71, 13, 10, 26, 10, 0, 0], 0, false⟩ true = some r ∧
      r.retval = AIMG_SUCCESS ∧
      r.detectedFileFormat = some PNG_IMAGE_FORMAT) :=
  ⟨by decide, by decide,
   by
    obtain ⟨r, h1, h2, _, _, h5, _⟩ :=
      (C24_dispatch_first_match exampleLoaders simpleMemoryCallbacks
        ⟨10, [137, 80, 78, 71, 13, 10, 26, 10, 0, 0], 0, false⟩ true (by decide)).2.1
        [(EXR_IMAGE_FORMAT, some (ExrImageLoader AIMG_SUCCESS
          (exampleFile AIMG_LOAD_FAILED_EXTERNAL)))]
        PNG_IMAGE_FORMAT (PNGImageLoader (exampleFile AIMG_SUCCESS)) []
        ⟨10, [137, 80, 78, 71, 13, 10, 26, 10, 0, 0], 0, false⟩ rfl (by decide) (by decide)
    exact ⟨r, h1, h2, h5⟩⟩

/-- C25 (what the code does): the three lookups read the registry with `loaders[key]`.
For a registered identifier they leave the registry as it was and call the adapter.  For
an identifier that is not registered the `operator[]` first inserts that key with a null
adapter, so the registry gains a key, and the call then goes through the null pointer. -/
theorem C25_registry_lookups {σ : Type} (loaders : LoaderMap σ) (fileFormat : Int) :
    (∀ l : ImageLoaderBase σ, mapFind loaders fileFormat = some (some l) →
      (∀ f, AImgIsFormatSupported loaders fileFormat f
        = (loaders, some (l.isFormatSupported f))) ∧
      (∀ i o, AImgGetWhatFormatWillBeWrittenForData loaders fileFormat i o
        = (loaders, l.getWhatFormatWillBeWrittenForData i o)) ∧
      AImgGetAImg loaders fileFormat = (loaders, some l.getAImg)) ∧
    (fileFormat ∉ mapKeys loaders →
      (∀ f, AImgIsFormatSupported loaders fileFormat f
        = (mapAssign loaders fileFormat none, none)) ∧
      (∀ i o, AImgGetWhatFormatWillBeWrittenForData loaders fileFormat i o
        = (mapAssign loaders fileFormat none, none)) ∧
      (AImgGetAImg loaders fileFormat).1 = mapAssign loaders fileFormat none ∧
      (AImgGetAImg loaders fileFormat).2.isNone = true ∧
      fileFormat ∈ mapKeys (mapAssign loaders fileFormat none) ∧
      (mapAssign loaders fileFormat none).length = loaders.length + 1) := by
  constructor
  · intro l hl
    have h := mapIndex_found loaders fileFormat (some l) hl
    refine ⟨?_, ?_, ?_⟩
    · intro f
      unfold AImgIsFormatSupported
      rw [h]
    · intro i o
      unfold AImgGetWhatFormatWillBeWrittenForData
      rw [h]
    · unfold AImgGetAImg
      rw [h]
  · intro hk
    have h := mapIndex_absent loaders fileFormat ((mapFind_none_iff loaders fileFormat).mpr hk)
    refine ⟨?_, ?_, ?_, ?_, ?_, ?_⟩
    · intro f
      unfold AImgIsFormatSupported
      rw [h]
    · intro i o
      unfold AImgGetWhatFormatWillBeWrittenForData
      rw [h]
    · unfold AImgGetAImg
      rw [h]
    · unfold AImgGetAImg
      rw [h]
      rfl
    · exact (mem_mapKeys_mapAssign loaders fileFormat none fileFormat).mpr (Or.inl rfl)
    · exact mapAssign_length_absent loaders fileFormat none hk

/-- C25, counterexample: in a build with PNG only, where the registry after
`AImgInitialise` has the one key `PNG_IMAGE_FORMAT`, the call
`AImgIsFormatSupported(EXR_IMAGE_FORMAT, RGBA16F)` leaves a registry with the two keys
`EXR_IMAGE_FORMAT` and `PNG_IMAGE_FORMAT`, the new one with a null adapter, and has no
defined result. -/
theorem C25_counterexample :
    mapKeys (AImgInitialise ([] : LoaderMap SimpleMemoryCallbackData) none
      (some (PNGImageLoader (exampleFile AIMG_SUCCESS))) []).2 = [PNG_IMAGE_FORMAT] ∧
    mapKeys (AImgIsFormatSupported
      (AImgInitialise ([] : LoaderMap SimpleMemoryCallbackData) none
        (some (PNGImageLoader (exampleFile AIMG_SUCCESS))) []).2
      EXR_IMAGE_FORMAT RGBA16F).1 = [EXR_IMAGE_FORMAT, PNG_IMAGE_FORMAT] ∧
    (AImgIsFormatSupported
      (AImgInitialise ([] : LoaderMap SimpleMemoryCallbackData) none
        (some (PNGImageLoader (exampleFile AIMG_SUCCESS))) []).2
      EXR_IMAGE_FORMAT RGBA16F).2 = none ∧
    ((mapFind (AImgIsFormatSupported
      (AImgInitialise ([] : LoaderMap SimpleMemoryCallbackData) none
        (some (PNGImageLoader (exampleFile AIMG_SUCCESS))) []).2
      EXR_IMAGE_FORMAT RGBA16F).1 EXR_IMAGE_FORMAT).map Option.isNone) = some true := by
  refine ⟨by decide, by decide, by decide, by decide⟩

/-! ## Codec adapters -/

/-- C27 (amended): the support predicates test only the bit-depth and float flags (PNG
also excludes the two values `RG8U` and `RG16U`), not the channel-count flags.  Every
value `isFormatSupportedByPng` accepts has the float flag clear and the 8-bit or the
16-bit flag set and is not `INVALID_FORMAT`; every value `isFormatSupportedByExr` accepts
has the float flag set and the 16-bit or the 32-bit flag set.  Both are equivalences, so
the predicates accept every such value, whether or not it is a named format. -/
theorem C27_support_predicates (f : Int) :
    (isFormatSupportedByPng f = true ↔
      (¬ hasFlag f FLOAT_FORMAT ∧ (hasFlag f _8BITS ∨ hasFlag f _16BITS) ∧
        f ≠ RG8U ∧ f ≠ RG16U)) ∧
    (isFormatSupportedByPng f = true → f ≠ INVALID_FORMAT) ∧
    (isFormatSupportedByExr f = true ↔
      (hasFlag f FLOAT_FORMAT ∧ (hasFlag f _32BITS ∨ hasFlag f _16BITS))) ∧
    (f ∈ namedFormats →
      (isFormatSupportedByPng f = true ∨ isFormatSupportedByExr f = true ∨
        f = RG8U ∨ f = RG16U)) := by
  refine ⟨?_, ?_, ?_, ?_⟩
  · unfold isFormatSupportedByPng hasFlag
    simp only [Bool.and_eq_true, Bool.or_eq_true, decide_eq_true_eq, ne_eq, not_not]
    tauto
  · intro h hc
    rw [hc] at h
    exact absurd h (by decide!)
  · unfold isFormatSupportedByExr hasFlag
    simp only [Bool.and_eq_true, Bool.or_eq_true, decide_eq_true_eq, ne_eq]
    tauto
  · revert f
    decide!

/-- C27, counterexample: `isFormatSupportedByExr` accepts the sentinel `INVALID_FORMAT`
and the value `_16BITS | FLOAT_FORMAT`, and `isFormatSupportedByPng` accepts the value
`_8BITS`; none of the three is one of the 16 named formats, and the last two have no
channel-count flag. -/
theorem C27_counterexample :
    isFormatSupportedByExr INVALID_FORMAT = true ∧ INVALID_FORMAT ∉ namedFormats ∧
    isFormatSupportedByExr (Int.lor _16BITS FLOAT_FORMAT) = true ∧
    Int.lor _16BITS FLOAT_FORMAT ∉ namedFormats ∧
    isFormatSupportedByPng _8BITS = true ∧ _8BITS ∉ namedFormats ∧
    (¬ hasFlag _8BITS R ∧ ¬ hasFlag _8BITS RG ∧ ¬ hasFlag _8BITS RGB ∧
      ¬ hasFlag _8BITS RGBA) ∧
    (¬ hasFlag (Int.lor _16BITS FLOAT_FORMAT) R ∧ ¬ hasFlag (Int.lor _16BITS FLOAT_FORMAT) RG ∧
      ¬ hasFlag (Int.lor _16BITS FLOAT_FORMAT) RGB ∧
      ¬ hasFlag (Int.lor _16BITS FLOAT_FORMAT) RGBA) := by
  decide!

theorem land_subset (f a : Int) (h : Int.land f a = f) (k : Nat) (hk : f.testBit k = true) :
    a.testBit k = true := by
  have h2 := Int.testBit_land f a k
  rw [h, hk] at h2
  simpa using h2.symm

theorem verifyEncodeOptions_iff (encodeOptions : Option PngEncodingOptions) :
    (PNGFile.verifyEncodeOptions encodeOptions = AIMG_SUCCESS ↔
      (encodeOptions = none ∨
        ∃ o, encodeOptions = some o ∧ o.type = PNG_IMAGE_FORMAT ∧
          0 ≤ o.compressionLevel ∧ o.compressionLevel ≤ 9 ∧
          Int.land o.filter PNG_ALL_FILTERS = o.filter ∧
          ∀ k, o.filter.testBit k = true → PNG_ALL_FILTERS.testBit k = true)) ∧
    (PNGFile.verifyEncodeOptions encodeOptions ≠ AIMG_SUCCESS →
      PNGFile.verifyEncodeOptions encodeOptions = AIMG_INVALID_ENCODE_ARGS) := by
  cases encodeOptions with
  | none =>
    refine ⟨⟨fun _ => Or.inl rfl, fun _ => rfl⟩, fun h => absurd rfl h⟩
  | some o =>
    unfold PNGFile.verifyEncodeOptions
    simp only
    by_cases h1 : o.type ≠ PNG_IMAGE_FORMAT
    · rw [if_pos h1]
      refine ⟨⟨fun h => absurd h (by decide), ?_⟩, fun _ => rfl⟩
      rintro (h | ⟨o2, ho, ht, _⟩)
      · exact absurd h (by simp)
      · injection ho with ho
        subst ho
        exact absurd ht h1
    · rw [if_neg h1]
      by_cases h2 : o.compressionLevel < 0 ∨ o.compressionLevel > 9
      · rw [if_pos h2]
        refine ⟨⟨fun h => absurd h (by decide), ?_⟩, fun _ => rfl⟩
        rintro (h | ⟨o2, ho, _, hl, hu, _⟩)
        · exact absurd h (by simp)
        · injection ho with ho
          subst ho
          omega
      · rw [if_neg h2]
        by_cases h3 : Int.land o.filter PNG_ALL_FILTERS ≠ o.filter
        · rw [if_pos h3]
          refine ⟨⟨fun h => absurd h (by decide), ?_⟩, fun _ => rfl⟩
          rintro (h | ⟨o2, ho, _, _, _, hf, _⟩)
          · exact absurd h (by simp)
          · injection ho with ho
            subst ho
            exact absurd hf h3
        · rw [if_neg h3]
          have h3b : Int.land o.filter PNG_ALL_FILTERS = o.filter := not_not.mp h3
          refine ⟨⟨fun _ => Or.inr ⟨o, rfl, not_not.mp h1, by omega, by omega, h3b,
            land_subset _ _ h3b⟩, fun _ => rfl⟩, fun h => absurd rfl h⟩

/-- C26: PNG encoding options are validated before use.  `PNGFile::verifyEncodeOptions`
returns `AIMG_SUCCESS` if and only if the options pointer is `NULL` or the options carry
the `PNG_IMAGE_FORMAT` type tag, a compression level in the inclusive range 0..9 and
filter flags that are a subset of `PNG_ALL_FILTERS` (`filter & PNG_ALL_FILTERS` is
`filter`, so every bit of `filter` is a bit of `PNG_ALL_FILTERS`); in every other case it
returns `AIMG_INVALID_ENCODE_ARGS`, and `AImgWriteImage` on a `PNGFile` then returns that
code with the callback data untouched, whatever `writeImage` is; when the options are
valid it returns what `writeImage` returns. -/
theorem C26_verifyEncodeOptions (encodeOptions : Option PngEncodingOptions) :
    (PNGFile.verifyEncodeOptions encodeOptions = AIMG_SUCCESS ↔
      (encodeOptions = none ∨
        ∃ o, encodeOptions = some o ∧ o.type = PNG_IMAGE_FORMAT ∧
          0 ≤ o.compressionLevel ∧ o.compressionLevel ≤ 9 ∧
          Int.land o.filter PNG_ALL_FILTERS = o.filter ∧
          ∀ k, o.filter.testBit k = true → PNG_ALL_FILTERS.testBit k = true)) ∧
    (PNGFile.verifyEncodeOptions encodeOptions ≠ AIMG_SUCCESS →
      PNGFile.verifyEncodeOptions encodeOptions = AIMG_INVALID_ENCODE_ARGS) ∧
    (∀ (σ : Type) (openImage : StreamCallbacks σ → σ → AImgErrorCode × σ)
        (writeImage : Option PngEncodingOptions → σ → AImgErrorCode × σ) (callbackData : σ),
      (PNGFile.verifyEncodeOptions encodeOptions ≠ AIMG_SUCCESS →
        AImgWriteImage (PNGFile openImage writeImage) encodeOptions callbackData
          = (AIMG_INVALID_ENCODE_ARGS, callbackData)) ∧
      (PNGFile.verifyEncodeOptions encodeOptions = AIMG_SUCCESS →
        AImgWriteImage (PNGFile openImage writeImage) encodeOptions callbackData
          = writeImage encodeOptions callbackData)) := by
  obtain ⟨h1, h2⟩ := verifyEncodeOptions_iff encodeOptions
  refine ⟨h1, h2, ?_⟩
  intro σ openImage writeImage callbackData
  constructor
  · intro h
    show (if PNGFile.verifyEncodeOptions encodeOptions ≠ AIMG_SUCCESS then
        (PNGFile.verifyEncodeOptions encodeOptions, callbackData)
      else writeImage encodeOptions callbackData) = _
    rw [if_pos h, h2 h]
  · intro h
    show (if PNGFile.verifyEncodeOptions encodeOptions ≠ AIMG_SUCCESS then
        (PNGFile.verifyEncodeOptions encodeOptions, callbackData)
      else writeImage encodeOptions callbackData) = _
    rw [if_neg (not_not.mpr h)]

theorem scanChannels_eq (t : PixelType) (l : List PixelType) :
    ∀ (n : Int) (same : Bool),
      ExrFile.scanChannels l (n, some t, same)
        = (n + l.length, some t, same && l.all (fun c => decide (c = t))) := by
  induction l with
  | nil => intro n same; simp [ExrFile.scanChannels]
  | cons c rest ih =>
    intro n same
    have hstep : ExrFile.scanChannels (c :: rest) (n, some t, same)
        = ExrFile.scanChannels rest (n + 1, some t, if c ≠ t then false else same) := rfl
    rw [hstep, ih]
    by_cases hc : c = t
    · subst hc
      simp only [ne_eq, not_true_eq_false, if_false, List.length_cons, List.all_cons,
        decide_True, Bool.true_and, Nat.cast_add, Nat.cast_one]
      congr 1
      omega
    · simp only [ne_eq, hc, not_false_eq_true, if_true, List.length_cons, List.all_cons,
        decide_False, Bool.false_and, Bool.and_false, Nat.cast_add, Nat.cast_one]
      congr 1
      omega

theorem scanChannels_cons (t : PixelType) (rest : List PixelType) :
    ExrFile.scanChannels (t :: rest) (0, none, true)
      = ((((t :: rest).length : Nat) : Int), some t,
          rest.all (fun c => decide (c = t))) := by
  have hstep : ExrFile.scanChannels (t :: rest) (0, none, true)
      = ExrFile.scanChannels rest (0 + 1, some t, if t ≠ t then false else true) := rfl
  rw [hstep, scanChannels_eq]
  simp only [ne_eq, not_true_eq_false, if_false, Bool.true_and, List.length_cons,
    Nat.cast_add, Nat.cast_one]
  congr 1
  omega

theorem getDecodeFormat_cons (file : ExrFile) (t : PixelType) (rest : List PixelType)
    (h : file.channels = t :: rest) : ∃ f, ExrFile.getDecodeFormat file = some f := by
  unfold ExrFile.getDecodeFormat
  simp only [h, List.length_cons]
  have h1 : ¬ (((rest.length + 1 : Nat) : Int) ≤ 0) := by omega
  rw [if_neg h1]
  have h2 : shiftLeft R (min ((rest.length + 1 : Nat) : Int) 4 - 1)
      = some (wrapInt32 (R * 2 ^ (min ((rest.length + 1 : Nat) : Int) 4 - 1).toNat)) := by
    unfold shiftLeft
    rw [if_pos (by omega)]
  rw [h2]
  exact ⟨_, rfl⟩

/-- C28 (what the code does): for a file with at least one channel, `getImageInfo` sets
`numChannels` to the number of channels; when the channel types differ it returns
`AIMG_SUCCESS` with `bytesPerChannel = -1` and `FITYPE_UNKNOWN`; when all channels are
`FLOAT` it returns `AIMG_SUCCESS` with 4 and `FITYPE_FLOAT`; when all are `HALF` it
returns `AIMG_SUCCESS` with 2 and `FITYPE_FLOAT`; when all are `UINT` it stores 4 and
`FITYPE_INT` but returns `AIMG_LOAD_FAILED_INTERNAL`, because the test for `FLOAT` is an
`if`, not an `else if`, so a `UINT` file runs into the final `else`. -/
theorem C28_getImageInfo (file : ExrFile) (info : ImageInfo) (colourProfileLenNotNull : Bool)
    (t : PixelType) (rest : List PixelType) (h : file.channels = t :: rest) :
    ∃ r, ExrFile.getImageInfo file info colourProfileLenNotNull = some r ∧
      r.2.numChannels = file.channels.length ∧
      ((∃ c ∈ rest, c ≠ t) →
        r.1 = AIMG_SUCCESS ∧ r.2.bytesPerChannel = -1 ∧ r.2.floatOrInt = FITYPE_UNKNOWN) ∧
      ((∀ c ∈ rest, c = t) →
        (t = PixelType.FLOAT →
          r.1 = AIMG_SUCCESS ∧ r.2.bytesPerChannel = 4 ∧ r.2.floatOrInt = FITYPE_FLOAT) ∧
        (t = PixelType.HALF →
          r.1 = AIMG_SUCCESS ∧ r.2.bytesPerChannel = 2 ∧ r.2.floatOrInt = FITYPE_FLOAT) ∧
        (t = PixelType.UINT →
          r.1 = AIMG_LOAD_FAILED_INTERNAL ∧ r.2.bytesPerChannel = 4 ∧
          r.2.floatOrInt = FITYPE_INT)) := by
  obtain ⟨f, hf⟩ := getDecodeFormat_cons file t rest h
  unfold ExrFile.getImageInfo
  rw [hf]
  simp only
  rw [h, scanChannels_cons]
  cases hb : rest.all (fun c => decide (c = t)) with
  | false =>
    have hex : ¬ (∀ c ∈ rest, c = t) := by
      intro hall
      have : rest.all (fun c => decide (c = t)) = true := by
        rw [List.all_eq_true]
        intro c hc
        simp [hall c hc]
      rw [hb] at this
      exact absurd this (by decide)
    refine ⟨_, rfl, rfl, fun _ => ⟨rfl, rfl, rfl⟩, fun hall => absurd hall hex⟩
  | true =>
    have hall : ∀ c ∈ rest, c = t := by
      rw [List.all_eq_true] at hb
      intro c hc
      simpa using hb c hc
    have hnex : ¬ (∃ c ∈ rest, c ≠ t) := by
      rintro ⟨c, hc, hne⟩
      exact hne (hall c hc)
    cases t with
    | UINT =>
      refine ⟨_, rfl, rfl, fun hex => absurd hex hnex, fun _ => ⟨?_, ?_, ?_⟩⟩
      · intro hc; exact absurd hc (by decide)
      · intro hc; exact absurd hc (by decide)
      · intro _; exact ⟨rfl, rfl, rfl⟩
    | HALF =>
      refine ⟨_, rfl, rfl, fun hex => absurd hex hnex, fun _ => ⟨?_, ?_, ?_⟩⟩
      · intro hc; exact absurd hc (by decide)
      · intro _; exact ⟨rfl, rfl, rfl⟩
      · intro hc; exact absurd hc (by decide)
    | FLOAT =>
      refine ⟨_, rfl, rfl, fun hex => absurd hex hnex, fun _ => ⟨?_, ?_, ?_⟩⟩
      · intro _; exact ⟨rfl, rfl, rfl⟩
      · intro hc; exact absurd hc (by decide)
      · intro hc; exact absurd hc (by decide)
    | NUM_PIXELTYPES =>
      refine ⟨_, rfl, rfl, fun hex => absurd hex hnex, fun _ => ⟨?_, ?_, ?_⟩⟩
      · intro hc; exact absurd hc (by decide)
      · intro hc; exact absurd hc (by decide)
      · intro hc; exact absurd hc (by decide)

/-- C28, witness: a file with the three channels `HALF`, `HALF`, `HALF`. -/
theorem C28_witness :
    ((⟨0, 0, 9, 4, [PixelType.HALF, PixelType.HALF, PixelType.HALF]⟩ : ExrFile).channels
      = PixelType.HALF :: [PixelType.HALF, PixelType.HALF]) ∧
    ExrFile.getImageInfo ⟨0, 0, 9, 4, [PixelType.HALF, PixelType.HALF, PixelType.HALF]⟩
        ⟨0, 0, 0, 0, FITYPE_UNKNOWN, 0, 7⟩ true
      = some (AIMG_SUCCESS, ⟨10, 5, 3, 2, FITYPE_FLOAT, RGB16F, 0⟩) ∧
    (∃ r, ExrFile.getImageInfo ⟨0, 0, 9, 4, [PixelType.HALF, PixelType.HALF, PixelType.HALF]⟩
        ⟨0, 0, 0, 0, FITYPE_UNKNOWN, 0, 7⟩ true = some r ∧
      r.2.numChannels
        = (⟨0, 0, 9, 4, [PixelType.HALF, PixelType.HALF, PixelType.HALF]⟩ : ExrFile).channels.length
      ∧
      ((∃ c ∈ [PixelType.HALF, PixelType.HALF], c ≠ PixelType.HALF) →
        r.1 = AIMG_SUCCESS ∧ r.2.bytesPerChannel = -1 ∧ r.2.floatOrInt = FITYPE_UNKNOWN) ∧
      ((∀ c ∈ [PixelType.HALF, PixelType.HALF], c = PixelType.HALF) →
        (PixelType.HALF = PixelType.FLOAT →
          r.1 = AIMG_SUCCESS ∧ r.2.bytesPerChannel = 4 ∧ r.2.floatOrInt = FITYPE_FLOAT) ∧
        (PixelType.HALF = PixelType.HALF →
          r.1 = AIMG_SUCCESS ∧ r.2.bytesPerChannel = 2 ∧ r.2.floatOrInt = FITYPE_FLOAT) ∧
        (PixelType.HALF = PixelType.UINT →
          r.1 = AIMG_LOAD_FAILED_INTERNAL ∧ r.2.bytesPerChannel = 4 ∧
          r.2.floatOrInt = FITYPE_INT))) :=
  ⟨rfl, by decide!,
   C28_getImageInfo ⟨0, 0, 9, 4, [PixelType.HALF, PixelType.HALF, PixelType.HALF]⟩
     ⟨0, 0, 0, 0, FITYPE_UNKNOWN, 0, 7⟩ true PixelType.HALF [PixelType.HALF, PixelType.HALF]
     rfl⟩

/-- C28, counterexample: for a file whose channels are all `UINT`, `getImageInfo` stores
`bytesPerChannel = 4` and `FITYPE_INT` but does not return `AIMG_SUCCESS`: it returns
`AIMG_LOAD_FAILED_INTERNAL`. -/
theorem C28_counterexample :
    ExrFile.getImageInfo ⟨0, 0, 9, 4, [PixelType.UINT, PixelType.UINT]⟩
        ⟨0, 0, 0, 0, FITYPE_UNKNOWN, 0, 7⟩ true
      = some (AIMG_LOAD_FAILED_INTERNAL, ⟨10, 5, 2, 4, FITYPE_INT, RG32F, 0⟩) ∧
    AIMG_LOAD_FAILED_INTERNAL ≠ AIMG_SUCCESS ∧
    ExrFile.getImageInfo ⟨0, 0, 0, 0, [PixelType.UINT]⟩ ⟨0, 0, 0, 0, FITYPE_UNKNOWN, 0, 0⟩ false
      = some (AIMG_LOAD_FAILED_INTERNAL, ⟨1, 1, 1, 4, FITYPE_INT, R32F, 0⟩) := by
  decide!

/-! ## Memory-buffer stream -/

theorem addInt32_some (a b : Int) (h1 : -2 ^ 31 ≤ a + b) (h2 : a + b < 2 ^ 31) :
    addInt32 a b = some (a + b) := by
  unfold addInt32
  rw [if_pos ⟨h1, h2⟩]

theorem subInt32_some (a b : Int) (h1 : -2 ^ 31 ≤ a - b) (h2 : a - b < 2 ^ 31) :
    subInt32 a b = some (a - b) := by
  unfold subInt32
  rw [if_pos ⟨h1, h2⟩]

/-- the clamped count `toWrite` of the read and the plain write callback -/
theorem toWrite_eq (d : SimpleMemoryCallbackData) (count : Int)
    (hinv : posInBuffer d) (hsz : d.size < 2 ^ 31) :
    (if d.currentPos + count > d.size then subInt32 d.size d.currentPos else some count)
      = some (min count (d.size - d.currentPos)) := by
  obtain ⟨h0, h1⟩ := hinv
  have e31 : (2 : Int) ^ 31 = 2147483648 := by norm_num
  split_ifs with h
  · rw [subInt32_some _ _ (by omega) (by omega)]
    congr 1
    omega
  · congr 1
    omega

theorem simpleMemoryReadCallback_eq (d : SimpleMemoryCallbackData) (count : Int)
    (hinv : posInBuffer d) (hwf : d.size ≤ d.buffer.length) (hsz : d.size < 2 ^ 31)
    (hc : 0 ≤ count) (hov : d.currentPos + count < 2 ^ 31) :
    simpleMemoryReadCallback d count
      = some ((d.buffer.drop d.currentPos.toNat).take
            (min count (d.size - d.currentPos)).toNat,
          min count (d.size - d.currentPos),
          { d with currentPos := d.currentPos + min count (d.size - d.currentPos) }) := by
  have hinv2 := hinv
  obtain ⟨h0, h1⟩ := hinv
  have e31 : (2 : Int) ^ 31 = 2147483648 := by norm_num
  unfold simpleMemoryReadCallback
  rw [addInt32_some _ _ (by omega) hov]
  simp only
  rw [toWrite_eq d count hinv2 hsz]
  simp only
  have hm : 0 ≤ min count (d.size - d.currentPos) := by omega
  have hm2 : d.currentPos + min count (d.size - d.currentPos) ≤ d.size := by omega
  rw [addInt32_some _ _ (by omega) (by omega)]
  unfold memcpyFrom
  rw [if_pos ⟨h0, hm, by omega⟩]

theorem vecResize_length (v : List (Fin 256)) (n : Nat) : (vecResize v n).length = n := by
  unfold vecResize
  rw [List.length_append, List.length_take, List.length_replicate]
  omega

theorem simpleMemoryResizableWriteCallback_eq (d : SimpleMemoryCallbackData)
    (src : List (Fin 256)) (count : Int) (hinv : posInBuffer d)
    (hres : d.resizable = true) (hwf : d.size = d.buffer.length)
    (hc : 0 ≤ count) (hov : d.currentPos + count < 2 ^ 31) (hsrc : count ≤ src.length) :
    simpleMemoryResizableWriteCallback d src count
      = some { d with
          size := max d.size (d.currentPos + count),
          buffer :=
            (if d.currentPos + count > d.size
              then vecResize d.buffer (d.currentPos + count).toNat else d.buffer).take
                d.currentPos.toNat
            ++ src.take count.toNat
            ++ (if d.currentPos + count > d.size
              then vecResize d.buffer (d.currentPos + count).toNat else d.buffer).drop
                (d.currentPos.toNat + count.toNat),
          currentPos := d.currentPos + count } := by
  obtain ⟨h0, h1⟩ := hinv
  have e31 : (2 : Int) ^ 31 = 2147483648 := by norm_num
  unfold simpleMemoryResizableWriteCallback
  rw [addInt32_some _ _ (by omega) hov]
  simp only
  unfold resizeTo
  by_cases h : d.currentPos + count > d.size
  · rw [if_pos h, if_pos ⟨hres, by omega⟩]
    simp only
    rw [addInt32_some _ _ (by omega) hov]
    unfold memcpyInto
    have hl : ((vecResize d.buffer (d.currentPos + count).toNat).length : Int)
        = d.currentPos + count := by
      rw [vecResize_length]
      omega
    rw [if_pos ⟨h0, hc, by rw [hl], hsrc⟩, if_pos h]
    simp only
    congr 1
    have : max d.size (d.currentPos + count) = d.currentPos + count := by omega
    rw [this]
  · rw [if_neg h]
    simp only
    rw [addInt32_some _ _ (by omega) hov]
    unfold memcpyInto
    rw [if_pos ⟨h0, hc, by omega, hsrc⟩, if_neg h]
    simp only
    have : max d.size (d.currentPos + count) = d.size := by omega
    rw [this]

theorem splice_length (B src : List (Fin 256)) (p n : Nat) (hp : p + n ≤ B.length)
    (hs : n ≤ src.length) :
    (B.take p ++ src.take n ++ B.drop (p + n)).length = B.length := by
  simp only [List.length_append, List.length_take, List.length_drop]
  omega

theorem splice_read (B src : List (Fin 256)) (p n : Nat) (hp : p + n ≤ B.length)
    (hs : src.length = n) :
    ((B.take p ++ src.take n ++ B.drop (p + n)).drop p).take n = src := by
  have h1 : (B.take p).length = p := by
    rw [List.length_take]; omega
  rw [List.append_assoc, List.drop_left' h1]
  have h2 : (src.take n).length = n := by
    rw [List.length_take]; omega
  rw [List.take_left' h2, ← hs, List.take_length]

theorem splice_get (B src : List (Fin 256)) (p n k : Nat) (hp : p + n ≤ B.length)
    (hs : n ≤ src.length) (hk : k < p ∨ p + n ≤ k) :
    (B.take p ++ src.take n ++ B.drop (p + n))[k]? = B[k]? := by
  have h1 : (B.take p).length = p := by
    rw [List.length_take]; omega
  have h2 : (src.take n).length = n := by
    rw [List.length_take]; omega
  rcases hk with hk | hk
  · rw [List.append_assoc, List.getElem?_append_left (by omega), List.getElem?_take]
    rw [if_pos hk]
  · rw [List.getElem?_append_right (by rw [List.length_append]; omega),
      List.length_append, h1, h2, List.getElem?_drop]
    congr 1
    omega

theorem vecResize_get (v : List (Fin 256)) (m k : Nat) (hm : v.length ≤ m)
    (hk : k < v.length) : (vecResize v m)[k]? = v[k]? := by
  unfold vecResize
  rw [List.take_of_length_le hm, List.getElem?_append_left hk]

/-- C30: write then read round-trips on the resizable memory stream.  For callback data of
a resizable stream with `0 <= currentPos = p <= size`, every `n >= 0` (the size and
`p + n` being `int32_t` values) and every `n` bytes `src`: after `simpleMemoryResizableWriteCallback(src, n)`,
`simpleMemorySeekCallback(p)` and `simpleMemoryReadCallback(dest, n)`, the read returns
`n`, `dest` holds exactly `src`, the position is `p + n`, the size is
`max(old size, p + n)`, and every buffer byte outside `[p, p+n)` that existed before the
write is unchanged. -/
theorem C30_write_read_round_trip (d : SimpleMemoryCallbackData) (src : List (Fin 256))
    (n : Int) (hres : d.resizable = true) (hwf : d.size = d.buffer.length)
    (hsz : d.size < 2 ^ 31) (hinv : posInBuffer d) (hn : 0 ≤ n)
    (hsrc : (src.length : Int) = n) (hov : d.currentPos + n < 2 ^ 31) :
    ∃ d1 d2, simpleMemoryResizableWriteCallback d src n = some d1 ∧
      simpleMemoryReadCallback (simpleMemorySeekCallback d1 d.currentPos) n
        = some (src, n, d2) ∧
      d2.currentPos = d.currentPos + n ∧
      d2.size = max d.size (d.currentPos + n) ∧
      (d2.buffer.length : Int) = d2.size ∧
      ∀ k : Nat, k < d.buffer.length → ((k : Int) < d.currentPos ∨ d.currentPos + n ≤ k) →
        d2.buffer[k]? = d.buffer[k]? := by
  have hinv2 := hinv
  obtain ⟨h0, h1⟩ := hinv
  have e31 : (2 : Int) ^ 31 = 2147483648 := by norm_num
  have hw := simpleMemoryResizableWriteCallback_eq d src n hinv2 hres hwf hn hov (by omega)
  obtain ⟨B, hB⟩ : ∃ B, B = (if d.currentPos + n > d.size
      then vecResize d.buffer (d.currentPos + n).toNat else d.buffer) := ⟨_, rfl⟩
  rw [← hB] at hw
  have hBlen : (B.length : Int) = max d.size (d.currentPos + n) := by
    rw [hB]
    split_ifs with h
    · rw [vecResize_length]; omega
    · omega
  have hsl : src.length = n.toNat := by omega
  have hpn : d.currentPos.toNat + n.toNat ≤ B.length := by omega
  obtain ⟨d1, hd1⟩ : ∃ d1, d1 = ({ d with
      size := max d.size (d.currentPos + n),
      buffer := B.take d.currentPos.toNat ++ src.take n.toNat
        ++ B.drop (d.currentPos.toNat + n.toNat),
      currentPos := d.currentPos + n } : SimpleMemoryCallbackData) := ⟨_, rfl⟩
  rw [← hd1] at hw
  have hb1 : d1.buffer = B.take d.currentPos.toNat ++ src.take n.toNat
      ++ B.drop (d.currentPos.toNat + n.toNat) := by rw [hd1]
  have hs1 : d1.size = max d.size (d.currentPos + n) := by rw [hd1]
  have hl1 : d1.buffer.length = B.length := by
    rw [hb1]
    exact splice_length B src _ _ hpn (by omega)
  have hseek : posInBuffer (simpleMemorySeekCallback d1 d.currentPos) := by
    constructor
    · exact h0
    · show d.currentPos ≤ d1.size
      rw [hs1]; omega
  have hr := simpleMemoryReadCallback_eq (simpleMemorySeekCallback d1 d.currentPos) n hseek
    (by show d1.size ≤ d1.buffer.length; rw [hl1, hs1]; omega)
    (by show d1.size < 2 ^ 31; rw [hs1]; omega) hn hov
  have hmin : min n ((simpleMemorySeekCallback d1 d.currentPos).size
      - (simpleMemorySeekCallback d1 d.currentPos).currentPos) = n := by
    show min n (d1.size - d.currentPos) = n
    rw [hs1]; omega
  rw [hmin] at hr
  have hbytes : ((simpleMemorySeekCallback d1 d.currentPos).buffer.drop
      (simpleMemorySeekCallback d1 d.currentPos).currentPos.toNat).take n.toNat = src := by
    show (d1.buffer.drop d.currentPos.toNat).take n.toNat = src
    rw [hb1]
    exact splice_read B src _ _ hpn hsl
  rw [hbytes] at hr
  refine ⟨d1, _, hw, hr, rfl, ?_, ?_, ?_⟩
  · show d1.size = _
    exact hs1
  · show (d1.buffer.length : Int) = d1.size
    rw [hl1, hs1, hBlen]
  · intro k hk hout
    show d1.buffer[k]? = d.buffer[k]?
    rw [hb1, splice_get B src _ _ k hpn (by omega) (by omega), hB]
    split_ifs with h
    · exact vecResize_get _ _ _ (by omega) hk
    · rfl

/-- C30, witness: writing `[9, 8, 7]` at position 2 of the resizable 3-byte stream
`[1, 2, 3]`, seeking back to 2 and reading 3 bytes. -/
theorem C30_witness :
    ((3 : Int) = ([1, 2, 3] : List (Fin 256)).length ∧ (3 : Int) < 2 ^ 31 ∧
      posInBuffer ⟨3, [1, 2, 3], 2, true⟩ ∧
      (0 : Int) ≤ 3 ∧ (([9, 8, 7] : List (Fin 256)).length : Int) = 3 ∧
      (2 : Int) + 3 < 2 ^ 31) ∧
    simpleMemoryResizableWriteCallback ⟨3, [1, 2, 3], 2, true⟩ [9, 8, 7] 3
      = some ⟨5, [1, 2, 9, 8, 7], 5, true⟩ ∧
    (∃ d1 d2, simpleMemoryResizableWriteCallback ⟨3, [1, 2, 3], 2, true⟩ [9, 8, 7] 3 = some d1 ∧
      simpleMemoryReadCallback (simpleMemorySeekCallback d1 2) 3 = some ([9, 8, 7], 3, d2) ∧
      d2.currentPos = 2 + 3 ∧
      d2.size = max 3 (2 + 3) ∧
      (d2.buffer.length : Int) = d2.size ∧
      ∀ k : Nat, k < ([1, 2, 3] : List (Fin 256)).length →
        ((k : Int) < 2 ∨ (2 : Int) + 3 ≤ k) →
        d2.buffer[k]? = ([1, 2, 3] : List (Fin 256))[k]?) :=
  ⟨by decide, by decide,
   C30_write_read_round_trip ⟨3, [1, 2, 3], 2, true⟩ [9, 8, 7] 3 rfl (by decide) (by decide)
     (by decide) (by decide) (by decide) (by decide)⟩

end AIL
